import Mathlib

/-!
# Slab allocator of memcached (`slabs.c`): shallow embedding and verified properties

The global variables of `slabs.c` are gathered in one record `State` that every
operation takes and returns.  Conventions of the embedding:

* pointers are natural numbers, `0` is `NULL`; the item headers that live in the
  slab pages are the map `State.heap` from addresses to `item` records;
* `slab_list` is an array indexed by natural numbers together with its capacity
  `list_size`; the pages a class owns are its first `slabs` entries (`pages`);
* the host allocator is an input: `Host.realloc_ok` says whether the `realloc` of
  `grow_slab_list` succeeds, `Host.malloc_ret` is what `malloc` returns;
* `requested` is a `size_t` that the code both increments and decrements by
  caller supplied sizes: it is kept modulo `2^64`.  The counters `sl_curr`,
  `slabs`, `list_size`, `mem_malloced`, `mem_avail` only count objects held in
  memory and are unbounded naturals;
* the growth factor (a `double` in C) is the `double` nearest to the fraction
  `fnum / fden`; the quotient and the product that `slabs_init` computes with it are
  rounded to the nearest `double` (`round_double`) as the C code does;
* `assert`s are not part of the functions (they describe the build with `NDEBUG`);
  the asserted conditions are separate predicates;
* the class ids that `do_slabs_reassign` receives and publishes are C `int`s and
  are integers here (`-1` asks for an automatic source); they index the class
  table through `Int.toNat` once they were range-checked.  The function-static
  cursor of `slabs_reassign_pick_any` is the field `State.pick_any_cur`;
* `exit(1)` is the result `none`; the wake-up of the rebalance thread through its
  condition variable and the locks are not part of the state.  The lock operations
  of `slab_rebalance_move` are given apart, as the sequence of `lock_event`s of a
  call, together with the locks the worker thread holds (`lock_state`).
-/

namespace Slabs

/-! ## Constants of `memcached.h` / `slabs.h` -/

/-- Modelled from the spec: `memcached.h` is not part of the sources; class ids start at 1. -/
abbrev POWER_SMALLEST : Nat := 1

/-- Modelled from the spec: `memcached.h` is not part of the sources; index 0 is the global page pool. -/
abbrev SLAB_GLOBAL_PAGE_POOL : Nat := 0

/-- Modelled from the spec: `memcached.h` is not part of the sources; the alignment A = 8. -/
abbrev CHUNK_ALIGN_BYTES : Nat := 8

/-- Modelled from the spec: `memcached.h` is not part of the sources; the LINKED bit of `it_flags`. -/
abbrev ITEM_LINKED : Nat := 1

/-- Modelled from the spec: `memcached.h` is not part of the sources; the SLABBED bit of `it_flags`. -/
abbrev ITEM_SLABBED : Nat := 4

/-- Modelled from the spec: `memcached.h` is not part of the sources; the FETCHED bit of `it_flags`. -/
abbrev ITEM_FETCHED : Nat := 8

/-- Modelled from the spec: `slabs.h` is not part of the sources; the NO_NEWPAGE flag of `alloc`. -/
abbrev SLABS_ALLOC_NO_NEWPAGE : Nat := 1

/-- The modulus of `size_t` arithmetic. -/
abbrev SIZE_MAX1 : Nat := 2 ^ 64

/-! ## Data model -/

/-- The fields of the item header that `slabs.c` reads or writes. -/
structure item where
  next : Nat
  prev : Nat
  refcount : Nat
  it_flags : Nat
  slabs_clsid : Nat
deriving DecidableEq

/-- An item header whose bytes are all zero (what `memset(ptr, 0, len)` leaves). -/
def item.zero : item :=
  { next := 0, prev := 0, refcount := 0, it_flags := 0, slabs_clsid := 0 }

/-- The record `slabclass_t`. -/
structure slabclass_t where
  size : Nat
  perslab : Nat
  slots : Nat
  sl_curr : Nat
  slabs : Nat
  slab_list : Nat → Nat
  list_size : Nat
  requested : Nat

/-- A `slabclass_t` whose bytes are all zero (`memset(slabclass, 0, sizeof(slabclass))`). -/
def slabclass_t.zero : slabclass_t :=
  { size := 0, perslab := 0, slots := 0, sl_curr := 0, slabs := 0,
    slab_list := fun _ => 0, list_size := 0, requested := 0 }

/-- The pages a class owns: the first `slabs` entries of `slab_list`. -/
def slabclass_t.pages (p : slabclass_t) : List Nat :=
  (List.range p.slabs).map p.slab_list

/-- The fields of `settings` that `slabs.c` reads. -/
structure settings_t where
  item_size_max : Nat
  chunk_size : Nat
  slab_reassign : Bool

/-- Build constants of `memcached.h` that `slabs_init` uses; the header is not part of
the sources, so they are parameters. -/
structure Build where
  sizeof_item : Nat
  MAX_NUMBER_OF_SLAB_CLASSES : Nat

/-- The record `struct slab_rebalance` (`slab_rebal`). -/
structure slab_rebalance where
  slab_start : Nat
  slab_end : Nat
  slab_pos : Nat
  s_clsid : Int
  d_clsid : Int
  busy_items : Nat
  rescues : Nat
  evictions_nomem : Nat
  inline_reclaim : Nat
  done : Nat

/-- The `slab_rebal` record with every field zero. -/
def slab_rebalance.zero : slab_rebalance :=
  { slab_start := 0, slab_end := 0, slab_pos := 0, s_clsid := 0, d_clsid := 0,
    busy_items := 0, rescues := 0, evictions_nomem := 0, inline_reclaim := 0, done := 0 }

/-- The fields of the global `stats` that `slabs.c` writes. -/
structure stats_t where
  slab_reassign_running : Bool
  slabs_moved : Nat
  slab_reassign_rescues : Nat
  slab_reassign_evictions_nomem : Nat
  slab_reassign_inline_reclaim : Nat
  slab_reassign_busy_items : Nat

/-- The `stats` record at program start. -/
def stats_t.zero : stats_t :=
  { slab_reassign_running := false, slabs_moved := 0, slab_reassign_rescues := 0,
    slab_reassign_evictions_nomem := 0, slab_reassign_inline_reclaim := 0,
    slab_reassign_busy_items := 0 }

/-- The global variables of `slabs.c`, the settings it reads and the item headers.
`pick_any_cur` is the function-static `cur` of `slabs_reassign_pick_any`; it starts at
`POWER_SMALLEST - 1` and is only incremented or reset to `POWER_SMALLEST`, so it is a
natural number. -/
structure State where
  settings : settings_t
  slabclass : Nat → slabclass_t
  mem_limit : Nat
  mem_malloced : Nat
  mem_limit_reached : Bool
  power_largest : Nat
  mem_base : Nat
  mem_current : Nat
  mem_avail : Nat
  heap : Nat → item
  slab_rebal : slab_rebalance
  slab_rebalance_signal : Nat
  pick_any_cur : Nat
  stats : stats_t

/-- What the host allocator answers during one call of `do_slabs_newslab`. -/
structure Host where
  realloc_ok : Bool
  malloc_ret : Nat

/-- Array or memory write `f[k] = v`. -/
def upd {α : Type} (f : Nat → α) (k : Nat) (v : α) : Nat → α :=
  fun a => if a = k then v else f a

/-- The C statement `slabclass[id] = p`. -/
def State.setClass (s : State) (id : Nat) (p : slabclass_t) : State :=
  { s with slabclass := upd s.slabclass id p }

/-- The state with the item headers replaced by `h`. -/
def State.setHeap (s : State) (h : Nat → item) : State :=
  { s with heap := h }

/-- The effect of `memset(ptr, 0, len)` on the item headers in `[ptr, ptr + len)`. -/
def memset0 (heap : Nat → item) (ptr len : Nat) : Nat → item :=
  fun a => if ptr ≤ a ∧ a < ptr + len then item.zero else heap a

/-- The state of the globals when the program starts (C static initialisers), for given
settings and memory contents. -/
def boot (cfg : settings_t) (heap0 : Nat → item) : State :=
  { settings := cfg, slabclass := fun _ => slabclass_t.zero, mem_limit := 0,
    mem_malloced := 0, mem_limit_reached := false, power_largest := 0,
    mem_base := 0, mem_current := 0, mem_avail := 0, heap := heap0,
    slab_rebal := slab_rebalance.zero, slab_rebalance_signal := 0,
    pick_any_cur := POWER_SMALLEST - 1, stats := stats_t.zero }

/-! ## `slabs_clsid` -/

/-- The `while` loop of `slabs_clsid`; one unit of fuel per evaluation of the loop test,
`none` when the fuel runs out. -/
def slabs_clsid_loop (s : State) (size : Nat) : Nat → Nat → Option Nat
  | 0, _ => none
  | fuel + 1, res =>
    if size > (s.slabclass res).size then
      if res = s.power_largest then some 0
      else slabs_clsid_loop s size fuel (res + 1)
    else some res

/-- The function `slabs_clsid`: the class id for an object of `size` bytes, 0 when none fits. -/
def slabs_clsid (s : State) (size : Nat) : Option Nat :=
  if size = 0 then some 0
  else slabs_clsid_loop s size s.power_largest POWER_SMALLEST

/-! ## Freeing a chunk, splitting a page -/

/-- The function `do_slabs_free`. -/
def do_slabs_free (s : State) (ptr size id : Nat) : State :=
  if id < POWER_SMALLEST ∨ id > s.power_largest then s
  else
    let p := s.slabclass id
    let h1 := upd s.heap ptr
      { s.heap ptr with it_flags := ITEM_SLABBED, slabs_clsid := 0, prev := 0, next := p.slots }
    let h2 := if (h1 ptr).next ≠ 0 then
        upd h1 (h1 ptr).next { h1 (h1 ptr).next with prev := ptr }
      else h1
    (s.setHeap h2).setClass id
      { p with slots := ptr, sl_curr := p.sl_curr + 1,
               requested := (p.requested + (SIZE_MAX1 - size % SIZE_MAX1)) % SIZE_MAX1 }

/-- The `for` loop of `split_slab_page_into_freelist`: `n` iterations remain. -/
def split_loop (id : Nat) : Nat → Nat → State → State
  | 0, _, s => s
  | n + 1, ptr, s =>
    let s1 := do_slabs_free s ptr 0 id
    split_loop id n (ptr + (s1.slabclass id).size) s1

/-- The function `split_slab_page_into_freelist`. -/
def split_slab_page_into_freelist (s : State) (ptr id : Nat) : State :=
  split_loop id (s.slabclass id).perslab ptr s

/-! ## Pages -/

/-- The function `grow_slab_list`; `realloc` keeps the contents of the array. -/
def grow_slab_list (s : State) (id : Nat) (realloc_ok : Bool) : Nat × State :=
  let p := s.slabclass id
  if p.slabs = p.list_size then
    let new_size := if p.list_size ≠ 0 then p.list_size * 2 else 16
    if realloc_ok = false then (0, s)
    else (1, s.setClass id { p with list_size := new_size })
  else (1, s)

/-- The function `get_page_from_global_pool`. -/
def get_page_from_global_pool (s : State) : Nat × State :=
  let p := s.slabclass SLAB_GLOBAL_PAGE_POOL
  if p.slabs < 1 then (0, s)
  else (p.slab_list (p.slabs - 1),
        s.setClass SLAB_GLOBAL_PAGE_POOL { p with slabs := p.slabs - 1 })

/-- The function `memory_allocate`. -/
def memory_allocate (s : State) (size : Nat) (malloc_ret : Nat) : Nat × State :=
  if s.mem_base = 0 then
    (malloc_ret, { s with mem_malloced := s.mem_malloced + size })
  else if size > s.mem_avail then (0, s)
  else
    let size1 := if size % CHUNK_ALIGN_BYTES ≠ 0 then
        size + (CHUNK_ALIGN_BYTES - size % CHUNK_ALIGN_BYTES) else size
    (s.mem_current,
      { s with
        mem_current := s.mem_current + size1
        mem_avail := if size1 < s.mem_avail then s.mem_avail - size1 else 0
        mem_malloced := s.mem_malloced + size1 })

/-- The number of bytes `do_slabs_newslab` requests for a page of class `id`. -/
def page_len (s : State) (id : Nat) : Nat :=
  if s.settings.slab_reassign then s.settings.item_size_max
  else (s.slabclass id).size * (s.slabclass id).perslab

/-- The page acquisition inside the condition of `do_slabs_newslab`,
`((ptr = get_page_from_global_pool()) == NULL) && ((ptr = memory_allocate((size_t)len)) == 0)`;
the first component is `ptr`. -/
def newslab_get_page (s : State) (len : Nat) (malloc_ret : Nat) : Nat × State :=
  let q := get_page_from_global_pool s
  if q.1 = 0 then memory_allocate q.2 len malloc_ret else q

/-- The tail of `do_slabs_newslab` once the page `ptr` was obtained: `memset`,
`split_slab_page_into_freelist`, `p->slab_list[p->slabs++] = ptr`. -/
def newslab_install (s : State) (ptr id len : Nat) : State :=
  let s4 : State := s.setHeap (memset0 s.heap ptr len)
  let s5 := split_slab_page_into_freelist s4 ptr id
  let p := s5.slabclass id
  s5.setClass id { p with slab_list := upd p.slab_list p.slabs ptr, slabs := p.slabs + 1 }

/-- The function `do_slabs_newslab`; the first component is its return value.  The counter
`mem_malloced` is an unbounded natural number here, and the sum of the test
`mem_malloced + len > mem_limit` is the sum of naturals; in C the sum is a `size_t` and
wraps at `2^64`.  The two tests agree whenever `mem_malloced + len < 2^64`, and whenever
the C test holds, `(mem_malloced + len) mod 2^64 > mem_limit`, the test here holds too. -/
def do_slabs_newslab (s : State) (id : Nat) (h : Host) : Nat × State :=
  let len := page_len s id
  if s.mem_limit ≠ 0 ∧ s.mem_malloced + len > s.mem_limit ∧ (s.slabclass id).slabs > 0
      ∧ (s.slabclass SLAB_GLOBAL_PAGE_POOL).slabs = 0 then
    (0, { s with mem_limit_reached := true })
  else
    let g := grow_slab_list s id h.realloc_ok
    if g.1 = 0 then (0, g.2)
    else
      let m := newslab_get_page g.2 len h.malloc_ret
      if m.1 = 0 then (0, m.2)
      else (1, newslab_install m.2 m.1 id len)

/-! ## Allocating a chunk -/

/-- The condition of the `assert` at the entry of `do_slabs_alloc`. -/
def do_slabs_alloc_assert (s : State) (id : Nat) : Prop :=
  (s.slabclass id).sl_curr = 0 ∨ (s.heap (s.slabclass id).slots).slabs_clsid = 0

/-- The condition of the `assert` at the entry of `do_slabs_free`. -/
def do_slabs_free_assert (s : State) (id : Nat) : Prop :=
  id ≥ POWER_SMALLEST ∧ id ≤ s.power_largest

/-- The value `do_slabs_alloc` stores through `total_chunks` when that pointer is not `NULL`. -/
def do_slabs_alloc_total_chunks (s : State) (id : Nat) : Nat :=
  (s.slabclass id).slabs * (s.slabclass id).perslab

/-- The branch `if (p->sl_curr != 0) { ... }` of `do_slabs_alloc` together with the
accounting `if (ret) p->requested += size`: the head of the freelist of class `id` is
unlinked and returned. -/
def freelist_pop (s : State) (size id : Nat) : Nat × State :=
  let p := s.slabclass id
  let it := p.slots
  let nxt := (s.heap it).next
  let h1 := if nxt ≠ 0 then upd s.heap nxt { s.heap nxt with prev := 0 } else s.heap
  let h2 := upd h1 it
    { h1 it with it_flags := (h1 it).it_flags &&& (255 - ITEM_SLABBED), refcount := 1 }
  (it, (s.setHeap h2).setClass id
    { p with slots := nxt, sl_curr := p.sl_curr - 1,
             requested := if it ≠ 0 then (p.requested + size) % SIZE_MAX1 else p.requested })

/-- The statement `if (p->sl_curr == 0 && flags != SLABS_ALLOC_NO_NEWPAGE)
do_slabs_newslab(id);` of `do_slabs_alloc` (the return value of `do_slabs_newslab` is
ignored there). -/
def alloc_refill (s : State) (id flags : Nat) (h : Host) : State :=
  if (s.slabclass id).sl_curr = 0 ∧ flags ≠ SLABS_ALLOC_NO_NEWPAGE then
    (do_slabs_newslab s id h).2
  else s

/-- The function `do_slabs_alloc`; the first component is the returned pointer. -/
def do_slabs_alloc (s : State) (size id flags : Nat) (h : Host) : Nat × State :=
  if id < POWER_SMALLEST ∨ id > s.power_largest then (0, s)
  else
    let s1 := alloc_refill s id flags h
    if (s1.slabclass id).sl_curr ≠ 0 then freelist_pop s1 size id
    else (0, s1)

/-! ## `slabs_init` -/

/-- The alignment step of `slabs_init`: `size` rounded up to a multiple of
`CHUNK_ALIGN_BYTES`. -/
def align_chunk (size : Nat) : Nat :=
  if size % CHUNK_ALIGN_BYTES ≠ 0 then
    size + (CHUNK_ALIGN_BYTES - size % CHUNK_ALIGN_BYTES)
  else size

/-! ### The `double` arithmetic of `slabs_init`

`factor` is a `const double`, and `slabs_init` computes the quotient
`settings.item_size_max / factor` and the product `size * factor` in `double`
arithmetic: the exact result rounded to the nearest `double` (53 significant binary
digits, a tie going to the even significand).  A `double` is the fraction of two naturals
here; the exponent range is not limited, which changes no comparison with an integer and
no integer part below `2^53`. -/

/-- The number of binary digits of `n`, by repeated halving; the first argument bounds
the number of halvings. -/
def bit_length_aux : Nat → Nat → Nat
  | 0, _ => 0
  | fuel + 1, n => if n = 0 then 0 else bit_length_aux fuel (n / 2) + 1

/-- The number of binary digits of `n`. -/
def bit_length (n : Nat) : Nat := bit_length_aux n n

/-- The binary exponent of the positive rational `n / d`: the integer `e` with
`2 ^ e ≤ n / d < 2 ^ (e + 1)`. -/
def floor_log2 (n d : Nat) : Int :=
  if d * 2 ^ bit_length n ≤ n * 2 ^ bit_length d then (bit_length n : Int) - bit_length d
  else (bit_length n : Int) - bit_length d - 1

/-- The integer nearest to `n / d`; when two integers are equally near, the even one. -/
def round_half_even (n d : Nat) : Nat :=
  if 2 * (n % d) < d then n / d
  else if d < 2 * (n % d) then n / d + 1
  else if (n / d) % 2 = 0 then n / d
  else n / d + 1

/-- The `double` nearest to the rational `n / d`, as numerator and denominator: `n / d`
is scaled by the power of two that brings it into `[2^52, 2^53)`, rounded to an integer
significand and scaled back.  A zero denominator reads as the value zero. -/
def round_double (n d : Nat) : Nat × Nat :=
  if n = 0 ∨ d = 0 then (0, 1)
  else
    let sh : Int := 52 - floor_log2 n d
    if 0 ≤ sh then (round_half_even (n * 2 ^ sh.toNat) d, 2 ^ sh.toNat)
    else (round_half_even n (d * 2 ^ (-sh).toNat) * 2 ^ (-sh).toNat, 1)

/-- The loop test `size <= settings.item_size_max / factor` for the `double` `f`: both
operands of the division are converted to `double` exactly, the quotient is rounded.
Dividing a positive page size by a zero factor gives `+inf`, dividing zero by zero gives
a NaN, which compares false. -/
def size_fits (item_size_max : Nat) (f : Nat × Nat) (size : Nat) : Bool :=
  if f.1 = 0 then decide (0 < item_size_max)
  else
    decide (size * (round_double (item_size_max * f.2) f.1).2 ≤
      (round_double (item_size_max * f.2) f.1).1)

/-- The statement `size *= factor` for the `double` `f`: the product is rounded to a
`double` and its integer part is stored in the `unsigned int`. -/
def grow_size (f : Nat × Nat) (size : Nat) : Nat :=
  (round_double (size * f.1) f.2).1 / (round_double (size * f.1) f.2).2

/-- The `while` loop of `slabs_init`.  Arguments: fuel, the index `i` before `++i`, the
running `size`, the table.  The growth factor is the `double` nearest to `fnum / fden`
(`round_double fnum fden`: every finite positive `double` is such a fraction and is its
own nearest `double`), the loop test `size <= item_size_max / factor` is `size_fits` and
`size *= factor` is `grow_size`.  `size` is an `unsigned int`; the theorems about the
table keep `item_size_max * factor` below `2^32`, so that no sum or product of the loop
leaves its range.  The result is the final `i` and the table.  With fuel
`MAX_NUMBER_OF_SLAB_CLASSES` the fuel never runs out before the test
`++i < MAX_NUMBER_OF_SLAB_CLASSES - 1` fails (`slabs_init_loop_fuel`). -/
def slabs_init_loop (cfg : settings_t) (MAX fnum fden : Nat) :
    Nat → Nat → Nat → (Nat → slabclass_t) → Nat × (Nat → slabclass_t)
  | 0, i, _, tab => (i + 1, tab)
  | fuel + 1, i, size, tab =>
    let i1 := i + 1
    if i1 < MAX - 1 ∧ size_fits cfg.item_size_max (round_double fnum fden) size = true then
      let size1 := align_chunk size
      let c : slabclass_t :=
        { tab i1 with size := size1, perslab := cfg.item_size_max / size1 }
      slabs_init_loop cfg MAX fnum fden fuel i1 (grow_size (round_double fnum fden) size1)
        (upd tab i1 c)
    else (i1, tab)

/-- The loop of `slabs_preallocate`; `none` is `exit(1)`.  Arguments: fuel, `i`,
`prealloc`, the state; `hosts i` is the host behaviour during the page request for
class `i`. -/
def slabs_preallocate_loop (hosts : Nat → Host) (maxslabs MAX : Nat) :
    Nat → Nat → Nat → State → Option State
  | 0, _, _, s => some s
  | fuel + 1, i, prealloc, s =>
    if i < MAX then
      if prealloc + 1 > maxslabs then some s
      else if (do_slabs_newslab s i (hosts i)).1 = 0 then none
      else slabs_preallocate_loop hosts maxslabs MAX fuel (i + 1) (prealloc + 1)
            (do_slabs_newslab s i (hosts i)).2
    else some s

/-- The function `slabs_preallocate`; `none` is `exit(1)`. -/
def slabs_preallocate (b : Build) (s : State) (maxslabs : Nat) (hosts : Nat → Host) :
    Option State :=
  slabs_preallocate_loop hosts maxslabs b.MAX_NUMBER_OF_SLAB_CLASSES
    b.MAX_NUMBER_OF_SLAB_CLASSES POWER_SMALLEST 0 s

/-- The function `slabs_init(limit, factor, prealloc)` with `factor = fnum / fden`.
`base` is what `malloc(mem_limit)` returns when `prealloc` is set, `seed` is the value of
the environment variable `T_MEMD_INITIAL_MALLOC` when it is set, `hosts` the host
behaviour during preallocation; `none` is `exit(1)`. -/
def slabs_init (b : Build) (s : State) (limit fnum fden : Nat) (prealloc : Bool)
    (base : Nat) (seed : Option Nat) (hosts : Nat → Host) : Option State :=
  let size := b.sizeof_item + s.settings.chunk_size
  let s1 : State := { s with mem_limit := limit }
  let s2 : State :=
    if prealloc = true then
      if base ≠ 0 then { s1 with mem_base := base, mem_current := base, mem_avail := limit }
      else { s1 with mem_base := base }
    else s1
  let r := slabs_init_loop s.settings b.MAX_NUMBER_OF_SLAB_CLASSES fnum fden
    b.MAX_NUMBER_OF_SLAB_CLASSES (POWER_SMALLEST - 1) size (fun _ => slabclass_t.zero)
  let top : slabclass_t := { r.2 r.1 with size := s.settings.item_size_max, perslab := 1 }
  let s3 : State := { s2 with slabclass := upd r.2 r.1 top, power_largest := r.1 }
  let s4 : State :=
    match seed with
    | some v => { s3 with mem_malloced := v }
    | none => s3
  if prealloc = true then slabs_preallocate b s4 s4.power_largest hosts else some s4

/-- The table and `power_largest` that `slabs_init` leaves (they do not depend on the
preallocation). -/
def slabs_init_table (b : Build) (cfg : settings_t) (fnum fden : Nat) : State :=
  let r := slabs_init_loop cfg b.MAX_NUMBER_OF_SLAB_CLASSES fnum fden
    b.MAX_NUMBER_OF_SLAB_CLASSES (POWER_SMALLEST - 1) (b.sizeof_item + cfg.chunk_size)
    (fun _ => slabclass_t.zero)
  let top : slabclass_t := { r.2 r.1 with size := cfg.item_size_max, perslab := 1 }
  { boot cfg (fun _ => item.zero) with slabclass := upd r.2 r.1 top, power_largest := r.1 }

/-! ## The rebalance coordinator -/

/-- The enum `reassign_result_type`. -/
inductive reassign_result_type
  | REASSIGN_OK
  | REASSIGN_RUNNING
  | REASSIGN_BADCLASS
  | REASSIGN_NOSPARE
  | REASSIGN_SRC_DST_SAME
deriving DecidableEq

/-- The `for` loop of `slabs_reassign_pick_any(dst)`.  Arguments: `tries`, `cur`; the
result is the return value (a class id or -1) and the final `cur`. -/
def pick_any_loop (s : State) (dst : Int) : Nat → Nat → Int × Nat
  | 0, cur => (-1, cur)
  | tries + 1, cur =>
    let cur1 := cur + 1
    let cur2 := if cur1 > s.power_largest then POWER_SMALLEST else cur1
    if (cur2 : Int) = dst then pick_any_loop s dst tries cur2
    else if (s.slabclass cur2).slabs > 1 then ((cur2 : Int), cur2)
    else pick_any_loop s dst tries cur2

/-- The function `slabs_reassign_pick_any`; `tries` starts at
`power_largest - POWER_SMALLEST + 1`. -/
def slabs_reassign_pick_any (s : State) (dst : Int) : Int × State :=
  let r := pick_any_loop s dst (s.power_largest + 1 - POWER_SMALLEST) s.pick_any_cur
  (r.1, { s with pick_any_cur := r.2 })

/-- The statement `if (src == -1) src = slabs_reassign_pick_any(dst);` of
`do_slabs_reassign`: the source after it, and the state. -/
def reassign_resolve (s : State) (src dst : Int) : Int × State :=
  if src = -1 then slabs_reassign_pick_any s dst else (src, s)

/-- The state after `do_slabs_reassign` published the request `src -> dst`. -/
def reassign_publish (s : State) (src dst : Int) : State :=
  { s with
    slab_rebal := { s.slab_rebal with s_clsid := src, d_clsid := dst }
    slab_rebalance_signal := 1 }

/-- The function `do_slabs_reassign` (the wake-up of the worker through the condition
variable is not part of the state). -/
def do_slabs_reassign (s : State) (src dst : Int) : reassign_result_type × State :=
  if s.slab_rebalance_signal ≠ 0 then (reassign_result_type.REASSIGN_RUNNING, s)
  else if src = dst then (reassign_result_type.REASSIGN_SRC_DST_SAME, s)
  else
    let r := reassign_resolve s src dst
    if r.1 < POWER_SMALLEST ∨ r.1 > r.2.power_largest ∨ dst < SLAB_GLOBAL_PAGE_POOL
        ∨ dst > r.2.power_largest then
      (reassign_result_type.REASSIGN_BADCLASS, r.2)
    else if (r.2.slabclass r.1.toNat).slabs < 2 then
      (reassign_result_type.REASSIGN_NOSPARE, r.2)
    else (reassign_result_type.REASSIGN_OK, reassign_publish r.2 r.1 dst)

/-- The value of `no_go` at the test `if (no_go != 0)` of `slab_rebalance_start`, in the
state after `grow_slab_list(slab_rebal.d_clsid)`; the three assignments to `no_go` are
made in this order, so a later one wins. -/
def rebalance_no_go (s : State) (realloc_ok : Bool) : Int :=
  let sc := s.slab_rebal.s_clsid
  let dc := s.slab_rebal.d_clsid
  let g := grow_slab_list s dc.toNat realloc_ok
  let no_go1 : Int :=
    if sc < POWER_SMALLEST ∨ sc > s.power_largest ∨ dc < SLAB_GLOBAL_PAGE_POOL
        ∨ dc > s.power_largest ∨ sc = dc then -2 else 0
  let no_go2 : Int := if g.1 = 0 then -1 else no_go1
  if (g.2.slabclass sc.toNat).slabs < 2 then -3 else no_go2

/-- The function `slab_rebalance_start`; the first component is its return value.  The
class ids were range-checked by `do_slabs_reassign`; they index the table through
`Int.toNat`. -/
def slab_rebalance_start (s : State) (realloc_ok : Bool) : Int × State :=
  let g := grow_slab_list s s.slab_rebal.d_clsid.toNat realloc_ok
  let no_go := rebalance_no_go s realloc_ok
  if no_go ≠ 0 then (no_go, g.2)
  else
    let s_cls := g.2.slabclass s.slab_rebal.s_clsid.toNat
    (0, { g.2 with
          slab_rebal :=
            { g.2.slab_rebal with
              slab_start := s_cls.slab_list 0
              slab_end := s_cls.slab_list 0 + s_cls.size * s_cls.perslab
              slab_pos := s_cls.slab_list 0
              done := 0 }
          slab_rebalance_signal := 2
          stats := { g.2.stats with slab_reassign_running := true } })

/-- The loop `for (x = 0; x < s_cls->slabs; x++) s_cls->slab_list[x] = s_cls->slab_list[x+1];`
of `slab_rebalance_finish`: `n` iterations remain, `x` is the loop variable. -/
def shift_pages : Nat → Nat → (Nat → Nat) → (Nat → Nat)
  | 0, _, l => l
  | n + 1, x, l => shift_pages n (x + 1) (upd l x (l (x + 1)))

/-- The condition under which the write
`d_cls->slab_list[d_cls->slabs++] = slab_rebal.slab_start` of `slab_rebalance_finish` lands
inside the array of the destination, which has `list_size` entries: `slab_rebalance_finish`
does not call `grow_slab_list`, so the index `d_cls->slabs` is inside the array only when
the destination has a spare slot. -/
def finish_write_in_bounds (s : State) : Prop :=
  (s.slabclass s.slab_rebal.d_clsid.toNat).slabs <
    (s.slabclass s.slab_rebal.d_clsid.toNat).list_size

/-- Whether the write of `slab_rebalance_finish` is in bounds can be computed. -/
instance finish_write_in_bounds_decidable (s : State) : Decidable (finish_write_in_bounds s) :=
  inferInstanceAs (Decidable ((s.slabclass s.slab_rebal.d_clsid.toNat).slabs <
    (s.slabclass s.slab_rebal.d_clsid.toNat).list_size))

/-- The statements of `slab_rebalance_finish` on the page vectors: `s_cls->slabs--`
(an `unsigned int` decrement), the shift loop, and
`d_cls->slab_list[d_cls->slabs++] = slab_rebal.slab_start`.  The arrays are maps with a
capacity `list_size` beside them: this is what the C statements do when
`finish_write_in_bounds` holds.  When it fails, the C program writes past the end of the
array of the destination (undefined behaviour); the map then holds the written value at
the index `slabs >= list_size`, outside the array, and `slabs > list_size` afterwards. -/
def rebalance_move_lists (s : State) : State :=
  let sc := s.slab_rebal.s_clsid.toNat
  let dc := s.slab_rebal.d_clsid.toNat
  let p := s.slabclass sc
  let slabs1 := if p.slabs = 0 then 4294967295 else p.slabs - 1
  let s1 := s.setClass sc { p with slabs := slabs1, slab_list := shift_pages slabs1 0 p.slab_list }
  let d := s1.slabclass dc
  s1.setClass dc
    { d with slab_list := upd d.slab_list d.slabs s.slab_rebal.slab_start, slabs := d.slabs + 1 }

/-- The statements of `slab_rebalance_finish` that move the page: the source loses its
first page, the destination gets `slab_start` appended and, unless it is the global pool,
the page is zeroed and split. -/
def rebalance_move_page (s : State) : State :=
  let s2 := rebalance_move_lists s
  if s.slab_rebal.d_clsid > SLAB_GLOBAL_PAGE_POOL then
    split_slab_page_into_freelist
      (s2.setHeap (memset0 s2.heap s.slab_rebal.slab_start s.settings.item_size_max))
      s.slab_rebal.slab_start s.slab_rebal.d_clsid.toNat
  else s2

/-- The function `slab_rebalance_finish`. -/
def slab_rebalance_finish (s : State) : State :=
  let s3 := rebalance_move_page s
  let rb := s3.slab_rebal
  { s3 with
    slab_rebal :=
      { rb with
        done := 0, s_clsid := 0, d_clsid := 0, slab_start := 0, slab_end := 0, slab_pos := 0,
        evictions_nomem := 0, inline_reclaim := 0, rescues := 0 }
    slab_rebalance_signal := 0
    stats :=
      { s3.stats with
        slab_reassign_running := false
        slabs_moved := s3.stats.slabs_moved + 1
        slab_reassign_rescues := s3.stats.slab_reassign_rescues + rb.rescues
        slab_reassign_evictions_nomem :=
          s3.stats.slab_reassign_evictions_nomem + rb.evictions_nomem
        slab_reassign_inline_reclaim :=
          s3.stats.slab_reassign_inline_reclaim + rb.inline_reclaim } }

/-! ## The rebalance worker: scanning the page -/

/-- The enum `move_status`. -/
inductive move_status
  | MOVE_PASS
  | MOVE_FROM_SLAB
  | MOVE_FROM_LRU
  | MOVE_BUSY
  | MOVE_LOCKED
deriving DecidableEq

/-- The host behaviour handed to a `do_slabs_alloc` that cannot request a page (its flag
is `SLABS_ALLOC_NO_NEWPAGE`). -/
def host_unused : Host := { realloc_ok := false, malloc_ret := 0 }

/-- The `size_t` subtraction `requested -= size` on class `id`. -/
def requested_sub (s : State) (id size : Nat) : State :=
  s.setClass id
    { s.slabclass id with
      requested := ((s.slabclass id).requested + (SIZE_MAX1 - size % SIZE_MAX1)) % SIZE_MAX1 }

/-- The branch of `slab_rebalance_alloc` for a chunk `new_it` pulled from inside the page
being cleared: `s_cls->requested -= size; new_it->refcount = 0;
new_it->it_flags = ITEM_SLABBED|ITEM_FETCHED; slab_rebal.inline_reclaim++`. -/
def rebalance_alloc_skip (s : State) (size new_it : Nat) : State :=
  let s1 := requested_sub s s.slab_rebal.s_clsid.toNat size
  let s2 := s1.setHeap
    (upd s1.heap new_it
      { s1.heap new_it with refcount := 0, it_flags := ITEM_SLABBED ||| ITEM_FETCHED })
  { s2 with
    slab_rebal := { s2.slab_rebal with inline_reclaim := s2.slab_rebal.inline_reclaim + 1 } }

/-- The `for` loop of `slab_rebalance_alloc(size, id)`: `n` iterations remain.  The first
component is `new_it` at the exit of the loop (0 is `NULL`). -/
def slab_rebalance_alloc_loop (size id : Nat) : Nat → State → Nat × State
  | 0, s => (0, s)
  | n + 1, s =>
    let a := do_slabs_alloc s size id SLABS_ALLOC_NO_NEWPAGE host_unused
    if a.1 = 0 then (0, a.2)
    else if a.1 ≥ a.2.slab_rebal.slab_start ∧ a.1 < a.2.slab_rebal.slab_end then
      slab_rebalance_alloc_loop size id n (rebalance_alloc_skip a.2 size a.1)
    else (a.1, a.2)

/-- The function `slab_rebalance_alloc`. -/
def slab_rebalance_alloc (s : State) (size id : Nat) : Nat × State :=
  slab_rebalance_alloc_loop size id (s.slabclass s.slab_rebal.s_clsid.toNat).perslab s

/-- What one iteration of the loop of `slab_rebalance_move` obtains from the item
subsystem (hash table, item locks, LRU), which is not part of `slabs.c`: whether
`item_trylock` got the lock, the value of `it->it_flags` read again under that lock,
`ITEM_ntotal(it)`, whether the item is expired or flushed, and what `do_item_replace` and
`do_item_unlink` do to the item headers. -/
structure MoveEnv where
  trylock_ok : Bool
  flags_locked : Nat
  ntotal : Nat
  expired : Bool
  do_item_replace : Nat → Nat → (Nat → item) → (Nat → item)
  do_item_unlink : Nat → (Nat → item) → (Nat → item)

/-- The statements of `slab_rebalance_move` that take the chunk `it` off the freelist of
the source class `sc`:
`if (s_cls->slots == it) s_cls->slots = it->next; if (it->next) it->next->prev = it->prev;
if (it->prev) it->prev->next = it->next; s_cls->sl_curr--;` (an `unsigned int`
decrement). -/
def freelist_unlink (s : State) (sc it : Nat) : State :=
  let p := s.slabclass sc
  let slots1 := if p.slots = it then (s.heap it).next else p.slots
  let h1 := if (s.heap it).next ≠ 0 then
      upd s.heap (s.heap it).next { s.heap (s.heap it).next with prev := (s.heap it).prev }
    else s.heap
  let h2 := if (h1 it).prev ≠ 0 then
      upd h1 (h1 it).prev { h1 (h1 it).prev with next := (h1 it).next }
    else h1
  (s.setHeap h2).setClass sc
    { p with slots := slots1, sl_curr := if p.sl_curr = 0 then 4294967295 else p.sl_curr - 1 }

/-- The status that the locked branch of `slab_rebalance_move` computes from the
incremented `refcount` and the flags read again under the item lock. -/
def move_locked_status (refcount flags_locked : Nat) : move_status :=
  if refcount = 2 then
    if flags_locked &&& ITEM_LINKED ≠ 0 then move_status.MOVE_FROM_LRU
    else move_status.MOVE_BUSY
  else move_status.MOVE_BUSY

/-- The result of the classification of the chunk at the cursor. -/
structure classify_result where
  status : move_status
  hold_lock : Bool
  state : State

/-- The call `refcount_incr(&it->refcount)`; the value it returns is the new `refcount`. -/
def refcount_incr (s : State) (it : Nat) : State :=
  s.setHeap (upd s.heap it { s.heap it with refcount := (s.heap it).refcount + 1 })

/-- The call `refcount_decr(&it->refcount)`, which in `slabs.c` only follows a
`refcount_incr` of the same item, so that the count is positive. -/
def refcount_decr (s : State) (it : Nat) : State :=
  s.setHeap (upd s.heap it { s.heap it with refcount := (s.heap it).refcount - 1 })

/-- The first part of an iteration of `slab_rebalance_move`: the chunk `it` at
`slab_rebal.slab_pos` is classified (and taken off the freelist when it is on it).
`hold_lock` tells whether the item lock is held afterwards. -/
def move_classify (s : State) (e : MoveEnv) : classify_result :=
  let it := s.slab_rebal.slab_pos
  let sc := s.slab_rebal.s_clsid.toNat
  if (s.heap it).it_flags ≠ ITEM_SLABBED ||| ITEM_FETCHED then
    if (s.heap it).it_flags &&& ITEM_SLABBED ≠ 0 then
      { status := move_status.MOVE_FROM_SLAB, hold_lock := false,
        state := freelist_unlink s sc it }
    else if (s.heap it).it_flags &&& ITEM_LINKED ≠ 0 then
      if e.trylock_ok = false then
        { status := move_status.MOVE_LOCKED, hold_lock := false, state := s }
      else
        let s1 := refcount_incr s it
        let status := move_locked_status (s1.heap it).refcount e.flags_locked
        if status = move_status.MOVE_BUSY then
          { status := status, hold_lock := false, state := refcount_decr s1 it }
        else { status := status, hold_lock := true, state := s1 }
    else { status := move_status.MOVE_BUSY, hold_lock := false, state := s }
  else { status := move_status.MOVE_PASS, hold_lock := false, state := s }

/-- The choice of `new_it` in `case MOVE_FROM_LRU:`: no chunk is asked for when the item is
expired or flushed, otherwise `slab_rebalance_alloc(ntotal, slab_rebal.s_clsid)`. -/
def lru_alloc (s : State) (e : MoveEnv) : Nat × State :=
  if e.expired = true then (0, s)
  else slab_rebalance_alloc s e.ntotal s.slab_rebal.s_clsid.toNat

/-- The statement `slab_rebal.evictions_nomem++`. -/
def count_eviction_nomem (s : State) : State :=
  { s with
    slab_rebal := { s.slab_rebal with evictions_nomem := s.slab_rebal.evictions_nomem + 1 } }

/-- The branch `if (save_item)` of `case MOVE_FROM_LRU:`: the item header is copied to
`new_it`, whose links, LINKED bit and `refcount` are cleared, `do_item_replace` runs and
`slab_rebal.rescues++`. -/
def lru_rescue (s : State) (e : MoveEnv) (it new_it : Nat) : State :=
  { s with
    heap := e.do_item_replace it new_it
      (upd s.heap new_it
        { s.heap it with
          prev := 0, next := 0, it_flags := (s.heap it).it_flags &&& (255 - ITEM_LINKED),
          refcount := 0 })
    slab_rebal := { s.slab_rebal with rescues := s.slab_rebal.rescues + 1 } }

/-- The branch `else do_item_unlink(it, hv)` of `case MOVE_FROM_LRU:`. -/
def lru_drop (s : State) (e : MoveEnv) (it : Nat) : State :=
  s.setHeap (e.do_item_unlink it s.heap)

/-- The `case MOVE_FROM_LRU:` of `slab_rebalance_move` up to the fall-through: the item is
dropped when it is expired or no chunk can be had for it, and copied to the chunk `new_it`
otherwise; then `s_cls->requested -= ntotal`.  The item lock is released in it. -/
def move_from_lru (s : State) (e : MoveEnv) : State :=
  let a := lru_alloc s e
  let s1 := if e.expired = false ∧ a.1 = 0 then count_eviction_nomem a.2 else a.2
  let s2 := if a.1 ≠ 0 then lru_rescue s1 e s.slab_rebal.slab_pos a.1
    else lru_drop s1 e s.slab_rebal.slab_pos
  requested_sub s2 s.slab_rebal.s_clsid.toNat e.ntotal

/-- The `case MOVE_FROM_SLAB:` of `slab_rebalance_move`:
`it->refcount = 0; it->it_flags = ITEM_SLABBED|ITEM_FETCHED`. -/
def move_mark_cleared (s : State) (it : Nat) : State :=
  s.setHeap (upd s.heap it
    { s.heap it with refcount := 0, it_flags := ITEM_SLABBED ||| ITEM_FETCHED })

/-- The `switch (status)` of `slab_rebalance_move` for the chunk `it`. -/
def move_switch (status : move_status) (s : State) (e : MoveEnv) (it : Nat) : State :=
  match status with
  | move_status.MOVE_FROM_LRU => move_mark_cleared (move_from_lru s e) it
  | move_status.MOVE_FROM_SLAB => move_mark_cleared s it
  | move_status.MOVE_BUSY =>
    { s with slab_rebal := { s.slab_rebal with busy_items := s.slab_rebal.busy_items + 1 } }
  | move_status.MOVE_LOCKED =>
    { s with slab_rebal := { s.slab_rebal with busy_items := s.slab_rebal.busy_items + 1 } }
  | move_status.MOVE_PASS => s

/-- The result of one iteration of the loop of `slab_rebalance_move`. -/
structure chunk_result where
  status : move_status
  lock_held : Bool
  state : State

/-- One iteration of the `for` loop of `slab_rebalance_move`, up to and including
`slab_rebal.slab_pos = (char *)slab_rebal.slab_pos + s_cls->size`.  `lock_held` tells
whether an item lock is still held at the end of the iteration. -/
def move_chunk (s : State) (e : MoveEnv) : chunk_result :=
  let it := s.slab_rebal.slab_pos
  let c := move_classify s e
  let s1 := move_switch c.status c.state e it
  { status := c.status
    lock_held := if c.status = move_status.MOVE_FROM_LRU then false else c.hold_lock
    state :=
      { s1 with
        slab_rebal :=
          { s1.slab_rebal with
            slab_pos := s1.slab_rebal.slab_pos
              + (s1.slabclass s1.slab_rebal.s_clsid.toNat).size } } }

/-- Whether a status counts for `was_busy`. -/
def move_status.busy (st : move_status) : Bool :=
  st = move_status.MOVE_BUSY ∨ st = move_status.MOVE_LOCKED

/-- The `for (x = 0; x < slab_bulk_check; x++)` loop of `slab_rebalance_move`: `n`
iterations remain, `x` is the loop variable, `wb` is `was_busy`; iteration `x` meets the
item subsystem as `envs x`. -/
def move_loop (envs : Nat → MoveEnv) : Nat → Nat → Nat → State → Nat × State
  | 0, _, wb, s => (wb, s)
  | n + 1, x, wb, s =>
    let r := move_chunk s (envs x)
    let wb1 := if r.status.busy = true then wb + 1 else wb
    if r.state.slab_rebal.slab_pos ≥ r.state.slab_rebal.slab_end then (wb1, r.state)
    else move_loop envs n (x + 1) wb1 r.state

/-- The end of `slab_rebalance_move`: when the cursor has reached the end of the page the
scan starts again if some chunk was busy, and is done otherwise.  `done` is a `uint8_t`
(Modelled from the spec: the declaration of `struct slab_rebalance` is in `memcached.h`). -/
def move_tail (s : State) : State :=
  if s.slab_rebal.slab_pos ≥ s.slab_rebal.slab_end then
    if s.slab_rebal.busy_items ≠ 0 then
      { s with
        slab_rebal := { s.slab_rebal with slab_pos := s.slab_rebal.slab_start, busy_items := 0 }
        stats :=
          { s.stats with
            slab_reassign_busy_items :=
              s.stats.slab_reassign_busy_items + s.slab_rebal.busy_items } }
    else { s with slab_rebal := { s.slab_rebal with done := (s.slab_rebal.done + 1) % 256 } }
  else s

/-- The function `slab_rebalance_move`; `bulk` is the value of the global
`slab_bulk_check` (an `int`), the first component is the returned `was_busy`. -/
def slab_rebalance_move (s : State) (bulk : Int) (envs : Nat → MoveEnv) : Nat × State :=
  let r := move_loop envs bulk.toNat 0 0 s
  (r.1, move_tail r.2)

/-- The value `start_slab_maintenance_thread` leaves in `slab_bulk_check`: `env` is
`atoi` of the environment variable `MEMCACHED_SLAB_BULK_CHECK` when it is set. -/
def slab_bulk_check_of (env : Option Int) : Int :=
  match env with
  | none => 1
  | some v => if v = 0 then 1 else v

/-- The first `if ... else if ...` of the loop body of `slab_rebalance_thread`; the first
component is `was_busy`. -/
def rebalance_thread_dispatch (s : State) (was_busy : Nat) (realloc_ok : Bool) (bulk : Int)
    (envs : Nat → MoveEnv) : Nat × State :=
  if s.slab_rebalance_signal = 1 then
    let r := slab_rebalance_start s realloc_ok
    (0, if r.1 < 0 then { r.2 with slab_rebalance_signal := 0 } else r.2)
  else if s.slab_rebalance_signal ≠ 0 ∧ s.slab_rebal.slab_start ≠ 0 then
    slab_rebalance_move s bulk envs
  else (was_busy, s)

/-- One turn of the loop of `slab_rebalance_thread` (sleeping and waiting on the condition
variable change no state). -/
def rebalance_thread_step (s : State) (was_busy : Nat) (realloc_ok : Bool) (bulk : Int)
    (envs : Nat → MoveEnv) : Nat × State :=
  let r := rebalance_thread_dispatch s was_busy realloc_ok bulk envs
  if r.2.slab_rebal.done ≠ 0 then (r.1, slab_rebalance_finish r.2) else r

/-! ## The lock operations of the rebalance worker -/

/-- The lock operations of `slab_rebalance_move` and its calls into the item subsystem:
`pthread_mutex_lock(&slabs_lock)`, `pthread_mutex_unlock(&slabs_lock)`, `item_trylock(hv)`
with its outcome, `item_trylock_unlock(hold_lock)`, the calls `do_item_replace` and
`do_item_unlink`, `STATS_LOCK()` and `STATS_UNLOCK()`. -/
inductive lock_event
  | slabs_lock
  | slabs_unlock
  | item_trylock (ok : Bool)
  | item_trylock_unlock
  | do_item_replace
  | do_item_unlink
  | stats_lock
  | stats_unlock
deriving DecidableEq

/-- The lock operations of the first part of an iteration of `slab_rebalance_move`, in
the order of the source: `item_trylock(hv)` for a chunk that is not cleared, not SLABBED
and LINKED, followed by `item_trylock_unlock(hold_lock)` when the lock was obtained and the
status is BUSY. -/
def move_classify_events (s : State) (e : MoveEnv) : List lock_event :=
  let it := s.slab_rebal.slab_pos
  if (s.heap it).it_flags ≠ ITEM_SLABBED ||| ITEM_FETCHED then
    if (s.heap it).it_flags &&& ITEM_SLABBED ≠ 0 then []
    else if (s.heap it).it_flags &&& ITEM_LINKED ≠ 0 then
      if e.trylock_ok = false then [lock_event.item_trylock false]
      else
        let s1 := refcount_incr s it
        if move_locked_status (s1.heap it).refcount e.flags_locked = move_status.MOVE_BUSY then
          [lock_event.item_trylock true, lock_event.item_trylock_unlock]
        else [lock_event.item_trylock true]
    else []
  else []

/-- The lock operations of the `switch (status)` of `slab_rebalance_move`.  Only
`case MOVE_FROM_LRU:` has some: `pthread_mutex_unlock(&slabs_lock)` after the choice of
`new_it`, then `do_item_replace` when `save_item` is set and `do_item_unlink` otherwise,
`item_trylock_unlock(hold_lock)` and `pthread_mutex_lock(&slabs_lock)`. -/
def move_switch_events (status : move_status) (s : State) (e : MoveEnv) : List lock_event :=
  match status with
  | move_status.MOVE_FROM_LRU =>
    [lock_event.slabs_unlock,
     if (lru_alloc s e).1 ≠ 0 then lock_event.do_item_replace else lock_event.do_item_unlink,
     lock_event.item_trylock_unlock,
     lock_event.slabs_lock]
  | move_status.MOVE_FROM_SLAB => []
  | move_status.MOVE_BUSY => []
  | move_status.MOVE_LOCKED => []
  | move_status.MOVE_PASS => []

/-- The lock operations of one iteration of the `for` loop of `slab_rebalance_move`. -/
def move_chunk_events (s : State) (e : MoveEnv) : List lock_event :=
  let c := move_classify s e
  move_classify_events s e ++ move_switch_events c.status c.state e

/-- The lock operations of the `for` loop of `slab_rebalance_move`: `n` iterations remain,
`x` is the loop variable. -/
def move_loop_events (envs : Nat → MoveEnv) : Nat → Nat → State → List lock_event
  | 0, _, _ => []
  | n + 1, x, s =>
    let r := move_chunk s (envs x)
    if r.state.slab_rebal.slab_pos ≥ r.state.slab_rebal.slab_end then
      move_chunk_events s (envs x)
    else move_chunk_events s (envs x) ++ move_loop_events envs n (x + 1) r.state

/-- The lock operations of the end of `slab_rebalance_move`: `STATS_LOCK()` and
`STATS_UNLOCK()` around the update of `stats.slab_reassign_busy_items` when the scan
starts again from the top. -/
def move_tail_events (s : State) : List lock_event :=
  if s.slab_rebal.slab_pos ≥ s.slab_rebal.slab_end then
    if s.slab_rebal.busy_items ≠ 0 then [lock_event.stats_lock, lock_event.stats_unlock]
    else []
  else []

/-- The lock operations of one call of `slab_rebalance_move`, in the order in which the
call performs them: it begins with `pthread_mutex_lock(&slabs_lock)` and ends with
`pthread_mutex_unlock(&slabs_lock)`. -/
def slab_rebalance_move_events (s : State) (bulk : Int) (envs : Nat → MoveEnv) :
    List lock_event :=
  [lock_event.slabs_lock] ++ move_loop_events envs bulk.toNat 0 s
    ++ move_tail_events (move_loop envs bulk.toNat 0 0 s).2 ++ [lock_event.slabs_unlock]

/-- Which locks the rebalance worker holds: `slabs_rebalance_lock`, `slabs_lock`, an item
lock, the statistics lock. -/
structure lock_state where
  rebalance_held : Bool
  slabs_held : Bool
  item_held : Bool
  stats_held : Bool
deriving DecidableEq

/-- The locks the worker holds when it calls `slab_rebalance_move`: `slab_rebalance_thread`
takes `slabs_rebalance_lock` before its loop (`mutex_lock(&slabs_rebalance_lock)`) and gives
it back only inside `pthread_cond_wait`, so it holds that lock, and no other, across every
call. -/
def lock_state.worker : lock_state :=
  { rebalance_held := true, slabs_held := false, item_held := false, stats_held := false }

/-- The worker holds `slabs_rebalance_lock` and `slabs_lock`, as at the start of every
iteration of the loop of `slab_rebalance_move`. -/
def lock_state.scanning : lock_state :=
  { rebalance_held := true, slabs_held := true, item_held := false, stats_held := false }

/-- The locks held after a lock operation; no operation of `slab_rebalance_move` is on
`slabs_rebalance_lock`. -/
def lock_state.step (l : lock_state) : lock_event → lock_state
  | lock_event.slabs_lock => { l with slabs_held := true }
  | lock_event.slabs_unlock => { l with slabs_held := false }
  | lock_event.item_trylock ok => if ok = true then { l with item_held := true } else l
  | lock_event.item_trylock_unlock => { l with item_held := false }
  | lock_event.do_item_replace => l
  | lock_event.do_item_unlink => l
  | lock_event.stats_lock => { l with stats_held := true }
  | lock_event.stats_unlock => { l with stats_held := false }

/-- The locks held after a sequence of lock operations. -/
def lock_state.run (l : lock_state) (tr : List lock_event) : lock_state :=
  tr.foldl lock_state.step l

/-- The lock order of the specification, on a sequence of lock operations that starts
with the locks `l` held: no item lock is attempted while `slabs_lock` is held. -/
def item_lock_outside_slabs : lock_state → List lock_event → Bool
  | _, [] => true
  | l, ev :: tr =>
    (match ev with
      | lock_event.item_trylock _ => !l.slabs_held
      | _ => true) && item_lock_outside_slabs (l.step ev) tr

/-- The lock discipline of `slab_rebalance_move`, for one operation with the locks `l`
held: every operation is made with `slabs_rebalance_lock` held; `slabs_lock` is acquired
only when neither it nor an item lock is held; an item lock is attempted only through
`item_trylock`, with `slabs_lock` held and no other item lock held; the item subsystem is
called with the item lock held and `slabs_lock` released; the statistics lock is taken with
`slabs_lock` held and no item lock held; only held locks are released. -/
def lock_event.allowed (l : lock_state) : lock_event → Bool
  | lock_event.slabs_lock => l.rebalance_held && !l.slabs_held && !l.item_held && !l.stats_held
  | lock_event.slabs_unlock => l.rebalance_held && l.slabs_held && !l.stats_held
  | lock_event.item_trylock _ =>
    l.rebalance_held && l.slabs_held && !l.item_held && !l.stats_held
  | lock_event.item_trylock_unlock => l.rebalance_held && l.item_held
  | lock_event.do_item_replace => l.rebalance_held && !l.slabs_held && l.item_held
  | lock_event.do_item_unlink => l.rebalance_held && !l.slabs_held && l.item_held
  | lock_event.stats_lock => l.rebalance_held && l.slabs_held && !l.item_held && !l.stats_held
  | lock_event.stats_unlock => l.rebalance_held && l.stats_held

/-- Every operation of the sequence follows the lock discipline `lock_event.allowed`. -/
def lock_discipline : lock_state → List lock_event → Bool
  | _, [] => true
  | l, ev :: tr => ev.allowed l && lock_discipline (l.step ev) tr

/-! ## Concrete configurations used in the examples -/

/-- The default settings: 1 MiB pages, 48 bytes of chunk base. -/
def cfg_default : settings_t :=
  { item_size_max := 1048576, chunk_size := 48, slab_reassign := false }

/-- A 64-bit build: a 48-byte item header and 64 slab classes. -/
def build_default : Build :=
  { sizeof_item := 48, MAX_NUMBER_OF_SLAB_CLASSES := 64 }

/-- The table of the default configuration with growth factor 1.25 (42 classes). -/
def table_default : State := slabs_init_table build_default cfg_default 5 4

/-- A host on which `realloc` succeeds and `malloc` returns the address `p`. -/
def host_ok (p : Nat) : Host := { realloc_ok := true, malloc_ret := p }

/-- The call `slabs_init(limit, fnum / fden, false)` at program start, without the
`T_MEMD_INITIAL_MALLOC` seed. -/
def init_plain (b : Build) (cfg : settings_t) (limit fnum fden : Nat) : Option State :=
  slabs_init b (boot cfg (fun _ => item.zero)) limit fnum fden false 0 none
    (fun _ => host_ok 0)

/-- The allocator after `slabs_init(64 MiB, 1.25, false)` in the default configuration. -/
def state_default : State :=
  (init_plain build_default cfg_default (64 * 1048576) 5 4).getD
    (boot cfg_default (fun _ => item.zero))

/-- The allocator after `slabs_init(64 MiB, 1.275, false)` in the default configuration.
The decimal 1.275 is no `double`; with the `double` nearest to it the product
`760 * factor` is just below 969 and class 10 has 968-byte chunks, where the exact product
969 would give 976. -/
def state_1275 : State :=
  (init_plain build_default cfg_default (64 * 1048576) 51 40).getD
    (boot cfg_default (fun _ => item.zero))

/-- Settings with 1024-byte pages: with growth factor 2 the classes have chunk sizes
96, 192, 384 and 1024. -/
def cfg_small : settings_t :=
  { item_size_max := 1024, chunk_size := 48, slab_reassign := false }

/-- The allocator after `slabs_init(4096, 2.0, false)` with `cfg_small`: four classes, no
page yet. -/
def state_small : State :=
  (init_plain build_default cfg_small 4096 2 1).getD (boot cfg_small (fun _ => item.zero))

/-- The state `state_small` after `do_slabs_newslab(1)` obtained the page at address
4096: class 1 owns that page and its ten chunks are on the freelist, 4960 first. -/
def state_small_page : State := (do_slabs_newslab state_small 1 (host_ok 4096)).2

/-- The list `l` is the freelist that starts at `head`: following the `next` pointers from
`head` visits exactly the (non-null) addresses of `l` and then reaches `NULL`. -/
def is_freelist (heap : Nat → item) : Nat → List Nat → Prop
  | head, [] => head = 0
  | head, a :: l => head = a ∧ a ≠ 0 ∧ is_freelist heap (heap a).next l

/-- The sum `f 0 + f 1 + ... + f n`. -/
def sum_upto (f : Nat → Nat) : Nat → Nat
  | 0 => f 0
  | n + 1 => sum_upto f n + f (n + 1)

/-- The bytes requested from the page source for the pages that the classes
`0 .. power_largest` own: every page of class `i` counts `page_len i` bytes. -/
def page_bytes (s : State) : Nat :=
  sum_upto (fun i => (s.slabclass i).slabs * page_len s i) s.power_largest

/-- The page budget of the specification: every page of the classes `0 .. power_largest`
(the global pool is class 0) counts `page_size = item_size_max` bytes. -/
def page_budget (s : State) : Nat :=
  sum_upto (fun i => (s.slabclass i).slabs * s.settings.item_size_max) s.power_largest

/-- The states reachable from `slabs_init` (called at program start with a non-zero
memory limit and without the `T_MEMD_INITIAL_MALLOC` seed) by `do_slabs_alloc`,
`do_slabs_free` and `do_slabs_newslab`; as in the code, `do_slabs_newslab` is only called
for a class id in `[1, power_largest]`. -/
inductive Reachable (b : Build) (cfg : settings_t) : State → Prop
  | init (heap0 : Nat → item) (limit fnum fden : Nat) (prealloc : Bool) (base : Nat)
      (hosts : Nat → Host) (s : State) (hlimit : limit ≠ 0)
      (hinit : slabs_init b (boot cfg heap0) limit fnum fden prealloc base none hosts = some s) :
      Reachable b cfg s
  | alloc (s : State) (size id flags : Nat) (h : Host) (hs : Reachable b cfg s) :
      Reachable b cfg (do_slabs_alloc s size id flags h).2
  | free (s : State) (ptr size id : Nat) (hs : Reachable b cfg s) :
      Reachable b cfg (do_slabs_free s ptr size id)
  | newslab (s : State) (id : Nat) (h : Host) (hs : Reachable b cfg s)
      (hid1 : 1 ≤ id) (hid2 : id ≤ s.power_largest) :
      Reachable b cfg (do_slabs_newslab s id h).2

/-- The allocator after `slabs_init(1024, 2.0, false)` with `cfg_small`: the memory limit
is one page. -/
def state_limit : State :=
  (init_plain build_default cfg_small 1024 2 1).getD (boot cfg_small (fun _ => item.zero))

/-- The state `state_limit` after the first page of class 1 and the first page of class 2
were obtained. -/
def state_over_limit : State :=
  (do_slabs_newslab (do_slabs_newslab state_limit 1 (host_ok 4096)).2 2 (host_ok 8192)).2

/-- A host whose `malloc` fails (returns `NULL`) while `realloc` succeeds. -/
def host_malloc_fails : Host := { realloc_ok := true, malloc_ret := 0 }

/-- The state `state_small` after class 1 obtained the pages at 4096 and 8192: it is the
only class with more than one page. -/
def state_two_pages : State :=
  (do_slabs_newslab (do_slabs_newslab state_small 1 (host_ok 4096)).2 1 (host_ok 8192)).2

/-- The state `state_limit` (memory limit 1024) after class 1 obtained its first page, of
960 bytes, at 4096. -/
def state_limit_page : State := (do_slabs_newslab state_limit 1 (host_ok 4096)).2

/-- The allocator after `slabs_init(1950, 2.0, false)` with `cfg_small`, and then the
first page of class 1 (960 bytes) at 4096. -/
def state_limit_1950 : State :=
  (do_slabs_newslab
    ((init_plain build_default cfg_small 1950 2 1).getD (boot cfg_small (fun _ => item.zero)))
    1 (host_ok 4096)).2

/-- The allocator after `slabs_init(4096, 2.0, false)` with `cfg_small` when the
environment variable `T_MEMD_INITIAL_MALLOC` holds `-1`: `mem_malloced` starts at
`(size_t)atol("-1") = 2^64 - 1`. -/
def state_seeded : State :=
  (slabs_init build_default (boot cfg_small (fun _ => item.zero)) 4096 2 1 false 0
    (some 18446744073709551615) (fun _ => host_ok 0)).getD (boot cfg_small (fun _ => item.zero))

/-- The allocator after `slabs_init(0, 2.0, false)` with `cfg_small` (a memory limit of 0
switches the limit off), and then the first page of class 1 at 4096. -/
def state_unlimited : State :=
  (do_slabs_newslab
    ((init_plain build_default cfg_small 0 2 1).getD (boot cfg_small (fun _ => item.zero)))
    1 (host_ok 4096)).2

/-- A scenario of the specification: `n` consecutive calls
`do_slabs_alloc(size k, id, flags k)` for `k = 0 .. n - 1`, with no free in between; call
`k` meets the host behaviour `hosts k`.  The result is the list of the returned pointers and
the final state. -/
def alloc_run (id : Nat) (size flags : Nat → Nat) (hosts : Nat → Host) (s : State) :
    Nat → List Nat × State
  | 0 => ([], s)
  | n + 1 =>
    let r := alloc_run id size flags hosts s n
    let a := do_slabs_alloc r.2 (size n) id (flags n) (hosts n)
    (r.1 ++ [a.1], a.2)

/-- A size class that owns no page and no chunk, as the zeroed static table holds it. -/
def slabclass_t.fresh (c : slabclass_t) : Prop :=
  c.slabs = 0 ∧ c.sl_curr = 0 ∧ c.slots = 0 ∧ c.list_size = 0 ∧ c.requested = 0

/-- The list of the specification for a split page: the chunks of a page at `b` with `n`
chunks of `sz` bytes, highest address first, `[b + (n - 1) * sz, ..., b + sz, b]`. -/
def page_chunks (b sz : Nat) : Nat → List Nat
  | 0 => []
  | n + 1 => (b + n * sz) :: page_chunks b sz n

/-- Whether `l` is the freelist that starts at `head` can be computed. -/
instance is_freelist_decidable (heap : Nat → item) :
    ∀ (l : List Nat) (head : Nat), Decidable (is_freelist heap head l)
  | [], head => inferInstanceAs (Decidable (head = 0))
  | a :: l, head =>
    have : Decidable (is_freelist heap (heap a).next l) :=
      is_freelist_decidable heap l (heap a).next
    inferInstanceAs (Decidable (head = a ∧ a ≠ 0 ∧ is_freelist heap (heap a).next l))

/-- The state `state_two_pages` after `do_slabs_reassign(1, 2)` was accepted and
`slab_rebalance_start` has marked the first page of class 1 (at 4096) for the move. -/
def state_rebalancing : State :=
  (slab_rebalance_start (do_slabs_reassign state_two_pages 1 2).2 true).2

/-- The state `state_two_pages` after `do_slabs_reassign(1, 0)` was accepted and
`slab_rebalance_start` has run: the first page of class 1 is to go to the global pool. -/
def state_rebalancing_pool : State :=
  (slab_rebalance_start (do_slabs_reassign state_two_pages 1 0).2 true).2

/-- The state after the rebalance `1 -> 0` from `state_two_pages` has finished: the
global pool holds the page 4096, class 1 holds the page 8192. -/
def state_pool_page : State := slab_rebalance_finish state_rebalancing_pool

/-- The state in which `slabs_init` reaches its last statement,
`if (prealloc) slabs_preallocate(power_largest);`: the limit, the preallocated region, the
table and the `T_MEMD_INITIAL_MALLOC` seed are set. -/
def slabs_init_start (b : Build) (s : State) (limit fnum fden : Nat) (prealloc : Bool)
    (base : Nat) (seed : Option Nat) : State :=
  let size := b.sizeof_item + s.settings.chunk_size
  let s1 : State := { s with mem_limit := limit }
  let s2 : State :=
    if prealloc = true then
      if base ≠ 0 then { s1 with mem_base := base, mem_current := base, mem_avail := limit }
      else { s1 with mem_base := base }
    else s1
  let r := slabs_init_loop s.settings b.MAX_NUMBER_OF_SLAB_CLASSES fnum fden
    b.MAX_NUMBER_OF_SLAB_CLASSES (POWER_SMALLEST - 1) size (fun _ => slabclass_t.zero)
  let top : slabclass_t := { r.2 r.1 with size := s.settings.item_size_max, perslab := 1 }
  let s3 : State := { s2 with slabclass := upd r.2 r.1 top, power_largest := r.1 }
  match seed with
  | some v => { s3 with mem_malloced := v }
  | none => s3

/-- Following the specification's words, "allocate one page for each class up to
`power_largest`; on any failure during preallocation, abort": one page request for each
of the `n` classes `i, i + 1, ...` in turn, `none` (abort) at the first request that fails. -/
def prealloc_spec (hosts : Nat → Host) : Nat → Nat → State → Option State
  | 0, _, s => some s
  | n + 1, i, s =>
    if (do_slabs_newslab s i (hosts i)).1 = 0 then none
    else prealloc_spec hosts n (i + 1) (do_slabs_newslab s i (hosts i)).2

/-- The allocator after `slabs_init(8192, 2.0, true)` with `cfg_small`, when the region of
8192 bytes was obtained at address 65536: each of the four classes got its page from the
region. -/
def state_prealloc : State :=
  (slabs_init build_default (boot cfg_small (fun _ => item.zero)) 8192 2 1 true 65536 none
    (fun _ => host_ok 0)).getD (boot cfg_small (fun _ => item.zero))

/-- An item subsystem that never refuses a lock, sees no LINKED flag under the lock, and
whose `do_item_replace` and `do_item_unlink` leave the item headers alone. -/
def env_idle : MoveEnv :=
  { trylock_ok := true, flags_locked := 0, ntotal := 0, expired := false,
    do_item_replace := fun _ _ h => h, do_item_unlink := fun _ h => h }

/-- The list `l` is the doubly-linked freelist that starts at `head`, whose first chunk
has `prev = p`: the `next` pointers visit exactly the chunks of `l` and then reach `NULL`,
and the `prev` pointer of every chunk is the chunk before it. -/
def is_dlist (heap : Nat → item) : Nat → Nat → List Nat → Prop
  | _, head, [] => head = 0
  | p, head, a :: l => head = a ∧ a ≠ 0 ∧ (heap a).prev = p ∧ is_dlist heap a (heap a).next l

/-- Whether `l` is the doubly-linked freelist that starts at `head` can be computed. -/
instance is_dlist_decidable (heap : Nat → item) :
    ∀ (l : List Nat) (p head : Nat), Decidable (is_dlist heap p head l)
  | [], _, head => inferInstanceAs (Decidable (head = 0))
  | a :: l, p, head =>
    have : Decidable (is_dlist heap a (heap a).next l) :=
      is_dlist_decidable heap l a (heap a).next
    inferInstanceAs
      (Decidable (head = a ∧ a ≠ 0 ∧ (heap a).prev = p ∧ is_dlist heap a (heap a).next l))

/-- Whether the address `a` lies in the page being cleared, `[slab_start, slab_end)`. -/
def in_page (s : State) (a : Nat) : Bool :=
  decide (s.slab_rebal.slab_start ≤ a ∧ a < s.slab_rebal.slab_end)

/-- The state `state_rebalancing` (page 4096 of class 1 is being cleared) after twelve chunks
were handed out and the chunks 8192 and 4960 came back: the freelist of class 1 is
`[4960, 8192, 4768, 4672, ..., 4096]`, its head lies in the page being cleared. -/
def state_skip : State :=
  do_slabs_free
    (do_slabs_free
      (alloc_run 1 (fun _ => 96) (fun _ => 0) (fun _ => host_unused) state_rebalancing 12).2
      8192 96 1)
    4960 96 1

/-- The address of chunk number `j` of the page being cleared. -/
def chunk_addr (s : State) (j : Nat) : Nat :=
  s.slab_rebal.slab_start + j * (s.slabclass s.slab_rebal.s_clsid.toNat).size

/-- The invariant of the freelist of class `id` in the words of the specification: every
chunk on the freelist has the SLABBED flag set and `slabs_clsid = 0`, and `sl_curr` is the
length of the freelist. -/
def FreelistInvAt (s : State) (id : Nat) : Prop :=
  ∃ l, is_freelist s.heap (s.slabclass id).slots l ∧ (s.slabclass id).sl_curr = l.length ∧
    ∀ a ∈ l, (s.heap a).it_flags &&& ITEM_SLABBED ≠ 0 ∧ (s.heap a).slabs_clsid = 0

/-- The invariant of the freelists of all classes, in the words of the specification. -/
def FreelistInv (s : State) : Prop := ∀ id, FreelistInvAt s id

/-- Settings with 1024-byte pages and `slab_reassign` switched on: every page has
`item_size_max` bytes; with growth factor 2 the classes have chunk sizes 96, 192, 384 and
1024. -/
def cfg_reassign : settings_t :=
  { item_size_max := 1024, chunk_size := 48, slab_reassign := true }

/-- The allocator after `slabs_init(65536, 2.0, false)` with `cfg_reassign`. -/
def state_reassign : State :=
  (init_plain build_default cfg_reassign 65536 2 1).getD (boot cfg_reassign (fun _ => item.zero))

/-- The state `state_reassign` after three chunks of class 3 (two chunks a page) were
handed out: class 3 owns the pages 4096 and 8192, the chunks 4480, 4096 and 8576 are in
use and 8192 is free. -/
def state_three : State :=
  (alloc_run 3 (fun _ => 300) (fun _ => 0) (fun k => host_ok (4096 + 2048 * k))
    state_reassign 3).2

/-- The state `state_three` after the item subsystem linked the item stored in the chunk
4096 (`do_item_link` sets the LINKED flag). -/
def state_linked : State :=
  state_three.setHeap
    (upd state_three.heap 4096 { state_three.heap 4096 with it_flags := ITEM_LINKED })

/-- The state `state_linked` after `do_slabs_reassign(3, 4)` was accepted and
`slab_rebalance_start` has marked the page 4096 for the move: the cursor is on the linked
item. -/
def state_scan_linked : State :=
  (slab_rebalance_start (do_slabs_reassign state_linked 3 4).2 true).2

/-- An item subsystem whose item lock is free and that sees the LINKED flag under the
lock; the item has 300 bytes and is not expired. -/
def env_linked : MoveEnv :=
  { trylock_ok := true, flags_locked := ITEM_LINKED, ntotal := 300, expired := false,
    do_item_replace := fun _ _ h => h, do_item_unlink := fun _ h => h }

/-- Every class of the table has at most as many pages as its page vector has slots:
`slabs <= list_size`. -/
def page_vectors_ok (s : State) : Prop :=
  ∀ id, id ≤ s.power_largest → (s.slabclass id).slabs ≤ (s.slabclass id).list_size

/-- Whether `page_vectors_ok` holds can be computed. -/
instance page_vectors_ok_decidable (s : State) : Decidable (page_vectors_ok s) :=
  inferInstanceAs
    (Decidable (∀ id, id ≤ s.power_largest →
      (s.slabclass id).slabs ≤ (s.slabclass id).list_size))

/-- The state `state_reassign` after fifteen chunks of class 4 (one chunk a page) were
handed out: class 4 owns fifteen pages in a page vector of sixteen slots and has no free
chunk. -/
def state_fifteen : State :=
  (alloc_run 4 (fun _ => 1000) (fun _ => 0) (fun k => host_ok (65536 + 1024 * k))
    state_reassign 15).2

/-- The state `state_fifteen` after three chunks of class 3 were handed out (pages 4096
and 8192) and the two chunks of the page 4096 came back: class 3 has a page to spare. -/
def state_spare : State :=
  do_slabs_free
    (do_slabs_free
      (alloc_run 3 (fun _ => 300) (fun _ => 0) (fun k => host_ok (4096 + 2048 * k))
        state_fifteen 3).2
      4480 300 3)
    4096 300 3

/-- The first turn of the rebalance worker after `do_slabs_reassign(3, 4)` was accepted in
`state_spare`: `slab_rebalance_start` runs. -/
def state_started : State :=
  (rebalance_thread_step (do_slabs_reassign state_spare 3 4).2 0 true 1
    (fun _ => env_idle)).2

/-- A foreground `do_slabs_alloc` on class 4 between `slab_rebalance_start` and
`slab_rebalance_finish`: class 4 has no free chunk, so `do_slabs_newslab` gives it the page
131072. -/
def state_filled : State := (do_slabs_alloc state_started 1000 4 0 (host_ok 131072)).2

/-- The second turn of the worker: `slab_rebalance_move` clears the chunk 4096. -/
def state_scanned : State :=
  (rebalance_thread_step state_filled 0 true 1 (fun _ => env_idle)).2

/-- The third turn of the worker: `slab_rebalance_move` clears the chunk 4480 and sets
`done`, and `slab_rebalance_finish` moves the page 4096 to class 4. -/
def state_moved : State :=
  (rebalance_thread_step state_scanned 0 true 1 (fun _ => env_idle)).2

/-! ## Invariants and frame conditions used in the proofs -/

/-- The part of the state that `do_slabs_free`, `do_slabs_newslab` and `do_slabs_alloc`
leave alone: settings, geometry of the classes, limits and the rebalance record. -/
structure Frame (s t : State) : Prop where
  settings : t.settings = s.settings
  power_largest : t.power_largest = s.power_largest
  mem_limit : t.mem_limit = s.mem_limit
  mem_base : t.mem_base = s.mem_base
  slab_rebal : t.slab_rebal = s.slab_rebal
  signal : t.slab_rebalance_signal = s.slab_rebalance_signal
  size : ∀ j, (t.slabclass j).size = (s.slabclass j).size
  perslab : ∀ j, (t.slabclass j).perslab = (s.slabclass j).perslab

/-- A well-shaped size-class table: at least one class, chunk sizes in `[1, power_largest]`
positive and strictly increasing, every class holding at least one chunk per page. -/
structure GoodTable (s : State) : Prop where
  one_le : 1 ≤ s.power_largest
  pos : ∀ i, 1 ≤ i → i ≤ s.power_largest → 0 < (s.slabclass i).size
  strict : ∀ i, 1 ≤ i → i < s.power_largest →
    (s.slabclass i).size < (s.slabclass (i + 1)).size
  perslab_pos : ∀ i, 1 ≤ i → i ≤ s.power_largest → 1 ≤ (s.slabclass i).perslab

/-- The operations that leave the page vectors and `mem_malloced` alone. -/
structure SamePages (s t : State) : Prop where
  mem_malloced : t.mem_malloced = s.mem_malloced
  slabs : ∀ j, (t.slabclass j).slabs = (s.slabclass j).slabs
  slab_list : ∀ j, (t.slabclass j).slab_list = (s.slabclass j).slab_list

/-- The invariant of the page accounting: the limit is set, the global pool is empty and
the bytes requested for the pages owned by the classes are covered by `mem_malloced`. -/
structure PageInv (s : State) : Prop where
  limit : s.mem_limit ≠ 0
  pool : (s.slabclass 0).slabs = 0
  bytes : page_bytes s ≤ s.mem_malloced

/-- The fields of the classes that the specification speaks about, and the item headers,
are the same in `s` and `t`. -/
structure SameClasses (s t : State) : Prop where
  slabs : ∀ j, (t.slabclass j).slabs = (s.slabclass j).slabs
  slab_list : ∀ j, (t.slabclass j).slab_list = (s.slabclass j).slab_list
  slots : ∀ j, (t.slabclass j).slots = (s.slabclass j).slots
  sl_curr : ∀ j, (t.slabclass j).sl_curr = (s.slabclass j).sl_curr
  requested : ∀ j, (t.slabclass j).requested = (s.slabclass j).requested
  heap : t.heap = s.heap

/-- What the scan of the rebalance worker (`slab_rebalance_alloc` and the iterations of
`slab_rebalance_move`) never changes: the settings, the class geometry, the page vectors,
`mem_malloced`, the signal, and the published ids, page bounds and `done` of the
rebalance record. -/
structure ScanFrame (s t : State) : Prop where
  settings : t.settings = s.settings
  power_largest : t.power_largest = s.power_largest
  signal : t.slab_rebalance_signal = s.slab_rebalance_signal
  mem_malloced : t.mem_malloced = s.mem_malloced
  stats : t.stats = s.stats
  s_clsid : t.slab_rebal.s_clsid = s.slab_rebal.s_clsid
  d_clsid : t.slab_rebal.d_clsid = s.slab_rebal.d_clsid
  slab_start : t.slab_rebal.slab_start = s.slab_rebal.slab_start
  slab_end : t.slab_rebal.slab_end = s.slab_rebal.slab_end
  done : t.slab_rebal.done = s.slab_rebal.done
  size : ∀ j, (t.slabclass j).size = (s.slabclass j).size
  perslab : ∀ j, (t.slabclass j).perslab = (s.slabclass j).perslab
  slabs : ∀ j, (t.slabclass j).slabs = (s.slabclass j).slabs
  slab_list : ∀ j, (t.slabclass j).slab_list = (s.slabclass j).slab_list

/-- The preallocated mode of `memory_allocate`: a region of `mem_limit` bytes at
`mem_base`, the cursor `mem_current` inside or at its end at a multiple of 8 bytes from
`mem_base`, and `mem_avail` either the room left up to the end of the region or 0. -/
structure RegionInv (s : State) : Prop where
  base : s.mem_base ≠ 0
  cur : s.mem_base ≤ s.mem_current
  aligned : 8 ∣ s.mem_current - s.mem_base
  room : s.mem_avail = 0 ∨ s.mem_current + s.mem_avail = s.mem_base + s.mem_limit

/-- The effect of a run of the loop of `slab_rebalance_alloc` on class `id`, whose freelist
was `L`, from the state `s` to the state `t`: the chunks `V`, all inside the page being
cleared, were pulled and skipped, `r` is the result (0 is `NULL`), and `Lf` is the freelist
that is left. -/
structure AllocSkips (s t : State) (id r : Nat) (L V Lf : List Nat) : Prop where
  split : L = V ++ (if r ≠ 0 then r :: Lf else Lf)
  inpage : ∀ v ∈ V, s.slab_rebal.slab_start ≤ v ∧ v < s.slab_rebal.slab_end
  outside : r ≠ 0 → ¬ (s.slab_rebal.slab_start ≤ r ∧ r < s.slab_rebal.slab_end)
  list : is_dlist t.heap 0 (t.slabclass id).slots Lf
  count : (t.slabclass id).sl_curr = Lf.length
  cleared : ∀ v ∈ V,
    (t.heap v).it_flags = ITEM_SLABBED ||| ITEM_FETCHED ∧ (t.heap v).refcount = 0
  returned : r ≠ 0 →
    (t.heap r).it_flags = (s.heap r).it_flags &&& (255 - ITEM_SLABBED) ∧ (t.heap r).refcount = 1
  kept : ∀ a, a ∉ V → a ≠ r →
    (t.heap a).it_flags = (s.heap a).it_flags ∧ (t.heap a).refcount = (s.heap a).refcount
  clsid : ∀ a, (t.heap a).slabs_clsid = (s.heap a).slabs_clsid
  untouched : ∀ a, a ∉ L → t.heap a = s.heap a
  others : ∀ j, j ≠ id →
    (t.slabclass j).slots = (s.slabclass j).slots ∧
    (t.slabclass j).sl_curr = (s.slabclass j).sl_curr
  reclaim : t.slab_rebal.inline_reclaim = s.slab_rebal.inline_reclaim + V.length

/-- The freelist of the source class of the rebalance is the well-formed doubly-linked list
`L` of free chunks: `sl_curr` is its length and every chunk on it has flags exactly
`ITEM_SLABBED`. -/
structure SrcList (s : State) (L : List Nat) : Prop where
  list : is_dlist s.heap 0 (s.slabclass s.slab_rebal.s_clsid.toNat).slots L
  count : (s.slabclass s.slab_rebal.s_clsid.toNat).sl_curr = L.length
  free : ∀ a ∈ L, (s.heap a).it_flags = ITEM_SLABBED

/-- The cursor of the scan is on chunk number `k` of the page being cleared, which ends
after `perslab` chunks of the source class. -/
structure PageGeom (s : State) (k : Nat) : Prop where
  size_pos : 0 < (s.slabclass s.slab_rebal.s_clsid.toNat).size
  pos : s.slab_rebal.slab_pos = chunk_addr s k
  stop : s.slab_rebal.slab_end = chunk_addr s (s.slabclass s.slab_rebal.s_clsid.toNat).perslab

/-- What the scan assumes about `do_item_replace` and `do_item_unlink`, which are not part
of `slabs.c`: the item subsystem leaves alone every item header that carries the SLABBED
flag (a free or a cleared chunk), and it never sets that flag (the comment in
`slab_rebalance_move` says "ITEM_SLABBED can only be added/removed under the slabs_lock"). -/
structure EnvOK (e : MoveEnv) : Prop where
  replace : ∀ it new_it h a,
    ((h a).it_flags &&& ITEM_SLABBED ≠ 0 ∨
      (e.do_item_replace it new_it h a).it_flags &&& ITEM_SLABBED ≠ 0) →
    e.do_item_replace it new_it h a = h a
  unlink : ∀ it h a,
    ((h a).it_flags &&& ITEM_SLABBED ≠ 0 ∨
      (e.do_item_unlink it h a).it_flags &&& ITEM_SLABBED ≠ 0) →
    e.do_item_unlink it h a = h a

/-- The invariant of a pass of the scan over the page being cleared, with the cursor on
chunk `k` and the source freelist `L`: every chunk of the page that carries SLABBED and is
not cleared is on `L`, every cleared chunk of the page has `refcount = 0`, and as long as
no chunk was counted busy in this pass all chunks before the cursor are cleared. -/
structure PassInv (s : State) (L : List Nat) (k : Nat) : Prop where
  geom : PageGeom s k
  src : SrcList s L
  onlist : ∀ j, j < (s.slabclass s.slab_rebal.s_clsid.toNat).perslab →
    (s.heap (chunk_addr s j)).it_flags &&& ITEM_SLABBED ≠ 0 →
    (s.heap (chunk_addr s j)).it_flags ≠ ITEM_SLABBED ||| ITEM_FETCHED →
    chunk_addr s j ∈ L
  clear : ∀ j, j < (s.slabclass s.slab_rebal.s_clsid.toNat).perslab →
    (s.heap (chunk_addr s j)).it_flags = ITEM_SLABBED ||| ITEM_FETCHED →
    (s.heap (chunk_addr s j)).refcount = 0
  seen : s.slab_rebal.busy_items = 0 → ∀ j, j < k →
    (s.heap (chunk_addr s j)).it_flags = ITEM_SLABBED ||| ITEM_FETCHED

/-- The strengthened invariant of the freelists: the freelist of every class `id` is the
well-formed doubly-linked list `Ls id`, `sl_curr` is its length, every chunk on it has
flags exactly `ITEM_SLABBED` and `slabs_clsid = 0`, and no chunk is on the freelists of two
classes. -/
structure AllWF (s : State) (Ls : Nat → List Nat) : Prop where
  list : ∀ id, is_dlist s.heap 0 (s.slabclass id).slots (Ls id)
  count : ∀ id, (s.slabclass id).sl_curr = (Ls id).length
  free : ∀ id, ∀ a ∈ Ls id, (s.heap a).it_flags = ITEM_SLABBED ∧ (s.heap a).slabs_clsid = 0
  disjoint : ∀ i j, i ≠ j → ∀ a ∈ Ls i, a ∉ Ls j

/-! ## The invariant of the freelists and pages over the reachable states -/

/-- The address `a` is the header of a chunk of a page that class `id` owns: chunk number
`k < perslab` of a page `p` of the class. -/
def is_chunk (s : State) (id a : Nat) : Prop :=
  ∃ p ∈ (s.slabclass id).pages, ∃ k, k < (s.slabclass id).perslab ∧
    a = p + k * (s.slabclass id).size

/-- The item header at `a` is marked as cleared for a page move: its flags are exactly
`ITEM_SLABBED|ITEM_FETCHED` and its `refcount` is 0. -/
def is_cleared (heap : Nat → item) (a : Nat) : Prop :=
  (heap a).it_flags = ITEM_SLABBED ||| ITEM_FETCHED ∧ (heap a).refcount = 0

/-- The `lp` bytes at `p` and the `lq` bytes at `q` do not overlap. -/
def regions_apart (p lp q lq : Nat) : Prop := p + lp ≤ q ∨ q + lq ≤ p

/-- What the program expects of the memory that `malloc(len)` returns when it does not
return `NULL`: the `len` bytes at `p` overlap no page that a class or the global pool
holds. -/
def fresh_region (s : State) (p len : Nat) : Prop :=
  ∀ id, ∀ q ∈ (s.slabclass id).pages, regions_apart p len q (page_len s id)

/-- The invariant that ties the freelists `Ls` to the pages: the freelists are well
formed (`AllWF`); a page has room for the chunks of its class, and a class with chunks has
a positive chunk size; the pages are not `NULL` and do not overlap; every chunk on the
freelist of a class is a chunk of a page of that class; every item header inside a page
that carries SLABBED is on a freelist or is cleared; in preallocated mode the pages lie
below `mem_current`; the global pool holds pages only when `slab_reassign` is on, and it
has no chunks. -/
structure HeapInv (s : State) (Ls : Nat → List Nat) : Prop where
  wf : AllWF s Ls
  room : ∀ id, (s.slabclass id).size * (s.slabclass id).perslab ≤ page_len s id
  size_pos : ∀ id, 1 ≤ (s.slabclass id).perslab → 0 < (s.slabclass id).size
  page_nz : ∀ id, ∀ p ∈ (s.slabclass id).pages, p ≠ 0
  apart_in : ∀ id, (s.slabclass id).pages.Pairwise
    (fun p q => regions_apart p (page_len s id) q (page_len s id))
  apart_x : ∀ id jd, id ≠ jd → ∀ p ∈ (s.slabclass id).pages, ∀ q ∈ (s.slabclass jd).pages,
    regions_apart p (page_len s id) q (page_len s jd)
  own : ∀ id a, a ∈ Ls id → is_chunk s id a
  flag : ∀ id, ∀ p ∈ (s.slabclass id).pages, ∀ a, p ≤ a → a < p + page_len s id →
    (s.heap a).it_flags &&& ITEM_SLABBED ≠ 0 → (∃ j, a ∈ Ls j) ∨ is_cleared s.heap a
  region : s.mem_base ≠ 0 → s.mem_current ≠ 0 ∧
    ∀ id, ∀ p ∈ (s.slabclass id).pages, p + page_len s id ≤ s.mem_current
  pool : (s.slabclass SLAB_GLOBAL_PAGE_POOL).pages ≠ [] → s.settings.slab_reassign = true
  pool_chunks : (s.slabclass SLAB_GLOBAL_PAGE_POOL).perslab = 0

/-- The states `s` and `t` agree on everything `HeapInv` speaks about. -/
structure SameAlloc (s t : State) : Prop where
  heap : t.heap = s.heap
  slots : ∀ j, (t.slabclass j).slots = (s.slabclass j).slots
  sl_curr : ∀ j, (t.slabclass j).sl_curr = (s.slabclass j).sl_curr
  pages : ∀ j, (t.slabclass j).pages = (s.slabclass j).pages
  size : ∀ j, (t.slabclass j).size = (s.slabclass j).size
  perslab : ∀ j, (t.slabclass j).perslab = (s.slabclass j).perslab
  settings : t.settings = s.settings
  mem_base : t.mem_base = s.mem_base
  mem_current : t.mem_current = s.mem_current

/-- A step of the rebalance worker on the freelists, from `Ls` in the state `s` to `Ls'` in
the state `t`: the freelists stay well formed and only lose chunks; a header that carries
SLABBED afterwards is cleared, or has kept its flags, `refcount` and freelist; a cleared
header stays cleared. -/
structure ListStep (s t : State) (Ls Ls' : Nat → List Nat) : Prop where
  wf : AllWF t Ls'
  sub : ∀ j a, a ∈ Ls' j → a ∈ Ls j
  slabbed : ∀ a, (t.heap a).it_flags &&& ITEM_SLABBED ≠ 0 →
    is_cleared t.heap a ∨
    ((t.heap a).it_flags = (s.heap a).it_flags ∧ (t.heap a).refcount = (s.heap a).refcount ∧
      ∀ j, a ∈ Ls j → a ∈ Ls' j)
  cleared : ∀ a, is_cleared s.heap a → is_cleared t.heap a

/-- The states `s` and `t` have the same preallocated region. -/
structure SameMem (s t : State) : Prop where
  mem_base : t.mem_base = s.mem_base
  mem_current : t.mem_current = s.mem_current

/-- The page move in progress, from the class `src` to the class `dst`: the ids are in
range and differ, `slab_reassign` is on, the page being cleared is the first page of the
source and `slab_end` is the end of its chunks. -/
structure ScanPage (s : State) (src dst : Nat) : Prop where
  s_clsid : s.slab_rebal.s_clsid = (src : Int)
  d_clsid : s.slab_rebal.d_clsid = (dst : Int)
  src_ge : 1 ≤ src
  dst_le : dst ≤ s.power_largest
  ne : src ≠ dst
  enabled : s.settings.slab_reassign = true
  rest : ∃ rest, (s.slabclass src).pages = s.slab_rebal.slab_start :: rest
  stop : s.slab_rebal.slab_end =
    s.slab_rebal.slab_start + (s.slabclass src).size * (s.slabclass src).perslab

/-- The cursor of the scan is on chunk number `k` of the page being cleared, and as long as
no chunk was counted busy in this pass the chunks before it are cleared. -/
structure ScanAt (s : State) (src k : Nat) : Prop where
  pos : s.slab_rebal.slab_pos = s.slab_rebal.slab_start + k * (s.slabclass src).size
  seen : s.slab_rebal.busy_items = 0 → ∀ j, j < k → j < (s.slabclass src).perslab →
    is_cleared s.heap (s.slab_rebal.slab_start + j * (s.slabclass src).size)

/-- The record of the page move in progress (signal 2): the page is the first page of the
source, the cursor is on a chunk of it while the scan is not done (at its start when the
class has no chunk), and all its chunks are cleared once `done` is set. -/
structure ScanInv (s : State) (src dst : Nat) : Prop where
  page : ScanPage s src dst
  cursor : ∃ k, ScanAt s src k ∧
    (s.slab_rebal.done = 0 →
      k < (s.slabclass src).perslab ∨ (k = 0 ∧ (s.slabclass src).perslab = 0))
  cleared : s.slab_rebal.done ≠ 0 → ∀ j, j < (s.slabclass src).perslab →
    is_cleared s.heap (s.slab_rebal.slab_start + j * (s.slabclass src).size)

/-- The invariant of the allocator between two critical sections: the freelists and the
pages fit together (`HeapInv`), the signal is 0, 1 or 2, a page move in progress is
recorded consistently (`ScanInv`), `done` is set only during a page move, and a page has
at least one byte. -/
structure SlabInv (s : State) : Prop where
  heap : ∃ Ls, HeapInv s Ls
  signal : s.slab_rebalance_signal = 0 ∨ s.slab_rebalance_signal = 1 ∨
    s.slab_rebalance_signal = 2
  scan : s.slab_rebalance_signal = 2 → ∃ src dst, ScanInv s src dst
  idle : s.slab_rebalance_signal ≠ 2 → s.slab_rebal.done = 0
  page_pos : 0 < s.settings.item_size_max

/-- What a call of the foreground (`do_slabs_alloc`, `do_slabs_free`, `do_slabs_newslab`, a
write of the item subsystem to an item in use) does to a page move in progress: the
rebalance record and the class table stay, the page list of a class only grows at its end,
and a cleared header inside a page of a class stays cleared. -/
structure Foreground (s t : State) : Prop where
  frame : Frame s t
  pages : ∀ j, 1 ≤ j → ∃ l, (t.slabclass j).pages = (s.slabclass j).pages ++ l
  cleared : ∀ j, 1 ≤ j → ∀ q ∈ (s.slabclass j).pages, ∀ a, q ≤ a → a < q + page_len s j →
    is_cleared s.heap a → is_cleared t.heap a

/-- The chunks of a class fit into `P` bytes, and a class with a chunk has a positive chunk
size. -/
def class_fits (P : Nat) (c : slabclass_t) : Prop :=
  c.size * c.perslab ≤ P ∧ (1 ≤ c.perslab → 0 < c.size)

/-- The states that the allocator reaches from the start of `slabs_init` (the table is
built, no page is handed out yet; a page has at least one byte: with `item_size_max = 0`
the largest class has one chunk in a page of 0 bytes, and splitting the page writes the
header of that chunk outside the page).  The flag tells where the rebalance worker stands
in the loop of `slab_rebalance_thread`: `false` before the statement
`if (slab_rebalance_signal == 1) ... else if ...`, `true` between that statement and the
test `if (slab_rebal.done) slab_rebalance_finish();`.  A call of the worker is one step
(in `case MOVE_FROM_LRU:` `slab_rebalance_move` releases `slabs_lock` around its calls into
the item subsystem, whose effect on the item headers is the `MoveEnv` of the iteration),
and the foreground runs between these steps: `do_slabs_newslab` for a class in
`[1, power_largest]` (as `slabs_preallocate` and `do_slabs_alloc` call it),
`do_slabs_alloc`, `do_slabs_free`, a write of the item subsystem to an item header (`v`
replaces the header at `a`), and `do_slabs_reassign`.  The callers and the host keep to the protocol: the memory that
`malloc` returns overlaps no page; a chunk is freed to the class of the page it lies in,
and only when it is in use (the SLABBED flag is clear); the item subsystem writes only to
headers without the SLABBED flag and never sets it (in the worker as well, `EnvOK`); the
worker runs only when `slab_reassign` is on (`start_slab_maintenance_thread` is called
only then). -/
inductive ListReach (b : Build) (cfg : settings_t) : Bool → State → Prop
  | init (heap0 : Nat → item) (limit fnum fden : Nat) (prealloc : Bool) (base : Nat)
      (seed : Option Nat) (hpos : 0 < cfg.item_size_max) :
      ListReach b cfg false
        (slabs_init_start b (boot cfg heap0) limit fnum fden prealloc base seed)
  | newslab (w : Bool) (s : State) (id : Nat) (h : Host) (hs : ListReach b cfg w s)
      (hid1 : 1 ≤ id) (hid2 : id ≤ s.power_largest)
      (hhost : s.mem_base = 0 → (s.slabclass SLAB_GLOBAL_PAGE_POOL).pages = [] →
        h.malloc_ret ≠ 0 → fresh_region s h.malloc_ret (page_len s id)) :
      ListReach b cfg w (do_slabs_newslab s id h).2
  | alloc (w : Bool) (s : State) (size id flags : Nat) (h : Host) (hs : ListReach b cfg w s)
      (hhost : s.mem_base = 0 → (s.slabclass SLAB_GLOBAL_PAGE_POOL).pages = [] →
        h.malloc_ret ≠ 0 → fresh_region s h.malloc_ret (page_len s id)) :
      ListReach b cfg w (do_slabs_alloc s size id flags h).2
  | free (w : Bool) (s : State) (ptr size id : Nat) (hs : ListReach b cfg w s)
      (hc : is_chunk s id ptr) (hb : (s.heap ptr).it_flags &&& ITEM_SLABBED = 0) :
      ListReach b cfg w (do_slabs_free s ptr size id)
  | write (w : Bool) (s : State) (a : Nat) (v : item) (hs : ListReach b cfg w s)
      (h1 : (s.heap a).it_flags &&& ITEM_SLABBED = 0) (h2 : v.it_flags &&& ITEM_SLABBED = 0) :
      ListReach b cfg w (s.setHeap (upd s.heap a v))
  | reassign (w : Bool) (s : State) (src dst : Int) (hs : ListReach b cfg w s) :
      ListReach b cfg w (do_slabs_reassign s src dst).2
  | dispatch (s : State) (was_busy : Nat) (realloc_ok : Bool) (bulk : Int)
      (envs : Nat → MoveEnv) (hs : ListReach b cfg false s)
      (hen : s.settings.slab_reassign = true) (he : ∀ x, EnvOK (envs x)) :
      ListReach b cfg true (rebalance_thread_dispatch s was_busy realloc_ok bulk envs).2
  | finish (s : State) (hs : ListReach b cfg true s) :
      ListReach b cfg false (if s.slab_rebal.done ≠ 0 then slab_rebalance_finish s else s)

/-- The allocator with `cfg_reassign` when `slabs_init(65536, 2.0, true)` has built the
class table: the preallocated region of 64 KiB starts at 4096, no page is handed out. -/
def state_region : State :=
  slabs_init_start build_default (boot cfg_reassign (fun _ => item.zero)) 65536 2 1 true 4096
    none

/-- The state `state_region` after a chunk of class 3 (two chunks of 384 bytes a page) was
handed out and class 3 got a second page: class 3 owns the pages 4096 and 5120, the chunk
4480 is in use, the chunks 5504, 5120 and 4096 are free. -/
def state_in_use : State :=
  (do_slabs_newslab (do_slabs_alloc state_region 300 3 0 (host_ok 0)).2 3 (host_ok 0)).2

/-- The chunk 4480 of class 3 was freed to class 1, then a page move from class 3 to class
2 was requested and started, and one call of `slab_rebalance_move` scanned the two chunks
of the page 4096. -/
def state_wrong_free : State :=
  (rebalance_thread_dispatch
    (rebalance_thread_dispatch (do_slabs_reassign (do_slabs_free state_in_use 4480 300 1) 3 2).2
      0 true 2 (fun _ => env_idle)).2
    0 true 2 (fun _ => env_idle)).2

/-- The allocator with `cfg_small` (`slab_reassign` off, so a page of class 3 has
`384 * 2 = 768` bytes) after `slabs_init(65536, 2.0, true)` built the table (region at
4096), class 3 got the pages 4096 and 4864, and a page move from class 3 to class 2 was
requested. -/
def state_off_request : State :=
  (do_slabs_reassign
    (do_slabs_newslab
      (do_slabs_newslab
        (slabs_init_start build_default (boot cfg_small (fun _ => item.zero)) 65536 2 1 true 4096
          none) 3 (host_ok 0)).2 3 (host_ok 0)).2 3 2).2

/-- The state `state_off_request` after the rebalance worker ran although `slab_reassign`
is off: `slab_rebalance_start`, one call of `slab_rebalance_move` that clears the two free
chunks of the page 4096, and `slab_rebalance_finish`, whose `memset` of `item_size_max =
1024` bytes and whose split into the five chunks of class 2 reach past the 768 bytes of the
page into the page 4864 of class 3. -/
def state_off_overrun : State :=
  slab_rebalance_finish
    (rebalance_thread_dispatch
      (rebalance_thread_dispatch state_off_request 0 true 2 (fun _ => env_idle)).2
      0 true 2 (fun _ => env_idle)).2

/-- Settings with pages of 100 bytes and a chunk base of 48 + 49 = 97 bytes, `slab_reassign`
on: with the growth factor 1.01 the first class has chunks of 104 bytes, more than a page,
so `perslab = 100 / 104 = 0`; the second and last class has one chunk of 100 bytes. -/
def cfg_tiny : settings_t :=
  { item_size_max := 100, chunk_size := 49, slab_reassign := true }

/-- The allocator with `cfg_tiny` after `slabs_init(65536, 1.01, true)` built the table
(region at 4096), class 1 got the pages 4096 and 4200, a page move from class 1 to class 2
was requested, and the worker ran `slab_rebalance_start`. -/
def state_no_chunk : State :=
  (rebalance_thread_dispatch
    (do_slabs_reassign
      (do_slabs_newslab
        (do_slabs_newslab
          (slabs_init_start build_default (boot cfg_tiny (fun _ => item.zero)) 65536 101 100
            true 4096 none) 1 (host_ok 0)).2 1 (host_ok 0)).2 1 2).2
    0 true 1 (fun _ => env_idle)).2

/-- The state `state_region` after class 3 got the pages 4096 and 5120, a page move from
class 3 to class 2 was requested, and the worker ran `slab_rebalance_start`: the cursor is
on the first of the two chunks of the page 4096. -/
def state_scan : State :=
  (rebalance_thread_dispatch
    (do_slabs_reassign
      (do_slabs_newslab (do_slabs_newslab state_region 3 (host_ok 0)).2 3 (host_ok 0)).2 3 2).2
    0 true 1 (fun _ => env_idle)).2

/-- The operations that leave the capacities of the page vectors alone. -/
structure SameCap (s t : State) : Prop where
  list_size : ∀ j, (t.slabclass j).list_size = (s.slabclass j).list_size

/-- The invariant of the page vectors between the critical sections of `slabs_lock`: every
class has `slabs <= list_size`, the signal is 0, 1 or 2, and while a page is being moved
(signal 2) the published ids are a source `src >= 1` that owns a page and a destination
`dst` other than it whose page vector has a spare slot. -/
structure CapInv (s : State) : Prop where
  le : ∀ j, (s.slabclass j).slabs ≤ (s.slabclass j).list_size
  signal : s.slab_rebalance_signal = 0 ∨ s.slab_rebalance_signal = 1 ∨
    s.slab_rebalance_signal = 2
  spare : s.slab_rebalance_signal = 2 →
    ∃ src dst : Nat, s.slab_rebal.s_clsid = (src : Int) ∧ s.slab_rebal.d_clsid = (dst : Int) ∧
      1 ≤ src ∧ src ≠ dst ∧ 1 ≤ (s.slabclass src).slabs ∧
      (s.slabclass dst).slabs < (s.slabclass dst).list_size

/-- The states that the allocator reaches from `slabs_init` through `do_slabs_newslab`,
`do_slabs_alloc`, `do_slabs_free`, `do_slabs_reassign` and the turns of the rebalance
worker, when between `slab_rebalance_start` and `slab_rebalance_finish` (signal 2) no page
is added to the destination class: `do_slabs_newslab` is not called for it, and
`do_slabs_alloc` is called for it only with a non-empty freelist or with the flag
`SLABS_ALLOC_NO_NEWPAGE`. -/
inductive SerialReach (b : Build) (cfg : settings_t) : State → Prop
  | init (heap0 : Nat → item) (limit fnum fden : Nat) (prealloc : Bool) (base : Nat)
      (seed : Option Nat) :
      SerialReach b cfg (slabs_init_start b (boot cfg heap0) limit fnum fden prealloc base seed)
  | newslab (s : State) (id : Nat) (h : Host) (hs : SerialReach b cfg s) (hid : 1 ≤ id)
      (hq : s.slab_rebalance_signal = 2 → (id : Int) ≠ s.slab_rebal.d_clsid) :
      SerialReach b cfg (do_slabs_newslab s id h).2
  | alloc (s : State) (size id flags : Nat) (h : Host) (hs : SerialReach b cfg s)
      (hq : s.slab_rebalance_signal = 2 → (id : Int) = s.slab_rebal.d_clsid →
        (s.slabclass id).sl_curr ≠ 0 ∨ flags = SLABS_ALLOC_NO_NEWPAGE) :
      SerialReach b cfg (do_slabs_alloc s size id flags h).2
  | free (s : State) (ptr size id : Nat) (hs : SerialReach b cfg s) :
      SerialReach b cfg (do_slabs_free s ptr size id)
  | reassign (s : State) (src dst : Int) (hs : SerialReach b cfg s) :
      SerialReach b cfg (do_slabs_reassign s src dst).2
  | worker (s : State) (was_busy : Nat) (realloc_ok : Bool) (bulk : Int)
      (envs : Nat → MoveEnv) (hs : SerialReach b cfg s) :
      SerialReach b cfg (rebalance_thread_step s was_busy realloc_ok bulk envs).2

/-! # Verified properties -/

/-! ## C1: `slabs_clsid` is a linear search for the smallest fitting class -/

theorem slabs_clsid_loop_spec (s : State) (size : Nat) :
    ∀ fuel res, 1 ≤ res → res ≤ s.power_largest → s.power_largest < res + fuel →
      (∀ j, 1 ≤ j → j < res → (s.slabclass j).size < size) →
      ∃ r, slabs_clsid_loop s size fuel res = some r ∧
        ((r = 0 ∧ ∀ j, 1 ≤ j → j ≤ s.power_largest → (s.slabclass j).size < size) ∨
         (1 ≤ r ∧ r ≤ s.power_largest ∧ size ≤ (s.slabclass r).size ∧
            ∀ j, 1 ≤ j → j < r → (s.slabclass j).size < size)) := by
  intro fuel
  induction fuel with
  | zero => intro res _ h2 h3; omega
  | succ n ih =>
    intro res h1 h2 h3 hlow
    unfold slabs_clsid_loop
    by_cases hgt : size > (s.slabclass res).size
    · by_cases hlast : res = s.power_largest
      · refine ⟨0, by rw [if_pos hgt, if_pos hlast], Or.inl ⟨rfl, ?_⟩⟩
        intro j hj1 hj2
        rcases Nat.lt_or_ge j res with hlt | hge
        · exact hlow j hj1 hlt
        · have : j = res := by omega
          subst this; exact hgt
      · have hstep := ih (res + 1) (by omega) (by omega) (by omega) (by
          intro j hj1 hj2
          rcases Nat.lt_or_ge j res with hlt | hge
          · exact hlow j hj1 hlt
          · have : j = res := by omega
            subst this; exact hgt)
        rw [if_pos hgt, if_neg hlast]
        exact hstep
    · refine ⟨res, by rw [if_neg hgt], Or.inr ⟨h1, h2, by omega, hlow⟩⟩

/-- More fuel than `power_largest` does not change the result of the search. -/
theorem slabs_clsid_loop_fuel (s : State) (size : Nat) :
    ∀ fuel res r, slabs_clsid_loop s size fuel res = some r →
      slabs_clsid_loop s size (fuel + 1) res = some r := by
  intro fuel
  induction fuel with
  | zero => intro res r h; simp [slabs_clsid_loop] at h
  | succ n ih =>
    intro res r h
    unfold slabs_clsid_loop at h ⊢
    by_cases hgt : size > (s.slabclass res).size
    · by_cases hlast : res = s.power_largest
      · rw [if_pos hgt, if_pos hlast] at h ⊢
        exact h
      · rw [if_pos hgt, if_neg hlast] at h ⊢
        exact ih _ _ h
    · rw [if_neg hgt] at h ⊢
      exact h

/-- The result of `slabs_clsid` on an initialised table. -/
theorem slabs_clsid_search (s : State) (hinit : 1 ≤ s.power_largest) :
    slabs_clsid s 0 = some 0 ∧
    ∀ size, 0 < size → ∃ r, slabs_clsid s size = some r ∧
      (r = 0 ↔ ∀ j, 1 ≤ j → j ≤ s.power_largest → (s.slabclass j).size < size) ∧
      (r ≠ 0 → 1 ≤ r ∧ r ≤ s.power_largest ∧ size ≤ (s.slabclass r).size ∧
        ∀ j, 1 ≤ j → j < r → (s.slabclass j).size < size) := by
  refine ⟨by simp [slabs_clsid], ?_⟩
  intro size hpos
  obtain ⟨r, hr, hspec⟩ := slabs_clsid_loop_spec s size s.power_largest 1 (le_refl 1) hinit
    (by omega) (by intro j h1 h2; omega)
  refine ⟨r, by simp [slabs_clsid, Nat.pos_iff_ne_zero.mp hpos, hr], ?_, ?_⟩
  · constructor
    · intro h0
      rcases hspec with ⟨_, hall⟩ | ⟨h1, _⟩
      · exact hall
      · omega
    · intro hall
      rcases hspec with ⟨h0, _⟩ | ⟨h1, h2, h3, _⟩
      · exact h0
      · have := hall r h1 h2; omega
  · intro hne
    rcases hspec with ⟨h0, _⟩ | h
    · exact absurd h0 hne
    · exact h

/-- C1: for an initialised table (`power_largest ≥ 1`), `slabs_clsid 0 = 0`, and for
`size > 0` the search returns a value `r`; `r = 0` exactly when no class in
`[1, power_largest]` has `slabclass[i].size ≥ size`, and otherwise `r` is the smallest
index in `[1, power_largest]` with `slabclass[r].size ≥ size`. -/
theorem slabs_clsid_smallest_fit (s : State) (hinit : 1 ≤ s.power_largest) :
    slabs_clsid s 0 = some 0 ∧
    ∀ size, 0 < size → ∃ r, slabs_clsid s size = some r ∧
      (r = 0 ↔ ∀ j, 1 ≤ j → j ≤ s.power_largest → (s.slabclass j).size < size) ∧
      (r ≠ 0 → 1 ≤ r ∧ r ≤ s.power_largest ∧ size ≤ (s.slabclass r).size ∧
        ∀ j, 1 ≤ j → j < r → (s.slabclass j).size < size) :=
  slabs_clsid_search s hinit

set_option maxRecDepth 100000 in
/-- Witness of C1: the table of the default configuration. -/
theorem slabs_clsid_smallest_fit_witness :
    1 ≤ table_default.power_largest ∧
    slabs_clsid table_default 0 = some 0 ∧
    ∀ size, 0 < size → ∃ r, slabs_clsid table_default size = some r ∧
      (r = 0 ↔ ∀ j, 1 ≤ j → j ≤ table_default.power_largest →
        (table_default.slabclass j).size < size) ∧
      (r ≠ 0 → 1 ≤ r ∧ r ≤ table_default.power_largest ∧
        size ≤ (table_default.slabclass r).size ∧
        ∀ j, 1 ≤ j → j < r → (table_default.slabclass j).size < size) :=
  ⟨by decide, slabs_clsid_smallest_fit table_default (by decide)⟩

/-! ## Shape of the table built by `slabs_init` -/

theorem upd_same {α : Type} (f : Nat → α) (k : Nat) (v : α) : upd f k v k = v := by
  simp [upd]

theorem upd_other {α : Type} (f : Nat → α) (k : Nat) (v : α) (a : Nat) (h : a ≠ k) :
    upd f k v a = f a := by
  simp [upd, h]

theorem align_chunk_dvd (n : Nat) : 8 ∣ align_chunk n := by
  simp only [align_chunk, CHUNK_ALIGN_BYTES]
  split <;> omega

theorem align_chunk_bounds (n : Nat) : n ≤ align_chunk n ∧ align_chunk n < n + 8 := by
  simp only [align_chunk, CHUNK_ALIGN_BYTES]
  split <;> omega

theorem align_chunk_mono {a b : Nat} (h : a ≤ b) : align_chunk a ≤ align_chunk b := by
  have h1 := align_chunk_dvd a
  have h2 := align_chunk_dvd b
  have h3 := align_chunk_bounds a
  have h4 := align_chunk_bounds b
  omega

/-! ### Rounding to a `double` never crosses an integer below `2^53` -/

/-- A `double` that is an integer below `2^53` times a power of two is its own nearest
`double`; in particular 5/4, 2 and 129/128 are growth factors the program holds exactly. -/
theorem round_double_examples :
    round_double 5 4 = (5 * 2 ^ 50, 2 ^ 52) ∧ round_double 2 1 = (2 ^ 52, 2 ^ 51) ∧
    round_double 129 128 = (129 * 2 ^ 45, 2 ^ 52) ∧
    round_double 51 40 = (5742089524897382, 2 ^ 52) := by
  decide
/-- The fuel `MAX_NUMBER_OF_SLAB_CLASSES` that `slabs_init` gives its loop is enough: any
fuel of at least `MAX - 1 - i` gives the same result. -/
theorem slabs_init_loop_fuel (cfg : settings_t) (MAX fnum fden : Nat) :
    ∀ fuel i size tab, MAX ≤ fuel + i + 1 →
      slabs_init_loop cfg MAX fnum fden (fuel + 1) i size tab =
        slabs_init_loop cfg MAX fnum fden fuel i size tab := by
  intro fuel
  induction fuel with
  | zero =>
    intro i size tab h
    have : ¬ (i + 1 < MAX - 1 ∧
        size_fits cfg.item_size_max (round_double fnum fden) size = true) := by omega
    simp [slabs_init_loop, this]
  | succ n ih =>
    intro i size tab h
    rw [slabs_init_loop]
    conv_rhs => rw [slabs_init_loop]
    by_cases htest : i + 1 < MAX - 1 ∧
        size_fits cfg.item_size_max (round_double fnum fden) size = true
    · simp only [htest, and_self, if_true]
      exact ih _ _ _ (by omega)
    · simp only [htest, if_false]

/-! ## What the allocator operations never change -/

theorem Frame.refl (s : State) : Frame s s :=
  ⟨rfl, rfl, rfl, rfl, rfl, rfl, fun _ => rfl, fun _ => rfl⟩

theorem Frame.trans {s t u : State} (h1 : Frame s t) (h2 : Frame t u) : Frame s u :=
  ⟨h2.settings.trans h1.settings, h2.power_largest.trans h1.power_largest,
   h2.mem_limit.trans h1.mem_limit, h2.mem_base.trans h1.mem_base,
   h2.slab_rebal.trans h1.slab_rebal, h2.signal.trans h1.signal,
   fun j => (h2.size j).trans (h1.size j), fun j => (h2.perslab j).trans (h1.perslab j)⟩

theorem Frame.page_len {s t : State} (h : Frame s t) (j : Nat) :
    page_len t j = page_len s j := by
  simp [Slabs.page_len, h.settings, h.size j, h.perslab j]

theorem setClass_frame (s : State) (id : Nat) (p : slabclass_t)
    (hsize : p.size = (s.slabclass id).size) (hper : p.perslab = (s.slabclass id).perslab) :
    Frame s (s.setClass id p) := by
  refine ⟨rfl, rfl, rfl, rfl, rfl, rfl, ?_, ?_⟩ <;>
    (intro j; by_cases hj : j = id <;> simp [State.setClass, upd, hj, hsize, hper])

theorem setHeap_frame (s : State) (h : Nat → item) : Frame s (s.setHeap h) :=
  ⟨rfl, rfl, rfl, rfl, rfl, rfl, fun _ => rfl, fun _ => rfl⟩

theorem do_slabs_free_frame (s : State) (ptr size id : Nat) :
    Frame s (do_slabs_free s ptr size id) := by
  unfold do_slabs_free
  split
  · exact Frame.refl s
  · exact (setHeap_frame s _).trans (setClass_frame _ id _ rfl rfl)

theorem split_loop_frame (id : Nat) :
    ∀ n ptr s, Frame s (split_loop id n ptr s) := by
  intro n
  induction n with
  | zero => intro ptr s; exact Frame.refl s
  | succ n ih =>
    intro ptr s
    unfold split_loop
    exact (do_slabs_free_frame s ptr 0 id).trans (ih _ _)

theorem grow_slab_list_frame (s : State) (id : Nat) (ok : Bool) :
    Frame s (grow_slab_list s id ok).2 := by
  unfold grow_slab_list
  simp only
  split
  · split
    · exact Frame.refl s
    · exact setClass_frame s id _ rfl rfl
  · exact Frame.refl s

theorem get_page_from_global_pool_frame (s : State) :
    Frame s (get_page_from_global_pool s).2 := by
  unfold get_page_from_global_pool
  simp only
  split
  · exact Frame.refl s
  · exact setClass_frame s _ _ rfl rfl

theorem memory_allocate_frame (s : State) (size ret : Nat) :
    Frame s (memory_allocate s size ret).2 := by
  unfold memory_allocate
  split
  · exact ⟨rfl, rfl, rfl, rfl, rfl, rfl, fun _ => rfl, fun _ => rfl⟩
  · split
    · exact Frame.refl s
    · exact ⟨rfl, rfl, rfl, rfl, rfl, rfl, fun _ => rfl, fun _ => rfl⟩

theorem newslab_get_page_frame (s : State) (len ret : Nat) :
    Frame s (newslab_get_page s len ret).2 := by
  unfold newslab_get_page
  simp only
  split
  · exact (get_page_from_global_pool_frame s).trans (memory_allocate_frame _ _ _)
  · exact get_page_from_global_pool_frame s

theorem newslab_install_frame (s : State) (ptr id len : Nat) :
    Frame s (newslab_install s ptr id len) :=
  Frame.trans (Frame.trans (setHeap_frame s _) (split_loop_frame id _ _ _))
    (setClass_frame _ id _ rfl rfl)

/-- The four ways through `do_slabs_newslab`. -/
theorem do_slabs_newslab_cases (s : State) (id : Nat) (h : Host) :
    (s.mem_limit ≠ 0 ∧ s.mem_malloced + page_len s id > s.mem_limit ∧
        (s.slabclass id).slabs > 0 ∧ (s.slabclass SLAB_GLOBAL_PAGE_POOL).slabs = 0 ∧
      do_slabs_newslab s id h = (0, { s with mem_limit_reached := true })) ∨
    (¬ (s.mem_limit ≠ 0 ∧ s.mem_malloced + page_len s id > s.mem_limit ∧
        (s.slabclass id).slabs > 0 ∧ (s.slabclass SLAB_GLOBAL_PAGE_POOL).slabs = 0) ∧
      ((grow_slab_list s id h.realloc_ok).1 = 0 ∧
        do_slabs_newslab s id h = (0, (grow_slab_list s id h.realloc_ok).2) ∨
       (grow_slab_list s id h.realloc_ok).1 ≠ 0 ∧
        ((newslab_get_page (grow_slab_list s id h.realloc_ok).2 (page_len s id) h.malloc_ret).1
            = 0 ∧
          do_slabs_newslab s id h = (0,
            (newslab_get_page (grow_slab_list s id h.realloc_ok).2 (page_len s id)
              h.malloc_ret).2) ∨
         (newslab_get_page (grow_slab_list s id h.realloc_ok).2 (page_len s id) h.malloc_ret).1
            ≠ 0 ∧
          do_slabs_newslab s id h = (1,
            newslab_install
              (newslab_get_page (grow_slab_list s id h.realloc_ok).2 (page_len s id)
                h.malloc_ret).2
              (newslab_get_page (grow_slab_list s id h.realloc_ok).2 (page_len s id)
                h.malloc_ret).1 id (page_len s id))))) := by
  by_cases hlim : s.mem_limit ≠ 0 ∧ s.mem_malloced + page_len s id > s.mem_limit ∧
      (s.slabclass id).slabs > 0 ∧ (s.slabclass SLAB_GLOBAL_PAGE_POOL).slabs = 0
  · left
    refine ⟨hlim.1, hlim.2.1, hlim.2.2.1, hlim.2.2.2, ?_⟩
    unfold do_slabs_newslab; dsimp only; rw [if_pos hlim]
  · right
    refine ⟨hlim, ?_⟩
    by_cases hg : (grow_slab_list s id h.realloc_ok).1 = 0
    · left
      refine ⟨hg, ?_⟩
      unfold do_slabs_newslab; dsimp only; rw [if_neg hlim, if_pos hg]
    · right
      refine ⟨hg, ?_⟩
      by_cases hm : (newslab_get_page (grow_slab_list s id h.realloc_ok).2 (page_len s id)
          h.malloc_ret).1 = 0
      · left
        refine ⟨hm, ?_⟩
        unfold do_slabs_newslab; dsimp only; rw [if_neg hlim, if_neg hg, if_pos hm]
      · right
        refine ⟨hm, ?_⟩
        unfold do_slabs_newslab; dsimp only; rw [if_neg hlim, if_neg hg, if_neg hm]

theorem do_slabs_newslab_frame (s : State) (id : Nat) (h : Host) :
    Frame s (do_slabs_newslab s id h).2 := by
  have hg := grow_slab_list_frame s id h.realloc_ok
  have hm := newslab_get_page_frame (grow_slab_list s id h.realloc_ok).2 (page_len s id)
    h.malloc_ret
  rcases do_slabs_newslab_cases s id h with ⟨_, _, _, _, e⟩ | ⟨_, ⟨_, e⟩ | ⟨_, ⟨_, e⟩ | ⟨_, e⟩⟩⟩
  · rw [e]; exact ⟨rfl, rfl, rfl, rfl, rfl, rfl, fun _ => rfl, fun _ => rfl⟩
  · rw [e]; exact hg
  · rw [e]; exact hg.trans hm
  · rw [e]; exact (hg.trans hm).trans (newslab_install_frame _ _ _ _)

theorem freelist_pop_frame (s : State) (size id : Nat) :
    Frame s (freelist_pop s size id).2 :=
  (setHeap_frame s _).trans (setClass_frame _ id _ rfl rfl)

theorem alloc_refill_frame (s : State) (id flags : Nat) (h : Host) :
    Frame s (alloc_refill s id flags h) := by
  unfold alloc_refill
  split
  · exact do_slabs_newslab_frame s id h
  · exact Frame.refl s

/-- The three ways through `do_slabs_alloc`. -/
theorem do_slabs_alloc_cases (s : State) (size id flags : Nat) (h : Host) :
    ((id < POWER_SMALLEST ∨ id > s.power_largest) ∧ do_slabs_alloc s size id flags h = (0, s)) ∨
    (¬ (id < POWER_SMALLEST ∨ id > s.power_largest) ∧
      (((alloc_refill s id flags h).slabclass id).sl_curr ≠ 0 ∧
        do_slabs_alloc s size id flags h = freelist_pop (alloc_refill s id flags h) size id ∨
       ((alloc_refill s id flags h).slabclass id).sl_curr = 0 ∧
        do_slabs_alloc s size id flags h = (0, alloc_refill s id flags h))) := by
  by_cases hid : id < POWER_SMALLEST ∨ id > s.power_largest
  · left
    refine ⟨hid, ?_⟩
    unfold do_slabs_alloc; rw [if_pos hid]
  · right
    refine ⟨hid, ?_⟩
    by_cases hc : ((alloc_refill s id flags h).slabclass id).sl_curr ≠ 0
    · left
      refine ⟨hc, ?_⟩
      unfold do_slabs_alloc; dsimp only; rw [if_neg hid, if_pos hc]
    · right
      refine ⟨not_not.mp hc, ?_⟩
      unfold do_slabs_alloc; dsimp only; rw [if_neg hid, if_neg hc]

theorem do_slabs_alloc_frame (s : State) (size id flags : Nat) (h : Host) :
    Frame s (do_slabs_alloc s size id flags h).2 := by
  rcases do_slabs_alloc_cases s size id flags h with ⟨_, e⟩ | ⟨_, ⟨_, e⟩ | ⟨_, e⟩⟩
  · rw [e]; exact Frame.refl s
  · rw [e]; exact (alloc_refill_frame s id flags h).trans (freelist_pop_frame _ _ _)
  · rw [e]; exact alloc_refill_frame s id flags h

/-! ## The table of `slabs_init` under sane settings -/

/-- The fuel `MAX_NUMBER_OF_SLAB_CLASSES` that `slabs_preallocate` gives its loop is enough:
once `MAX ≤ fuel + i`, more fuel gives the same result. -/
theorem slabs_preallocate_loop_fuel (hosts : Nat → Host) (maxslabs MAX : Nat) :
    ∀ fuel i pre s, MAX ≤ fuel + i →
      slabs_preallocate_loop hosts maxslabs MAX (fuel + 1) i pre s =
        slabs_preallocate_loop hosts maxslabs MAX fuel i pre s := by
  intro fuel
  induction fuel with
  | zero =>
    intro i pre s h
    have : ¬ i < MAX := by omega
    simp [slabs_preallocate_loop, this]
  | succ n ih =>
    intro i pre s h
    rw [slabs_preallocate_loop]
    conv_rhs => rw [slabs_preallocate_loop]
    by_cases h1 : i < MAX
    · rw [if_pos h1, if_pos h1]
      by_cases h2 : pre + 1 > maxslabs
      · rw [if_pos h2, if_pos h2]
      · rw [if_neg h2, if_neg h2]
        by_cases h3 : (do_slabs_newslab s i (hosts i)).1 = 0
        · rw [if_pos h3, if_pos h3]
        · rw [if_neg h3, if_neg h3]
          exact ih _ _ _ (by omega)
    · rw [if_neg h1, if_neg h1]

/-- Without preallocation `slabs_init` always returns. -/
theorem slabs_init_returns (b : Build) (s0 : State) (limit fnum fden : Nat) (base : Nat)
    (seed : Option Nat) (hosts : Nat → Host) :
    ∃ s, slabs_init b s0 limit fnum fden false base seed hosts = some s := by
  unfold slabs_init
  dsimp only
  simp only [Bool.false_eq_true, if_false]
  exact ⟨_, rfl⟩

/-- Strictly increasing consecutive sizes are strictly increasing. -/
theorem GoodTable.lt_of_lt {s : State} (h : GoodTable s) :
    ∀ i j, 1 ≤ i → i < j → j ≤ s.power_largest →
      (s.slabclass i).size < (s.slabclass j).size := by
  intro i j h1 hij
  induction j with
  | zero => omega
  | succ n ih =>
    intro hn
    rcases Nat.lt_or_ge i n with hlt | hge
    · exact lt_trans (ih hlt (by omega)) (h.strict n (by omega) (by omega))
    · have : i = n := by omega
      subst this; exact h.strict i h1 (by omega)

theorem GoodTable.clsid {s : State} (h : GoodTable s) :
    (∀ i, 1 ≤ i → i ≤ s.power_largest → slabs_clsid s (s.slabclass i).size = some i) ∧
    slabs_clsid s ((s.slabclass s.power_largest).size + 1) = some 0 := by
  constructor
  · intro i h1 h2
    obtain ⟨r, hr, hzero, hnz⟩ :=
      (slabs_clsid_search s h.one_le).2 (s.slabclass i).size (h.pos i h1 h2)
    have hr0 : r ≠ 0 := by
      intro h0
      have := hzero.mp h0 i h1 h2
      omega
    obtain ⟨hr1, hr2, hfit, hsmall⟩ := hnz hr0
    rcases Nat.lt_trichotomy r i with hlt | heq | hgt
    · have := h.lt_of_lt r i hr1 hlt h2
      omega
    · rw [hr, heq]
    · have := hsmall i h1 hgt
      omega
  · obtain ⟨r, hr, hzero, _⟩ :=
      (slabs_clsid_search s h.one_le).2 ((s.slabclass s.power_largest).size + 1) (by omega)
    have h0 : r = 0 := by
      apply hzero.mpr
      intro j hj1 hj2
      rcases Nat.lt_or_ge j s.power_largest with hlt | hge
      · have := h.lt_of_lt j s.power_largest hj1 hlt (le_refl _)
        omega
      · have : j = s.power_largest := by omega
        subst this; omega
    rw [hr, h0]

set_option maxRecDepth 100000 in
/-- The rounding of `size *= factor` is visible in the table: with the growth factor 1.275
class 9 has 760-byte chunks, the exact product `760 * 1.275` is 969, which the alignment
would lift to 976, and class 10 has 968-byte chunks. -/
theorem state_1275_class_ten :
    (state_1275.slabclass 9).size = 760 ∧ 760 * 51 / 40 = 969 ∧ align_chunk 969 = 976 ∧
    grow_size (round_double 51 40) 760 = 968 ∧ (state_1275.slabclass 10).size = 968 := by
  decide

/-! ## C2: `slabs_clsid` on the chunk sizes of the table -/

@[simp] theorem setClass_slabclass (s : State) (id : Nat) (p : slabclass_t) :
    (s.setClass id p).slabclass = upd s.slabclass id p := rfl

@[simp] theorem setClass_heap (s : State) (id : Nat) (p : slabclass_t) :
    (s.setClass id p).heap = s.heap := rfl

@[simp] theorem setClass_power_largest (s : State) (id : Nat) (p : slabclass_t) :
    (s.setClass id p).power_largest = s.power_largest := rfl

@[simp] theorem setClass_mem_malloced (s : State) (id : Nat) (p : slabclass_t) :
    (s.setClass id p).mem_malloced = s.mem_malloced := rfl

@[simp] theorem setHeap_slabclass (s : State) (h : Nat → item) :
    (s.setHeap h).slabclass = s.slabclass := rfl

@[simp] theorem setHeap_heap (s : State) (h : Nat → item) : (s.setHeap h).heap = h := rfl

@[simp] theorem setHeap_power_largest (s : State) (h : Nat → item) :
    (s.setHeap h).power_largest = s.power_largest := rfl

@[simp] theorem setHeap_mem_malloced (s : State) (h : Nat → item) :
    (s.setHeap h).mem_malloced = s.mem_malloced := rfl

theorem is_freelist_congr {h1 h2 : Nat → item} (hn : ∀ a, (h2 a).next = (h1 a).next) :
    ∀ l head, is_freelist h1 head l → is_freelist h2 head l := by
  intro l
  induction l with
  | nil => intro head h; exact h
  | cons a l ih =>
    intro head h
    obtain ⟨e, ha, hl⟩ := h
    exact ⟨e, ha, by rw [hn a]; exact ih _ hl⟩

/-! ## The freelist pop of `do_slabs_alloc` -/

theorem freelist_pop_class (s : State) (size id : Nat) :
    (freelist_pop s size id).2.slabclass id =
      { s.slabclass id with
        slots := (s.heap (s.slabclass id).slots).next
        sl_curr := (s.slabclass id).sl_curr - 1
        requested := if (s.slabclass id).slots ≠ 0 then
            ((s.slabclass id).requested + size) % SIZE_MAX1
          else (s.slabclass id).requested } := by
  simp [freelist_pop, upd_same]

theorem freelist_pop_class_other (s : State) (size id j : Nat) (hj : j ≠ id) :
    (freelist_pop s size id).2.slabclass j = s.slabclass j := by
  simp [freelist_pop, upd_other _ _ _ _ hj]

theorem upd_next (f : Nat → item) (k : Nat) (v : item) (hv : v.next = (f k).next) (a : Nat) :
    (upd f k v a).next = (f a).next := by
  unfold upd
  split
  · rename_i e; rw [e]; exact hv
  · rfl

/-- The item headers after the unlinking of the head `it` in `freelist_pop`, before the
flags and the reference count of `it` are set. -/
theorem pop_unlink_next (heap : Nat → item) (nxt a : Nat) :
    ((if nxt ≠ 0 then upd heap nxt { heap nxt with prev := 0 } else heap) a).next
      = (heap a).next := by
  split
  · exact upd_next heap nxt { heap nxt with prev := 0 } rfl a
  · rfl

theorem freelist_pop_next (s : State) (size id a : Nat) :
    ((freelist_pop s size id).2.heap a).next = (s.heap a).next := by
  unfold freelist_pop
  dsimp only [setClass_heap, setHeap_heap]
  refine (upd_next _ _ _ ?_ a).trans (pop_unlink_next _ _ a)
  rfl

theorem freelist_pop_head (s : State) (size id : Nat) :
    ((freelist_pop s size id).2.heap (s.slabclass id).slots).it_flags =
        (s.heap (s.slabclass id).slots).it_flags &&& (255 - ITEM_SLABBED) ∧
    ((freelist_pop s size id).2.heap (s.slabclass id).slots).refcount = 1 := by
  unfold freelist_pop
  dsimp only [setClass_heap, setHeap_heap]
  rw [upd_same]
  refine ⟨?_, rfl⟩
  show ((if _ then _ else _ : Nat → item) (s.slabclass id).slots).it_flags &&& _ = _
  split
  · unfold upd; dsimp only; split
    · rename_i e; rw [← e]
    · rfl
  · rfl

theorem freelist_pop_new_head (s : State) (size id : Nat)
    (hn : (s.heap (s.slabclass id).slots).next ≠ 0) :
    ((freelist_pop s size id).2.heap (s.heap (s.slabclass id).slots).next).prev = 0 := by
  unfold freelist_pop
  dsimp only [setClass_heap, setHeap_heap]
  rw [if_pos hn]
  by_cases e : (s.heap (s.slabclass id).slots).next = (s.slabclass id).slots
  · rw [e, upd_same]
    show (upd s.heap _ _ _).prev = 0
    rw [upd_same]
  · rw [upd_other _ _ _ _ e, upd_same]

theorem land_clear_slabbed (x : Nat) : (x &&& (255 - ITEM_SLABBED)) &&& ITEM_SLABBED = 0 := by
  rw [Nat.land_assoc]
  have : (255 - ITEM_SLABBED) &&& ITEM_SLABBED = 0 := by decide
  rw [this]; simp

theorem alloc_refill_of_free (s : State) (id flags : Nat) (h : Host)
    (hfree : (s.slabclass id).sl_curr ≠ 0) : alloc_refill s id flags h = s := by
  unfold alloc_refill
  rw [if_neg (by intro hc; exact hfree hc.1)]

theorem do_slabs_alloc_of_free (s : State) (size id flags : Nat) (h : Host)
    (hid1 : 1 ≤ id) (hid2 : id ≤ s.power_largest)
    (hfree : (s.slabclass id).sl_curr ≠ 0) :
    do_slabs_alloc s size id flags h = freelist_pop s size id := by
  rcases do_slabs_alloc_cases s size id flags h with ⟨hbad, _⟩ | ⟨_, ⟨_, e⟩ | ⟨hz, _⟩⟩
  · simp only [POWER_SMALLEST] at hbad; omega
  · rw [e, alloc_refill_of_free s id flags h hfree]
  · rw [alloc_refill_of_free s id flags h hfree] at hz; exact absurd hz hfree

theorem pages_congr {p q : slabclass_t} (h1 : q.slabs = p.slabs)
    (h2 : q.slab_list = p.slab_list) : q.pages = p.pages := by
  simp [slabclass_t.pages, h1, h2]

/-! ## C4: `do_slabs_alloc` on a non-empty freelist -/

/-- C4 (as stated): `requested` is a `size_t` and `p->requested += size` wraps.  In
`state_small_page` after one allocation of 96 bytes from class 1 (`requested = 96`, nine
chunks free), `do_slabs_alloc(2^64 - 1, 1, _, 0)` returns the head 4864 and leaves
`requested = 95`, which is not `96 + (2^64 - 1)`.  Likewise, after an allocation of 0 bytes
and `do_slabs_free(4960, 1, 1)` the counter is `2^64 - 1`, and an allocation of 2 bytes
leaves it at 1. -/
theorem do_slabs_alloc_requested_counterexample :
    (((do_slabs_alloc state_small_page 96 1 0 (host_ok 0)).2.slabclass 1).sl_curr = 9 ∧
      ((do_slabs_alloc state_small_page 96 1 0 (host_ok 0)).2.slabclass 1).requested = 96 ∧
      (do_slabs_alloc (do_slabs_alloc state_small_page 96 1 0 (host_ok 0)).2
        18446744073709551615 1 0 (host_ok 0)).1 = 4864 ∧
      ((do_slabs_alloc (do_slabs_alloc state_small_page 96 1 0 (host_ok 0)).2
        18446744073709551615 1 0 (host_ok 0)).2.slabclass 1).requested = 95 ∧
      ((do_slabs_alloc (do_slabs_alloc state_small_page 96 1 0 (host_ok 0)).2
        18446744073709551615 1 0 (host_ok 0)).2.slabclass 1).requested ≠
        ((do_slabs_alloc state_small_page 96 1 0 (host_ok 0)).2.slabclass 1).requested
          + 18446744073709551615) ∧
    ((do_slabs_alloc state_small_page 0 1 0 (host_ok 0)).1 = 4960 ∧
      ((do_slabs_free (do_slabs_alloc state_small_page 0 1 0 (host_ok 0)).2 4960 1 1).slabclass
        1).requested = 18446744073709551615 ∧
      ((do_slabs_free (do_slabs_alloc state_small_page 0 1 0 (host_ok 0)).2 4960 1 1).slabclass
        1).sl_curr = 10 ∧
      (do_slabs_alloc
        (do_slabs_free (do_slabs_alloc state_small_page 0 1 0 (host_ok 0)).2 4960 1 1)
        2 1 0 (host_ok 0)).1 = 4960 ∧
      ((do_slabs_alloc
        (do_slabs_free (do_slabs_alloc state_small_page 0 1 0 (host_ok 0)).2 4960 1 1)
        2 1 0 (host_ok 0)).2.slabclass 1).requested = 1) := by
  exact ⟨by decide, by decide⟩

/-- C4 (amended): for a valid class id whose freelist is non-empty (`sl_curr ≠ 0`, head not
`NULL`), `do_slabs_alloc(size, id, _, flags)` returns the chunk that was the freelist head;
the new head is the old head's `next` and the freelist is the old list without its head (the
new head's `prev` is cleared); the returned chunk has its SLABBED bit cleared (the other
flag bits are kept) and `refcount = 1`; `sl_curr` decreases by exactly 1; `requested`
becomes `(requested + size) mod 2^64`, the sum in `size_t` arithmetic; the page list is
unchanged; and `requested` increases by exactly `size` when `requested + size < 2^64`. -/
theorem do_slabs_alloc_pops_head (s : State) (size id flags : Nat) (h : Host)
    (hid1 : 1 ≤ id) (hid2 : id ≤ s.power_largest)
    (hfree : (s.slabclass id).sl_curr ≠ 0) (hhead : (s.slabclass id).slots ≠ 0) :
    (do_slabs_alloc s size id flags h).1 = (s.slabclass id).slots ∧
    ((do_slabs_alloc s size id flags h).2.slabclass id).slots =
      (s.heap (s.slabclass id).slots).next ∧
    (∀ a l, is_freelist s.heap (s.slabclass id).slots (a :: l) →
      is_freelist (do_slabs_alloc s size id flags h).2.heap
        ((do_slabs_alloc s size id flags h).2.slabclass id).slots l) ∧
    ((s.heap (s.slabclass id).slots).next ≠ 0 →
      ((do_slabs_alloc s size id flags h).2.heap
        (s.heap (s.slabclass id).slots).next).prev = 0) ∧
    ((do_slabs_alloc s size id flags h).2.heap (do_slabs_alloc s size id flags h).1).it_flags
      = (s.heap (s.slabclass id).slots).it_flags &&& (255 - ITEM_SLABBED) ∧
    ((do_slabs_alloc s size id flags h).2.heap (do_slabs_alloc s size id flags h).1).it_flags
      &&& ITEM_SLABBED = 0 ∧
    ((do_slabs_alloc s size id flags h).2.heap (do_slabs_alloc s size id flags h).1).refcount
      = 1 ∧
    ((do_slabs_alloc s size id flags h).2.slabclass id).sl_curr + 1 =
      (s.slabclass id).sl_curr ∧
    ((do_slabs_alloc s size id flags h).2.slabclass id).requested =
      ((s.slabclass id).requested + size) % SIZE_MAX1 ∧
    ((do_slabs_alloc s size id flags h).2.slabclass id).pages = (s.slabclass id).pages ∧
    ((s.slabclass id).requested + size < SIZE_MAX1 →
      ((do_slabs_alloc s size id flags h).2.slabclass id).requested =
        (s.slabclass id).requested + size) := by
  rw [do_slabs_alloc_of_free s size id flags h hid1 hid2 hfree]
  have hc := freelist_pop_class s size id
  have hh := freelist_pop_head s size id
  have hret : (freelist_pop s size id).1 = (s.slabclass id).slots := rfl
  refine ⟨hret, by rw [hc], ?_, freelist_pop_new_head s size id, ?_, ?_, ?_, ?_, ?_, ?_, ?_⟩
  · intro a l hl
    obtain ⟨e, _, hl⟩ := hl
    rw [hc]
    show is_freelist _ (s.heap (s.slabclass id).slots).next l
    rw [e]
    exact is_freelist_congr (fun a => freelist_pop_next s size id a) l _ hl
  · rw [hret]; exact hh.1
  · rw [hret, hh.1]; exact land_clear_slabbed _
  · rw [hret]; exact hh.2
  · rw [hc]; show (s.slabclass id).sl_curr - 1 + 1 = (s.slabclass id).sl_curr; omega
  · rw [hc]
    show (if (s.slabclass id).slots ≠ 0 then _ else _) = _
    rw [if_pos hhead]
  · exact pages_congr (by rw [hc]) (by rw [hc])
  · intro hlt
    rw [hc]
    show (if (s.slabclass id).slots ≠ 0 then _ else _) = _
    rw [if_pos hhead]
    exact Nat.mod_eq_of_lt hlt

/-- Witness of C4: an allocation from class 1 of `state_small_page`, whose freelist holds
the ten chunks of one page; `requested` goes from 0 to 10. -/
theorem do_slabs_alloc_pops_head_witness :
    (do_slabs_alloc state_small_page 10 1 0 (host_ok 0)).1 = 4960 ∧
    ((do_slabs_alloc state_small_page 10 1 0 (host_ok 0)).2.slabclass 1).sl_curr + 1 = 10 ∧
    ((do_slabs_alloc state_small_page 10 1 0 (host_ok 0)).2.slabclass 1).requested = 10 ∧
    ((do_slabs_alloc state_small_page 10 1 0 (host_ok 0)).2.slabclass 1).requested =
      (state_small_page.slabclass 1).requested + 10 := by
  have h := do_slabs_alloc_pops_head state_small_page 10 1 0 (host_ok 0) (by decide)
    (by decide) (by decide) (by decide)
  exact ⟨h.1.trans (by decide), h.2.2.2.2.2.2.2.1.trans (by decide),
    h.2.2.2.2.2.2.2.2.1.trans (by decide), h.2.2.2.2.2.2.2.2.2.2 (by decide)⟩

/-! ## The push of `do_slabs_free` -/

theorem do_slabs_free_invalid (s : State) (ptr size id : Nat)
    (hid : ¬ (1 ≤ id ∧ id ≤ s.power_largest)) : do_slabs_free s ptr size id = s := by
  unfold do_slabs_free
  rw [if_pos (by simp only [POWER_SMALLEST]; omega)]

theorem do_slabs_free_class (s : State) (ptr size id : Nat)
    (hid1 : 1 ≤ id) (hid2 : id ≤ s.power_largest) :
    (do_slabs_free s ptr size id).slabclass id =
      { s.slabclass id with
        slots := ptr
        sl_curr := (s.slabclass id).sl_curr + 1
        requested :=
          ((s.slabclass id).requested + (SIZE_MAX1 - size % SIZE_MAX1)) % SIZE_MAX1 } := by
  unfold do_slabs_free
  rw [if_neg (by simp only [POWER_SMALLEST]; omega)]
  dsimp only [setClass_slabclass]
  rw [upd_same]

theorem do_slabs_free_class_other (s : State) (ptr size id j : Nat) (hj : j ≠ id) :
    (do_slabs_free s ptr size id).slabclass j = s.slabclass j := by
  unfold do_slabs_free
  split
  · rfl
  · dsimp only [setClass_slabclass]
    rw [upd_other _ _ _ _ hj]; rfl

theorem do_slabs_free_heap (s : State) (ptr size id : Nat)
    (hid1 : 1 ≤ id) (hid2 : id ≤ s.power_largest) :
    (do_slabs_free s ptr size id).heap =
      (if (s.slabclass id).slots ≠ 0 then
        upd (upd s.heap ptr { s.heap ptr with it_flags := ITEM_SLABBED, slabs_clsid := 0,
                                              prev := 0, next := (s.slabclass id).slots })
          (s.slabclass id).slots
          { upd s.heap ptr { s.heap ptr with it_flags := ITEM_SLABBED, slabs_clsid := 0,
                                             prev := 0, next := (s.slabclass id).slots }
              (s.slabclass id).slots with prev := ptr }
      else upd s.heap ptr { s.heap ptr with it_flags := ITEM_SLABBED, slabs_clsid := 0,
                                            prev := 0, next := (s.slabclass id).slots }) := by
  unfold do_slabs_free
  rw [if_neg (by simp only [POWER_SMALLEST]; omega)]
  dsimp only [setClass_heap, setHeap_heap]
  simp only [upd_same]

theorem requested_add_sub (r size : Nat) (hr : r < SIZE_MAX1) :
    ((r + size) % SIZE_MAX1 + (SIZE_MAX1 - size % SIZE_MAX1)) % SIZE_MAX1 = r := by
  simp only [SIZE_MAX1] at hr ⊢
  omega

/-! ## C5: `do_slabs_free` pushes the chunk at the head of the freelist -/

/-- C6, as stated, fails when the freelist is empty before the `alloc`: the allocation
then takes a new page, and after the `free` the class has a head and `per_page` free
chunks instead of none.  In `state_small` class 1 has no page; `alloc(10, 1)` returns a
chunk, and after `free` the class has 10 free chunks and a non-null head. -/
theorem alloc_free_counterexample :
    (1 ≤ 1 ∧ 1 ≤ state_small.power_largest) ∧
    (do_slabs_alloc state_small 10 1 0 (host_ok 4096)).1 ≠ 0 ∧
    (state_small.slabclass 1).sl_curr = 0 ∧
    ((do_slabs_free (do_slabs_alloc state_small 10 1 0 (host_ok 4096)).2
        (do_slabs_alloc state_small 10 1 0 (host_ok 4096)).1 10 1).slabclass 1).sl_curr = 10 ∧
    (state_small.slabclass 1).slots = 0 ∧
    ((do_slabs_free (do_slabs_alloc state_small 10 1 0 (host_ok 4096)).2
        (do_slabs_alloc state_small 10 1 0 (host_ok 4096)).1 10 1).slabclass 1).slots
      = 4960 := by
  decide

/-- C6 (amended): for every state, valid class `id` whose freelist is non-empty before the
allocation (`sl_curr ≠ 0`, so that no new page is taken) and whose `requested` is a
`size_t` value, if `alloc(size, id)` returns a chunk `p` then after `free(p, size, id)`
the freelist head, `sl_curr` and `requested` of the class are exactly what they were
before the `alloc`. -/
theorem alloc_free_restores (s : State) (size id flags : Nat) (h : Host)
    (hid1 : 1 ≤ id) (hid2 : id ≤ s.power_largest)
    (hfree : (s.slabclass id).sl_curr ≠ 0)
    (hreq : (s.slabclass id).requested < SIZE_MAX1)
    (hret : (do_slabs_alloc s size id flags h).1 ≠ 0) :
    ((do_slabs_free (do_slabs_alloc s size id flags h).2
        (do_slabs_alloc s size id flags h).1 size id).slabclass id).slots
      = (s.slabclass id).slots ∧
    ((do_slabs_free (do_slabs_alloc s size id flags h).2
        (do_slabs_alloc s size id flags h).1 size id).slabclass id).sl_curr
      = (s.slabclass id).sl_curr ∧
    ((do_slabs_free (do_slabs_alloc s size id flags h).2
        (do_slabs_alloc s size id flags h).1 size id).slabclass id).requested
      = (s.slabclass id).requested := by
  rw [do_slabs_alloc_of_free s size id flags h hid1 hid2 hfree] at hret ⊢
  have hret1 : (freelist_pop s size id).1 = (s.slabclass id).slots := rfl
  have hpl : (freelist_pop s size id).2.power_largest = s.power_largest :=
    (freelist_pop_frame s size id).power_largest
  have hc := do_slabs_free_class (freelist_pop s size id).2 (freelist_pop s size id).1 size id
    hid1 (by rw [hpl]; exact hid2)
  have hp := freelist_pop_class s size id
  rw [hret1] at hret
  rw [hc, hp]
  refine ⟨hret1, ?_, ?_⟩
  · show (s.slabclass id).sl_curr - 1 + 1 = (s.slabclass id).sl_curr
    omega
  · show ((if (s.slabclass id).slots ≠ 0 then _ else _) + _) % _ = _
    rw [if_pos hret]
    exact requested_add_sub _ _ hreq

/-- Witness of C6 (amended): `alloc(10, 1)` then `free` on `state_small_page`. -/
theorem alloc_free_restores_witness :
    ((do_slabs_free (do_slabs_alloc state_small_page 10 1 0 (host_ok 0)).2
        (do_slabs_alloc state_small_page 10 1 0 (host_ok 0)).1 10 1).slabclass 1).slots
      = (state_small_page.slabclass 1).slots ∧
    ((do_slabs_free (do_slabs_alloc state_small_page 10 1 0 (host_ok 0)).2
        (do_slabs_alloc state_small_page 10 1 0 (host_ok 0)).1 10 1).slabclass 1).sl_curr
      = (state_small_page.slabclass 1).sl_curr ∧
    ((do_slabs_free (do_slabs_alloc state_small_page 10 1 0 (host_ok 0)).2
        (do_slabs_alloc state_small_page 10 1 0 (host_ok 0)).1 10 1).slabclass 1).requested
      = (state_small_page.slabclass 1).requested :=
  alloc_free_restores state_small_page 10 1 0 (host_ok 0) (by decide) (by decide)
    (by decide) (by decide) (by decide)

/-! ## C7: the freelist is a stack -/

/-- C8, as stated, fails: the code compares `flags` with `SLABS_ALLOC_NO_NEWPAGE` for
equality, it does not test the bit.  With `flags = 3`, which includes the bit, an empty
class 1 still gets a new page and the allocation succeeds. -/
theorem no_newpage_counterexample :
    3 &&& SLABS_ALLOC_NO_NEWPAGE ≠ 0 ∧
    (1 ≤ 1 ∧ 1 ≤ state_small.power_largest) ∧
    (state_small.slabclass 1).sl_curr = 0 ∧
    (do_slabs_alloc state_small 10 1 3 (host_ok 4096)).1 = 4960 ∧
    (state_small.slabclass 1).slabs = 0 ∧
    ((do_slabs_alloc state_small 10 1 3 (host_ok 4096)).2.slabclass 1).slabs = 1 := by
  decide

/-- C8 (amended): when `flags` is exactly `SLABS_ALLOC_NO_NEWPAGE` and the freelist of the
class is empty (`sl_curr = 0`), `do_slabs_alloc` does not call `do_slabs_newslab`: it
returns `NULL` and the whole state, in particular the page count of the class, is
unchanged. -/
theorem no_newpage_alloc (s : State) (size id : Nat) (h : Host)
    (hempty : (s.slabclass id).sl_curr = 0) :
    do_slabs_alloc s size id SLABS_ALLOC_NO_NEWPAGE h = (0, s) := by
  have hr : alloc_refill s id SLABS_ALLOC_NO_NEWPAGE h = s := by
    unfold alloc_refill
    rw [if_neg (by intro hc; exact hc.2 rfl)]
  rcases do_slabs_alloc_cases s size id SLABS_ALLOC_NO_NEWPAGE h with
    ⟨_, e⟩ | ⟨_, ⟨hne, _⟩ | ⟨_, e⟩⟩
  · exact e
  · rw [hr] at hne; exact absurd hempty hne
  · rw [e, hr]

/-- Witness of C8 (amended): class 1 of `state_small` is empty. -/
theorem no_newpage_alloc_witness :
    do_slabs_alloc state_small 10 1 SLABS_ALLOC_NO_NEWPAGE (host_ok 4096)
      = (0, state_small) :=
  no_newpage_alloc state_small 10 1 (host_ok 4096) (by decide)

/-! ## Page counts and `mem_malloced` -/

theorem SamePages.same (s : State) : SamePages s s := ⟨rfl, fun _ => rfl, fun _ => rfl⟩

theorem SamePages.andThen {s t u : State} (h1 : SamePages s t) (h2 : SamePages t u) :
    SamePages s u :=
  ⟨h2.mem_malloced.trans h1.mem_malloced, fun j => (h2.slabs j).trans (h1.slabs j),
   fun j => (h2.slab_list j).trans (h1.slab_list j)⟩

theorem setHeap_samePages (s : State) (h : Nat → item) : SamePages s (s.setHeap h) :=
  ⟨rfl, fun _ => rfl, fun _ => rfl⟩

theorem setClass_samePages (s : State) (id : Nat) (p : slabclass_t)
    (h1 : p.slabs = (s.slabclass id).slabs) (h2 : p.slab_list = (s.slabclass id).slab_list) :
    SamePages s (s.setClass id p) := by
  refine ⟨rfl, ?_, ?_⟩ <;>
    (intro j; by_cases hj : j = id <;> simp [upd, hj, h1, h2])

theorem do_slabs_free_samePages (s : State) (ptr size id : Nat) :
    SamePages s (do_slabs_free s ptr size id) := by
  unfold do_slabs_free
  split
  · exact SamePages.same s
  · exact (setHeap_samePages s _).andThen (setClass_samePages _ id _ rfl rfl)

theorem split_loop_samePages (id : Nat) :
    ∀ n ptr s, SamePages s (split_loop id n ptr s) := by
  intro n
  induction n with
  | zero => intro ptr s; exact SamePages.same s
  | succ n ih =>
    intro ptr s
    unfold split_loop
    exact (do_slabs_free_samePages s ptr 0 id).andThen (ih _ _)

theorem freelist_pop_samePages (s : State) (size id : Nat) :
    SamePages s (freelist_pop s size id).2 :=
  (setHeap_samePages s _).andThen (setClass_samePages _ id _ rfl rfl)

theorem grow_slab_list_samePages (s : State) (id : Nat) (ok : Bool) :
    SamePages s (grow_slab_list s id ok).2 := by
  unfold grow_slab_list
  dsimp only
  split
  · split
    · exact SamePages.same s
    · exact setClass_samePages s id _ rfl rfl
  · exact SamePages.same s

theorem get_page_pool_empty (s : State) (h0 : (s.slabclass 0).slabs = 0) :
    get_page_from_global_pool s = (0, s) := by
  unfold get_page_from_global_pool
  dsimp only
  rw [if_pos (by simp only [SLAB_GLOBAL_PAGE_POOL]; omega)]

theorem newslab_get_page_pool_empty (s : State) (len ret : Nat)
    (h0 : (s.slabclass 0).slabs = 0) :
    newslab_get_page s len ret = memory_allocate s len ret := by
  unfold newslab_get_page
  dsimp only
  rw [get_page_pool_empty s h0, if_pos rfl]

/-- The effect of `memory_allocate` on the accounting: the class table is untouched, and
`mem_malloced` either stays (a failed request in preallocated mode) or grows by the
request, rounded up to a multiple of 8 in preallocated mode. -/
theorem memory_allocate_effect (s : State) (size ret : Nat) :
    (memory_allocate s size ret).2.slabclass = s.slabclass ∧
    s.mem_malloced ≤ (memory_allocate s size ret).2.mem_malloced ∧
    (memory_allocate s size ret).2.mem_malloced ≤ s.mem_malloced + size + 7 ∧
    (s.mem_base = 0 → (memory_allocate s size ret).2.mem_malloced = s.mem_malloced + size) ∧
    ((memory_allocate s size ret).1 ≠ 0 →
      s.mem_malloced + size ≤ (memory_allocate s size ret).2.mem_malloced) := by
  unfold memory_allocate
  by_cases hb : s.mem_base = 0
  · rw [if_pos hb]
    exact ⟨rfl, Nat.le_add_right _ _, Nat.le_add_right _ _, fun _ => rfl,
      fun _ => le_refl _⟩
  · rw [if_neg hb]
    by_cases ha : size > s.mem_avail
    · rw [if_pos ha]
      exact ⟨rfl, le_refl _, by show s.mem_malloced ≤ _; omega, fun h => absurd h hb,
        fun h => absurd rfl h⟩
    · rw [if_neg ha]
      dsimp only [CHUNK_ALIGN_BYTES]
      refine ⟨rfl, ?_, ?_, fun h => absurd h hb, fun _ => ?_⟩ <;> (split <;> omega)

theorem newslab_install_samePages_other (s : State) (ptr id len j : Nat) (hj : j ≠ id) :
    ((newslab_install s ptr id len).slabclass j).slabs = (s.slabclass j).slabs := by
  unfold newslab_install
  dsimp only [setClass_slabclass]
  rw [upd_other _ _ _ _ hj]
  exact ((setHeap_samePages s _).andThen (split_loop_samePages id _ _ _)).slabs j

theorem newslab_install_slabs (s : State) (ptr id len : Nat) :
    ((newslab_install s ptr id len).slabclass id).slabs = (s.slabclass id).slabs + 1 ∧
    (newslab_install s ptr id len).mem_malloced = s.mem_malloced := by
  unfold newslab_install
  dsimp only [setClass_slabclass, setClass_mem_malloced]
  rw [upd_same]
  have h := (setHeap_samePages s (memset0 s.heap ptr len)).andThen
    (split_loop_samePages id ((s.setHeap (memset0 s.heap ptr len)).slabclass id).perslab ptr
      (s.setHeap (memset0 s.heap ptr len)))
  exact ⟨by show _ + 1 = _; rw [← h.slabs id]; rfl, h.mem_malloced⟩

/-- The effect of `do_slabs_newslab(id)` on the page counts and on `mem_malloced` while
the global pool is empty. -/
theorem do_slabs_newslab_effect (s : State) (id : Nat) (h : Host)
    (hpool : (s.slabclass 0).slabs = 0) :
    (∀ j, j ≠ id →
      ((do_slabs_newslab s id h).2.slabclass j).slabs = (s.slabclass j).slabs) ∧
    ((((do_slabs_newslab s id h).2.slabclass id).slabs = (s.slabclass id).slabs ∧
        s.mem_malloced ≤ (do_slabs_newslab s id h).2.mem_malloced) ∨
      (((do_slabs_newslab s id h).2.slabclass id).slabs = (s.slabclass id).slabs + 1 ∧
        s.mem_malloced + page_len s id ≤ (do_slabs_newslab s id h).2.mem_malloced)) ∧
    (do_slabs_newslab s id h).2.mem_malloced ≤ s.mem_malloced + page_len s id + 7 ∧
    (s.mem_base = 0 →
      (do_slabs_newslab s id h).2.mem_malloced ≤ s.mem_malloced + page_len s id) ∧
    ((s.mem_limit ≠ 0 ∧ s.mem_malloced + page_len s id > s.mem_limit ∧
        (s.slabclass id).slabs > 0) →
      (do_slabs_newslab s id h).2.mem_malloced = s.mem_malloced) := by
  have hg := grow_slab_list_samePages s id h.realloc_ok
  have hgf := grow_slab_list_frame s id h.realloc_ok
  have hpool1 : ((grow_slab_list s id h.realloc_ok).2.slabclass 0).slabs = 0 := by
    rw [hg.slabs 0]; exact hpool
  have hm := memory_allocate_effect (grow_slab_list s id h.realloc_ok).2 (page_len s id)
    h.malloc_ret
  rw [← newslab_get_page_pool_empty _ _ _ hpool1, hg.mem_malloced, hgf.mem_base] at hm
  obtain ⟨hm1, hm2, hm3, hm4, hm5⟩ := hm
  rcases do_slabs_newslab_cases s id h with
    ⟨_, _, _, _, e⟩ | ⟨hlim, ⟨_, e⟩ | ⟨_, ⟨_, e⟩ | ⟨hne, e⟩⟩⟩
  · rw [e]
    exact ⟨fun _ _ => rfl, Or.inl ⟨rfl, le_refl _⟩, by show s.mem_malloced ≤ _; omega,
      fun _ => by show s.mem_malloced ≤ _; omega, fun _ => rfl⟩
  · rw [e]
    refine ⟨fun j _ => hg.slabs j, Or.inl ⟨hg.slabs id, by rw [hg.mem_malloced]⟩,
      by rw [hg.mem_malloced]; omega, fun _ => by rw [hg.mem_malloced]; omega,
      fun _ => hg.mem_malloced⟩
  · rw [e]
    refine ⟨fun j _ => ?_, Or.inl ⟨?_, hm2⟩, hm3, fun hb => by rw [hm4 hb],
      fun hl => absurd ⟨hl.1, hl.2.1, hl.2.2, hpool⟩ hlim⟩
    · rw [hm1]; exact hg.slabs j
    · rw [hm1]; exact hg.slabs id
  · rw [e]
    have hi := newslab_install_slabs
      (newslab_get_page (grow_slab_list s id h.realloc_ok).2 (page_len s id) h.malloc_ret).2
      (newslab_get_page (grow_slab_list s id h.realloc_ok).2 (page_len s id) h.malloc_ret).1
      id (page_len s id)
    refine ⟨fun j hj => ?_, Or.inr ⟨?_, ?_⟩, ?_, fun hb => ?_,
      fun hl => absurd ⟨hl.1, hl.2.1, hl.2.2, hpool⟩ hlim⟩
    · rw [newslab_install_samePages_other _ _ _ _ _ hj, hm1]; exact hg.slabs j
    · rw [hi.1, hm1, hg.slabs id]
    · rw [hi.2]; exact hm5 hne
    · rw [hi.2]; exact hm3
    · rw [hi.2, hm4 hb]

theorem sum_upto_congr (f g : Nat → Nat) :
    ∀ n, (∀ i, i ≤ n → g i = f i) → sum_upto g n = sum_upto f n := by
  intro n
  induction n with
  | zero => intro h; exact h 0 (le_refl 0)
  | succ n ih =>
    intro h
    show sum_upto g n + g (n + 1) = sum_upto f n + f (n + 1)
    rw [ih (fun i hi => h i (by omega)), h (n + 1) (le_refl _)]

theorem sum_upto_bump (f g : Nat → Nat) (k d : Nat) (hk : g k = f k + d)
    (hother : ∀ i, i ≠ k → g i = f i) :
    ∀ n, k ≤ n → sum_upto g n = sum_upto f n + d := by
  intro n
  induction n with
  | zero =>
    intro h
    have : k = 0 := by omega
    subst this; exact hk
  | succ n ih =>
    intro h
    show sum_upto g n + g (n + 1) = sum_upto f n + f (n + 1) + d
    rcases Nat.lt_or_ge n k with hlt | hge
    · have e : k = n + 1 := by omega
      rw [sum_upto_congr f g n (fun i hi => hother i (by omega)), ← e, hk]
      omega
    · rw [ih hge, hother (n + 1) (by omega)]
      omega

theorem sum_upto_zero (f : Nat → Nat) (h : ∀ i, f i = 0) : ∀ n, sum_upto f n = 0 := by
  intro n
  induction n with
  | zero => exact h 0
  | succ n ih => show sum_upto f n + f (n + 1) = 0; rw [ih, h]

theorem PageInv.of_same {s t : State} (h : PageInv s) (hf : Frame s t)
    (hp : SamePages s t) : PageInv t := by
  refine ⟨by rw [hf.mem_limit]; exact h.limit, by rw [hp.slabs]; exact h.pool, ?_⟩
  have e : page_bytes t = page_bytes s := by
    unfold page_bytes
    rw [hf.power_largest]
    exact sum_upto_congr _ _ _ (fun i _ => by rw [hp.slabs i, hf.page_len i])
  rw [e, hp.mem_malloced]; exact h.bytes

theorem PageInv.newslab {s : State} (h : PageInv s) (id : Nat) (host : Host)
    (hid : 1 ≤ id) : PageInv (do_slabs_newslab s id host).2 := by
  have hf := do_slabs_newslab_frame s id host
  obtain ⟨hother, hcase, _⟩ := do_slabs_newslab_effect s id host h.pool
  refine ⟨by rw [hf.mem_limit]; exact h.limit,
    by rw [hother 0 (by omega)]; exact h.pool, ?_⟩
  unfold page_bytes
  rw [hf.power_largest]
  have hb := h.bytes
  unfold page_bytes at hb
  rcases hcase with ⟨hsame, hle⟩ | ⟨hplus, hle⟩
  · rw [sum_upto_congr (fun i => (s.slabclass i).slabs * page_len s i) _ _ (fun i _ => by
      show ((do_slabs_newslab s id host).2.slabclass i).slabs * _ = _
      rw [hf.page_len i]
      by_cases hi : i = id
      · rw [hi, hsame]
      · rw [hother i hi])]
    omega
  · rcases Nat.lt_or_ge s.power_largest id with hout | hin
    · rw [sum_upto_congr (fun i => (s.slabclass i).slabs * page_len s i) _ _ (fun i hi => by
        show ((do_slabs_newslab s id host).2.slabclass i).slabs * _ = _
        rw [hf.page_len i, hother i (by omega)])]
      omega
    · rw [sum_upto_bump (fun i => (s.slabclass i).slabs * page_len s i) _ id (page_len s id)
        (by
          show ((do_slabs_newslab s id host).2.slabclass id).slabs * _ = _
          rw [hf.page_len id, hplus, Nat.add_mul, Nat.one_mul])
        (fun i hi => by
          show ((do_slabs_newslab s id host).2.slabclass i).slabs * _ = _
          rw [hf.page_len i, hother i hi]) _ hin]
      omega

theorem PageInv.alloc {s : State} (h : PageInv s) (size id flags : Nat) (host : Host) :
    PageInv (do_slabs_alloc s size id flags host).2 := by
  have hr : ¬ (id < POWER_SMALLEST ∨ id > s.power_largest) →
      PageInv (alloc_refill s id flags host) := by
    intro hid
    unfold alloc_refill
    split
    · exact h.newslab id host (by simp only [POWER_SMALLEST] at hid; omega)
    · exact h
  rcases do_slabs_alloc_cases s size id flags host with ⟨_, e⟩ | ⟨hid, ⟨_, e⟩ | ⟨_, e⟩⟩
  · rw [e]; exact h
  · rw [e]; exact (hr hid).of_same (freelist_pop_frame _ _ _) (freelist_pop_samePages _ _ _)
  · rw [e]; exact hr hid

theorem slabs_preallocate_loop_inv (hosts : Nat → Host) (maxslabs MAX : Nat) :
    ∀ fuel i pre s t, 1 ≤ i → PageInv s →
      slabs_preallocate_loop hosts maxslabs MAX fuel i pre s = some t → PageInv t := by
  intro fuel
  induction fuel with
  | zero =>
    intro i pre s t _ hs h
    simp only [slabs_preallocate_loop, Option.some.injEq] at h
    subst h; exact hs
  | succ n ih =>
    intro i pre s t hi hs h
    unfold slabs_preallocate_loop at h
    by_cases h1 : i < MAX
    · rw [if_pos h1] at h
      by_cases h2 : pre + 1 > maxslabs
      · rw [if_pos h2] at h
        simp only [Option.some.injEq] at h
        subst h; exact hs
      · rw [if_neg h2] at h
        by_cases h3 : (do_slabs_newslab s i (hosts i)).1 = 0
        · rw [if_pos h3] at h; exact absurd h (by simp)
        · rw [if_neg h3] at h
          exact ih _ _ _ _ (by omega) (hs.newslab i (hosts i) hi) h
    · rw [if_neg h1] at h
      simp only [Option.some.injEq] at h
      subst h; exact hs

theorem slabs_init_loop_slabs (cfg : settings_t) (MAX fnum fden : Nat) :
    ∀ fuel i size tab, (∀ j, (tab j).slabs = 0) →
      ∀ j, ((slabs_init_loop cfg MAX fnum fden fuel i size tab).2 j).slabs = 0 := by
  intro fuel
  induction fuel with
  | zero => intro i size tab h j; exact h j
  | succ n ih =>
    intro i size tab h j
    unfold slabs_init_loop
    dsimp only
    split
    · apply ih
      intro k
      by_cases hk : k = i + 1
      · rw [hk, upd_same]; exact h (i + 1)
      · rw [upd_other _ _ _ _ hk]; exact h k
    · exact h j

theorem slabs_init_pageInv (b : Build) (cfg : settings_t) (heap0 : Nat → item)
    (limit fnum fden : Nat) (prealloc : Bool) (base : Nat) (hosts : Nat → Host) (s : State)
    (hlimit : limit ≠ 0)
    (hinit : slabs_init b (boot cfg heap0) limit fnum fden prealloc base none hosts = some s) :
    PageInv s := by
  have hz : ∀ j, ((upd (slabs_init_loop cfg b.MAX_NUMBER_OF_SLAB_CLASSES fnum fden
        b.MAX_NUMBER_OF_SLAB_CLASSES (POWER_SMALLEST - 1) (b.sizeof_item + cfg.chunk_size)
        (fun _ => slabclass_t.zero)).2
      (slabs_init_loop cfg b.MAX_NUMBER_OF_SLAB_CLASSES fnum fden
        b.MAX_NUMBER_OF_SLAB_CLASSES (POWER_SMALLEST - 1) (b.sizeof_item + cfg.chunk_size)
        (fun _ => slabclass_t.zero)).1
      { (slabs_init_loop cfg b.MAX_NUMBER_OF_SLAB_CLASSES fnum fden
          b.MAX_NUMBER_OF_SLAB_CLASSES (POWER_SMALLEST - 1) (b.sizeof_item + cfg.chunk_size)
          (fun _ => slabclass_t.zero)).2
        (slabs_init_loop cfg b.MAX_NUMBER_OF_SLAB_CLASSES fnum fden
          b.MAX_NUMBER_OF_SLAB_CLASSES (POWER_SMALLEST - 1) (b.sizeof_item + cfg.chunk_size)
          (fun _ => slabclass_t.zero)).1 with
        size := cfg.item_size_max, perslab := 1 }) j).slabs = 0 := by
    intro j
    have hl := slabs_init_loop_slabs cfg b.MAX_NUMBER_OF_SLAB_CLASSES fnum fden
      b.MAX_NUMBER_OF_SLAB_CLASSES (POWER_SMALLEST - 1) (b.sizeof_item + cfg.chunk_size)
      (fun _ => slabclass_t.zero) (fun _ => rfl)
    unfold upd
    dsimp only
    split
    · exact hl _
    · exact hl j
  have hstart : ∀ t : State, t.mem_limit = limit → t.mem_malloced = 0 →
      (∀ j, (t.slabclass j).slabs = 0) → PageInv t := by
    intro t h1 h2 h3
    refine ⟨by rw [h1]; exact hlimit, h3 0, ?_⟩
    unfold page_bytes
    rw [sum_upto_zero _ (fun i => by show (t.slabclass i).slabs * _ = 0; rw [h3 i, Nat.zero_mul])]
    exact Nat.zero_le _
  unfold slabs_init at hinit
  dsimp only at hinit
  cases prealloc with
  | false =>
    simp only [Bool.false_eq_true, if_false, Option.some.injEq] at hinit
    subst hinit
    exact hstart _ rfl rfl hz
  | true =>
    simp only [if_true] at hinit
    refine slabs_preallocate_loop_inv _ _ _ _ _ _ _ _ (le_refl 1) (hstart _ ?_ ?_ ?_) hinit
    · by_cases hb : base = 0 <;> simp [hb]
    · by_cases hb : base = 0 <;> simp [hb, boot]
    · intro j
      by_cases hb : base = 0 <;> simp only [hb, ne_eq, not_true_eq_false, not_false_eq_true,
        if_true, if_false] <;> exact hz j

theorem Reachable.pageInv {b : Build} {cfg : settings_t} {s : State}
    (hs : Reachable b cfg s) : PageInv s := by
  induction hs with
  | init heap0 limit fnum fden prealloc base hosts s hlimit hinit =>
    exact slabs_init_pageInv b cfg heap0 limit fnum fden prealloc base hosts s hlimit hinit
  | alloc s size id flags h _ ih => exact ih.alloc size id flags h
  | free s ptr size id _ ih =>
    exact ih.of_same (do_slabs_free_frame _ _ _ _) (do_slabs_free_samePages _ _ _ _)
  | newslab s id h _ hid1 _ ih => exact ih.newslab id h hid1

theorem page_budget_eq (s : State) (hr : s.settings.slab_reassign = true) :
    page_budget s = page_bytes s := by
  unfold page_budget page_bytes
  exact sum_upto_congr _ _ _ (fun i _ => by simp [page_len, hr])

theorem state_over_limit_reachable : Reachable build_default cfg_small state_over_limit :=
  Reachable.newslab _ 2 (host_ok 8192)
    (Reachable.newslab _ 1 (host_ok 4096)
      (Reachable.init (fun _ => item.zero) 1024 2 1 false 0 (fun _ => host_ok 0) state_limit
        (by decide) rfl)
      (by decide) (by decide))
    (by decide) (by decide)

/-! ## What a failed allocation leaves unchanged -/

theorem split_loop_freelist (id : Nat) :
    ∀ n ptr s, 1 ≤ id → id ≤ s.power_largest →
      ((split_loop id n ptr s).slabclass id).sl_curr = (s.slabclass id).sl_curr + n ∧
      (1 ≤ n → ((split_loop id n ptr s).slabclass id).slots =
        ptr + (n - 1) * (s.slabclass id).size) := by
  intro n
  induction n with
  | zero => intro ptr s _ _; exact ⟨rfl, fun h => absurd h (by omega)⟩
  | succ n ih =>
    intro ptr s h1 h2
    unfold split_loop
    dsimp only
    have hf := do_slabs_free_frame s ptr 0 id
    have hc := do_slabs_free_class s ptr 0 id h1 h2
    obtain ⟨ih1, ih2⟩ := ih (ptr + ((do_slabs_free s ptr 0 id).slabclass id).size)
      (do_slabs_free s ptr 0 id) h1 (by rw [hf.power_largest]; exact h2)
    constructor
    · rw [ih1, hc]; show (s.slabclass id).sl_curr + 1 + n = _; omega
    · intro _
      rcases Nat.eq_zero_or_pos n with hn | hn
      · subst hn
        show ((do_slabs_free s ptr 0 id).slabclass id).slots = _
        rw [hc]; show ptr = _; simp
      · rw [ih2 hn, hf.size id]
        have : n + 1 - 1 = (n - 1) + 1 := by omega
        rw [this, Nat.add_mul, Nat.one_mul]; omega

theorem newslab_install_freelist (s : State) (ptr id len : Nat)
    (h1 : 1 ≤ id) (h2 : id ≤ s.power_largest) :
    ((newslab_install s ptr id len).slabclass id).sl_curr =
      (s.slabclass id).sl_curr + (s.slabclass id).perslab ∧
    (1 ≤ (s.slabclass id).perslab → ptr ≠ 0 →
      ((newslab_install s ptr id len).slabclass id).slots ≠ 0) := by
  have hs := split_loop_freelist id (s.slabclass id).perslab ptr
    (s.setHeap (memset0 s.heap ptr len)) h1 h2
  unfold newslab_install
  dsimp only [setClass_slabclass]
  rw [upd_same]
  refine ⟨hs.1, fun hp hptr => ?_⟩
  have e : ((split_loop id ((s.setHeap (memset0 s.heap ptr len)).slabclass id).perslab ptr
      (s.setHeap (memset0 s.heap ptr len))).slabclass id).slots =
      ptr + ((s.slabclass id).perslab - 1) * (s.slabclass id).size := hs.2 hp
  show ((split_slab_page_into_freelist (s.setHeap (memset0 s.heap ptr len)) ptr
    id).slabclass id).slots ≠ 0
  unfold split_slab_page_into_freelist
  rw [e]
  omega

theorem SameClasses.rfl_classes (s : State) : SameClasses s s :=
  ⟨fun _ => rfl, fun _ => rfl, fun _ => rfl, fun _ => rfl, fun _ => rfl, rfl⟩

theorem grow_slab_list_sameClasses (s : State) (id : Nat) (ok : Bool) :
    SameClasses s (grow_slab_list s id ok).2 := by
  unfold grow_slab_list
  dsimp only
  split
  · split
    · exact SameClasses.rfl_classes s
    · refine ⟨?_, ?_, ?_, ?_, ?_, rfl⟩ <;>
        (intro j; by_cases hj : j = id <;> simp [upd, hj])
  · exact SameClasses.rfl_classes s

/-- When `do_slabs_newslab` leaves the freelist of a valid class `id` with at least one
chunk per page empty, it has changed no page list, freelist, counter or item header (the
pool, if it holds a page, is assumed to hold a non-null one). -/
theorem do_slabs_newslab_empty (s : State) (id : Nat) (h : Host)
    (h1 : 1 ≤ id) (h2 : id ≤ s.power_largest) (hper : 1 ≤ (s.slabclass id).perslab)
    (hpool : (s.slabclass 0).slabs ≠ 0 →
      (s.slabclass 0).slab_list ((s.slabclass 0).slabs - 1) ≠ 0)
    (hempty : ((do_slabs_newslab s id h).2.slabclass id).sl_curr = 0) :
    SameClasses s (do_slabs_newslab s id h).2 := by
  have hg := grow_slab_list_sameClasses s id h.realloc_ok
  have hgf := grow_slab_list_frame s id h.realloc_ok
  rcases do_slabs_newslab_cases s id h with
    ⟨_, _, _, _, e⟩ | ⟨_, ⟨_, e⟩ | ⟨_, ⟨hz, e⟩ | ⟨hne, e⟩⟩⟩
  · rw [e]; exact ⟨fun _ => rfl, fun _ => rfl, fun _ => rfl, fun _ => rfl, fun _ => rfl, rfl⟩
  · rw [e]; exact hg
  · rw [e]
    unfold newslab_get_page at hz ⊢
    dsimp only at hz ⊢
    by_cases hp : (s.slabclass 0).slabs = 0
    · have hp1 : ((grow_slab_list s id h.realloc_ok).2.slabclass 0).slabs = 0 := by
        rw [hg.slabs 0]; exact hp
      rw [get_page_pool_empty _ hp1, if_pos rfl]
      obtain ⟨hm, _⟩ := memory_allocate_effect (grow_slab_list s id h.realloc_ok).2
        (page_len s id) h.malloc_ret
      have hheap : (memory_allocate (grow_slab_list s id h.realloc_ok).2 (page_len s id)
          h.malloc_ret).2.heap = (grow_slab_list s id h.realloc_ok).2.heap := by
        unfold memory_allocate
        split
        · rfl
        · split <;> rfl
      exact ⟨fun j => by rw [hm]; exact hg.slabs j, fun j => by rw [hm]; exact hg.slab_list j,
        fun j => by rw [hm]; exact hg.slots j, fun j => by rw [hm]; exact hg.sl_curr j,
        fun j => by rw [hm]; exact hg.requested j, hheap.trans hg.heap⟩
    · exfalso
      have hq : (get_page_from_global_pool (grow_slab_list s id h.realloc_ok).2).1 ≠ 0 := by
        unfold get_page_from_global_pool
        dsimp only [SLAB_GLOBAL_PAGE_POOL]
        rw [if_neg (by rw [hg.slabs 0]; omega)]
        show ((grow_slab_list s id h.realloc_ok).2.slabclass 0).slab_list _ ≠ 0
        rw [hg.slab_list 0, hg.slabs 0]
        exact hpool hp
      rw [if_neg hq] at hz
      exact hq hz
  · exfalso
    rw [e] at hempty
    have hm := newslab_get_page_frame (grow_slab_list s id h.realloc_ok).2 (page_len s id)
      h.malloc_ret
    have hi := (newslab_install_freelist
      (newslab_get_page (grow_slab_list s id h.realloc_ok).2 (page_len s id) h.malloc_ret).2
      (newslab_get_page (grow_slab_list s id h.realloc_ok).2 (page_len s id) h.malloc_ret).1
      id (page_len s id) h1 (by rw [hm.power_largest, hgf.power_largest]; exact h2)).1
    rw [hm.perslab id, hgf.perslab id] at hi
    have : ((newslab_install
      (newslab_get_page (grow_slab_list s id h.realloc_ok).2 (page_len s id) h.malloc_ret).2
      (newslab_get_page (grow_slab_list s id h.realloc_ok).2 (page_len s id) h.malloc_ret).1
      id (page_len s id)).slabclass id).sl_curr = 0 := hempty
    omega

/-- The part of C9 that holds: whenever `do_slabs_alloc` returns `NULL` in a state where
the class (if valid) has at least one chunk per page, a non-empty freelist has a non-null
head and the pool's top page (if any) is non-null, then no class's page list, freelist
head, `sl_curr` or `requested` has changed, the pool is unchanged and no item header has
changed. -/
theorem do_slabs_alloc_none_keeps (s : State) (size id flags : Nat) (h : Host)
    (hper : 1 ≤ (s.slabclass id).perslab)
    (hhead : (s.slabclass id).sl_curr ≠ 0 → (s.slabclass id).slots ≠ 0)
    (hpool : (s.slabclass 0).slabs ≠ 0 →
      (s.slabclass 0).slab_list ((s.slabclass 0).slabs - 1) ≠ 0)
    (hnone : (do_slabs_alloc s size id flags h).1 = 0) :
    SameClasses s (do_slabs_alloc s size id flags h).2 := by
  rcases do_slabs_alloc_cases s size id flags h with ⟨_, e⟩ | ⟨hid, ⟨hne, e⟩ | ⟨hz, e⟩⟩
  · rw [e]; exact SameClasses.rfl_classes s
  · exfalso
    have h1 : 1 ≤ id := by simp only [POWER_SMALLEST] at hid; omega
    have h2 : id ≤ s.power_largest := by omega
    rw [e] at hnone
    have hslots : ((alloc_refill s id flags h).slabclass id).slots = 0 := hnone
    unfold alloc_refill at hne hslots
    by_cases hc : (s.slabclass id).sl_curr = 0 ∧ flags ≠ SLABS_ALLOC_NO_NEWPAGE
    · rw [if_pos hc] at hne hslots
      rcases do_slabs_newslab_cases s id h with
        ⟨_, _, _, _, e1⟩ | ⟨_, ⟨_, e1⟩ | ⟨_, ⟨hz1, e1⟩ | ⟨hne1, e1⟩⟩⟩
      · rw [e1] at hne; exact hne hc.1
      · rw [e1] at hne
        exact hne (((grow_slab_list_sameClasses s id h.realloc_ok).sl_curr id).trans hc.1)
      · have hk := do_slabs_newslab_empty s id h h1 h2 hper hpool
        by_cases hcur : ((do_slabs_newslab s id h).2.slabclass id).sl_curr = 0
        · exact hne hcur
        · rw [e1] at hcur
          apply hcur
          have hg := grow_slab_list_sameClasses s id h.realloc_ok
          unfold newslab_get_page at hz1 ⊢
          dsimp only at hz1 ⊢
          by_cases hq : (get_page_from_global_pool (grow_slab_list s id h.realloc_ok).2).1 = 0
          · rw [if_pos hq]
            rw [if_pos hq] at hz1
            have hp0 : ((grow_slab_list s id h.realloc_ok).2.slabclass 0).slabs = 0 := by
              by_contra hp
              apply hpool (by rw [← hg.slabs 0]; exact hp)
              have : (get_page_from_global_pool (grow_slab_list s id h.realloc_ok).2).1 =
                  ((grow_slab_list s id h.realloc_ok).2.slabclass 0).slab_list
                    (((grow_slab_list s id h.realloc_ok).2.slabclass 0).slabs - 1) := by
                unfold get_page_from_global_pool
                dsimp only [SLAB_GLOBAL_PAGE_POOL]
                rw [if_neg (by omega)]
              rw [this, hg.slab_list 0, hg.slabs 0] at hq
              exact hq
            rw [get_page_pool_empty _ hp0]
            rw [(memory_allocate_effect _ _ _).1, hg.sl_curr id]
            exact hc.1
          · rw [if_neg hq] at hz1; exact absurd hz1 hq
      · rw [e1] at hslots
        have hgf := grow_slab_list_frame s id h.realloc_ok
        have hm := newslab_get_page_frame (grow_slab_list s id h.realloc_ok).2 (page_len s id)
          h.malloc_ret
        have hi := (newslab_install_freelist
          (newslab_get_page (grow_slab_list s id h.realloc_ok).2 (page_len s id)
            h.malloc_ret).2
          (newslab_get_page (grow_slab_list s id h.realloc_ok).2 (page_len s id)
            h.malloc_ret).1
          id (page_len s id) h1
          (by rw [hm.power_largest, hgf.power_largest]; exact h2)).2
          (by rw [hm.perslab id, hgf.perslab id]; exact hper) hne1
        exact hi hslots
    · rw [if_neg hc] at hne hslots
      exact hhead hne hslots
  · rw [e]
    have h1 : 1 ≤ id := by simp only [POWER_SMALLEST] at hid; omega
    have h2 : id ≤ s.power_largest := by omega
    unfold alloc_refill at hz ⊢
    by_cases hc : (s.slabclass id).sl_curr = 0 ∧ flags ≠ SLABS_ALLOC_NO_NEWPAGE
    · rw [if_pos hc] at hz ⊢
      exact do_slabs_newslab_empty s id h h1 h2 hper hpool hz
    · rw [if_neg hc]
      exact SameClasses.rfl_classes s

/-! ## C9: a failed allocation -/

/-- C9 at the failing input: in `state_small` (class 1 valid, no page, empty freelist,
memory limit not reached, empty pool, no preallocated region) with a host whose `malloc`
returns `NULL`, `do_slabs_alloc(10, 1, NULL, 0)` returns `NULL`; the page count, the
freelist head, `sl_curr` and `requested` of the class are unchanged and
`mem_limit_reached` stays false, but `mem_malloced` has grown from 0 to 960:
`memory_allocate` adds the size of the request although the request failed. -/
theorem do_slabs_alloc_failed_malloc :
    (1 ≤ 1 ∧ 1 ≤ state_small.power_largest) ∧
    (state_small.slabclass 1).sl_curr = 0 ∧
    state_small.mem_base = 0 ∧
    (do_slabs_alloc state_small 10 1 0 host_malloc_fails).1 = 0 ∧
    ((do_slabs_alloc state_small 10 1 0 host_malloc_fails).2.slabclass 1).slabs =
      (state_small.slabclass 1).slabs ∧
    ((do_slabs_alloc state_small 10 1 0 host_malloc_fails).2.slabclass 1).slots =
      (state_small.slabclass 1).slots ∧
    ((do_slabs_alloc state_small 10 1 0 host_malloc_fails).2.slabclass 1).sl_curr = 0 ∧
    ((do_slabs_alloc state_small 10 1 0 host_malloc_fails).2.slabclass 1).requested =
      (state_small.slabclass 1).requested ∧
    (do_slabs_alloc state_small 10 1 0 host_malloc_fails).2.mem_limit_reached = false ∧
    state_small.mem_malloced = 0 ∧
    (do_slabs_alloc state_small 10 1 0 host_malloc_fails).2.mem_malloced = 960 := by
  decide

/-! ## C10: the memory limit and the page budget -/

/-- C10, as stated, fails on both counts.  With a memory limit of one page (1024 bytes),
the first page of class 1 and the first page of class 2 are both granted (the limit is
only enforced for a class that already owns a page), so `mem_malloced = 1920 > 1024`; and
since pages are requested with `size * perslab = 960` bytes when `slab_reassign` is off,
the budget `2 * page_size = 2048` exceeds `mem_malloced`. -/
theorem mem_limit_counterexample :
    Reachable build_default cfg_small state_over_limit ∧
    state_over_limit.mem_limit = 1024 ∧
    state_over_limit.mem_malloced = 1920 ∧
    page_budget state_over_limit = 2048 :=
  ⟨state_over_limit_reachable, by decide, by decide, by decide⟩

/-- C10 (amended): in every state reachable from `slabs_init` (non-zero memory limit, no
seed) through `do_slabs_alloc`, `do_slabs_free` and `do_slabs_newslab`: the bytes
requested for the pages of the classes, `Σ slabs_i * page_len_i` with `page_len_i =
item_size_max` when `slab_reassign` is set and `size_i * perslab_i` otherwise, are at most
`mem_malloced` (so `Σ slabs_i * page_size ≤ mem_malloced` when `slab_reassign` is set),
and the global pool is empty.  `mem_malloced` is capped by `mem_limit` per request only:
`do_slabs_newslab` for a class that already owns a page leaves `mem_malloced` at most
`max(mem_malloced, mem_limit)`, plus up to 7 bytes of rounding in preallocated mode. -/
theorem page_bytes_le_mem_malloced (b : Build) (cfg : settings_t) (s : State)
    (hs : Reachable b cfg s) :
    page_bytes s ≤ s.mem_malloced ∧
    (s.slabclass SLAB_GLOBAL_PAGE_POOL).slabs = 0 ∧
    (s.settings.slab_reassign = true → page_budget s ≤ s.mem_malloced) ∧
    ∀ id h, 0 < (s.slabclass id).slabs →
      (do_slabs_newslab s id h).2.mem_malloced ≤ max s.mem_malloced (s.mem_limit + 7) ∧
      (s.mem_base = 0 →
        (do_slabs_newslab s id h).2.mem_malloced ≤ max s.mem_malloced s.mem_limit) := by
  have hinv := hs.pageInv
  refine ⟨hinv.bytes, hinv.pool, fun hr => by rw [page_budget_eq s hr]; exact hinv.bytes, ?_⟩
  intro id h hown
  obtain ⟨_, _, h7, h0, hlim⟩ := do_slabs_newslab_effect s id h hinv.pool
  rcases Nat.lt_or_ge s.mem_limit (s.mem_malloced + page_len s id) with hover | hfit
  · have e := hlim ⟨hinv.limit, hover, hown⟩
    rw [e]
    exact ⟨le_max_left _ _, fun _ => le_max_left _ _⟩
  · exact ⟨le_trans h7 (le_trans (by omega) (le_max_right _ _)),
      fun hb => le_trans (h0 hb) (le_trans hfit (le_max_right _ _))⟩

/-- Witness of C10 (amended): the reachable state `state_over_limit`. -/
theorem page_bytes_le_mem_malloced_witness :
    page_bytes state_over_limit ≤ state_over_limit.mem_malloced ∧
    (state_over_limit.slabclass SLAB_GLOBAL_PAGE_POOL).slabs = 0 :=
  have h := page_bytes_le_mem_malloced build_default cfg_small state_over_limit
    state_over_limit_reachable
  ⟨h.1, h.2.1⟩

/-! ## C13: the decision order of `do_slabs_reassign` -/

theorem reassign_resolve_explicit (s : State) (src dst : Int) (hsrc : src ≠ -1) :
    reassign_resolve s src dst = (src, s) := by
  unfold reassign_resolve
  rw [if_neg hsrc]

/-- C13: for every state and every explicit `src` (`src ≠ -1`) and `dst`,
`do_slabs_reassign(src, dst)` returns RUNNING if the rebalance signal is non-zero;
otherwise SRC_DST_SAME if `src = dst` (whatever the ids are); otherwise BADCLASS if `src`
is outside `[1, power_largest]` or `dst` is outside `[0, power_largest]`; otherwise NOSPARE
if the source class has fewer than 2 pages; otherwise OK. -/
theorem do_slabs_reassign_explicit (s : State) (src dst : Int) (hsrc : src ≠ -1) :
    (do_slabs_reassign s src dst).1 =
      if s.slab_rebalance_signal ≠ 0 then reassign_result_type.REASSIGN_RUNNING
      else if src = dst then reassign_result_type.REASSIGN_SRC_DST_SAME
      else if src < 1 ∨ src > s.power_largest ∨ dst < 0 ∨ dst > s.power_largest then
        reassign_result_type.REASSIGN_BADCLASS
      else if (s.slabclass src.toNat).slabs < 2 then reassign_result_type.REASSIGN_NOSPARE
      else reassign_result_type.REASSIGN_OK := by
  unfold do_slabs_reassign
  dsimp only
  rw [reassign_resolve_explicit s src dst hsrc]
  by_cases h1 : s.slab_rebalance_signal ≠ 0
  · rw [if_pos h1, if_pos h1]
  · rw [if_neg h1, if_neg h1]
    by_cases h2 : src = dst
    · rw [if_pos h2, if_pos h2]
    · rw [if_neg h2, if_neg h2]
      dsimp only [POWER_SMALLEST, SLAB_GLOBAL_PAGE_POOL]
      by_cases h3 : src < 1 ∨ src > s.power_largest ∨ dst < 0 ∨ dst > s.power_largest
      · rw [if_pos h3]
        rw [if_pos (by simpa using h3)]
      · rw [if_neg h3]
        rw [if_neg (by simpa using h3)]
        by_cases h4 : (s.slabclass src.toNat).slabs < 2
        · rw [if_pos h4, if_pos h4]
        · rw [if_neg h4, if_neg h4]

/-- Witness of C13 on `state_two_pages` (class 1 owns two pages, no rebalance running):
`reassign(1, 0)` is accepted, `reassign(0, 1)` is BADCLASS, `reassign(2, 1)` is NOSPARE,
`reassign(9, 9)` is SRC_DST_SAME. -/
theorem do_slabs_reassign_explicit_witness :
    (do_slabs_reassign state_two_pages 1 0).1 = reassign_result_type.REASSIGN_OK ∧
    (do_slabs_reassign state_two_pages 0 1).1 = reassign_result_type.REASSIGN_BADCLASS ∧
    (do_slabs_reassign state_two_pages 2 1).1 = reassign_result_type.REASSIGN_NOSPARE ∧
    (do_slabs_reassign state_two_pages 9 9).1 = reassign_result_type.REASSIGN_SRC_DST_SAME :=
  ⟨(do_slabs_reassign_explicit state_two_pages 1 0 (by decide)).trans (by decide),
   (do_slabs_reassign_explicit state_two_pages 0 1 (by decide)).trans (by decide),
   (do_slabs_reassign_explicit state_two_pages 2 1 (by decide)).trans (by decide),
   (do_slabs_reassign_explicit state_two_pages 9 9 (by decide)).trans (by decide)⟩

/-! ## The automatic choice of the source class -/

/-- Whatever the loop of `slabs_reassign_pick_any` returns, other than -1, is a candidate
source: a class of `[1, power_largest]` that is not `dst` and owns more than one page. -/
theorem pick_any_loop_sound (s : State) (dst : Int) (hpl : 1 ≤ s.power_largest) :
    ∀ tries cur, (pick_any_loop s dst tries cur).1 = -1 ∨
      ∃ c : Nat, (pick_any_loop s dst tries cur).1 = (c : Int) ∧ 1 ≤ c ∧
        c ≤ s.power_largest ∧ (c : Int) ≠ dst ∧ 1 < (s.slabclass c).slabs := by
  intro tries
  induction tries with
  | zero => intro cur; exact Or.inl rfl
  | succ n ih =>
    intro cur
    unfold pick_any_loop
    dsimp only
    by_cases h1 : (((if cur + 1 > s.power_largest then POWER_SMALLEST else cur + 1 : Nat) : Int))
        = dst
    · rw [if_pos h1]; exact ih _
    · rw [if_neg h1]
      by_cases h2 : (s.slabclass (if cur + 1 > s.power_largest then POWER_SMALLEST
          else cur + 1)).slabs > 1
      · rw [if_pos h2]
        refine Or.inr ⟨_, rfl, ?_, ?_, h1, h2⟩
        · have hps : POWER_SMALLEST = 1 := rfl
          split <;> omega
        · have hps : POWER_SMALLEST = 1 := rfl
          split <;> omega
      · rw [if_neg h2]; exact ih _

/-- When no class of `[1, power_largest]` other than `dst` owns more than one page, the
loop of `slabs_reassign_pick_any` returns -1. -/
theorem pick_any_loop_none (s : State) (dst : Int)
    (hnone : ∀ c : Nat, 1 ≤ c → c ≤ s.power_largest → (c : Int) ≠ dst →
      (s.slabclass c).slabs ≤ 1) :
    ∀ tries cur, tries ≤ s.power_largest → (pick_any_loop s dst tries cur).1 = -1 := by
  intro tries cur ht
  rcases Nat.eq_zero_or_pos s.power_largest with h0 | hpl
  · have : tries = 0 := by omega
    subst this; rfl
  · rcases pick_any_loop_sound s dst hpl tries cur with h | ⟨c, _, h1, h2, h3, h4⟩
    · exact h
    · have := hnone c h1 h2 h3
      omega

/-- When a candidate `c` lies among the next `tries` positions after `cur`, the loop of
`slabs_reassign_pick_any` does not return -1. -/
theorem pick_any_loop_finds (s : State) (dst : Int) (c : Nat) (hc1 : 1 ≤ c)
    (hc2 : c ≤ s.power_largest) (hcd : (c : Int) ≠ dst) (hcs : 1 < (s.slabclass c).slabs) :
    ∀ tries cur, cur ≤ s.power_largest →
      ((cur < c ∧ c - cur ≤ tries) ∨ (c ≤ cur ∧ c + s.power_largest - cur ≤ tries)) →
      (pick_any_loop s dst tries cur).1 ≠ -1 := by
  intro tries
  induction tries with
  | zero => intro cur hcur h; omega
  | succ n ih =>
    intro cur hcur h
    unfold pick_any_loop
    dsimp only
    have hnext : (if cur + 1 > s.power_largest then POWER_SMALLEST else cur + 1)
        ≤ s.power_largest := by
      have hps : POWER_SMALLEST = 1 := rfl
      split <;> omega
    by_cases hhit : (if cur + 1 > s.power_largest then POWER_SMALLEST else cur + 1) = c
    · rw [hhit, if_neg hcd, if_pos hcs]
      omega
    · have hrec : ((if cur + 1 > s.power_largest then POWER_SMALLEST else cur + 1) < c ∧
          c - (if cur + 1 > s.power_largest then POWER_SMALLEST else cur + 1) ≤ n) ∨
          (c ≤ (if cur + 1 > s.power_largest then POWER_SMALLEST else cur + 1) ∧
            c + s.power_largest -
              (if cur + 1 > s.power_largest then POWER_SMALLEST else cur + 1) ≤ n) := by
        have hps : POWER_SMALLEST = 1 := rfl
        revert hhit
        split <;> intro hhit <;> omega
      by_cases h1 : (((if cur + 1 > s.power_largest then POWER_SMALLEST else cur + 1 : Nat)
          : Int)) = dst
      · rw [if_pos h1]; exact ih _ hnext hrec
      · rw [if_neg h1]
        by_cases h2 : (s.slabclass (if cur + 1 > s.power_largest then POWER_SMALLEST
            else cur + 1)).slabs > 1
        · rw [if_pos h2]; omega
        · rw [if_neg h2]; exact ih _ hnext hrec

/-- The result of `slabs_reassign_pick_any(dst)` for a cursor in `[0, power_largest]`: it
is -1 or a candidate class, and it is a candidate class whenever one exists. -/
theorem slabs_reassign_pick_any_spec (s : State) (dst : Int) (hpl : 1 ≤ s.power_largest)
    (hcur : s.pick_any_cur ≤ s.power_largest) :
    ((slabs_reassign_pick_any s dst).1 = -1 ∨
      ∃ c : Nat, (slabs_reassign_pick_any s dst).1 = (c : Int) ∧ 1 ≤ c ∧
        c ≤ s.power_largest ∧ (c : Int) ≠ dst ∧ 1 < (s.slabclass c).slabs) ∧
    ((∃ c : Nat, 1 ≤ c ∧ c ≤ s.power_largest ∧ (c : Int) ≠ dst ∧
        1 < (s.slabclass c).slabs) → (slabs_reassign_pick_any s dst).1 ≠ -1) := by
  constructor
  · exact pick_any_loop_sound s dst hpl _ _
  · rintro ⟨c, h1, h2, h3, h4⟩
    apply pick_any_loop_finds s dst c h1 h2 h3 h4 _ _ hcur
    simp only [POWER_SMALLEST]
    omega

theorem slabs_reassign_pick_any_state (s : State) (dst : Int) :
    (slabs_reassign_pick_any s dst).2.slabclass = s.slabclass ∧
    (slabs_reassign_pick_any s dst).2.power_largest = s.power_largest ∧
    (slabs_reassign_pick_any s dst).2.slab_rebal = s.slab_rebal ∧
    (slabs_reassign_pick_any s dst).2.slab_rebalance_signal = s.slab_rebalance_signal ∧
    (slabs_reassign_pick_any s dst).2.heap = s.heap ∧
    (slabs_reassign_pick_any s dst).2.mem_malloced = s.mem_malloced ∧
    (slabs_reassign_pick_any s dst).2.stats = s.stats :=
  ⟨rfl, rfl, rfl, rfl, rfl, rfl, rfl⟩

theorem reassign_resolve_state (s : State) (src dst : Int) :
    (reassign_resolve s src dst).2.slabclass = s.slabclass ∧
    (reassign_resolve s src dst).2.power_largest = s.power_largest ∧
    (reassign_resolve s src dst).2.slab_rebal = s.slab_rebal ∧
    (reassign_resolve s src dst).2.slab_rebalance_signal = s.slab_rebalance_signal ∧
    (reassign_resolve s src dst).2.heap = s.heap ∧
    (reassign_resolve s src dst).2.mem_malloced = s.mem_malloced ∧
    (reassign_resolve s src dst).2.stats = s.stats := by
  unfold reassign_resolve
  split
  · exact slabs_reassign_pick_any_state s dst
  · exact ⟨rfl, rfl, rfl, rfl, rfl, rfl, rfl⟩

/-- The five ways through `do_slabs_reassign`. -/
theorem do_slabs_reassign_cases (s : State) (src dst : Int) :
    (s.slab_rebalance_signal ≠ 0 ∧
      do_slabs_reassign s src dst = (reassign_result_type.REASSIGN_RUNNING, s)) ∨
    (s.slab_rebalance_signal = 0 ∧ src = dst ∧
      do_slabs_reassign s src dst = (reassign_result_type.REASSIGN_SRC_DST_SAME, s)) ∨
    (s.slab_rebalance_signal = 0 ∧ src ≠ dst ∧
      ((reassign_resolve s src dst).1 < 1 ∨
        (reassign_resolve s src dst).1 > s.power_largest ∨ dst < 0 ∨
        dst > s.power_largest) ∧
      do_slabs_reassign s src dst =
        (reassign_result_type.REASSIGN_BADCLASS, (reassign_resolve s src dst).2)) ∨
    (s.slab_rebalance_signal = 0 ∧ src ≠ dst ∧
      ¬ ((reassign_resolve s src dst).1 < 1 ∨
        (reassign_resolve s src dst).1 > s.power_largest ∨ dst < 0 ∨
        dst > s.power_largest) ∧
      (s.slabclass (reassign_resolve s src dst).1.toNat).slabs < 2 ∧
      do_slabs_reassign s src dst =
        (reassign_result_type.REASSIGN_NOSPARE, (reassign_resolve s src dst).2)) ∨
    (s.slab_rebalance_signal = 0 ∧ src ≠ dst ∧
      ¬ ((reassign_resolve s src dst).1 < 1 ∨
        (reassign_resolve s src dst).1 > s.power_largest ∨ dst < 0 ∨
        dst > s.power_largest) ∧
      ¬ (s.slabclass (reassign_resolve s src dst).1.toNat).slabs < 2 ∧
      do_slabs_reassign s src dst =
        (reassign_result_type.REASSIGN_OK,
          reassign_publish (reassign_resolve s src dst).2 (reassign_resolve s src dst).1
            dst)) := by
  have hst := reassign_resolve_state s src dst
  unfold do_slabs_reassign
  dsimp only [POWER_SMALLEST, SLAB_GLOBAL_PAGE_POOL]
  rw [hst.1, hst.2.1]
  by_cases h1 : s.slab_rebalance_signal ≠ 0
  · left; exact ⟨h1, by rw [if_pos h1]⟩
  · right
    have h1z : s.slab_rebalance_signal = 0 := not_not.mp h1
    rw [if_neg h1]
    by_cases h2 : src = dst
    · left; exact ⟨h1z, h2, by rw [if_pos h2]⟩
    · right
      rw [if_neg h2]
      by_cases h3 : (reassign_resolve s src dst).1 < 1 ∨
          (reassign_resolve s src dst).1 > s.power_largest ∨ dst < 0 ∨ dst > s.power_largest
      · left
        refine ⟨h1z, h2, h3, ?_⟩
        rw [if_pos (by simpa using h3)]
      · right
        rw [if_neg (by simpa using h3)]
        by_cases h4 : (s.slabclass (reassign_resolve s src dst).1.toNat).slabs < 2
        · left; exact ⟨h1z, h2, h3, h4, by rw [if_pos h4]⟩
        · right; exact ⟨h1z, h2, h3, h4, by rw [if_neg h4]⟩

/-- Without a candidate source, `reassign(-1, dst)` with a valid `dst` and no rebalance in
progress leaves `do_slabs_reassign` through the range check, whatever the cursor. -/
theorem do_slabs_reassign_any_none (s : State) (dst : Int)
    (hsig : s.slab_rebalance_signal = 0) (hd0 : 0 ≤ dst) (_hd1 : dst ≤ s.power_largest)
    (hnone : ∀ c : Nat, 1 ≤ c → c ≤ s.power_largest → (c : Int) ≠ dst →
      (s.slabclass c).slabs ≤ 1) :
    (do_slabs_reassign s (-1) dst).1 = reassign_result_type.REASSIGN_BADCLASS := by
  have hres : (reassign_resolve s (-1) dst).1 = -1 := by
    unfold reassign_resolve
    rw [if_pos rfl]
    apply pick_any_loop_none s dst hnone
    simp only [POWER_SMALLEST]
    omega
  rcases do_slabs_reassign_cases s (-1) dst with h | h | h | h | h
  · exact absurd hsig h.1
  · omega
  · rw [h.2.2.2]
  · exact absurd (Or.inl (by rw [hres]; decide)) h.2.2.1
  · exact absurd (Or.inl (by rw [hres]; decide)) h.2.2.1

/-! ## C14: reassign(-1, dst) without a candidate source -/

/-- C14, evaluated on the code: in `state_small_page` no rebalance is in progress, the
classes are `1 .. 4`, class 1 owns one page and no other class owns any, so no class owns
more than one page; `reassign(-1, 2)` has a valid destination and the claim promises
NOSPARE. The code returns BADCLASS: `slabs_reassign_pick_any` hands back -1, which fails the
range check `src < POWER_SMALLEST` before the page count of the source is looked at. The
same happens from every position of the cursor. -/
theorem do_slabs_reassign_no_candidate :
    state_small_page.slab_rebalance_signal = 0 ∧ state_small_page.power_largest = 4 ∧
    (∀ c : Fin 5, (state_small_page.slabclass c.val).slabs ≤ 1) ∧
    (do_slabs_reassign state_small_page (-1) 2).1 = reassign_result_type.REASSIGN_BADCLASS ∧
    (do_slabs_reassign state_small_page (-1) 2).1 ≠ reassign_result_type.REASSIGN_NOSPARE ∧
    (∀ cur : Fin 5, (do_slabs_reassign { state_small_page with pick_any_cur := cur.val } (-1)
      2).1 = reassign_result_type.REASSIGN_BADCLASS) := by
  decide

/-! ## C15: the candidate found by slabs_reassign_pick_any -/

/-- C15 as stated fails for a destination outside `[0, power_largest]`: in
`state_two_pages` class 1 is the only class with more than one page and no rebalance is
running, the cursor is `0`, yet `reassign(-1, 5)` is BADCLASS (the classes are `1 .. 4`) and
`reassign(-1, -1)` is SRC_DST_SAME; neither is OK. -/
theorem reassign_any_counterexample :
    state_two_pages.slab_rebalance_signal = 0 ∧ state_two_pages.power_largest = 4 ∧
    state_two_pages.pick_any_cur = 0 ∧
    (∀ c : Fin 5, 1 < (state_two_pages.slabclass c.val).slabs ↔ c.val = 1) ∧
    (do_slabs_reassign state_two_pages (-1) 5).1 = reassign_result_type.REASSIGN_BADCLASS ∧
    (do_slabs_reassign state_two_pages (-1) (-1)).1 =
      reassign_result_type.REASSIGN_SRC_DST_SAME := by
  decide

/-- C15, amended: for every `dst` and every cursor in `[0, power_largest]`,
`slabs_reassign_pick_any(dst)` returns -1 or a class `c` with `1 <= c <= power_largest`,
`c != dst` and more than one page; it does not return -1 when such a class exists; and
when `dst` is in `[0, power_largest]`, no rebalance is running and `c` is the only such
class, `reassign(-1, dst)` returns OK and publishes `c` as the source. -/
theorem slabs_reassign_pick_any_finds (s : State) (dst : Int)
    (hcur : s.pick_any_cur ≤ s.power_largest) :
    ((slabs_reassign_pick_any s dst).1 = -1 ∨
      ∃ c : Nat, (slabs_reassign_pick_any s dst).1 = (c : Int) ∧ 1 ≤ c ∧
        c ≤ s.power_largest ∧ (c : Int) ≠ dst ∧ 1 < (s.slabclass c).slabs) ∧
    ((∃ c : Nat, 1 ≤ c ∧ c ≤ s.power_largest ∧ (c : Int) ≠ dst ∧
        1 < (s.slabclass c).slabs) → (slabs_reassign_pick_any s dst).1 ≠ -1) ∧
    (∀ c : Nat, s.slab_rebalance_signal = 0 → 0 ≤ dst → dst ≤ s.power_largest →
      1 ≤ c → c ≤ s.power_largest → (c : Int) ≠ dst → 1 < (s.slabclass c).slabs →
      (∀ c2 : Nat, 1 ≤ c2 → c2 ≤ s.power_largest → (c2 : Int) ≠ dst →
        1 < (s.slabclass c2).slabs → c2 = c) →
      (do_slabs_reassign s (-1) dst).1 = reassign_result_type.REASSIGN_OK ∧
      (do_slabs_reassign s (-1) dst).2.slab_rebal.s_clsid = (c : Int) ∧
      (do_slabs_reassign s (-1) dst).2.slab_rebal.d_clsid = dst ∧
      (do_slabs_reassign s (-1) dst).2.slab_rebalance_signal = 1) := by
  rcases Nat.eq_zero_or_pos s.power_largest with h0 | hpl
  · have hm : (slabs_reassign_pick_any s dst).1 = -1 := by
      unfold slabs_reassign_pick_any
      dsimp only [POWER_SMALLEST]
      rw [h0]
      rfl
    refine ⟨Or.inl hm, ?_, ?_⟩
    · rintro ⟨c, h1, h2, _⟩; omega
    · intro c _ _ _ h1 h2; omega
  · have hspec := slabs_reassign_pick_any_spec s dst hpl hcur
    refine ⟨hspec.1, hspec.2, ?_⟩
    intro c hsig hd0 hd1 hc1 hc2 hcd hcs huniq
    have hres : (reassign_resolve s (-1) dst).1 = (c : Int) := by
      unfold reassign_resolve
      rw [if_pos rfl]
      rcases hspec.1 with hm | ⟨c2, he, h1, h2, h3, h4⟩
      · exact absurd hm (hspec.2 ⟨c, hc1, hc2, hcd, hcs⟩)
      · rw [he, huniq c2 h1 h2 h3 h4]
    rcases do_slabs_reassign_cases s (-1) dst with h | h | h | h | h
    · exact absurd hsig h.1
    · omega
    · rw [hres] at h; omega
    · rw [hres] at h
      have := h.2.2.2.1
      rw [Int.toNat_ofNat] at this
      omega
    · rw [h.2.2.2.2, hres]
      exact ⟨rfl, rfl, rfl, rfl⟩

/-- Witness of C15 on `state_two_pages` with the cursor at `0`: class 1 is the only class
with more than one page, and `reassign(-1, 2)` is accepted with source 1. -/
theorem slabs_reassign_pick_any_finds_witness :
    (do_slabs_reassign state_two_pages (-1) 2).1 = reassign_result_type.REASSIGN_OK ∧
    (do_slabs_reassign state_two_pages (-1) 2).2.slab_rebal.s_clsid = 1 ∧
    (do_slabs_reassign state_two_pages (-1) 2).2.slab_rebal.d_clsid = 2 ∧
    (do_slabs_reassign state_two_pages (-1) 2).2.slab_rebalance_signal = 1 :=
  (slabs_reassign_pick_any_finds state_two_pages 2 (by decide)).2.2 1 (by decide)
    (by decide) (by decide) (by decide) (by decide) (by decide) (by decide)
    (by
      intro c2 h1 h2 _ h4
      have h5 : ∀ k : Fin 5, 1 < (state_two_pages.slabclass k.val).slabs → k.val = 1 := by
        decide
      have hpl : state_two_pages.power_largest = 4 := by decide
      exact h5 ⟨c2, by omega⟩ h4)

/-! ## C16: what do_slabs_reassign writes -/

/-- C16: when `do_slabs_reassign` returns OK, `s_clsid` and `d_clsid` hold the resolved
source (`src` itself unless it was -1) and `dst`, the signal is 1, and every other field of
the rebalance record, every size class, the heap, the page accounting and the statistics are
unchanged; for every other result the rebalance record, the signal and all of these are
unchanged. -/
theorem do_slabs_reassign_writes (s : State) (src dst : Int) :
    ((do_slabs_reassign s src dst).1 = reassign_result_type.REASSIGN_OK →
      (do_slabs_reassign s src dst).2.slab_rebal =
        { s.slab_rebal with s_clsid := (reassign_resolve s src dst).1, d_clsid := dst } ∧
      (src ≠ -1 → (do_slabs_reassign s src dst).2.slab_rebal.s_clsid = src) ∧
      (do_slabs_reassign s src dst).2.slab_rebalance_signal = 1 ∧
      s.slab_rebalance_signal = 0) ∧
    ((do_slabs_reassign s src dst).1 ≠ reassign_result_type.REASSIGN_OK →
      (do_slabs_reassign s src dst).2.slab_rebal = s.slab_rebal ∧
      (do_slabs_reassign s src dst).2.slab_rebalance_signal = s.slab_rebalance_signal) ∧
    (do_slabs_reassign s src dst).2.slabclass = s.slabclass ∧
    (do_slabs_reassign s src dst).2.power_largest = s.power_largest ∧
    (do_slabs_reassign s src dst).2.heap = s.heap ∧
    (do_slabs_reassign s src dst).2.mem_malloced = s.mem_malloced ∧
    (do_slabs_reassign s src dst).2.stats = s.stats := by
  have hst := reassign_resolve_state s src dst
  rcases do_slabs_reassign_cases s src dst with h | h | h | h | h
  · rw [h.2]
    exact ⟨fun h => reassign_result_type.noConfusion h, fun _ => ⟨rfl, rfl⟩, rfl, rfl, rfl, rfl, rfl⟩
  · rw [h.2.2]
    exact ⟨fun h => reassign_result_type.noConfusion h, fun _ => ⟨rfl, rfl⟩, rfl, rfl, rfl, rfl, rfl⟩
  · rw [h.2.2.2]
    exact ⟨fun h => reassign_result_type.noConfusion h, fun _ => ⟨hst.2.2.1, hst.2.2.2.1⟩, hst.1, hst.2.1,
      hst.2.2.2.2.1, hst.2.2.2.2.2.1, hst.2.2.2.2.2.2⟩
  · rw [h.2.2.2.2]
    exact ⟨fun h => reassign_result_type.noConfusion h, fun _ => ⟨hst.2.2.1, hst.2.2.2.1⟩, hst.1, hst.2.1,
      hst.2.2.2.2.1, hst.2.2.2.2.2.1, hst.2.2.2.2.2.2⟩
  · rw [h.2.2.2.2]
    refine ⟨fun _ => ⟨?_, ?_, rfl, h.1⟩, fun h => absurd rfl h, hst.1, hst.2.1,
      hst.2.2.2.2.1, hst.2.2.2.2.2.1, hst.2.2.2.2.2.2⟩
    · show ({ (reassign_resolve s src dst).2.slab_rebal with
        s_clsid := (reassign_resolve s src dst).1, d_clsid := dst } : slab_rebalance) = _
      rw [hst.2.2.1]
    · intro hsrc
      show (reassign_resolve s src dst).1 = src
      rw [reassign_resolve_explicit s src dst hsrc]

/-! ## C11: do_slabs_newslab beyond the memory limit -/

/-- C11 as stated fails in three ways. (1) In `state_limit_page` (limit 1024, 960 bytes
obtained) class 2 has no page, so the claim promises success, but `do_slabs_newslab(2)`
returns 0 when the host `malloc` fails. (2) In `state_limit_1950` class 1 has a page, the
pool is empty and `960 + page_size = 1984 > 1950`, so the claim promises failure, but the
request is for `size * perslab = 960` bytes, `960 + 960 <= 1950`, and it succeeds. (3) In
`state_unlimited` the memory limit is 0, class 1 has a page and the pool is empty, and the
request succeeds because a limit of 0 is no limit.  Moreover the sum that the code compares
with the limit is a `size_t`: (4) in `state_seeded` the counter is `2^64 - 1`, so
`mem_malloced + page_size` exceeds the limit 4096, but the sum the code computes for a page
of class 1 is `(2^64 - 1 + 960) mod 2^64 = 959`, which does not. -/
theorem do_slabs_newslab_limit_counterexample :
    (state_limit_page.mem_malloced + state_limit_page.settings.item_size_max
        > state_limit_page.mem_limit ∧
      (state_limit_page.slabclass 2).slabs = 0 ∧
      (do_slabs_newslab state_limit_page 2 host_malloc_fails).1 = 0) ∧
    (state_limit_1950.mem_malloced + state_limit_1950.settings.item_size_max
        > state_limit_1950.mem_limit ∧
      (state_limit_1950.slabclass 1).slabs = 1 ∧
      (state_limit_1950.slabclass SLAB_GLOBAL_PAGE_POOL).slabs = 0 ∧
      (do_slabs_newslab state_limit_1950 1 (host_ok 8192)).1 = 1) ∧
    (state_unlimited.mem_malloced + state_unlimited.settings.item_size_max
        > state_unlimited.mem_limit ∧
      (state_unlimited.slabclass 1).slabs = 1 ∧
      (state_unlimited.slabclass SLAB_GLOBAL_PAGE_POOL).slabs = 0 ∧
      (do_slabs_newslab state_unlimited 1 (host_ok 8192)).1 = 1) ∧
    (state_seeded.mem_limit = 4096 ∧ state_seeded.mem_malloced = 18446744073709551615 ∧
      state_seeded.mem_malloced + state_seeded.settings.item_size_max
        > state_seeded.mem_limit ∧
      (state_seeded.mem_malloced + page_len state_seeded 1) % SIZE_MAX1 = 959 ∧
      ¬ ((state_seeded.mem_malloced + page_len state_seeded 1) % SIZE_MAX1
        > state_seeded.mem_limit)) := by
  decide

/-- C11, amended: for every state, class id and host with a non-zero memory limit in which
the test of the code holds, `(mem_malloced + len) mod 2^64 > mem_limit`, where `len` is the
number of bytes the page request asks for and the sum is the `size_t` sum that the code
computes, `do_slabs_newslab(id)` succeeds if and only if the class has zero pages or the
global pool is non-empty, and the page vector can be grown, and a page is obtained from the
pool or the page source. When the class has pages and the pool is empty it fails without
touching anything but `mem_limit_reached`, which it sets. -/
theorem do_slabs_newslab_over_limit (s : State) (id : Nat) (h : Host)
    (hlim : s.mem_limit ≠ 0)
    (hwrap : (s.mem_malloced + page_len s id) % SIZE_MAX1 > s.mem_limit) :
    ((do_slabs_newslab s id h).1 = 1 ↔
      ((s.slabclass id).slabs = 0 ∨ (s.slabclass SLAB_GLOBAL_PAGE_POOL).slabs ≠ 0) ∧
      (grow_slab_list s id h.realloc_ok).1 ≠ 0 ∧
      (newslab_get_page (grow_slab_list s id h.realloc_ok).2 (page_len s id)
        h.malloc_ret).1 ≠ 0) ∧
    ((do_slabs_newslab s id h).1 ≠ 1 → (do_slabs_newslab s id h).1 = 0) ∧
    ((s.slabclass id).slabs ≠ 0 → (s.slabclass SLAB_GLOBAL_PAGE_POOL).slabs = 0 →
      do_slabs_newslab s id h = (0, { s with mem_limit_reached := true })) := by
  have hover : s.mem_malloced + page_len s id > s.mem_limit :=
    lt_of_lt_of_le hwrap (Nat.mod_le _ _)
  rcases do_slabs_newslab_cases s id h with ⟨_, _, h3, h4, e⟩ | ⟨hn, ⟨hg, e⟩ | ⟨hg, ⟨hm, e⟩ | ⟨hm, e⟩⟩⟩
  · rw [e]
    refine ⟨⟨fun h1 => absurd h1 (Nat.zero_ne_one), fun h => ?_⟩, fun _ => rfl, fun _ _ => rfl⟩
    rcases h.1 with h0 | h0
    · omega
    · exact absurd h4 h0
  · have hor : (s.slabclass id).slabs = 0 ∨ (s.slabclass SLAB_GLOBAL_PAGE_POOL).slabs ≠ 0 := by
      by_cases h0 : (s.slabclass id).slabs = 0
      · exact Or.inl h0
      · exact Or.inr fun h4 => hn ⟨hlim, hover, Nat.pos_of_ne_zero h0, h4⟩
    rw [e]
    refine ⟨⟨fun h1 => absurd h1 (Nat.zero_ne_one), fun h => absurd hg h.2.1⟩, fun _ => rfl, ?_⟩
    intro h0 h4
    rcases hor with h | h
    · exact absurd h h0
    · exact absurd h4 h
  · have hor : (s.slabclass id).slabs = 0 ∨ (s.slabclass SLAB_GLOBAL_PAGE_POOL).slabs ≠ 0 := by
      by_cases h0 : (s.slabclass id).slabs = 0
      · exact Or.inl h0
      · exact Or.inr fun h4 => hn ⟨hlim, hover, Nat.pos_of_ne_zero h0, h4⟩
    rw [e]
    refine ⟨⟨fun h1 => absurd h1 (Nat.zero_ne_one), fun h => absurd hm h.2.2⟩, fun _ => rfl, ?_⟩
    intro h0 h4
    rcases hor with h | h
    · exact absurd h h0
    · exact absurd h4 h
  · have hor : (s.slabclass id).slabs = 0 ∨ (s.slabclass SLAB_GLOBAL_PAGE_POOL).slabs ≠ 0 := by
      by_cases h0 : (s.slabclass id).slabs = 0
      · exact Or.inl h0
      · exact Or.inr fun h4 => hn ⟨hlim, hover, Nat.pos_of_ne_zero h0, h4⟩
    rw [e]
    refine ⟨⟨fun _ => ⟨hor, hg, hm⟩, fun _ => rfl⟩, fun h => absurd rfl h, ?_⟩
    intro h0 h4
    rcases hor with h | h
    · exact absurd h h0
    · exact absurd h4 h

/-- Witness of C11 on `state_limit_page` (limit 1024, 960 bytes obtained): class 2 has no
page and its request succeeds with a working host; class 1 has a page, the pool is empty,
and its request fails and sets `mem_limit_reached`. -/
theorem do_slabs_newslab_over_limit_witness :
    (do_slabs_newslab state_limit_page 2 (host_ok 8192)).1 = 1 ∧
    (do_slabs_newslab state_limit_page 1 (host_ok 8192)) =
      (0, { state_limit_page with mem_limit_reached := true }) :=
  ⟨(do_slabs_newslab_over_limit state_limit_page 2 (host_ok 8192) (by decide)
      (by decide)).1.2 (by decide),
   (do_slabs_newslab_over_limit state_limit_page 1 (host_ok 8192) (by decide)
      (by decide)).2.2 (by decide) (by decide)⟩

/-! ## The state that slabs_init builds before it preallocates -/

theorem slabs_init_loop_keeps (Q : slabclass_t → Prop)
    (hQ : ∀ (c : slabclass_t) (sz pp : Nat), Q c → Q { c with size := sz, perslab := pp })
    (cfg : settings_t) (MAX fnum fden : Nat) :
    ∀ fuel i size tab, (∀ j, Q (tab j)) →
      ∀ j, Q ((slabs_init_loop cfg MAX fnum fden fuel i size tab).2 j) := by
  intro fuel
  induction fuel with
  | zero => intro i size tab h j; exact h j
  | succ n ih =>
    intro i size tab h j
    unfold slabs_init_loop
    dsimp only
    split
    · apply ih
      intro k
      by_cases hk : k = i + 1
      · rw [hk, upd_same]; exact hQ _ _ _ (h (i + 1))
      · rw [upd_other _ _ _ _ hk]; exact h k
    · exact h j

/-- The state on which `slabs_init` (called at program start, no `T_MEMD_INITIAL_MALLOC`)
runs `slabs_preallocate`, or which it returns when the preallocate flag is off: the table
is built, no class owns a page or a chunk and nothing has been obtained. -/
theorem slabs_init_pre (b : Build) (cfg : settings_t) (heap0 : Nat → item)
    (limit fnum fden : Nat) (prealloc : Bool) (base : Nat) (hosts : Nat → Host) :
    ∃ s4 : State,
      slabs_init b (boot cfg heap0) limit fnum fden prealloc base none hosts =
        (if prealloc = true then slabs_preallocate b s4 s4.power_largest hosts else some s4) ∧
      (∀ j, (s4.slabclass j).fresh) ∧ s4.mem_malloced = 0 ∧ s4.mem_limit = limit ∧
      (prealloc = false → s4.mem_base = 0) ∧ s4.settings = cfg ∧
      s4.power_largest = (slabs_init_table b cfg fnum fden).power_largest ∧
      (∀ j, (s4.slabclass j).size = ((slabs_init_table b cfg fnum fden).slabclass j).size) ∧
      (∀ j, (s4.slabclass j).perslab =
        ((slabs_init_table b cfg fnum fden).slabclass j).perslab) := by
  have hl := slabs_init_loop_keeps slabclass_t.fresh (fun c _ _ h => h) cfg
    b.MAX_NUMBER_OF_SLAB_CLASSES fnum fden
    b.MAX_NUMBER_OF_SLAB_CLASSES (POWER_SMALLEST - 1) (b.sizeof_item + cfg.chunk_size)
    (fun _ => slabclass_t.zero) (fun _ => ⟨rfl, rfl, rfl, rfl, rfl⟩)
  have hz : ∀ j, ((upd (slabs_init_loop cfg b.MAX_NUMBER_OF_SLAB_CLASSES fnum fden
        b.MAX_NUMBER_OF_SLAB_CLASSES (POWER_SMALLEST - 1) (b.sizeof_item + cfg.chunk_size)
        (fun _ => slabclass_t.zero)).2
      (slabs_init_loop cfg b.MAX_NUMBER_OF_SLAB_CLASSES fnum fden
        b.MAX_NUMBER_OF_SLAB_CLASSES (POWER_SMALLEST - 1) (b.sizeof_item + cfg.chunk_size)
        (fun _ => slabclass_t.zero)).1
      { (slabs_init_loop cfg b.MAX_NUMBER_OF_SLAB_CLASSES fnum fden
          b.MAX_NUMBER_OF_SLAB_CLASSES (POWER_SMALLEST - 1) (b.sizeof_item + cfg.chunk_size)
          (fun _ => slabclass_t.zero)).2
        (slabs_init_loop cfg b.MAX_NUMBER_OF_SLAB_CLASSES fnum fden
          b.MAX_NUMBER_OF_SLAB_CLASSES (POWER_SMALLEST - 1) (b.sizeof_item + cfg.chunk_size)
          (fun _ => slabclass_t.zero)).1 with
        size := cfg.item_size_max, perslab := 1 }) j).fresh := by
    intro j
    unfold upd
    dsimp only
    split
    · exact hl _
    · exact hl j
  unfold slabs_init
  dsimp only
  cases prealloc with
  | false =>
    exact ⟨_, rfl, hz, rfl, rfl, fun _ => rfl, rfl, rfl, fun _ => rfl, fun _ => rfl⟩
  | true =>
    refine ⟨_, rfl, ?_, ?_, ?_, fun h => absurd h (by decide), ?_, ?_, ?_, ?_⟩
    · intro j
      by_cases hb : base = 0 <;> simp only [hb, ne_eq, not_true_eq_false, not_false_eq_true,
        if_true, if_false] <;> exact hz j
    · by_cases hb : base = 0 <;> simp [hb, boot]
    · by_cases hb : base = 0 <;> simp [hb]
    · by_cases hb : base = 0 <;> simp [hb, boot]
    · by_cases hb : base = 0 <;> simp [hb, boot, slabs_init_table]
    · intro j
      by_cases hb : base = 0 <;> simp [hb, boot, slabs_init_table]
    · intro j
      by_cases hb : base = 0 <;> simp [hb, boot, slabs_init_table]

/-! ## Growing a class page by page -/

/-- A page request for a valid class while the pool is empty and no region was
preallocated: either it succeeds, and the class has one page and `perslab` free chunks more
and `mem_malloced` has grown by the requested length, or it fails and the class has the
pages and free chunks it had. -/
theorem do_slabs_newslab_plain (s : State) (id : Nat) (h : Host)
    (h1 : 1 ≤ id) (h2 : id ≤ s.power_largest)
    (hpool : (s.slabclass 0).slabs = 0) (hbase : s.mem_base = 0) :
    ((do_slabs_newslab s id h).1 = 1 ∧
      ((do_slabs_newslab s id h).2.slabclass id).slabs = (s.slabclass id).slabs + 1 ∧
      (do_slabs_newslab s id h).2.mem_malloced = s.mem_malloced + page_len s id ∧
      ((do_slabs_newslab s id h).2.slabclass id).sl_curr =
        (s.slabclass id).sl_curr + (s.slabclass id).perslab) ∨
    ((do_slabs_newslab s id h).1 = 0 ∧
      ((do_slabs_newslab s id h).2.slabclass id).slabs = (s.slabclass id).slabs ∧
      ((do_slabs_newslab s id h).2.slabclass id).sl_curr = (s.slabclass id).sl_curr) := by
  have hgc := grow_slab_list_sameClasses s id h.realloc_ok
  have hgp := grow_slab_list_samePages s id h.realloc_ok
  have hgf := grow_slab_list_frame s id h.realloc_ok
  have hpool1 : ((grow_slab_list s id h.realloc_ok).2.slabclass 0).slabs = 0 := by
    rw [hgc.slabs 0]; exact hpool
  have hm := newslab_get_page_pool_empty (grow_slab_list s id h.realloc_ok).2 (page_len s id)
    h.malloc_ret hpool1
  have hme := memory_allocate_effect (grow_slab_list s id h.realloc_ok).2 (page_len s id)
    h.malloc_ret
  have hmf := memory_allocate_frame (grow_slab_list s id h.realloc_ok).2 (page_len s id)
    h.malloc_ret
  rcases do_slabs_newslab_cases s id h with ⟨_, _, _, _, e⟩ | ⟨_, ⟨_, e⟩ | ⟨_, ⟨_, e⟩ | ⟨_, e⟩⟩⟩
  · right; rw [e]; exact ⟨rfl, rfl, rfl⟩
  · right; rw [e]; exact ⟨rfl, hgc.slabs id, hgc.sl_curr id⟩
  · right
    rw [e, hm]
    refine ⟨rfl, ?_, ?_⟩
    · show ((memory_allocate _ _ _).2.slabclass id).slabs = _
      rw [hme.1]; exact hgc.slabs id
    · show ((memory_allocate _ _ _).2.slabclass id).sl_curr = _
      rw [hme.1]; exact hgc.sl_curr id
  · left
    rw [e, hm]
    refine ⟨rfl, ?_, ?_, ?_⟩
    · show ((newslab_install _ _ _ _).slabclass id).slabs = _
      rw [(newslab_install_slabs _ _ _ _).1, hme.1, hgc.slabs id]
    · show (newslab_install _ _ _ _).mem_malloced = _
      rw [(newslab_install_slabs _ _ _ _).2, hme.2.2.2.1 (by rw [hgf.mem_base]; exact hbase),
        hgp.mem_malloced]
    · show ((newslab_install _ _ _ _).slabclass id).sl_curr = _
      rw [(newslab_install_freelist _ _ _ _ h1
        (by rw [hmf.power_largest, hgf.power_largest]; exact h2)).1, hme.1, hgc.sl_curr id,
        hgf.perslab id]

/-- One successful `do_slabs_alloc` while the pool is empty and no region was preallocated:
with an empty freelist the class gains a page of `page_len` bytes and is left with
`perslab - 1` free chunks, otherwise it keeps its pages and has one free chunk less; the
pool stays empty. -/
theorem do_slabs_alloc_step (s : State) (size id flags : Nat) (h : Host)
    (hpool : (s.slabclass 0).slabs = 0) (hbase : s.mem_base = 0)
    (hok : (do_slabs_alloc s size id flags h).1 ≠ 0) :
    ((do_slabs_alloc s size id flags h).2.slabclass 0).slabs = 0 ∧
    ((s.slabclass id).sl_curr = 0 →
      ((do_slabs_alloc s size id flags h).2.slabclass id).slabs = (s.slabclass id).slabs + 1 ∧
      (do_slabs_alloc s size id flags h).2.mem_malloced = s.mem_malloced + page_len s id ∧
      ((do_slabs_alloc s size id flags h).2.slabclass id).sl_curr + 1 =
        (s.slabclass id).perslab) ∧
    ((s.slabclass id).sl_curr ≠ 0 →
      ((do_slabs_alloc s size id flags h).2.slabclass id).slabs = (s.slabclass id).slabs ∧
      (do_slabs_alloc s size id flags h).2.mem_malloced = s.mem_malloced ∧
      ((do_slabs_alloc s size id flags h).2.slabclass id).sl_curr + 1 =
        (s.slabclass id).sl_curr) := by
  rcases do_slabs_alloc_cases s size id flags h with ⟨_, e⟩ | ⟨hid, ⟨hc, e⟩ | ⟨_, e⟩⟩
  · rw [e] at hok; exact absurd rfl hok
  · have h1 : 1 ≤ id := by
      have hps : POWER_SMALLEST = 1 := rfl
      omega
    have h2 : id ≤ s.power_largest := by omega
    have h0 : (0 : Nat) ≠ id := by omega
    have hpc := freelist_pop_class (alloc_refill s id flags h) size id
    have hpp := freelist_pop_samePages (alloc_refill s id flags h) size id
    rw [e]
    by_cases hz : (s.slabclass id).sl_curr = 0
    · by_cases hf : flags ≠ SLABS_ALLOC_NO_NEWPAGE
      · have hr : alloc_refill s id flags h = (do_slabs_newslab s id h).2 := by
          unfold alloc_refill; rw [if_pos ⟨hz, hf⟩]
        rw [hr] at hc hpc hpp ⊢
        have hpool2 := (do_slabs_newslab_effect s id h hpool).1 0 h0
        rcases do_slabs_newslab_plain s id h h1 h2 hpool hbase with
          ⟨_, n2, n3, n4⟩ | ⟨_, _, n4⟩
        · refine ⟨?_, fun _ => ⟨?_, ?_, ?_⟩, fun hne => absurd hz hne⟩
          · rw [hpp.slabs 0, hpool2]; exact hpool
          · rw [hpp.slabs id, n2]
          · rw [hpp.mem_malloced, n3]
          · rw [hpc]
            show ((do_slabs_newslab s id h).2.slabclass id).sl_curr - 1 + 1 = _
            rw [n4, hz] at hc ⊢
            omega
        · rw [n4] at hc; exact absurd hz hc
      · have hr : alloc_refill s id flags h = s := by
          unfold alloc_refill; rw [if_neg (fun hh => hf hh.2)]
        rw [hr] at hc; exact absurd hz hc
    · have hr := alloc_refill_of_free s id flags h hz
      rw [hr] at hpc hpp ⊢
      refine ⟨?_, fun he => absurd he hz, fun _ => ⟨hpp.slabs id, hpp.mem_malloced, ?_⟩⟩
      · rw [hpp.slabs 0]; exact hpool
      · rw [hpc]
        show (s.slabclass id).sl_curr - 1 + 1 = _
        omega
  · rw [e] at hok; exact absurd rfl hok

/-- The course of up to `perslab + 1` successful allocations from a class that starts
without a page, while the pool is empty and no region was preallocated: the first
allocation brings the first page, the next `perslab - 1` use it up, and allocation number
`perslab + 1` brings the second page. -/
theorem alloc_run_inv (id : Nat) (size flags : Nat → Nat) (hosts : Nat → Host) (s0 : State)
    (hpool : (s0.slabclass 0).slabs = 0) (hbase : s0.mem_base = 0)
    (hslabs : (s0.slabclass id).slabs = 0) (hcur : (s0.slabclass id).sl_curr = 0) :
    ∀ n, n ≤ (s0.slabclass id).perslab + 1 →
      (∀ p ∈ (alloc_run id size flags hosts s0 n).1, p ≠ 0) →
      Frame s0 (alloc_run id size flags hosts s0 n).2 ∧
      ((alloc_run id size flags hosts s0 n).2.slabclass 0).slabs = 0 ∧
      ((n = 0 ∧ ((alloc_run id size flags hosts s0 n).2.slabclass id).slabs = 0 ∧
          ((alloc_run id size flags hosts s0 n).2.slabclass id).sl_curr = 0 ∧
          (alloc_run id size flags hosts s0 n).2.mem_malloced = s0.mem_malloced) ∨
       (1 ≤ n ∧ n ≤ (s0.slabclass id).perslab ∧
          ((alloc_run id size flags hosts s0 n).2.slabclass id).slabs = 1 ∧
          ((alloc_run id size flags hosts s0 n).2.slabclass id).sl_curr + n =
            (s0.slabclass id).perslab ∧
          (alloc_run id size flags hosts s0 n).2.mem_malloced =
            s0.mem_malloced + page_len s0 id) ∨
       (n = (s0.slabclass id).perslab + 1 ∧
          ((alloc_run id size flags hosts s0 n).2.slabclass id).slabs = 2 ∧
          ((alloc_run id size flags hosts s0 n).2.slabclass id).sl_curr + 1 =
            (s0.slabclass id).perslab ∧
          (alloc_run id size flags hosts s0 n).2.mem_malloced =
            s0.mem_malloced + 2 * page_len s0 id)) := by
  intro n
  induction n with
  | zero =>
    intro _ _
    exact ⟨Frame.refl s0, hpool, Or.inl ⟨rfl, hslabs, hcur, rfl⟩⟩
  | succ n ih =>
    intro hn hok
    have hok1 : ∀ p ∈ (alloc_run id size flags hosts s0 n).1, p ≠ 0 := by
      intro p hp
      apply hok p
      show p ∈ (alloc_run id size flags hosts s0 n).1 ++ _
      exact List.mem_append_left _ hp
    have hok2 : (do_slabs_alloc (alloc_run id size flags hosts s0 n).2 (size n) id (flags n)
        (hosts n)).1 ≠ 0 := by
      apply hok
      show _ ∈ (alloc_run id size flags hosts s0 n).1 ++ _
      exact List.mem_append_right _ (List.mem_singleton.mpr rfl)
    obtain ⟨hf, hp, hcase⟩ := ih (Nat.le_of_succ_le hn) hok1
    have hstep := do_slabs_alloc_step (alloc_run id size flags hosts s0 n).2 (size n) id
      (flags n) (hosts n) hp (by rw [hf.mem_base]; exact hbase) hok2
    have hlen := hf.page_len id
    have hper := hf.perslab id
    show Frame s0 (do_slabs_alloc (alloc_run id size flags hosts s0 n).2 (size n) id
        (flags n) (hosts n)).2 ∧
      ((do_slabs_alloc (alloc_run id size flags hosts s0 n).2 (size n) id
        (flags n) (hosts n)).2.slabclass 0).slabs = 0 ∧ _
    refine ⟨hf.trans (do_slabs_alloc_frame _ _ _ _ _), hstep.1, ?_⟩
    show (n + 1 = 0 ∧ _) ∨
      (1 ≤ n + 1 ∧ n + 1 ≤ (s0.slabclass id).perslab ∧
        ((do_slabs_alloc (alloc_run id size flags hosts s0 n).2 (size n) id
          (flags n) (hosts n)).2.slabclass id).slabs = 1 ∧
        ((do_slabs_alloc (alloc_run id size flags hosts s0 n).2 (size n) id
          (flags n) (hosts n)).2.slabclass id).sl_curr + (n + 1) = (s0.slabclass id).perslab ∧
        (do_slabs_alloc (alloc_run id size flags hosts s0 n).2 (size n) id
          (flags n) (hosts n)).2.mem_malloced = s0.mem_malloced + page_len s0 id) ∨
      (n + 1 = (s0.slabclass id).perslab + 1 ∧
        ((do_slabs_alloc (alloc_run id size flags hosts s0 n).2 (size n) id
          (flags n) (hosts n)).2.slabclass id).slabs = 2 ∧
        ((do_slabs_alloc (alloc_run id size flags hosts s0 n).2 (size n) id
          (flags n) (hosts n)).2.slabclass id).sl_curr + 1 = (s0.slabclass id).perslab ∧
        (do_slabs_alloc (alloc_run id size flags hosts s0 n).2 (size n) id
          (flags n) (hosts n)).2.mem_malloced = s0.mem_malloced + 2 * page_len s0 id)
    rcases hcase with ⟨c0, c1, c2, c3⟩ | ⟨c0, c1, c2, c3, c4⟩ | ⟨c0, _⟩
    · obtain ⟨e1, e2, e3⟩ := hstep.2.1 c2
      right; left
      rw [e1, e2, c1, c3, hlen]
      rw [hper] at e3
      exact ⟨by omega, by omega, rfl, by omega, rfl⟩
    · by_cases hz : ((alloc_run id size flags hosts s0 n).2.slabclass id).sl_curr = 0
      · obtain ⟨e1, e2, e3⟩ := hstep.2.1 hz
        right; right
        rw [e1, e2, c2, c4, hlen]
        rw [hper] at e3
        exact ⟨by omega, rfl, e3, by omega⟩
      · obtain ⟨e1, e2, e3⟩ := hstep.2.2 hz
        right; left
        rw [e1, e2, c2, c4]
        exact ⟨by omega, by omega, rfl, by omega, rfl⟩
    · omega

/-! ## C12: per_page_1 + 1 allocations from class 1 -/

/-- C12 as stated fails when `slab_reassign` is off and the chunk size of class 1 does not
divide the page size: in `state_small` (freshly initialised, limit 4096, pages of 1024
bytes, class 1 with 10 chunks of 96 bytes) eleven successful allocations from class 1 leave
it with 2 pages, but `mem_malloced` is `2 * 960 = 1920`, not `2 * 1024`. -/
theorem alloc_run_counterexample :
    init_plain build_default cfg_small 4096 2 1 = some state_small ∧
    (state_small.slabclass 1).perslab + 1 = 11 ∧
    (∀ p ∈ (alloc_run 1 (fun _ => 10) (fun _ => 0) (fun k => host_ok (4096 * (k + 1)))
      state_small 11).1, p ≠ 0) ∧
    ((alloc_run 1 (fun _ => 10) (fun _ => 0) (fun k => host_ok (4096 * (k + 1)))
      state_small 11).2.slabclass 1).slabs = 2 ∧
    (alloc_run 1 (fun _ => 10) (fun _ => 0) (fun k => host_ok (4096 * (k + 1)))
      state_small 11).2.mem_malloced = 1920 ∧
    (alloc_run 1 (fun _ => 10) (fun _ => 0) (fun k => host_ok (4096 * (k + 1)))
      state_small 11).2.mem_malloced ≠ 2 * state_small.settings.item_size_max :=
  ⟨rfl, by decide, by decide, by decide, by decide, by decide⟩

/-- C12, amended: starting from a freshly initialised allocator without preallocation,
after `perslab_1 + 1` successful allocations from class 1 with no frees (whatever their
sizes, flags and hosts), class 1 owns exactly 2 pages and `mem_malloced` equals twice the
length of a page request for class 1: `2 * item_size_max` when `slab_reassign` is set,
`2 * size_1 * perslab_1` otherwise. -/
theorem alloc_run_two_pages (b : Build) (cfg : settings_t) (limit fnum fden : Nat)
    (s0 : State) (size flags : Nat → Nat) (hosts : Nat → Host)
    (hinit : init_plain b cfg limit fnum fden = some s0)
    (hok : ∀ p ∈ (alloc_run 1 size flags hosts s0 ((s0.slabclass 1).perslab + 1)).1, p ≠ 0) :
    ((alloc_run 1 size flags hosts s0 ((s0.slabclass 1).perslab + 1)).2.slabclass 1).slabs = 2 ∧
    (alloc_run 1 size flags hosts s0 ((s0.slabclass 1).perslab + 1)).2.mem_malloced =
      2 * page_len s0 1 ∧
    (cfg.slab_reassign = true →
      (alloc_run 1 size flags hosts s0 ((s0.slabclass 1).perslab + 1)).2.mem_malloced =
        2 * cfg.item_size_max) ∧
    (cfg.slab_reassign = false →
      (alloc_run 1 size flags hosts s0 ((s0.slabclass 1).perslab + 1)).2.mem_malloced =
        2 * ((s0.slabclass 1).size * (s0.slabclass 1).perslab)) := by
  obtain ⟨s4, e, hfresh, hmem, _, hbase, hset, _⟩ :=
    slabs_init_pre b cfg (fun _ => item.zero) limit fnum fden false 0 (fun _ => host_ok 0)
  have e4 : s0 = s4 := by
    unfold init_plain at hinit
    rw [e] at hinit
    simp only [Bool.false_eq_true, if_false, Option.some.injEq] at hinit
    exact hinit.symm
  subst e4
  obtain ⟨_, _, hcase⟩ := alloc_run_inv 1 size flags hosts s0 (hfresh 0).1 (hbase rfl)
    (hfresh 1).1 (hfresh 1).2.1 _ (le_refl _) hok
  rcases hcase with ⟨c0, _⟩ | ⟨_, c1, _⟩ | ⟨_, c2, _, c4⟩
  · omega
  · omega
  · rw [c4, hmem]
    refine ⟨c2, by omega, fun hr => ?_, fun hr => ?_⟩
    · simp only [page_len, hset, hr, if_true]; omega
    · simp only [page_len, hset, hr, Bool.false_eq_true, if_false]; omega

/-- Witness of C12 on `state_small`: eleven successful allocations from class 1 leave it
with 2 pages and `mem_malloced = 2 * (96 * 10)`. -/
theorem alloc_run_two_pages_witness :
    ((alloc_run 1 (fun _ => 10) (fun _ => 0) (fun k => host_ok (4096 * (k + 1))) state_small
      ((state_small.slabclass 1).perslab + 1)).2.slabclass 1).slabs = 2 ∧
    (alloc_run 1 (fun _ => 10) (fun _ => 0) (fun k => host_ok (4096 * (k + 1))) state_small
      ((state_small.slabclass 1).perslab + 1)).2.mem_malloced =
        2 * ((state_small.slabclass 1).size * (state_small.slabclass 1).perslab) :=
  have h := alloc_run_two_pages build_default cfg_small 4096 2 1 state_small (fun _ => 10)
    (fun _ => 0) (fun k => host_ok (4096 * (k + 1))) rfl (by decide)
  ⟨h.1, h.2.2.2 rfl⟩

/-! ## The freelist that a split page leaves -/

theorem split_loop_class_other (id j : Nat) (hj : j ≠ id) :
    ∀ n ptr s, (split_loop id n ptr s).slabclass j = s.slabclass j := by
  intro n
  induction n with
  | zero => intro ptr s; rfl
  | succ n ih =>
    intro ptr s
    unfold split_loop
    dsimp only
    rw [ih, do_slabs_free_class_other s ptr 0 id j hj]

theorem shift_pages_spec :
    ∀ n x (l : Nat → Nat) y,
      shift_pages n x l y = if x ≤ y ∧ y < x + n then l (y + 1) else l y := by
  intro n
  induction n with
  | zero =>
    intro x l y
    have : ¬ (x ≤ y ∧ y < x + 0) := by omega
    rw [if_neg this]; rfl
  | succ n ih =>
    intro x l y
    unfold shift_pages
    rw [ih]
    by_cases h1 : x + 1 ≤ y ∧ y < x + 1 + n
    · rw [if_pos h1, if_pos (by omega), upd_other _ _ _ _ (by omega)]
    · rw [if_neg h1]
      by_cases h2 : y = x
      · rw [h2, upd_same, if_pos (by omega)]
      · rw [upd_other _ _ _ _ h2, if_neg (by omega)]

theorem pages_shift (l : Nat → Nat) (k : Nat) :
    (List.range k).map (shift_pages k 0 l) = ((List.range (k + 1)).map l).tail := by
  rw [List.range_succ_eq_map, List.map_cons, List.tail_cons, List.map_map]
  apply List.map_congr_left
  intro x hx
  rw [shift_pages_spec, if_pos ⟨Nat.zero_le _, by simpa using hx⟩]
  rfl

theorem pages_push (l : Nat → Nat) (k v : Nat) :
    (List.range (k + 1)).map (upd l k v) = (List.range k).map l ++ [v] := by
  rw [List.range_succ, List.map_append, List.map_singleton, upd_same]
  congr 1
  apply List.map_congr_left
  intro x hx
  rw [upd_other _ _ _ _ (by have := List.mem_range.mp hx; omega)]

/-- The page vectors after the page-vector statements of `slab_rebalance_finish`, for
distinct source and destination and a source that owns a page. -/
theorem rebalance_move_lists_pages (s : State) (src dst : Nat)
    (hs : s.slab_rebal.s_clsid = (src : Int)) (hd : s.slab_rebal.d_clsid = (dst : Int))
    (hne : src ≠ dst) (hslabs : 1 ≤ (s.slabclass src).slabs) :
    ((rebalance_move_lists s).slabclass src).pages = (s.slabclass src).pages.tail ∧
    ((rebalance_move_lists s).slabclass src).slabs + 1 = (s.slabclass src).slabs ∧
    ((rebalance_move_lists s).slabclass dst).pages =
      (s.slabclass dst).pages ++ [s.slab_rebal.slab_start] ∧
    ((rebalance_move_lists s).slabclass dst).slabs = (s.slabclass dst).slabs + 1 ∧
    (∀ j, j ≠ src → j ≠ dst → (rebalance_move_lists s).slabclass j = s.slabclass j) := by
  have hsc : s.slab_rebal.s_clsid.toNat = src := by rw [hs]; rfl
  have hdc : s.slab_rebal.d_clsid.toNat = dst := by rw [hd]; rfl
  have hk : (s.slabclass src).slabs = ((s.slabclass src).slabs - 1) + 1 := by omega
  unfold rebalance_move_lists
  dsimp only [setClass_slabclass]
  rw [hsc, hdc, if_neg (by omega)]
  refine ⟨?_, ?_, ?_, ?_, ?_⟩
  · rw [upd_other _ _ _ _ hne, upd_same]
    unfold slabclass_t.pages
    dsimp only
    rw [pages_shift, ← hk]
  · rw [upd_other _ _ _ _ hne, upd_same]
    show (s.slabclass src).slabs - 1 + 1 = _
    omega
  · rw [upd_same, upd_other _ _ _ _ (Ne.symm hne)]
    unfold slabclass_t.pages
    dsimp only
    rw [pages_push]
  · rw [upd_same, upd_other _ _ _ _ (Ne.symm hne)]
  · intro j h1 h2
    rw [upd_other _ _ _ _ h2, upd_other _ _ _ _ h1]

/-- The page-vector statements of `slab_rebalance_finish` touch no freelist, counter of
free chunks, `requested`, chunk geometry or item header. -/
theorem rebalance_move_lists_keeps (s : State) :
    (rebalance_move_lists s).heap = s.heap ∧
    (rebalance_move_lists s).mem_malloced = s.mem_malloced ∧
    (rebalance_move_lists s).power_largest = s.power_largest ∧
    (∀ j, ((rebalance_move_lists s).slabclass j).slots = (s.slabclass j).slots) ∧
    (∀ j, ((rebalance_move_lists s).slabclass j).sl_curr = (s.slabclass j).sl_curr) ∧
    (∀ j, ((rebalance_move_lists s).slabclass j).requested = (s.slabclass j).requested) ∧
    (∀ j, ((rebalance_move_lists s).slabclass j).size = (s.slabclass j).size) ∧
    (∀ j, ((rebalance_move_lists s).slabclass j).perslab = (s.slabclass j).perslab) := by
  unfold rebalance_move_lists
  dsimp only [setClass_slabclass]
  refine ⟨rfl, rfl, rfl, ?_, ?_, ?_, ?_, ?_⟩ <;>
    (intro j
     by_cases h1 : j = s.slab_rebal.d_clsid.toNat
     · rw [h1, upd_same]
       by_cases h2 : s.slab_rebal.d_clsid.toNat = s.slab_rebal.s_clsid.toNat
       · rw [h2, upd_same]
       · rw [upd_other _ _ _ _ h2]
     · rw [upd_other _ _ _ _ h1]
       by_cases h2 : j = s.slab_rebal.s_clsid.toNat
       · rw [h2, upd_same]
       · rw [upd_other _ _ _ _ h2])

theorem slab_rebalance_finish_fields (s : State) :
    (slab_rebalance_finish s).slabclass = (rebalance_move_page s).slabclass ∧
    (slab_rebalance_finish s).heap = (rebalance_move_page s).heap ∧
    (slab_rebalance_finish s).mem_malloced = (rebalance_move_page s).mem_malloced ∧
    (slab_rebalance_finish s).power_largest = (rebalance_move_page s).power_largest :=
  ⟨rfl, rfl, rfl, rfl⟩

/-- What `slab_rebalance_start` has established when it returns 0: the published ids are a
source in `[1, power_largest]` and a different destination in `[0, power_largest]`, the
source owns at least two pages, `slab_start` is the first page of the source, and the
signal is 2. -/
theorem slab_rebalance_start_ok (s : State) (ok : Bool)
    (h0 : (slab_rebalance_start s ok).1 = 0) :
    ∃ src dst : Nat,
      (slab_rebalance_start s ok).2.slab_rebal.s_clsid = (src : Int) ∧
      (slab_rebalance_start s ok).2.slab_rebal.d_clsid = (dst : Int) ∧
      1 ≤ src ∧ src ≤ s.power_largest ∧ dst ≤ s.power_largest ∧ src ≠ dst ∧
      2 ≤ ((slab_rebalance_start s ok).2.slabclass src).slabs ∧
      (slab_rebalance_start s ok).2.slab_rebal.slab_start =
        ((slab_rebalance_start s ok).2.slabclass src).slab_list 0 ∧
      (slab_rebalance_start s ok).2.slab_rebalance_signal = 2 := by
  by_cases hn : rebalance_no_go s ok ≠ 0
  · have e : slab_rebalance_start s ok =
        (rebalance_no_go s ok, (grow_slab_list s s.slab_rebal.d_clsid.toNat ok).2) := by
      unfold slab_rebalance_start
      dsimp only
      rw [if_pos hn]
    rw [e] at h0
    exact absurd h0 hn
  · have hz : rebalance_no_go s ok = 0 := not_not.mp hn
    unfold rebalance_no_go at hz
    dsimp only [POWER_SMALLEST, SLAB_GLOBAL_PAGE_POOL] at hz
    by_cases c3 : ((grow_slab_list s s.slab_rebal.d_clsid.toNat ok).2.slabclass
        s.slab_rebal.s_clsid.toNat).slabs < 2
    · rw [if_pos c3] at hz; exact absurd hz (by decide)
    · rw [if_neg c3] at hz
      by_cases c2 : (grow_slab_list s s.slab_rebal.d_clsid.toNat ok).1 = 0
      · rw [if_pos c2] at hz; exact absurd hz (by decide)
      · rw [if_neg c2] at hz
        by_cases c1 : s.slab_rebal.s_clsid < ((1 : Nat) : Int) ∨
            s.slab_rebal.s_clsid > s.power_largest ∨
            s.slab_rebal.d_clsid < ((0 : Nat) : Int) ∨ s.slab_rebal.d_clsid > s.power_largest ∨
            s.slab_rebal.s_clsid = s.slab_rebal.d_clsid
        · rw [if_pos c1] at hz; exact absurd hz (by decide)
        · have hs : s.slab_rebal.s_clsid = ((s.slab_rebal.s_clsid.toNat : Nat) : Int) := by
            rw [Int.toNat_of_nonneg (by omega)]
          have hd : s.slab_rebal.d_clsid = ((s.slab_rebal.d_clsid.toNat : Nat) : Int) := by
            rw [Int.toNat_of_nonneg (by omega)]
          have e : slab_rebalance_start s ok =
              (0, { (grow_slab_list s s.slab_rebal.d_clsid.toNat ok).2 with
                slab_rebal :=
                  { (grow_slab_list s s.slab_rebal.d_clsid.toNat ok).2.slab_rebal with
                    slab_start := ((grow_slab_list s s.slab_rebal.d_clsid.toNat ok).2.slabclass
                      s.slab_rebal.s_clsid.toNat).slab_list 0
                    slab_end := ((grow_slab_list s s.slab_rebal.d_clsid.toNat ok).2.slabclass
                      s.slab_rebal.s_clsid.toNat).slab_list 0 +
                      ((grow_slab_list s s.slab_rebal.d_clsid.toNat ok).2.slabclass
                        s.slab_rebal.s_clsid.toNat).size *
                      ((grow_slab_list s s.slab_rebal.d_clsid.toNat ok).2.slabclass
                        s.slab_rebal.s_clsid.toNat).perslab
                    slab_pos := ((grow_slab_list s s.slab_rebal.d_clsid.toNat ok).2.slabclass
                      s.slab_rebal.s_clsid.toNat).slab_list 0
                    done := 0 }
                slab_rebalance_signal := 2
                stats := { (grow_slab_list s s.slab_rebal.d_clsid.toNat ok).2.stats with
                  slab_reassign_running := true } }) := by
            unfold slab_rebalance_start
            dsimp only
            rw [if_neg hn]
          have hgf := grow_slab_list_frame s s.slab_rebal.d_clsid.toNat ok
          rw [e]
          refine ⟨s.slab_rebal.s_clsid.toNat, s.slab_rebal.d_clsid.toNat, ?_, ?_, by omega,
            by omega, by omega, by omega, Nat.le_of_not_lt c3, rfl, rfl⟩
          · show (grow_slab_list s s.slab_rebal.d_clsid.toNat ok).2.slab_rebal.s_clsid = _
            rw [hgf.slab_rebal]; exact hs
          · show (grow_slab_list s s.slab_rebal.d_clsid.toNat ok).2.slab_rebal.d_clsid = _
            rw [hgf.slab_rebal]; exact hd

/-! ## C18: do_slabs_newslab takes a page from the global pool -/

theorem split_loop_mem (id : Nat) :
    ∀ n ptr s, (split_loop id n ptr s).mem_current = s.mem_current ∧
      (split_loop id n ptr s).mem_avail = s.mem_avail := by
  intro n
  induction n with
  | zero => intro ptr s; exact ⟨rfl, rfl⟩
  | succ n ih =>
    intro ptr s
    unfold split_loop
    dsimp only
    have hfree : (do_slabs_free s ptr 0 id).mem_current = s.mem_current ∧
        (do_slabs_free s ptr 0 id).mem_avail = s.mem_avail := by
      unfold do_slabs_free
      split
      · exact ⟨rfl, rfl⟩
      · exact ⟨rfl, rfl⟩
    exact ⟨(ih _ _).1.trans hfree.1, (ih _ _).2.trans hfree.2⟩

theorem newslab_install_mem (s : State) (ptr id len : Nat) :
    (newslab_install s ptr id len).mem_current = s.mem_current ∧
    (newslab_install s ptr id len).mem_avail = s.mem_avail := by
  unfold newslab_install
  exact split_loop_mem id _ ptr (s.setHeap (memset0 s.heap ptr len))

theorem newslab_install_pages (s : State) (ptr id len : Nat) :
    ((newslab_install s ptr id len).slabclass id).pages = (s.slabclass id).pages ++ [ptr] ∧
    (∀ j, j ≠ id →
      ((newslab_install s ptr id len).slabclass j).slabs = (s.slabclass j).slabs ∧
      ((newslab_install s ptr id len).slabclass j).slab_list = (s.slabclass j).slab_list) := by
  have h := (setHeap_samePages s (memset0 s.heap ptr len)).andThen
    (split_loop_samePages id ((s.setHeap (memset0 s.heap ptr len)).slabclass id).perslab ptr
      (s.setHeap (memset0 s.heap ptr len)))
  unfold newslab_install
  dsimp only [setClass_slabclass]
  constructor
  · rw [upd_same]
    unfold slabclass_t.pages
    dsimp only
    rw [pages_push]
    unfold split_slab_page_into_freelist
    rw [h.slabs id, h.slab_list id]
  · intro j hj
    rw [upd_other _ _ _ _ hj]
    exact ⟨h.slabs j, h.slab_list j⟩

theorem get_page_pool_nonempty (s : State) (h1 : 1 ≤ (s.slabclass 0).slabs) :
    get_page_from_global_pool s =
      ((s.slabclass 0).slab_list ((s.slabclass 0).slabs - 1),
        s.setClass 0 { s.slabclass 0 with slabs := (s.slabclass 0).slabs - 1 }) := by
  unfold get_page_from_global_pool
  dsimp only [SLAB_GLOBAL_PAGE_POOL]
  rw [if_neg (by omega)]

/-- C18: for every class `j >= 1` and every state in which the global pool holds at least
one page (its top entry is a non-null page) and the page vector of class `j` can grow,
`do_slabs_newslab(j)` returns 1 and takes the page from the pool, not from the page source:
the pool's page count decreases by 1 (the pool loses its last page), `mem_malloced` and the
preallocated region are untouched, and the page appended to the page list of class `j` is
the page that was last in the pool. -/
theorem do_slabs_newslab_from_pool (s : State) (j : Nat) (h : Host) (hj : 1 ≤ j)
    (hpool : 1 ≤ (s.slabclass 0).slabs)
    (hpage : (s.slabclass 0).slab_list ((s.slabclass 0).slabs - 1) ≠ 0)
    (hgrow : (grow_slab_list s j h.realloc_ok).1 ≠ 0) :
    (do_slabs_newslab s j h).1 = 1 ∧
    ((do_slabs_newslab s j h).2.slabclass 0).slabs + 1 = (s.slabclass 0).slabs ∧
    ((do_slabs_newslab s j h).2.slabclass 0).pages ++
      [(s.slabclass 0).slab_list ((s.slabclass 0).slabs - 1)] = (s.slabclass 0).pages ∧
    (do_slabs_newslab s j h).2.mem_malloced = s.mem_malloced ∧
    (do_slabs_newslab s j h).2.mem_current = s.mem_current ∧
    (do_slabs_newslab s j h).2.mem_avail = s.mem_avail ∧
    ((do_slabs_newslab s j h).2.slabclass j).pages =
      (s.slabclass j).pages ++ [(s.slabclass 0).slab_list ((s.slabclass 0).slabs - 1)] ∧
    (s.slabclass 0).slab_list ((s.slabclass 0).slabs - 1) ∈ (s.slabclass 0).pages := by
  have h0j : (0 : Nat) ≠ j := by omega
  have hgp := grow_slab_list_samePages s j h.realloc_ok
  have hg0 : (grow_slab_list s j h.realloc_ok).2.slabclass 0 = s.slabclass 0 := by
    unfold grow_slab_list
    dsimp only
    split
    · split
      · rfl
      · rw [setClass_slabclass, upd_other _ _ _ _ h0j]
    · rfl
  have hgm : (grow_slab_list s j h.realloc_ok).2.mem_current = s.mem_current ∧
      (grow_slab_list s j h.realloc_ok).2.mem_avail = s.mem_avail := by
    unfold grow_slab_list
    dsimp only
    split
    · split
      · exact ⟨rfl, rfl⟩
      · exact ⟨rfl, rfl⟩
    · exact ⟨rfl, rfl⟩
  have hq := get_page_pool_nonempty (grow_slab_list s j h.realloc_ok).2
    (by rw [hg0]; exact hpool)
  rw [hg0] at hq
  have hm : newslab_get_page (grow_slab_list s j h.realloc_ok).2 (page_len s j) h.malloc_ret =
      ((s.slabclass 0).slab_list ((s.slabclass 0).slabs - 1),
        (grow_slab_list s j h.realloc_ok).2.setClass 0
          { s.slabclass 0 with slabs := (s.slabclass 0).slabs - 1 }) := by
    unfold newslab_get_page
    dsimp only
    rw [hq, if_neg hpage]
  have hk : (s.slabclass 0).slabs = ((s.slabclass 0).slabs - 1) + 1 := by omega
  have hlast : (List.range ((s.slabclass 0).slabs - 1)).map (s.slabclass 0).slab_list ++
      [(s.slabclass 0).slab_list ((s.slabclass 0).slabs - 1)] = (s.slabclass 0).pages := by
    unfold slabclass_t.pages
    conv => rhs; rw [hk, List.range_succ, List.map_append, List.map_singleton]
  rcases do_slabs_newslab_cases s j h with ⟨_, _, _, c, _⟩ | ⟨_, ⟨c, _⟩ | ⟨_, ⟨c, _⟩ | ⟨_, e⟩⟩⟩
  · exact absurd c (by simp only [SLAB_GLOBAL_PAGE_POOL]; omega)
  · exact absurd c hgrow
  · rw [hm] at c; exact absurd c hpage
  · rw [e, hm]
    obtain ⟨i1, i2⟩ := newslab_install_pages
      ((grow_slab_list s j h.realloc_ok).2.setClass 0
        { s.slabclass 0 with slabs := (s.slabclass 0).slabs - 1 })
      ((s.slabclass 0).slab_list ((s.slabclass 0).slabs - 1)) j (page_len s j)
    have i3 := newslab_install_slabs
      ((grow_slab_list s j h.realloc_ok).2.setClass 0
        { s.slabclass 0 with slabs := (s.slabclass 0).slabs - 1 })
      ((s.slabclass 0).slab_list ((s.slabclass 0).slabs - 1)) j (page_len s j)
    have i4 := newslab_install_mem
      ((grow_slab_list s j h.realloc_ok).2.setClass 0
        { s.slabclass 0 with slabs := (s.slabclass 0).slabs - 1 })
      ((s.slabclass 0).slab_list ((s.slabclass 0).slabs - 1)) j (page_len s j)
    have hj0 : ((grow_slab_list s j h.realloc_ok).2.setClass 0
        { s.slabclass 0 with slabs := (s.slabclass 0).slabs - 1 }).slabclass j =
        (grow_slab_list s j h.realloc_ok).2.slabclass j := by
      rw [setClass_slabclass, upd_other _ _ _ _ (Ne.symm h0j)]
    have h00 : ((grow_slab_list s j h.realloc_ok).2.setClass 0
        { s.slabclass 0 with slabs := (s.slabclass 0).slabs - 1 }).slabclass 0 =
        { s.slabclass 0 with slabs := (s.slabclass 0).slabs - 1 } := by
      rw [setClass_slabclass, upd_same]
    refine ⟨rfl, ?_, ?_, ?_, ?_, ?_, ?_, ?_⟩
    · show ((newslab_install _ _ _ _).slabclass 0).slabs + 1 = _
      rw [(i2 0 h0j).1, h00]
      show (s.slabclass 0).slabs - 1 + 1 = _
      omega
    · show ((newslab_install _ _ _ _).slabclass 0).pages ++ _ = _
      rw [pages_congr (i2 0 h0j).1 (i2 0 h0j).2, h00]
      exact hlast
    · show (newslab_install _ _ _ _).mem_malloced = _
      rw [i3.2]
      exact hgp.mem_malloced
    · show (newslab_install _ _ _ _).mem_current = _
      rw [i4.1]; exact hgm.1
    · show (newslab_install _ _ _ _).mem_avail = _
      rw [i4.2]; exact hgm.2
    · show ((newslab_install _ _ _ _).slabclass j).pages = _
      rw [i1, hj0, pages_congr (hgp.slabs j) (hgp.slab_list j)]
    · rw [← hlast]
      exact List.mem_append_right _ (List.mem_singleton.mpr rfl)

set_option maxRecDepth 100000 in
/-- Witness of C18 on `state_pool_page` (the pool holds the page 4096): a page request for
class 2 succeeds even though the host `malloc` would fail, the pool is left empty,
`mem_malloced` does not move and class 2 owns the page 4096. -/
theorem do_slabs_newslab_from_pool_witness :
    (do_slabs_newslab state_pool_page 2 host_malloc_fails).1 = 1 ∧
    ((do_slabs_newslab state_pool_page 2 host_malloc_fails).2.slabclass 0).slabs + 1 =
      (state_pool_page.slabclass 0).slabs ∧
    (do_slabs_newslab state_pool_page 2 host_malloc_fails).2.mem_malloced =
      state_pool_page.mem_malloced ∧
    ((do_slabs_newslab state_pool_page 2 host_malloc_fails).2.slabclass 2).pages = [4096] :=
  have h := do_slabs_newslab_from_pool state_pool_page 2 host_malloc_fails (by decide)
    (by decide) (by decide) (by decide)
  ⟨h.1, h.2.1, h.2.2.2.1, h.2.2.2.2.2.2.1.trans (by decide)⟩

/-! ## Preallocation -/

theorem slabs_init_eq (b : Build) (s : State) (limit fnum fden : Nat) (prealloc : Bool)
    (base : Nat) (seed : Option Nat) (hosts : Nat → Host) :
    slabs_init b s limit fnum fden prealloc base seed hosts =
      (if prealloc = true then
        slabs_preallocate b (slabs_init_start b s limit fnum fden prealloc base seed)
          (slabs_init_start b s limit fnum fden prealloc base seed).power_largest hosts
      else some (slabs_init_start b s limit fnum fden prealloc base seed)) := rfl

theorem slabs_init_loop_le (cfg : settings_t) (MAX fnum fden : Nat) :
    ∀ fuel i size tab, i + 1 ≤ MAX - 1 →
      (slabs_init_loop cfg MAX fnum fden fuel i size tab).1 ≤ MAX - 1 := by
  intro fuel
  induction fuel with
  | zero => intro i size tab h; exact h
  | succ n ih =>
    intro i size tab h
    unfold slabs_init_loop
    dsimp only
    split
    · rename_i hc
      exact ih _ _ _ (by omega)
    · exact h

/-- The state before the preallocation: every class is fresh, and with at least two
entries in the class table `power_largest` is a valid index of it. -/
theorem slabs_init_start_fresh (b : Build) (cfg : settings_t) (heap0 : Nat → item)
    (limit fnum fden : Nat) (prealloc : Bool) (base : Nat) (seed : Option Nat) :
    (∀ j, ((slabs_init_start b (boot cfg heap0) limit fnum fden prealloc base
      seed).slabclass j).fresh) ∧
    (2 ≤ b.MAX_NUMBER_OF_SLAB_CLASSES →
      (slabs_init_start b (boot cfg heap0) limit fnum fden prealloc base seed).power_largest
        < b.MAX_NUMBER_OF_SLAB_CLASSES) := by
  have hl := slabs_init_loop_keeps slabclass_t.fresh (fun c _ _ h => h) cfg
    b.MAX_NUMBER_OF_SLAB_CLASSES fnum fden
    b.MAX_NUMBER_OF_SLAB_CLASSES (POWER_SMALLEST - 1) (b.sizeof_item + cfg.chunk_size)
    (fun _ => slabclass_t.zero) (fun _ => ⟨rfl, rfl, rfl, rfl, rfl⟩)
  have hz : ∀ j, ((upd (slabs_init_loop cfg b.MAX_NUMBER_OF_SLAB_CLASSES fnum fden
        b.MAX_NUMBER_OF_SLAB_CLASSES (POWER_SMALLEST - 1) (b.sizeof_item + cfg.chunk_size)
        (fun _ => slabclass_t.zero)).2
      (slabs_init_loop cfg b.MAX_NUMBER_OF_SLAB_CLASSES fnum fden
        b.MAX_NUMBER_OF_SLAB_CLASSES (POWER_SMALLEST - 1) (b.sizeof_item + cfg.chunk_size)
        (fun _ => slabclass_t.zero)).1
      { (slabs_init_loop cfg b.MAX_NUMBER_OF_SLAB_CLASSES fnum fden
          b.MAX_NUMBER_OF_SLAB_CLASSES (POWER_SMALLEST - 1) (b.sizeof_item + cfg.chunk_size)
          (fun _ => slabclass_t.zero)).2
        (slabs_init_loop cfg b.MAX_NUMBER_OF_SLAB_CLASSES fnum fden
          b.MAX_NUMBER_OF_SLAB_CLASSES (POWER_SMALLEST - 1) (b.sizeof_item + cfg.chunk_size)
          (fun _ => slabclass_t.zero)).1 with
        size := cfg.item_size_max, perslab := 1 }) j).fresh := by
    intro j
    unfold upd
    dsimp only
    split
    · exact hl _
    · exact hl j
  have hle : 2 ≤ b.MAX_NUMBER_OF_SLAB_CLASSES →
      (slabs_init_loop cfg b.MAX_NUMBER_OF_SLAB_CLASSES fnum fden
        b.MAX_NUMBER_OF_SLAB_CLASSES (POWER_SMALLEST - 1) (b.sizeof_item + cfg.chunk_size)
        (fun _ => slabclass_t.zero)).1 < b.MAX_NUMBER_OF_SLAB_CLASSES := by
    intro h2
    have := slabs_init_loop_le cfg b.MAX_NUMBER_OF_SLAB_CLASSES fnum fden
      b.MAX_NUMBER_OF_SLAB_CLASSES (POWER_SMALLEST - 1) (b.sizeof_item + cfg.chunk_size)
      (fun _ => slabclass_t.zero) (by simp only [POWER_SMALLEST]; omega)
    omega
  unfold slabs_init_start
  dsimp only
  cases seed <;> cases prealloc <;> by_cases hb : base = 0 <;>
    simp only [hb, ne_eq, not_true_eq_false, not_false_eq_true, if_true, if_false,
      Bool.false_eq_true] <;> exact ⟨hz, hle⟩

/-- With `maxslabs < MAX_NUMBER_OF_SLAB_CLASSES` and enough fuel, the loop of
`slabs_preallocate` does what the specification says for the remaining classes. -/
theorem slabs_preallocate_loop_refines (hosts : Nat → Host) (maxslabs MAX : Nat)
    (hmax : maxslabs < MAX) :
    ∀ n fuel i pre s, pre + 1 = i → i + n = maxslabs + 1 → n + 1 ≤ fuel →
      slabs_preallocate_loop hosts maxslabs MAX fuel i pre s = prealloc_spec hosts n i s := by
  intro n
  induction n with
  | zero =>
    intro fuel i pre s hpre hi hfuel
    obtain ⟨f, rfl⟩ : ∃ f, fuel = f + 1 := ⟨fuel - 1, by omega⟩
    unfold slabs_preallocate_loop prealloc_spec
    split
    · rw [if_pos (by omega)]
    · rfl
  | succ n ih =>
    intro fuel i pre s hpre hi hfuel
    obtain ⟨f, rfl⟩ : ∃ f, fuel = f + 1 := ⟨fuel - 1, by omega⟩
    unfold slabs_preallocate_loop prealloc_spec
    rw [if_pos (by omega), if_neg (by omega)]
    split
    · rfl
    · exact ih f (i + 1) (pre + 1) _ (by omega) (by omega) (by omega)

theorem slabs_preallocate_refines (b : Build) (s : State) (hosts : Nat → Host)
    (hmax : s.power_largest < b.MAX_NUMBER_OF_SLAB_CLASSES) :
    slabs_preallocate b s s.power_largest hosts = prealloc_spec hosts s.power_largest 1 s := by
  unfold slabs_preallocate
  exact slabs_preallocate_loop_refines hosts s.power_largest b.MAX_NUMBER_OF_SLAB_CLASSES hmax
    s.power_largest b.MAX_NUMBER_OF_SLAB_CLASSES POWER_SMALLEST 0 s rfl
    (by simp only [POWER_SMALLEST]; omega) (by omega)

/-- The specification's preallocation aborts exactly when, after some number `k` of
successful page requests, the request for the next class fails. -/
theorem prealloc_spec_none (hosts : Nat → Host) :
    ∀ n i s, prealloc_spec hosts n i s = none ↔
      ∃ k, k < n ∧ ∃ t, prealloc_spec hosts k i s = some t ∧
        (do_slabs_newslab t (i + k) (hosts (i + k))).1 = 0 := by
  intro n
  induction n with
  | zero =>
    intro i s
    constructor
    · intro h; exact absurd h (by simp [prealloc_spec])
    · rintro ⟨k, hk, _⟩; omega
  | succ n ih =>
    intro i s
    by_cases hf : (do_slabs_newslab s i (hosts i)).1 = 0
    · have e : prealloc_spec hosts (n + 1) i s = none := by
        unfold prealloc_spec; rw [if_pos hf]
      rw [e]
      exact ⟨fun _ => ⟨0, Nat.succ_pos n, s, rfl, hf⟩, fun _ => rfl⟩
    · have e : ∀ m, prealloc_spec hosts (m + 1) i s =
          prealloc_spec hosts m (i + 1) (do_slabs_newslab s i (hosts i)).2 := by
        intro m
        conv => lhs; unfold prealloc_spec
        rw [if_neg hf]
      rw [e n, ih]
      constructor
      · rintro ⟨k, hk, t, h1, h2⟩
        refine ⟨k + 1, by omega, t, by rw [e k]; exact h1, ?_⟩
        rw [show i + (k + 1) = i + 1 + k by omega]
        exact h2
      · rintro ⟨k, hk, t, h1, h2⟩
        cases k with
        | zero =>
          simp only [prealloc_spec, Option.some.injEq] at h1
          subst h1
          exact absurd h2 hf
        | succ k =>
          refine ⟨k, by omega, t, by rw [← e k]; exact h1, ?_⟩
          rw [show i + 1 + k = i + (k + 1) by omega]
          exact h2

theorem newslab_install_class_other (s : State) (ptr id len j : Nat) (hj : j ≠ id) :
    (newslab_install s ptr id len).slabclass j = s.slabclass j := by
  unfold newslab_install
  dsimp only [setClass_slabclass]
  rw [upd_other _ _ _ _ hj]
  unfold split_slab_page_into_freelist
  rw [split_loop_class_other id j hj]
  rfl

/-- A page request for a valid class while the pool is empty: it returns 1 and the class
has one page and `perslab` free chunks more, or it returns 0 and the class has the pages
and free chunks it had; no other class gains or loses a page or a free chunk. -/
theorem do_slabs_newslab_class (s : State) (id : Nat) (h : Host)
    (h1 : 1 ≤ id) (h2 : id ≤ s.power_largest) (hpool : (s.slabclass 0).slabs = 0) :
    (((do_slabs_newslab s id h).1 = 1 ∧
        ((do_slabs_newslab s id h).2.slabclass id).slabs = (s.slabclass id).slabs + 1 ∧
        ((do_slabs_newslab s id h).2.slabclass id).sl_curr =
          (s.slabclass id).sl_curr + (s.slabclass id).perslab) ∨
      ((do_slabs_newslab s id h).1 = 0 ∧
        ((do_slabs_newslab s id h).2.slabclass id).slabs = (s.slabclass id).slabs ∧
        ((do_slabs_newslab s id h).2.slabclass id).sl_curr = (s.slabclass id).sl_curr)) ∧
    (∀ j, j ≠ id →
      ((do_slabs_newslab s id h).2.slabclass j).slabs = (s.slabclass j).slabs ∧
      ((do_slabs_newslab s id h).2.slabclass j).sl_curr = (s.slabclass j).sl_curr) := by
  have hgc := grow_slab_list_sameClasses s id h.realloc_ok
  have hgf := grow_slab_list_frame s id h.realloc_ok
  have hpool1 : ((grow_slab_list s id h.realloc_ok).2.slabclass 0).slabs = 0 := by
    rw [hgc.slabs 0]; exact hpool
  have hm := newslab_get_page_pool_empty (grow_slab_list s id h.realloc_ok).2 (page_len s id)
    h.malloc_ret hpool1
  have hme := memory_allocate_effect (grow_slab_list s id h.realloc_ok).2 (page_len s id)
    h.malloc_ret
  have hmf := memory_allocate_frame (grow_slab_list s id h.realloc_ok).2 (page_len s id)
    h.malloc_ret
  rcases do_slabs_newslab_cases s id h with ⟨_, _, _, _, e⟩ | ⟨_, ⟨_, e⟩ | ⟨_, ⟨_, e⟩ | ⟨_, e⟩⟩⟩
  · rw [e]; exact ⟨Or.inr ⟨rfl, rfl, rfl⟩, fun _ _ => ⟨rfl, rfl⟩⟩
  · rw [e]
    exact ⟨Or.inr ⟨rfl, hgc.slabs id, hgc.sl_curr id⟩, fun j _ => ⟨hgc.slabs j, hgc.sl_curr j⟩⟩
  · rw [e, hm]
    refine ⟨Or.inr ⟨rfl, ?_, ?_⟩, fun j _ => ⟨?_, ?_⟩⟩
    · show ((memory_allocate _ _ _).2.slabclass id).slabs = _
      rw [hme.1]; exact hgc.slabs id
    · show ((memory_allocate _ _ _).2.slabclass id).sl_curr = _
      rw [hme.1]; exact hgc.sl_curr id
    · show ((memory_allocate _ _ _).2.slabclass j).slabs = _
      rw [hme.1]; exact hgc.slabs j
    · show ((memory_allocate _ _ _).2.slabclass j).sl_curr = _
      rw [hme.1]; exact hgc.sl_curr j
  · rw [e, hm]
    refine ⟨Or.inl ⟨rfl, ?_, ?_⟩, fun j hj => ⟨?_, ?_⟩⟩
    · show ((newslab_install _ _ _ _).slabclass id).slabs = _
      rw [(newslab_install_slabs _ _ _ _).1, hme.1, hgc.slabs id]
    · show ((newslab_install _ _ _ _).slabclass id).sl_curr = _
      rw [(newslab_install_freelist _ _ _ _ h1
        (by rw [hmf.power_largest, hgf.power_largest]; exact h2)).1, hme.1, hgc.sl_curr id,
        hgf.perslab id]
    · show ((newslab_install _ _ _ _).slabclass j).slabs = _
      rw [newslab_install_class_other _ _ _ _ j hj, hme.1, hgc.slabs j]
    · show ((newslab_install _ _ _ _).slabclass j).sl_curr = _
      rw [newslab_install_class_other _ _ _ _ j hj, hme.1, hgc.sl_curr j]

/-- When the specification's preallocation of the classes `i .. i + n - 1` returns, each
of them has one page and `perslab` free chunks more, and no other class has changed its
page count or its count of free chunks. -/
theorem prealloc_spec_pages (hosts : Nat → Host) :
    ∀ n i s t, 1 ≤ i → i + n ≤ s.power_largest + 1 → (s.slabclass 0).slabs = 0 →
      prealloc_spec hosts n i s = some t →
      Frame s t ∧
      (∀ j, i ≤ j → j < i + n →
        (t.slabclass j).slabs = (s.slabclass j).slabs + 1 ∧
        (t.slabclass j).sl_curr = (s.slabclass j).sl_curr + (s.slabclass j).perslab) ∧
      (∀ j, (j < i ∨ i + n ≤ j) →
        (t.slabclass j).slabs = (s.slabclass j).slabs ∧
        (t.slabclass j).sl_curr = (s.slabclass j).sl_curr) := by
  intro n
  induction n with
  | zero =>
    intro i s t _ _ _ h
    simp only [prealloc_spec, Option.some.injEq] at h
    subst h
    exact ⟨Frame.refl s, fun j h1 h2 => absurd h2 (by omega), fun _ _ => ⟨rfl, rfl⟩⟩
  | succ n ih =>
    intro i s t hi hn hpool h
    by_cases hf : (do_slabs_newslab s i (hosts i)).1 = 0
    · unfold prealloc_spec at h
      rw [if_pos hf] at h
      exact absurd h (by simp)
    · unfold prealloc_spec at h
      rw [if_neg hf] at h
      have hfr := do_slabs_newslab_frame s i (hosts i)
      obtain ⟨hcase, hother⟩ := do_slabs_newslab_class s i (hosts i) hi (by omega) hpool
      have hown : ((do_slabs_newslab s i (hosts i)).2.slabclass i).slabs =
          (s.slabclass i).slabs + 1 ∧
          ((do_slabs_newslab s i (hosts i)).2.slabclass i).sl_curr =
            (s.slabclass i).sl_curr + (s.slabclass i).perslab := by
        rcases hcase with ⟨_, a, b⟩ | ⟨c, _⟩
        · exact ⟨a, b⟩
        · exact absurd c hf
      obtain ⟨r1, r2, r3⟩ := ih (i + 1) (do_slabs_newslab s i (hosts i)).2 t (by omega)
        (by rw [hfr.power_largest]; omega)
        (by rw [(hother 0 (by omega)).1]; exact hpool) h
      refine ⟨hfr.trans r1, ?_, ?_⟩
      · intro j h1 h2
        by_cases hj : j = i
        · subst hj
          obtain ⟨a, b⟩ := r3 j (Or.inl (by omega))
          rw [a, b]
          exact hown
        · obtain ⟨a, b⟩ := r2 j (by omega) (by omega)
          rw [a, b, (hother j hj).1, (hother j hj).2, hfr.perslab j]
          exact ⟨rfl, rfl⟩
      · intro j hj
        have hji : j ≠ i := by omega
        obtain ⟨a, b⟩ := r3 j (by omega)
        rw [a, b]
        exact hother j hji

/-! ## C19: slabs_init with the preallocate flag -/

/-- C19: with at least two entries in the class table, `slabs_init` with the preallocate
flag set serves the classes `1 .. power_largest` in turn, one page each, and aborts
(`none`) at the first page request that fails; so it aborts exactly when, after `k`
successful requests, the page for class `k + 1 <= power_largest` cannot be obtained, and
otherwise it returns with every class in `[1, power_largest]` owning exactly one page and
having `sl_curr = perslab`, and with no class above `power_largest`, nor the pool, owning a
page. -/
theorem slabs_init_preallocates (b : Build) (cfg : settings_t) (heap0 : Nat → item)
    (limit fnum fden base : Nat) (seed : Option Nat) (hosts : Nat → Host)
    (hMAX : 2 ≤ b.MAX_NUMBER_OF_SLAB_CLASSES) :
    slabs_init b (boot cfg heap0) limit fnum fden true base seed hosts =
      prealloc_spec hosts
        (slabs_init_start b (boot cfg heap0) limit fnum fden true base seed).power_largest 1
        (slabs_init_start b (boot cfg heap0) limit fnum fden true base seed) ∧
    (∀ t, slabs_init b (boot cfg heap0) limit fnum fden true base seed hosts = some t →
      (∀ i, 1 ≤ i → i ≤ t.power_largest →
        (t.slabclass i).slabs = 1 ∧ (t.slabclass i).pages.length = 1 ∧
        (t.slabclass i).sl_curr = (t.slabclass i).perslab) ∧
      (∀ i, t.power_largest < i → (t.slabclass i).slabs = 0) ∧
      (t.slabclass 0).slabs = 0) ∧
    (slabs_init b (boot cfg heap0) limit fnum fden true base seed hosts = none ↔
      ∃ k, k < (slabs_init_start b (boot cfg heap0) limit fnum fden true base
          seed).power_largest ∧
        ∃ u, prealloc_spec hosts k 1
            (slabs_init_start b (boot cfg heap0) limit fnum fden true base seed) = some u ∧
          (do_slabs_newslab u (1 + k) (hosts (1 + k))).1 = 0) := by
  obtain ⟨hfresh, hlt⟩ := slabs_init_start_fresh b cfg heap0 limit fnum fden true base seed
  have e : slabs_init b (boot cfg heap0) limit fnum fden true base seed hosts =
      prealloc_spec hosts
        (slabs_init_start b (boot cfg heap0) limit fnum fden true base seed).power_largest 1
        (slabs_init_start b (boot cfg heap0) limit fnum fden true base seed) := by
    rw [slabs_init_eq, if_pos rfl]
    exact slabs_preallocate_refines b _ hosts (hlt hMAX)
  refine ⟨e, ?_, ?_⟩
  · intro t ht
    rw [e] at ht
    obtain ⟨hf, r2, r3⟩ := prealloc_spec_pages hosts _ 1 _ t (le_refl 1) (by omega)
      (hfresh 0).1 ht
    refine ⟨fun i h1 h2 => ?_, fun i hi => ?_, ?_⟩
    · rw [hf.power_largest] at h2
      obtain ⟨a, b⟩ := r2 i h1 (by omega)
      rw [(hfresh i).1] at a
      rw [(hfresh i).2.1] at b
      refine ⟨a, by simp [slabclass_t.pages, a], ?_⟩
      rw [b, hf.perslab i]
      omega
    · rw [hf.power_largest] at hi
      rw [(r3 i (Or.inr (by omega))).1]
      exact (hfresh i).1
    · rw [(r3 0 (Or.inl (by omega))).1]
      exact (hfresh 0).1
  · rw [e]
    exact prealloc_spec_none hosts _ 1 _

/-- Witness of C19 with `cfg_small` (classes `1 .. 4`): with a region of 8192 bytes the
call returns `state_prealloc`, in which class 1 and class 4 own one page each with
`sl_curr = perslab` and class 5 owns none; with a region of 2048 bytes the third page
request fails and the call aborts. -/
theorem slabs_init_preallocates_witness :
    ((state_prealloc.slabclass 1).slabs = 1 ∧ (state_prealloc.slabclass 1).pages.length = 1 ∧
      (state_prealloc.slabclass 1).sl_curr = (state_prealloc.slabclass 1).perslab) ∧
    ((state_prealloc.slabclass 4).slabs = 1 ∧ (state_prealloc.slabclass 4).pages.length = 1 ∧
      (state_prealloc.slabclass 4).sl_curr = (state_prealloc.slabclass 4).perslab) ∧
    (state_prealloc.slabclass 5).slabs = 0 ∧
    slabs_init build_default (boot cfg_small (fun _ => item.zero)) 2048 2 1 true 65536 none
      (fun _ => host_ok 0) = none :=
  have h := slabs_init_preallocates build_default cfg_small (fun _ => item.zero) 8192 2 1
    65536 none (fun _ => host_ok 0) (by decide)
  have h2 := slabs_init_preallocates build_default cfg_small (fun _ => item.zero) 2048 2 1
    65536 none (fun _ => host_ok 0) (by decide)
  ⟨(h.2.1 state_prealloc rfl).1 1 (by decide) (by decide),
   (h.2.1 state_prealloc rfl).1 4 (by decide) (by decide),
   (h.2.1 state_prealloc rfl).2.1 5 (by decide),
   h2.1.trans rfl⟩

/-! ## What the scan of the rebalance worker leaves alone -/

theorem ScanFrame.unchanged (s : State) : ScanFrame s s :=
  ⟨rfl, rfl, rfl, rfl, rfl, rfl, rfl, rfl, rfl, rfl, fun _ => rfl, fun _ => rfl, fun _ => rfl,
    fun _ => rfl⟩

theorem ScanFrame.next {s t u : State} (h1 : ScanFrame s t) (h2 : ScanFrame t u) :
    ScanFrame s u :=
  ⟨h2.settings.trans h1.settings, h2.power_largest.trans h1.power_largest,
   h2.signal.trans h1.signal, h2.mem_malloced.trans h1.mem_malloced,
   h2.stats.trans h1.stats, h2.s_clsid.trans h1.s_clsid,
   h2.d_clsid.trans h1.d_clsid, h2.slab_start.trans h1.slab_start,
   h2.slab_end.trans h1.slab_end, h2.done.trans h1.done,
   fun j => (h2.size j).trans (h1.size j), fun j => (h2.perslab j).trans (h1.perslab j),
   fun j => (h2.slabs j).trans (h1.slabs j), fun j => (h2.slab_list j).trans (h1.slab_list j)⟩

theorem setHeap_scanFrame (s : State) (h : Nat → item) : ScanFrame s (s.setHeap h) :=
  ⟨rfl, rfl, rfl, rfl, rfl, rfl, rfl, rfl, rfl, rfl, fun _ => rfl, fun _ => rfl, fun _ => rfl,
    fun _ => rfl⟩

theorem setClass_scanFrame (s : State) (id : Nat) (p : slabclass_t)
    (h1 : p.size = (s.slabclass id).size) (h2 : p.perslab = (s.slabclass id).perslab)
    (h3 : p.slabs = (s.slabclass id).slabs) (h4 : p.slab_list = (s.slabclass id).slab_list) :
    ScanFrame s (s.setClass id p) := by
  refine ⟨rfl, rfl, rfl, rfl, rfl, rfl, rfl, rfl, rfl, rfl, ?_, ?_, ?_, ?_⟩ <;>
    (intro j; by_cases hj : j = id <;> simp [State.setClass, upd, hj, h1, h2, h3, h4])

theorem freelist_pop_scanFrame (s : State) (size id : Nat) :
    ScanFrame s (freelist_pop s size id).2 :=
  (setHeap_scanFrame s _).next (setClass_scanFrame _ id _ rfl rfl rfl rfl)

/-- With the flag `SLABS_ALLOC_NO_NEWPAGE`, `do_slabs_alloc` pops the head of a non-empty
freelist of a valid class and does nothing else. -/
theorem do_slabs_alloc_no_newpage_eq (s : State) (size id : Nat) (h : Host) :
    do_slabs_alloc s size id SLABS_ALLOC_NO_NEWPAGE h =
      if id < POWER_SMALLEST ∨ id > s.power_largest then (0, s)
      else if (s.slabclass id).sl_curr ≠ 0 then freelist_pop s size id else (0, s) := by
  have hr : alloc_refill s id SLABS_ALLOC_NO_NEWPAGE h = s := by
    unfold alloc_refill
    rw [if_neg (by intro hc; exact hc.2 rfl)]
  unfold do_slabs_alloc
  dsimp only
  rw [hr]

theorem do_slabs_alloc_no_newpage_scanFrame (s : State) (size id : Nat) (h : Host) :
    ScanFrame s (do_slabs_alloc s size id SLABS_ALLOC_NO_NEWPAGE h).2 := by
  rw [do_slabs_alloc_no_newpage_eq]
  split
  · exact ScanFrame.unchanged s
  · split
    · exact freelist_pop_scanFrame s size id
    · exact ScanFrame.unchanged s

theorem requested_sub_scanFrame (s : State) (id size : Nat) :
    ScanFrame s (requested_sub s id size) :=
  setClass_scanFrame s id _ rfl rfl rfl rfl

theorem rebalance_alloc_skip_scanFrame (s : State) (size new_it : Nat) :
    ScanFrame s (rebalance_alloc_skip s size new_it) := by
  have h1 := requested_sub_scanFrame s s.slab_rebal.s_clsid.toNat size
  have h2 := setHeap_scanFrame (requested_sub s s.slab_rebal.s_clsid.toNat size)
    (upd (requested_sub s s.slab_rebal.s_clsid.toNat size).heap new_it
      { (requested_sub s s.slab_rebal.s_clsid.toNat size).heap new_it with
        refcount := 0, it_flags := ITEM_SLABBED ||| ITEM_FETCHED })
  have h3 := h1.next h2
  exact ⟨h3.settings, h3.power_largest, h3.signal, h3.mem_malloced, h3.stats, h3.s_clsid,
    h3.d_clsid, h3.slab_start, h3.slab_end, h3.done, h3.size, h3.perslab, h3.slabs,
    h3.slab_list⟩

theorem slab_rebalance_alloc_loop_scanFrame (size id : Nat) :
    ∀ n s, ScanFrame s (slab_rebalance_alloc_loop size id n s).2 := by
  intro n
  induction n with
  | zero => intro s; exact ScanFrame.unchanged s
  | succ n ih =>
    intro s
    have ha := do_slabs_alloc_no_newpage_scanFrame s size id host_unused
    unfold slab_rebalance_alloc_loop
    dsimp only
    split
    · exact ha
    · split
      · exact (ha.next (rebalance_alloc_skip_scanFrame _ _ _)).next (ih _)
      · exact ha

theorem slab_rebalance_alloc_scanFrame (s : State) (size id : Nat) :
    ScanFrame s (slab_rebalance_alloc s size id).2 :=
  slab_rebalance_alloc_loop_scanFrame size id _ s

theorem freelist_unlink_scanFrame (s : State) (sc it : Nat) :
    ScanFrame s (freelist_unlink s sc it) :=
  (setHeap_scanFrame s _).next (setClass_scanFrame _ sc _ rfl rfl rfl rfl)

theorem move_classify_scanFrame (s : State) (e : MoveEnv) :
    ScanFrame s (move_classify s e).state := by
  unfold move_classify
  dsimp only
  split
  · split
    · exact freelist_unlink_scanFrame s _ _
    · split
      · split
        · exact ScanFrame.unchanged s
        · split
          · exact (setHeap_scanFrame s _).next (setHeap_scanFrame _ _)
          · exact setHeap_scanFrame s _
      · exact ScanFrame.unchanged s
  · exact ScanFrame.unchanged s

theorem move_mark_cleared_scanFrame (s : State) (it : Nat) :
    ScanFrame s (move_mark_cleared s it) :=
  setHeap_scanFrame s _

theorem lru_alloc_scanFrame (s : State) (e : MoveEnv) : ScanFrame s (lru_alloc s e).2 := by
  unfold lru_alloc
  split
  · exact ScanFrame.unchanged s
  · exact slab_rebalance_alloc_scanFrame s _ _

theorem count_eviction_nomem_scanFrame (s : State) : ScanFrame s (count_eviction_nomem s) :=
  ⟨rfl, rfl, rfl, rfl, rfl, rfl, rfl, rfl, rfl, rfl, fun _ => rfl, fun _ => rfl, fun _ => rfl,
    fun _ => rfl⟩

theorem lru_rescue_scanFrame (s : State) (e : MoveEnv) (it new_it : Nat) :
    ScanFrame s (lru_rescue s e it new_it) :=
  ⟨rfl, rfl, rfl, rfl, rfl, rfl, rfl, rfl, rfl, rfl, fun _ => rfl, fun _ => rfl, fun _ => rfl,
    fun _ => rfl⟩

theorem lru_drop_scanFrame (s : State) (e : MoveEnv) (it : Nat) :
    ScanFrame s (lru_drop s e it) :=
  setHeap_scanFrame s _

theorem move_from_lru_scanFrame (s : State) (e : MoveEnv) :
    ScanFrame s (move_from_lru s e) := by
  have ha := lru_alloc_scanFrame s e
  unfold move_from_lru
  dsimp only
  refine ScanFrame.next ?_ (requested_sub_scanFrame _ _ _)
  split
  · split
    · exact (ha.next (count_eviction_nomem_scanFrame _)).next (lru_rescue_scanFrame _ _ _ _)
    · exact ha.next (lru_rescue_scanFrame _ _ _ _)
  · split
    · exact (ha.next (count_eviction_nomem_scanFrame _)).next (lru_drop_scanFrame _ _ _)
    · exact ha.next (lru_drop_scanFrame _ _ _)

theorem move_switch_scanFrame (st : move_status) (s : State) (e : MoveEnv) (it : Nat) :
    ScanFrame s (move_switch st s e it) := by
  cases st
  · exact ScanFrame.unchanged s
  · exact move_mark_cleared_scanFrame s it
  · exact (move_from_lru_scanFrame s e).next (move_mark_cleared_scanFrame _ it)
  · exact ⟨rfl, rfl, rfl, rfl, rfl, rfl, rfl, rfl, rfl, rfl, fun _ => rfl, fun _ => rfl,
      fun _ => rfl, fun _ => rfl⟩
  · exact ⟨rfl, rfl, rfl, rfl, rfl, rfl, rfl, rfl, rfl, rfl, fun _ => rfl, fun _ => rfl,
      fun _ => rfl, fun _ => rfl⟩

theorem move_chunk_scanFrame (s : State) (e : MoveEnv) :
    ScanFrame s (move_chunk s e).state := by
  have h := (move_classify_scanFrame s e).next
    (move_switch_scanFrame (move_classify s e).status (move_classify s e).state e
      s.slab_rebal.slab_pos)
  unfold move_chunk
  dsimp only
  exact ⟨h.settings, h.power_largest, h.signal, h.mem_malloced, h.stats, h.s_clsid, h.d_clsid,
    h.slab_start, h.slab_end, h.done, h.size, h.perslab, h.slabs, h.slab_list⟩

theorem move_loop_scanFrame (envs : Nat → MoveEnv) :
    ∀ n x wb s, ScanFrame s (move_loop envs n x wb s).2 := by
  intro n
  induction n with
  | zero => intro x wb s; exact ScanFrame.unchanged s
  | succ n ih =>
    intro x wb s
    unfold move_loop
    dsimp only
    split
    · exact move_chunk_scanFrame s _
    · exact (move_chunk_scanFrame s _).next (ih _ _ _)

/-! ## C30: the rebalance state after slab_rebalance_finish -/

theorem split_loop_rebal (id : Nat) :
    ∀ n ptr s, (split_loop id n ptr s).slab_rebal = s.slab_rebal ∧
      (split_loop id n ptr s).stats = s.stats := by
  intro n
  induction n with
  | zero => intro ptr s; exact ⟨rfl, rfl⟩
  | succ n ih =>
    intro ptr s
    unfold split_loop
    dsimp only
    have hfree : (do_slabs_free s ptr 0 id).slab_rebal = s.slab_rebal ∧
        (do_slabs_free s ptr 0 id).stats = s.stats := by
      unfold do_slabs_free
      split
      · exact ⟨rfl, rfl⟩
      · exact ⟨rfl, rfl⟩
    exact ⟨(ih _ _).1.trans hfree.1, (ih _ _).2.trans hfree.2⟩

theorem rebalance_move_page_rebal (s : State) :
    (rebalance_move_page s).slab_rebal = s.slab_rebal ∧
    (rebalance_move_page s).stats = s.stats := by
  unfold rebalance_move_page
  dsimp only
  split
  · unfold split_slab_page_into_freelist
    exact split_loop_rebal _ _ _ _
  · exact ⟨rfl, rfl⟩

/-- The end of `slab_rebalance_move` sets `done` only in a pass without busy chunks. -/
theorem move_tail_done (s : State) (h0 : s.slab_rebal.done = 0)
    (h : (move_tail s).slab_rebal.done ≠ 0) :
    (move_tail s).slab_rebal.busy_items = 0 ∧ (move_tail s).slab_rebal.done = 1 ∧
    s.slab_rebal.slab_pos ≥ s.slab_rebal.slab_end ∧ s.slab_rebal.busy_items = 0 := by
  unfold move_tail at h ⊢
  by_cases h1 : s.slab_rebal.slab_pos ≥ s.slab_rebal.slab_end
  · rw [if_pos h1] at h ⊢
    by_cases h2 : s.slab_rebal.busy_items ≠ 0
    · rw [if_pos h2] at h
      exact absurd h0 h
    · rw [if_neg h2]
      have h3 : s.slab_rebal.busy_items = 0 := not_not.mp h2
      refine ⟨h3, ?_, h1, h3⟩
      show (s.slab_rebal.done + 1) % 256 = 1
      rw [h0]
  · rw [if_neg h1] at h
    exact absurd h0 h

theorem slab_rebalance_start_done (s : State) (ok : Bool) (h0 : s.slab_rebal.done = 0) :
    (slab_rebalance_start s ok).2.slab_rebal.done = 0 := by
  have hg := grow_slab_list_frame s s.slab_rebal.d_clsid.toNat ok
  unfold slab_rebalance_start
  dsimp only
  split
  · show (grow_slab_list s s.slab_rebal.d_clsid.toNat ok).2.slab_rebal.done = 0
    rw [hg.slab_rebal]; exact h0
  · rfl

/-- When a turn of the worker that began with `done = 0` arrives at the test
`if (slab_rebal.done)` with `done` set, it was set by `slab_rebalance_move` in a pass
without busy chunks: `busy_items` is 0 and `done` is 1. -/
theorem rebalance_thread_dispatch_done (s : State) (was_busy : Nat) (ok : Bool) (bulk : Int)
    (envs : Nat → MoveEnv) (h0 : s.slab_rebal.done = 0)
    (h : (rebalance_thread_dispatch s was_busy ok bulk envs).2.slab_rebal.done ≠ 0) :
    (rebalance_thread_dispatch s was_busy ok bulk envs).2.slab_rebal.busy_items = 0 ∧
    (rebalance_thread_dispatch s was_busy ok bulk envs).2.slab_rebal.done = 1 := by
  unfold rebalance_thread_dispatch at h ⊢
  by_cases h1 : s.slab_rebalance_signal = 1
  · rw [if_pos h1] at h
    dsimp only at h
    have hs := slab_rebalance_start_done s ok h0
    have : (if (slab_rebalance_start s ok).1 < 0 then
        { (slab_rebalance_start s ok).2 with slab_rebalance_signal := 0 }
        else (slab_rebalance_start s ok).2).slab_rebal.done = 0 := by
      split
      · exact hs
      · exact hs
    exact absurd this h
  · rw [if_neg h1] at h ⊢
    by_cases h2 : s.slab_rebalance_signal ≠ 0 ∧ s.slab_rebal.slab_start ≠ 0
    · rw [if_pos h2] at h ⊢
      have hf := move_loop_scanFrame envs bulk.toNat 0 0 s
      have := move_tail_done (move_loop envs bulk.toNat 0 0 s).2
        (by rw [hf.done]; exact h0) h
      exact ⟨this.1, this.2.1⟩
    · rw [if_neg h2] at h
      exact absurd h0 h

/-- C30: in a turn of the worker that began with `done = 0` (as every turn does, `done`
being cleared by `slab_rebalance_start` and by `slab_rebalance_finish`) and that reaches
`slab_rebalance_finish`, the rebalance state afterwards is idle: the signal is 0 and every
field of `slab_rebal`, `busy_items` included, is 0; the stats gain `slabs_moved + 1` and
exactly the `rescues`, `evictions_nomem` and `inline_reclaim` counts the record held, and
`slab_reassign_running` is cleared. -/
theorem slab_rebalance_finish_idle (s : State) (was_busy : Nat) (ok : Bool) (bulk : Int)
    (envs : Nat → MoveEnv) (h0 : s.slab_rebal.done = 0)
    (hreach : (rebalance_thread_dispatch s was_busy ok bulk envs).2.slab_rebal.done ≠ 0) :
    (rebalance_thread_step s was_busy ok bulk envs).2 =
      slab_rebalance_finish (rebalance_thread_dispatch s was_busy ok bulk envs).2 ∧
    (rebalance_thread_step s was_busy ok bulk envs).2.slab_rebalance_signal = 0 ∧
    (rebalance_thread_step s was_busy ok bulk envs).2.slab_rebal = slab_rebalance.zero ∧
    (rebalance_thread_step s was_busy ok bulk envs).2.stats =
      { slab_reassign_running := false
        slabs_moved :=
          (rebalance_thread_dispatch s was_busy ok bulk envs).2.stats.slabs_moved + 1
        slab_reassign_rescues :=
          (rebalance_thread_dispatch s was_busy ok bulk envs).2.stats.slab_reassign_rescues +
            (rebalance_thread_dispatch s was_busy ok bulk envs).2.slab_rebal.rescues
        slab_reassign_evictions_nomem :=
          (rebalance_thread_dispatch s was_busy ok bulk
            envs).2.stats.slab_reassign_evictions_nomem +
            (rebalance_thread_dispatch s was_busy ok bulk envs).2.slab_rebal.evictions_nomem
        slab_reassign_inline_reclaim :=
          (rebalance_thread_dispatch s was_busy ok bulk
            envs).2.stats.slab_reassign_inline_reclaim +
            (rebalance_thread_dispatch s was_busy ok bulk envs).2.slab_rebal.inline_reclaim
        slab_reassign_busy_items :=
          (rebalance_thread_dispatch s was_busy ok bulk
            envs).2.stats.slab_reassign_busy_items } := by
  obtain ⟨hb, _⟩ := rebalance_thread_dispatch_done s was_busy ok bulk envs h0 hreach
  have e : (rebalance_thread_step s was_busy ok bulk envs).2 =
      slab_rebalance_finish (rebalance_thread_dispatch s was_busy ok bulk envs).2 := by
    unfold rebalance_thread_step
    dsimp only
    rw [if_pos hreach]
  obtain ⟨r1, r2⟩ := rebalance_move_page_rebal
    (rebalance_thread_dispatch s was_busy ok bulk envs).2
  rw [e]
  refine ⟨rfl, rfl, ?_, ?_⟩
  · unfold slab_rebalance_finish
    dsimp only
    rw [r1]
    unfold slab_rebalance.zero
    rw [← hb]
  · unfold slab_rebalance_finish
    dsimp only
    rw [r1, r2]

/-- Every turn of the worker ends with `done = 0`, so every turn begins with it. -/
theorem rebalance_thread_step_done (s : State) (was_busy : Nat) (ok : Bool) (bulk : Int)
    (envs : Nat → MoveEnv) :
    (rebalance_thread_step s was_busy ok bulk envs).2.slab_rebal.done = 0 := by
  unfold rebalance_thread_step
  dsimp only
  split
  · rfl
  · rename_i h
    exact not_not.mp h

set_option maxRecDepth 100000 in
/-- Witness of C30: in `state_rebalancing` the ten chunks of the page at 4096 are free; a
turn of the worker with `slab_bulk_check = 10` clears them all, sets `done` and runs
`slab_rebalance_finish`, after which the rebalance state is idle and one page is counted
as moved. -/
theorem slab_rebalance_finish_idle_witness :
    (rebalance_thread_step state_rebalancing 0 true 10 (fun _ => env_idle)).2.slab_rebalance_signal
      = 0 ∧
    (rebalance_thread_step state_rebalancing 0 true 10 (fun _ => env_idle)).2.slab_rebal =
      slab_rebalance.zero ∧
    (rebalance_thread_step state_rebalancing 0 true 10 (fun _ => env_idle)).2.stats.slabs_moved
      = 1 :=
  have h := slab_rebalance_finish_idle state_rebalancing 0 true 10 (fun _ => env_idle)
    (by decide) (by decide)
  ⟨h.2.1, h.2.2.1, by rw [h.2.2.2]; decide⟩

/-! ## C23: slab_rebalance_start -/

/-- The value of `no_go` is 0 exactly when all three checks pass, and negative otherwise. -/
theorem rebalance_no_go_spec (s : State) (ok : Bool) :
    (rebalance_no_go s ok = 0 ↔
      (1 ≤ s.slab_rebal.s_clsid ∧ s.slab_rebal.s_clsid ≤ s.power_largest ∧
        0 ≤ s.slab_rebal.d_clsid ∧ s.slab_rebal.d_clsid ≤ s.power_largest ∧
        s.slab_rebal.s_clsid ≠ s.slab_rebal.d_clsid ∧
        (grow_slab_list s s.slab_rebal.d_clsid.toNat ok).1 ≠ 0 ∧
        2 ≤ (s.slabclass s.slab_rebal.s_clsid.toNat).slabs)) ∧
    (rebalance_no_go s ok ≠ 0 → rebalance_no_go s ok < 0) := by
  have hgp := grow_slab_list_samePages s s.slab_rebal.d_clsid.toNat ok
  unfold rebalance_no_go
  dsimp only [POWER_SMALLEST, SLAB_GLOBAL_PAGE_POOL]
  rw [hgp.slabs]
  by_cases c3 : (s.slabclass s.slab_rebal.s_clsid.toNat).slabs < 2
  · rw [if_pos c3]
    exact ⟨⟨fun h => absurd h (by decide), fun h => by omega⟩, fun _ => by decide⟩
  · rw [if_neg c3]
    by_cases c2 : (grow_slab_list s s.slab_rebal.d_clsid.toNat ok).1 = 0
    · rw [if_pos c2]
      exact ⟨⟨fun h => absurd h (by decide), fun h => absurd c2 h.2.2.2.2.2.1⟩,
        fun _ => by decide⟩
    · rw [if_neg c2]
      by_cases c1 : s.slab_rebal.s_clsid < ((1 : Nat) : Int) ∨
          s.slab_rebal.s_clsid > s.power_largest ∨
          s.slab_rebal.d_clsid < ((0 : Nat) : Int) ∨ s.slab_rebal.d_clsid > s.power_largest ∨
          s.slab_rebal.s_clsid = s.slab_rebal.d_clsid
      · rw [if_pos c1]
        exact ⟨⟨fun h => absurd h (by decide), fun h => by omega⟩, fun _ => by decide⟩
      · rw [if_neg c1]
        exact ⟨⟨fun _ => ⟨by omega, by omega, by omega, by omega, by omega, c2, by omega⟩,
          fun _ => rfl⟩, fun h => absurd rfl h⟩

/-- The two ways through `slab_rebalance_start`. -/
theorem slab_rebalance_start_cases (s : State) (ok : Bool) :
    (rebalance_no_go s ok ≠ 0 ∧
      slab_rebalance_start s ok =
        (rebalance_no_go s ok, (grow_slab_list s s.slab_rebal.d_clsid.toNat ok).2)) ∨
    (rebalance_no_go s ok = 0 ∧ (slab_rebalance_start s ok).1 = 0 ∧
      (slab_rebalance_start s ok).2.slab_rebal =
        { (grow_slab_list s s.slab_rebal.d_clsid.toNat ok).2.slab_rebal with
          slab_start := ((grow_slab_list s s.slab_rebal.d_clsid.toNat ok).2.slabclass
            s.slab_rebal.s_clsid.toNat).slab_list 0
          slab_end := ((grow_slab_list s s.slab_rebal.d_clsid.toNat ok).2.slabclass
            s.slab_rebal.s_clsid.toNat).slab_list 0 +
            ((grow_slab_list s s.slab_rebal.d_clsid.toNat ok).2.slabclass
              s.slab_rebal.s_clsid.toNat).size *
            ((grow_slab_list s s.slab_rebal.d_clsid.toNat ok).2.slabclass
              s.slab_rebal.s_clsid.toNat).perslab
          slab_pos := ((grow_slab_list s s.slab_rebal.d_clsid.toNat ok).2.slabclass
            s.slab_rebal.s_clsid.toNat).slab_list 0
          done := 0 } ∧
      (slab_rebalance_start s ok).2.slab_rebalance_signal = 2 ∧
      (slab_rebalance_start s ok).2.slabclass =
        (grow_slab_list s s.slab_rebal.d_clsid.toNat ok).2.slabclass ∧
      (slab_rebalance_start s ok).2.heap =
        (grow_slab_list s s.slab_rebal.d_clsid.toNat ok).2.heap ∧
      (slab_rebalance_start s ok).2.power_largest =
        (grow_slab_list s s.slab_rebal.d_clsid.toNat ok).2.power_largest ∧
      (slab_rebalance_start s ok).2.settings =
        (grow_slab_list s s.slab_rebal.d_clsid.toNat ok).2.settings) := by
  by_cases hn : rebalance_no_go s ok ≠ 0
  · left
    refine ⟨hn, ?_⟩
    unfold slab_rebalance_start
    dsimp only
    rw [if_pos hn]
  · right
    refine ⟨not_not.mp hn, ?_⟩
    unfold slab_rebalance_start
    dsimp only
    rw [if_neg hn]
    exact ⟨rfl, rfl, rfl, rfl, rfl, rfl, rfl⟩

/-- C23: `slab_rebalance_start` returns 0 exactly when the source id is in
`[1, power_largest]`, the destination id is in `[0, power_largest]`, they differ,
`grow_slab_list` succeeded for the destination and the source owns at least 2 pages.  On
success `slab_start` is the first page of the source, `slab_end` is `slab_start +
size * perslab` of the source, `slab_pos = slab_start`, `done = 0` and the signal is 2.  On
failure the result is negative, `slab_start`, `slab_end`, `slab_pos` and `done` (the whole
rebalance record) are unchanged, and the worker turn that made the call leaves the signal
at 0.  In the state published by a `do_slabs_reassign` that returned OK the class checks
and the spare-page check pass, so that `slab_rebalance_start` can only fail there with -1,
when the page vector of the destination cannot grow. -/
theorem slab_rebalance_start_spec (s : State) (ok : Bool) :
    ((slab_rebalance_start s ok).1 = 0 ↔
      (1 ≤ s.slab_rebal.s_clsid ∧ s.slab_rebal.s_clsid ≤ s.power_largest ∧
        0 ≤ s.slab_rebal.d_clsid ∧ s.slab_rebal.d_clsid ≤ s.power_largest ∧
        s.slab_rebal.s_clsid ≠ s.slab_rebal.d_clsid ∧
        (grow_slab_list s s.slab_rebal.d_clsid.toNat ok).1 ≠ 0 ∧
        2 ≤ (s.slabclass s.slab_rebal.s_clsid.toNat).slabs)) ∧
    ((slab_rebalance_start s ok).1 = 0 →
      (slab_rebalance_start s ok).2.slab_rebal.slab_start =
        (s.slabclass s.slab_rebal.s_clsid.toNat).slab_list 0 ∧
      (s.slabclass s.slab_rebal.s_clsid.toNat).pages.head? =
        some (slab_rebalance_start s ok).2.slab_rebal.slab_start ∧
      (slab_rebalance_start s ok).2.slab_rebal.slab_end =
        (slab_rebalance_start s ok).2.slab_rebal.slab_start +
          (s.slabclass s.slab_rebal.s_clsid.toNat).size *
            (s.slabclass s.slab_rebal.s_clsid.toNat).perslab ∧
      (slab_rebalance_start s ok).2.slab_rebal.slab_pos =
        (slab_rebalance_start s ok).2.slab_rebal.slab_start ∧
      (slab_rebalance_start s ok).2.slab_rebal.done = 0 ∧
      (slab_rebalance_start s ok).2.slab_rebalance_signal = 2 ∧
      (slab_rebalance_start s ok).2.slab_rebal.s_clsid = s.slab_rebal.s_clsid ∧
      (slab_rebalance_start s ok).2.slab_rebal.d_clsid = s.slab_rebal.d_clsid) ∧
    ((slab_rebalance_start s ok).1 ≠ 0 →
      (slab_rebalance_start s ok).1 < 0 ∧
      (slab_rebalance_start s ok).2.slab_rebal = s.slab_rebal ∧
      (slab_rebalance_start s ok).2.slab_rebalance_signal = s.slab_rebalance_signal ∧
      (s.slab_rebalance_signal = 1 → ∀ (wb : Nat) (bulk : Int) (envs : Nat → MoveEnv),
        (rebalance_thread_dispatch s wb ok bulk envs).2.slab_rebalance_signal = 0 ∧
        (rebalance_thread_dispatch s wb ok bulk envs).2.slab_rebal = s.slab_rebal)) ∧
    (∀ (s0 : State) (src dst : Int),
      (do_slabs_reassign s0 src dst).1 = reassign_result_type.REASSIGN_OK →
      s = (do_slabs_reassign s0 src dst).2 →
      (1 ≤ s.slab_rebal.s_clsid ∧ s.slab_rebal.s_clsid ≤ s.power_largest ∧
        0 ≤ s.slab_rebal.d_clsid ∧ s.slab_rebal.d_clsid ≤ s.power_largest ∧
        s.slab_rebal.s_clsid ≠ s.slab_rebal.d_clsid ∧
        2 ≤ (s.slabclass s.slab_rebal.s_clsid.toNat).slabs) ∧
      ((slab_rebalance_start s ok).1 = 0 ∨ (slab_rebalance_start s ok).1 = -1)) := by
  have hspec := rebalance_no_go_spec s ok
  have hgf := grow_slab_list_frame s s.slab_rebal.d_clsid.toNat ok
  have hgc := grow_slab_list_sameClasses s s.slab_rebal.d_clsid.toNat ok
  have hiff : (slab_rebalance_start s ok).1 = 0 ↔ rebalance_no_go s ok = 0 := by
    rcases slab_rebalance_start_cases s ok with ⟨hn, e⟩ | ⟨hz, e, _⟩
    · rw [e]
    · exact ⟨fun _ => hz, fun _ => e⟩
  refine ⟨hiff.trans hspec.1, ?_, ?_, ?_⟩
  · intro h0
    rcases slab_rebalance_start_cases s ok with ⟨hn, _⟩ | ⟨_, _, e, esig, _⟩
    · exact absurd (hiff.mp h0) hn
    · have h2 := (hspec.1.mp (hiff.mp h0)).2.2.2.2.2.2
      rw [e]
      dsimp only
      rw [hgc.slab_list, hgf.size, hgf.perslab, hgf.slab_rebal]
      refine ⟨rfl, ?_, rfl, rfl, rfl, esig, rfl, rfl⟩
      unfold slabclass_t.pages
      obtain ⟨k, hk⟩ : ∃ k, (s.slabclass s.slab_rebal.s_clsid.toNat).slabs = k + 1 :=
        ⟨(s.slabclass s.slab_rebal.s_clsid.toNat).slabs - 1, by omega⟩
      rw [hk, List.range_succ_eq_map]
      rfl
  · intro hne
    rcases slab_rebalance_start_cases s ok with ⟨hn, e⟩ | ⟨_, e, _⟩
    · have hneg : (slab_rebalance_start s ok).1 < 0 := by rw [e]; exact hspec.2 hn
      refine ⟨hneg, by rw [e]; exact hgf.slab_rebal, by rw [e]; exact hgf.signal, ?_⟩
      intro hsig wb bulk envs
      unfold rebalance_thread_dispatch
      rw [if_pos hsig]
      dsimp only
      rw [if_pos hneg]
      exact ⟨rfl, by rw [e]; exact hgf.slab_rebal⟩
    · exact absurd e hne
  · intro s0 src dst hok hs
    have hst := reassign_resolve_state s0 src dst
    rcases do_slabs_reassign_cases s0 src dst with h | h | h | h | h
    · rw [h.2] at hok; exact reassign_result_type.noConfusion hok
    · rw [h.2.2] at hok; exact reassign_result_type.noConfusion hok
    · rw [h.2.2.2] at hok; exact reassign_result_type.noConfusion hok
    · rw [h.2.2.2.2] at hok; exact reassign_result_type.noConfusion hok
    · obtain ⟨_, hsd, hrange, hspare, e⟩ := h
      have hpub : s.slab_rebal.s_clsid = (reassign_resolve s0 src dst).1 ∧
          s.slab_rebal.d_clsid = dst ∧ s.power_largest = s0.power_largest ∧
          s.slabclass = s0.slabclass := by
        rw [hs, e]
        exact ⟨rfl, rfl, hst.2.1, hst.1⟩
      obtain ⟨p1, p2, p3, p4⟩ := hpub
      have hne : (reassign_resolve s0 src dst).1 ≠ dst := by
        by_cases hm : src = -1
        · have hr : (reassign_resolve s0 src dst).1 = (slabs_reassign_pick_any s0 dst).1 := by
            unfold reassign_resolve; rw [if_pos hm]
          rw [hr] at hrange ⊢
          have hpl : 1 ≤ s0.power_largest := by omega
          rcases pick_any_loop_sound s0 dst hpl (s0.power_largest + 1 - POWER_SMALLEST)
            s0.pick_any_cur with hm1 | ⟨c, hc, _, _, hcd, _⟩
          · have : (slabs_reassign_pick_any s0 dst).1 = -1 := hm1
            omega
          · have : (slabs_reassign_pick_any s0 dst).1 = (c : Int) := hc
            rw [this]; exact hcd
        · rw [reassign_resolve_explicit s0 src dst hm]
          exact hsd
      have hchecks : 1 ≤ s.slab_rebal.s_clsid ∧ s.slab_rebal.s_clsid ≤ s.power_largest ∧
          0 ≤ s.slab_rebal.d_clsid ∧ s.slab_rebal.d_clsid ≤ s.power_largest ∧
          s.slab_rebal.s_clsid ≠ s.slab_rebal.d_clsid ∧
          2 ≤ (s.slabclass s.slab_rebal.s_clsid.toNat).slabs := by
        rw [p1, p2, p3, p4]
        exact ⟨by omega, by omega, by omega, by omega, hne, by omega⟩
      refine ⟨hchecks, ?_⟩
      by_cases hg : (grow_slab_list s s.slab_rebal.d_clsid.toNat ok).1 = 0
      · right
        rcases slab_rebalance_start_cases s ok with ⟨_, e2⟩ | ⟨hz, _⟩
        · rw [e2]
          show rebalance_no_go s ok = -1
          unfold rebalance_no_go
          dsimp only
          rw [(grow_slab_list_samePages s s.slab_rebal.d_clsid.toNat ok).slabs,
            if_neg (by omega), if_pos hg]
        · exact absurd hg (hspec.1.mp hz).2.2.2.2.2.1
      · left
        exact (hiff.trans hspec.1).mpr ⟨hchecks.1, hchecks.2.1, hchecks.2.2.1,
          hchecks.2.2.2.1, hchecks.2.2.2.2.1, hg, hchecks.2.2.2.2.2⟩

/-! ## C22: memory_allocate in preallocated mode -/

/-- The state in which `slabs_init` with the preallocate flag and a successful
`malloc(mem_limit)` starts to hand out pages is in preallocated mode. -/
theorem slabs_init_start_region (b : Build) (cfg : settings_t) (heap0 : Nat → item)
    (limit fnum fden base : Nat) (seed : Option Nat) (hbase : base ≠ 0) :
    RegionInv (slabs_init_start b (boot cfg heap0) limit fnum fden true base seed) := by
  unfold slabs_init_start
  dsimp only
  cases seed <;>
    simp only [hbase, ne_eq, not_false_eq_true, if_true] <;>
    exact ⟨hbase, le_refl _, by simp, Or.inr rfl⟩

/-! ## C24: the classification of the chunk at the cursor -/

theorem refcount_incr_read (s : State) (it : Nat) :
    ((refcount_incr s it).heap it).refcount = (s.heap it).refcount + 1 := by
  unfold refcount_incr
  rw [setHeap_heap, upd_same]

theorem refcount_decr_incr (s : State) (it : Nat) :
    refcount_decr (refcount_incr s it) it = s := by
  have hh : upd (upd s.heap it { s.heap it with refcount := (s.heap it).refcount + 1 }) it
      { upd s.heap it { s.heap it with refcount := (s.heap it).refcount + 1 } it with
        refcount := (upd s.heap it { s.heap it with refcount := (s.heap it).refcount + 1 }
          it).refcount - 1 } = s.heap := by
    funext a
    by_cases ha : a = it
    · rw [ha]
      simp only [upd_same, Nat.add_sub_cancel]
    · rw [upd_other _ _ _ _ ha, upd_other _ _ _ _ ha]
  unfold refcount_decr refcount_incr
  show ({ s with heap := _ } : State) = s
  rw [setHeap_heap, hh]

/-- The six ways through the classification of `slab_rebalance_move`. -/
theorem move_classify_cases (s : State) (e : MoveEnv) :
    ((s.heap s.slab_rebal.slab_pos).it_flags = ITEM_SLABBED ||| ITEM_FETCHED ∧
      move_classify s e =
        { status := move_status.MOVE_PASS, hold_lock := false, state := s }) ∨
    ((s.heap s.slab_rebal.slab_pos).it_flags ≠ ITEM_SLABBED ||| ITEM_FETCHED ∧
      (s.heap s.slab_rebal.slab_pos).it_flags &&& ITEM_SLABBED ≠ 0 ∧
      move_classify s e =
        { status := move_status.MOVE_FROM_SLAB, hold_lock := false,
          state := freelist_unlink s s.slab_rebal.s_clsid.toNat s.slab_rebal.slab_pos }) ∨
    ((s.heap s.slab_rebal.slab_pos).it_flags &&& ITEM_SLABBED = 0 ∧
      (s.heap s.slab_rebal.slab_pos).it_flags &&& ITEM_LINKED = 0 ∧
      move_classify s e =
        { status := move_status.MOVE_BUSY, hold_lock := false, state := s }) ∨
    ((s.heap s.slab_rebal.slab_pos).it_flags &&& ITEM_SLABBED = 0 ∧
      (s.heap s.slab_rebal.slab_pos).it_flags &&& ITEM_LINKED ≠ 0 ∧
      e.trylock_ok = false ∧
      move_classify s e =
        { status := move_status.MOVE_LOCKED, hold_lock := false, state := s }) ∨
    ((s.heap s.slab_rebal.slab_pos).it_flags &&& ITEM_SLABBED = 0 ∧
      (s.heap s.slab_rebal.slab_pos).it_flags &&& ITEM_LINKED ≠ 0 ∧
      e.trylock_ok = true ∧
      ((s.heap s.slab_rebal.slab_pos).refcount + 1 = 2 ∧
        e.flags_locked &&& ITEM_LINKED ≠ 0) ∧
      move_classify s e =
        { status := move_status.MOVE_FROM_LRU, hold_lock := true,
          state := refcount_incr s s.slab_rebal.slab_pos }) ∨
    ((s.heap s.slab_rebal.slab_pos).it_flags &&& ITEM_SLABBED = 0 ∧
      (s.heap s.slab_rebal.slab_pos).it_flags &&& ITEM_LINKED ≠ 0 ∧
      e.trylock_ok = true ∧
      ¬ ((s.heap s.slab_rebal.slab_pos).refcount + 1 = 2 ∧
        e.flags_locked &&& ITEM_LINKED ≠ 0) ∧
      move_classify s e =
        { status := move_status.MOVE_BUSY, hold_lock := false, state := s }) := by
  by_cases h1 : (s.heap s.slab_rebal.slab_pos).it_flags = ITEM_SLABBED ||| ITEM_FETCHED
  · left
    refine ⟨h1, ?_⟩
    unfold move_classify
    dsimp only
    rw [if_neg (not_not.mpr h1)]
  · right
    by_cases h2 : (s.heap s.slab_rebal.slab_pos).it_flags &&& ITEM_SLABBED ≠ 0
    · left
      refine ⟨h1, h2, ?_⟩
      unfold move_classify
      dsimp only
      rw [if_pos h1, if_pos h2]
    · right
      have h2z : (s.heap s.slab_rebal.slab_pos).it_flags &&& ITEM_SLABBED = 0 := not_not.mp h2
      by_cases h3 : (s.heap s.slab_rebal.slab_pos).it_flags &&& ITEM_LINKED ≠ 0
      · right
        by_cases h4 : e.trylock_ok = false
        · left
          refine ⟨h2z, h3, h4, ?_⟩
          unfold move_classify
          dsimp only
          rw [if_pos h1, if_neg h2, if_pos h3, if_pos h4]
        · right
          have h4t : e.trylock_ok = true := by
            cases hb : e.trylock_ok
            · exact absurd hb h4
            · rfl
          by_cases h5 : (s.heap s.slab_rebal.slab_pos).refcount + 1 = 2 ∧
              e.flags_locked &&& ITEM_LINKED ≠ 0
          · left
            refine ⟨h2z, h3, h4t, h5, ?_⟩
            have hst : move_locked_status
                ((refcount_incr s s.slab_rebal.slab_pos).heap s.slab_rebal.slab_pos).refcount
                e.flags_locked = move_status.MOVE_FROM_LRU := by
              rw [refcount_incr_read]
              unfold move_locked_status
              rw [if_pos h5.1, if_pos h5.2]
            unfold move_classify
            dsimp only
            rw [if_pos h1, if_neg h2, if_pos h3, if_neg h4, hst, if_neg (by decide)]
          · right
            refine ⟨h2z, h3, h4t, h5, ?_⟩
            have hst : move_locked_status
                ((refcount_incr s s.slab_rebal.slab_pos).heap s.slab_rebal.slab_pos).refcount
                e.flags_locked = move_status.MOVE_BUSY := by
              rw [refcount_incr_read]
              unfold move_locked_status
              by_cases h6 : (s.heap s.slab_rebal.slab_pos).refcount + 1 = 2
              · rw [if_pos h6, if_neg (fun h7 => h5 ⟨h6, h7⟩)]
              · rw [if_neg h6]
            unfold move_classify
            dsimp only
            rw [if_pos h1, if_neg h2, if_pos h3, if_neg h4, hst, if_pos rfl,
              refcount_decr_incr]
      · left
        refine ⟨h2z, not_not.mp h3, ?_⟩
        unfold move_classify
        dsimp only
        rw [if_pos h1, if_neg h2, if_neg h3]

/-- An iteration of `slab_rebalance_move` in terms of its classification. -/
theorem move_chunk_eq (s : State) (e : MoveEnv) :
    (move_chunk s e).status = (move_classify s e).status ∧
    (move_chunk s e).lock_held =
      (if (move_classify s e).status = move_status.MOVE_FROM_LRU then false
        else (move_classify s e).hold_lock) ∧
    (move_chunk s e).state.heap =
      (move_switch (move_classify s e).status (move_classify s e).state e
        s.slab_rebal.slab_pos).heap ∧
    (move_chunk s e).state.slabclass =
      (move_switch (move_classify s e).status (move_classify s e).state e
        s.slab_rebal.slab_pos).slabclass ∧
    (move_chunk s e).state.slab_rebal =
      { (move_switch (move_classify s e).status (move_classify s e).state e
          s.slab_rebal.slab_pos).slab_rebal with
        slab_pos :=
          (move_switch (move_classify s e).status (move_classify s e).state e
            s.slab_rebal.slab_pos).slab_rebal.slab_pos +
          ((move_switch (move_classify s e).status (move_classify s e).state e
            s.slab_rebal.slab_pos).slabclass
            (move_switch (move_classify s e).status (move_classify s e).state e
              s.slab_rebal.slab_pos).slab_rebal.s_clsid.toNat).size } :=
  ⟨rfl, rfl, rfl, rfl, rfl⟩

theorem move_mark_cleared_read (s : State) (it : Nat) :
    ((move_mark_cleared s it).heap it).refcount = 0 ∧
    ((move_mark_cleared s it).heap it).it_flags = ITEM_SLABBED ||| ITEM_FETCHED := by
  unfold move_mark_cleared
  rw [setHeap_heap, upd_same]
  exact ⟨rfl, rfl⟩

/-- C24: the chunk at the cursor is classified in this order: flags exactly
`SLABBED|FETCHED` gives PASS; otherwise SLABBED set gives FROM_SLAB; otherwise LINKED set
gives LOCKED when `item_trylock` fails, FROM_LRU when the lock is obtained, the incremented
`refcount` is 2 and LINKED is set in the flags read under the lock, and BUSY in every
other locked case; neither SLABBED nor LINKED gives BUSY.  After FROM_SLAB or FROM_LRU the
chunk has `refcount = 0` and flags exactly `SLABBED|FETCHED`; no item lock is held when
the iteration ends. -/
theorem move_chunk_status (s : State) (e : MoveEnv) :
    (move_chunk s e).status =
      (if (s.heap s.slab_rebal.slab_pos).it_flags = ITEM_SLABBED ||| ITEM_FETCHED then
        move_status.MOVE_PASS
      else if (s.heap s.slab_rebal.slab_pos).it_flags &&& ITEM_SLABBED ≠ 0 then
        move_status.MOVE_FROM_SLAB
      else if (s.heap s.slab_rebal.slab_pos).it_flags &&& ITEM_LINKED ≠ 0 then
        (if e.trylock_ok = false then move_status.MOVE_LOCKED
        else if (s.heap s.slab_rebal.slab_pos).refcount + 1 = 2 ∧
            e.flags_locked &&& ITEM_LINKED ≠ 0 then move_status.MOVE_FROM_LRU
        else move_status.MOVE_BUSY)
      else move_status.MOVE_BUSY) ∧
    (((move_chunk s e).status = move_status.MOVE_FROM_SLAB ∨
        (move_chunk s e).status = move_status.MOVE_FROM_LRU) →
      ((move_chunk s e).state.heap s.slab_rebal.slab_pos).refcount = 0 ∧
      ((move_chunk s e).state.heap s.slab_rebal.slab_pos).it_flags =
        ITEM_SLABBED ||| ITEM_FETCHED) ∧
    (move_chunk s e).lock_held = false := by
  obtain ⟨e1, e2, e3, _, _⟩ := move_chunk_eq s e
  rw [e1, e2, e3]
  rcases move_classify_cases s e with ⟨h1, c⟩ | ⟨h1, h2, c⟩ | ⟨h2, h3, c⟩ | ⟨h2, h3, h4, c⟩ |
    ⟨h2, h3, h4, h5, c⟩ | ⟨h2, h3, h4, h5, c⟩
  · rw [c]
    dsimp only
    rw [if_pos h1]
    exact ⟨rfl, fun h => by rcases h with h | h <;> exact move_status.noConfusion h, rfl⟩
  · rw [c]
    dsimp only
    rw [if_neg h1, if_pos h2]
    exact ⟨rfl, fun _ => move_mark_cleared_read _ _, rfl⟩
  · have h1 : (s.heap s.slab_rebal.slab_pos).it_flags ≠ ITEM_SLABBED ||| ITEM_FETCHED := by
      intro h; rw [h] at h2; exact absurd h2 (by decide)
    rw [c]
    dsimp only
    rw [if_neg h1, if_neg (not_not.mpr h2), if_neg (not_not.mpr h3)]
    exact ⟨rfl, fun h => by rcases h with h | h <;> exact move_status.noConfusion h, rfl⟩
  · have h1 : (s.heap s.slab_rebal.slab_pos).it_flags ≠ ITEM_SLABBED ||| ITEM_FETCHED := by
      intro h; rw [h] at h2; exact absurd h2 (by decide)
    rw [c]
    dsimp only
    rw [if_neg h1, if_neg (not_not.mpr h2), if_pos h3, if_pos h4]
    exact ⟨rfl, fun h => by rcases h with h | h <;> exact move_status.noConfusion h, rfl⟩
  · have h1 : (s.heap s.slab_rebal.slab_pos).it_flags ≠ ITEM_SLABBED ||| ITEM_FETCHED := by
      intro h; rw [h] at h2; exact absurd h2 (by decide)
    rw [c]
    dsimp only
    rw [if_neg h1, if_neg (not_not.mpr h2), if_pos h3, if_neg (by rw [h4]; decide), if_pos h5]
    exact ⟨rfl, fun _ => move_mark_cleared_read _ _, rfl⟩
  · have h1 : (s.heap s.slab_rebal.slab_pos).it_flags ≠ ITEM_SLABBED ||| ITEM_FETCHED := by
      intro h; rw [h] at h2; exact absurd h2 (by decide)
    rw [c]
    dsimp only
    rw [if_neg h1, if_neg (not_not.mpr h2), if_pos h3, if_neg (by rw [h4]; decide), if_neg h5]
    exact ⟨rfl, fun h => by rcases h with h | h <;> exact move_status.noConfusion h, rfl⟩

/-- No item lock is held when an iteration of `slab_rebalance_move` ends. -/
theorem move_chunk_lock_released (s : State) (e : MoveEnv) :
    (move_chunk s e).lock_held = false := by
  rw [(move_chunk_eq s e).2.1]
  rcases move_classify_cases s e with ⟨_, c⟩ | ⟨_, _, c⟩ | ⟨_, _, c⟩ | ⟨_, _, _, c⟩ |
    ⟨_, _, _, _, c⟩ | ⟨_, _, _, _, c⟩ <;> rw [c] <;> rfl

/-! ## C25: what a BUSY, LOCKED or PASS iteration changes -/

/-- C25: when the iteration classifies the chunk at the cursor as BUSY or LOCKED, the
whole state afterwards is the state before with `busy_items + 1` and the cursor advanced by
the chunk size of the source: every item header (the flags and `refcount` of the chunk
included, the increment of `refcount` being undone), every class (freelist, `sl_curr`, page
list, `requested`) and every other field of the rebalance record is as before, and no item
lock is held.  After a PASS iteration the state is the state before with the cursor
advanced. -/
theorem move_chunk_busy_pass (s : State) (e : MoveEnv) :
    (((move_chunk s e).status = move_status.MOVE_BUSY ∨
        (move_chunk s e).status = move_status.MOVE_LOCKED) →
      (move_chunk s e).state =
        { s with
          slab_rebal :=
            { s.slab_rebal with
              busy_items := s.slab_rebal.busy_items + 1
              slab_pos := s.slab_rebal.slab_pos
                + (s.slabclass s.slab_rebal.s_clsid.toNat).size } } ∧
      (move_chunk s e).state.heap = s.heap ∧
      (move_chunk s e).state.slabclass = s.slabclass ∧
      (move_chunk s e).lock_held = false) ∧
    ((move_chunk s e).status = move_status.MOVE_PASS →
      (move_chunk s e).state =
        { s with
          slab_rebal :=
            { s.slab_rebal with
              slab_pos := s.slab_rebal.slab_pos
                + (s.slabclass s.slab_rebal.s_clsid.toNat).size } }) := by
  have hlock := move_chunk_lock_released s e
  rcases move_classify_cases s e with ⟨h1, c⟩ | ⟨h1, h2, c⟩ | ⟨h2, h3, c⟩ | ⟨h2, h3, h4, c⟩ |
    ⟨h2, h3, h4, h5, c⟩ | ⟨h2, h3, h4, h5, c⟩
  · have e1 : (move_chunk s e).status = move_status.MOVE_PASS := by
      rw [(move_chunk_eq s e).1, c]
    have e2 : (move_chunk s e).state = { s with
        slab_rebal := { s.slab_rebal with
          slab_pos := s.slab_rebal.slab_pos
            + (s.slabclass s.slab_rebal.s_clsid.toNat).size } } := by
      unfold move_chunk
      dsimp only
      rw [c]
      rfl
    rw [e1]
    exact ⟨fun h => by rcases h with h | h <;> exact move_status.noConfusion h, fun _ => e2⟩
  · have e1 : (move_chunk s e).status = move_status.MOVE_FROM_SLAB := by
      rw [(move_chunk_eq s e).1, c]
    rw [e1]
    exact ⟨fun h => by rcases h with h | h <;> exact move_status.noConfusion h,
      fun h => move_status.noConfusion h⟩
  · have e1 : (move_chunk s e).status = move_status.MOVE_BUSY := by
      rw [(move_chunk_eq s e).1, c]
    have e2 : (move_chunk s e).state = { s with
        slab_rebal := { s.slab_rebal with
          busy_items := s.slab_rebal.busy_items + 1
          slab_pos := s.slab_rebal.slab_pos
            + (s.slabclass s.slab_rebal.s_clsid.toNat).size } } := by
      unfold move_chunk
      dsimp only
      rw [c]
      rfl
    rw [e1]
    refine ⟨fun _ => ⟨e2, by rw [e2], by rw [e2], hlock⟩, fun h => move_status.noConfusion h⟩
  · have e1 : (move_chunk s e).status = move_status.MOVE_LOCKED := by
      rw [(move_chunk_eq s e).1, c]
    have e2 : (move_chunk s e).state = { s with
        slab_rebal := { s.slab_rebal with
          busy_items := s.slab_rebal.busy_items + 1
          slab_pos := s.slab_rebal.slab_pos
            + (s.slabclass s.slab_rebal.s_clsid.toNat).size } } := by
      unfold move_chunk
      dsimp only
      rw [c]
      rfl
    rw [e1]
    refine ⟨fun _ => ⟨e2, by rw [e2], by rw [e2], hlock⟩, fun h => move_status.noConfusion h⟩
  · have e1 : (move_chunk s e).status = move_status.MOVE_FROM_LRU := by
      rw [(move_chunk_eq s e).1, c]
    rw [e1]
    exact ⟨fun h => by rcases h with h | h <;> exact move_status.noConfusion h,
      fun h => move_status.noConfusion h⟩
  · have e1 : (move_chunk s e).status = move_status.MOVE_BUSY := by
      rw [(move_chunk_eq s e).1, c]
    have e2 : (move_chunk s e).state = { s with
        slab_rebal := { s.slab_rebal with
          busy_items := s.slab_rebal.busy_items + 1
          slab_pos := s.slab_rebal.slab_pos
            + (s.slabclass s.slab_rebal.s_clsid.toNat).size } } := by
      unfold move_chunk
      dsimp only
      rw [c]
      rfl
    rw [e1]
    refine ⟨fun _ => ⟨e2, by rw [e2], by rw [e2], hlock⟩, fun h => move_status.noConfusion h⟩

/-! ## Doubly-linked freelists -/

theorem is_dlist_freelist (heap : Nat → item) :
    ∀ l p head, is_dlist heap p head l → is_freelist heap head l := by
  intro l
  induction l with
  | nil => intro p head h; exact h
  | cons a l ih =>
    intro p head h
    exact ⟨h.1, h.2.1, ih _ _ h.2.2.2⟩

theorem is_freelist_unique (heap : Nat → item) :
    ∀ l1 l2 head, is_freelist heap head l1 → is_freelist heap head l2 → l1 = l2 := by
  intro l1
  induction l1 with
  | nil =>
    intro l2 head h1 h2
    cases l2 with
    | nil => rfl
    | cons b l2 =>
      have e1 : head = 0 := h1
      have e2 : head = b := h2.1
      exact absurd (e2.symm.trans e1) h2.2.1
  | cons a l1 ih =>
    intro l2 head h1 h2
    cases l2 with
    | nil =>
      have e2 : head = 0 := h2
      exact absurd (h1.1.symm.trans e2) h1.2.1
    | cons b l2 =>
      have e : a = b := h1.1.symm.trans h2.1
      subst e
      rw [ih l2 _ h1.2.2 h2.2.2]

theorem is_freelist_nonzero (heap : Nat → item) :
    ∀ l head, is_freelist heap head l → ∀ x ∈ l, x ≠ 0 := by
  intro l
  induction l with
  | nil => intro head _ x hx; exact absurd hx (List.not_mem_nil x)
  | cons a l ih =>
    intro head h x hx
    rcases List.mem_cons.mp hx with e | hm
    · rw [e]; exact h.2.1
    · exact ih _ h.2.2 x hm

/-- The part of a freelist after one of its chunks is the freelist at that chunk's `next`. -/
theorem is_freelist_suffix (heap : Nat → item) :
    ∀ l head x, is_freelist heap head l → x ∈ l →
      ∃ l1 l2, l = l1 ++ x :: l2 ∧ is_freelist heap (heap x).next l2 := by
  intro l
  induction l with
  | nil => intro head x _ hx; exact absurd hx (List.not_mem_nil x)
  | cons a l ih =>
    intro head x h hx
    rcases List.mem_cons.mp hx with e | hm
    · subst e
      exact ⟨[], l, rfl, h.2.2⟩
    · obtain ⟨l1, l2, e, hl⟩ := ih _ x h.2.2 hm
      exact ⟨a :: l1, l2, by rw [e]; rfl, hl⟩

theorem is_freelist_nodup (heap : Nat → item) :
    ∀ l head, is_freelist heap head l → l.Nodup := by
  intro l
  induction l with
  | nil => intro _ _; exact List.nodup_nil
  | cons a l ih =>
    intro head h
    refine List.nodup_cons.mpr ⟨fun hmem => ?_, ih _ h.2.2⟩
    obtain ⟨l1, l2, e, hl⟩ := is_freelist_suffix heap l _ a h.2.2 hmem
    have e2 : l2 = l := is_freelist_unique heap l2 l _ hl h.2.2
    have hlen : l.length = l1.length + (l2.length + 1) := by
      conv => lhs; rw [e]
      rw [List.length_append, List.length_cons]
    rw [e2] at hlen
    omega

theorem is_dlist_congr_on {h1 h2 : Nat → item} :
    ∀ l p head, (∀ a ∈ l, (h2 a).next = (h1 a).next ∧ (h2 a).prev = (h1 a).prev) →
      is_dlist h1 p head l → is_dlist h2 p head l := by
  intro l
  induction l with
  | nil => intro p head _ h; exact h
  | cons a l ih =>
    intro p head hn h
    obtain ⟨e, ha, hp, hl⟩ := h
    have hx := hn a (List.mem_cons_self a l)
    refine ⟨e, ha, by rw [hx.2]; exact hp, ?_⟩
    rw [hx.1]
    exact ih _ _ (fun x hx => hn x (List.mem_cons_of_mem a hx)) hl

theorem unlink_write_prev (heap : Nat → item) (n q : Nat) :
    (if n ≠ 0 then upd heap n { heap n with prev := q } else heap) =
      fun a => { heap a with prev := if a = n ∧ n ≠ 0 then q else (heap a).prev } := by
  funext a
  by_cases hn : n ≠ 0
  · rw [if_pos hn]
    by_cases ha : a = n
    · rw [ha, upd_same, if_pos ⟨rfl, hn⟩]
    · rw [upd_other _ _ _ _ ha, if_neg (fun h => ha h.1)]
  · rw [if_neg hn, if_neg (fun h => hn h.2)]

theorem unlink_write_next (heap : Nat → item) (n q : Nat) :
    (if q ≠ 0 then upd heap q { heap q with next := n } else heap) =
      fun a => { heap a with next := if a = q ∧ q ≠ 0 then n else (heap a).next } := by
  funext a
  by_cases hq : q ≠ 0
  · rw [if_pos hq]
    by_cases ha : a = q
    · rw [ha, upd_same, if_pos ⟨rfl, hq⟩]
    · rw [upd_other _ _ _ _ ha, if_neg (fun h => ha h.1)]
  · rw [if_neg hq, if_neg (fun h => hq h.2)]

/-- What `freelist_unlink` leaves in the item headers: the `next` of the chunk before `it`
and the `prev` of the chunk after `it` are redirected, nothing else changes. -/
theorem freelist_unlink_heap (s : State) (sc it : Nat) :
    (freelist_unlink s sc it).heap =
      (fun a => { s.heap a with
        next := if a = (s.heap it).prev ∧ (s.heap it).prev ≠ 0 then (s.heap it).next
          else (s.heap a).next
        prev := if a = (s.heap it).next ∧ (s.heap it).next ≠ 0 then (s.heap it).prev
          else (s.heap a).prev }) := by
  unfold freelist_unlink
  simp only [setClass_heap, setHeap_heap]
  rw [unlink_write_prev]
  simp only [ite_self]
  rw [unlink_write_next]

theorem freelist_unlink_class (s : State) (sc it : Nat) :
    (freelist_unlink s sc it).slabclass =
      upd s.slabclass sc
        { s.slabclass sc with
          slots := if (s.slabclass sc).slots = it then (s.heap it).next
            else (s.slabclass sc).slots
          sl_curr := if (s.slabclass sc).sl_curr = 0 then 4294967295
            else (s.slabclass sc).sl_curr - 1 } := rfl

theorem is_dlist_next_mem (heap : Nat → item) (c : Nat) (l2 : List Nat) :
    ∀ l1 p head, is_dlist heap p head (l1 ++ c :: l2) →
      (heap c).next = 0 ∨ (heap c).next ∈ l2 := by
  intro l1
  induction l1 with
  | nil =>
    intro p head h
    have hl : is_dlist heap c (heap c).next l2 := h.2.2.2
    cases l2 with
    | nil => exact Or.inl hl
    | cons b l2 => exact Or.inr (by rw [hl.1]; exact List.mem_cons_self b l2)
  | cons a l1 ih =>
    intro p head h
    exact ih _ _ h.2.2.2

theorem is_dlist_prev_of (heap : Nat → item) (c : Nat) (l2 : List Nat) :
    ∀ l1 p head, is_dlist heap p head (l1 ++ c :: l2) →
      (l1 = [] ∧ (heap c).prev = p) ∨ (heap c).prev ∈ l1 := by
  intro l1
  induction l1 with
  | nil =>
    intro p head h
    exact Or.inl ⟨rfl, h.2.2.1⟩
  | cons a l1 ih =>
    intro p head h
    right
    rcases ih _ _ h.2.2.2 with ⟨_, e⟩ | hm
    · rw [e]; exact List.mem_cons_self a l1
    · exact List.mem_cons_of_mem a hm

/-- Unlinking the chunk `c` from a doubly-linked list: when the `next` of the chunk before `c`
and the `prev` of the chunk after `c` are redirected around `c`, the rest of the list is the
doubly-linked list without `c`. -/
theorem is_dlist_unlink (heap heap2 : Nat → item) (c n q : Nat)
    (hnext : ∀ a, (heap2 a).next = if a = q ∧ q ≠ 0 then n else (heap a).next)
    (hprev : ∀ a, (heap2 a).prev = if a = n ∧ n ≠ 0 then q else (heap a).prev)
    (hn : n = (heap c).next) (hq : q = (heap c).prev) (l2 : List Nat) :
    ∀ l1 p head, is_dlist heap p head (l1 ++ c :: l2) → (l1 ++ c :: l2).Nodup →
      p ∉ l1 ++ c :: l2 →
      is_dlist heap2 p (if head = c then n else head) (l1 ++ l2) := by
  intro l1
  induction l1 with
  | nil =>
    intro p head h hnd hp
    obtain ⟨e, hc, hcp, hl⟩ := h
    rw [if_pos e]
    have hqp : q = p := hq.trans hcp
    rw [List.nil_append] at hnd hp ⊢
    cases l2 with
    | nil => exact hn.trans hl
    | cons b l2 =>
      obtain ⟨eb, hb, hbp, hl2⟩ := hl
      have hnb : n = b := hn.trans eb
      have hbq : b ≠ q := by
        intro hc2
        exact hp (by rw [← hqp, ← hc2]; exact List.mem_cons_of_mem c (List.mem_cons_self b l2))
      have hb2 : b ∉ l2 := (List.nodup_cons.mp (List.nodup_cons.mp hnd).2).1
      refine ⟨hnb, hb, ?_, ?_⟩
      · rw [hprev b, if_pos ⟨hnb.symm, by rw [hnb]; exact hb⟩]; exact hqp
      · rw [hnext b, if_neg (fun h => hbq h.1)]
        refine is_dlist_congr_on l2 _ _ (fun a ha => ⟨?_, ?_⟩) hl2
        · rw [hnext a, if_neg]
          intro h
          exact hp (by rw [← hqp, ← h.1];
                       exact List.mem_cons_of_mem c (List.mem_cons_of_mem b ha))
        · rw [hprev a, if_neg]
          intro h
          exact hb2 (by rw [← hnb, ← h.1]; exact ha)
  | cons a l1 ih =>
    intro p head h hnd hp
    obtain ⟨e, ha, hap, hl⟩ := h
    have hnd2 : (l1 ++ c :: l2).Nodup := (List.nodup_cons.mp hnd).2
    have ha2 : a ∉ l1 ++ c :: l2 := (List.nodup_cons.mp hnd).1
    have hac : a ≠ c := by
      intro hc; exact ha2 (by rw [hc]; exact List.mem_append_right l1 (List.mem_cons_self c l2))
    rw [if_neg (by rw [e]; exact hac)]
    have hih := ih a (heap a).next hl hnd2 ha2
    refine ⟨e, ha, ?_, ?_⟩
    · rw [hprev a, if_neg]
      · exact hap
      · intro hc
        rcases is_dlist_next_mem heap c l2 l1 _ _ hl with h0 | hm
        · exact hc.2 (hn.trans h0)
        · exact ha2 (by rw [hc.1, hn];
                        exact List.mem_append_right l1 (List.mem_cons_of_mem c hm))
    · have hcond : (heap2 a).next = if (heap a).next = c then n else (heap a).next := by
        rw [hnext a]
        rcases is_dlist_prev_of heap c l2 l1 _ _ hl with ⟨e1, e2⟩ | hm
        · subst e1
          have e3 : (heap a).next = c := hl.1
          rw [if_pos ⟨(hq.trans e2).symm, by rw [hq, e2]; exact ha⟩, if_pos e3]
        · have hqa : a ≠ q := by
            intro hc; exact ha2 (by rw [hc, hq]; exact List.mem_append_left _ hm)
          cases l1 with
          | nil => exact absurd hm (List.not_mem_nil _)
          | cons b l1 =>
            have e3 : (heap a).next = b := hl.1
            have hbc : b ≠ c := by
              intro hc
              have := (List.nodup_cons.mp hnd2).1
              exact this (by rw [hc]; exact List.mem_append_right l1 (List.mem_cons_self c l2))
            rw [if_neg (fun h => hqa h.1), if_neg (by rw [e3]; exact hbc)]
      rw [hcond]
      exact hih

/-! ## C29: taking the chunk at the cursor off the source freelist -/

theorem freelist_unlink_dlist (s : State) (sc c : Nat) (l1 l2 : List Nat)
    (hl : is_dlist s.heap 0 (s.slabclass sc).slots (l1 ++ c :: l2)) :
    is_dlist (freelist_unlink s sc c).heap 0 ((freelist_unlink s sc c).slabclass sc).slots
      (l1 ++ l2) := by
  have hfl := is_dlist_freelist s.heap _ _ _ hl
  have hnd := is_freelist_nodup s.heap _ _ hfl
  have h0 : (0 : Nat) ∉ l1 ++ c :: l2 := fun h => is_freelist_nonzero s.heap _ _ hfl 0 h rfl
  have h := is_dlist_unlink s.heap (freelist_unlink s sc c).heap c (s.heap c).next
    (s.heap c).prev (fun a => by rw [freelist_unlink_heap]) (fun a => by rw [freelist_unlink_heap])
    rfl rfl l2 l1 0 _ hl hnd h0
  rw [freelist_unlink_class, upd_same]
  exact h

theorem move_chunk_from_slab_eq (s : State) (e : MoveEnv)
    (hst : (move_chunk s e).status = move_status.MOVE_FROM_SLAB) :
    (move_chunk s e).state.heap =
      (move_mark_cleared (freelist_unlink s s.slab_rebal.s_clsid.toNat s.slab_rebal.slab_pos)
        s.slab_rebal.slab_pos).heap ∧
    (move_chunk s e).state.slabclass =
      (freelist_unlink s s.slab_rebal.s_clsid.toNat s.slab_rebal.slab_pos).slabclass ∧
    (s.heap s.slab_rebal.slab_pos).it_flags ≠ ITEM_SLABBED ||| ITEM_FETCHED ∧
    (s.heap s.slab_rebal.slab_pos).it_flags &&& ITEM_SLABBED ≠ 0 := by
  obtain ⟨e1, _, e3, e4, _⟩ := move_chunk_eq s e
  rw [e1] at hst
  rw [e3, e4]
  rcases move_classify_cases s e with ⟨_, c⟩ | ⟨h1, h2, c⟩ | ⟨_, _, c⟩ | ⟨_, _, _, c⟩ |
    ⟨_, _, _, _, c⟩ | ⟨_, _, _, _, c⟩ <;> rw [c] at hst ⊢
  · exact move_status.noConfusion hst
  · exact ⟨rfl, rfl, h1, h2⟩
  · exact move_status.noConfusion hst
  · exact move_status.noConfusion hst
  · exact move_status.noConfusion hst
  · exact move_status.noConfusion hst

/-- C29: when the source freelist is a well-formed doubly-linked list `l1 ++ c :: l2` that
holds the chunk `c` at the cursor (at the head when `l1` is empty, at the tail when `l2` is
empty, in the middle otherwise) and `sl_curr` is its length, the FROM_SLAB iteration of
`slab_rebalance_move` leaves the freelist of the source equal to `l1 ++ l2`, again a
well-formed doubly-linked list: the head becomes the chunk after `c` when `c` was the head
and stays otherwise, `sl_curr` decreases by exactly one and is the new length, the flags,
`refcount` and class id of the remaining chunks are untouched, as are the freelist heads
and counts of the other classes. -/
theorem move_chunk_from_slab_unlinks (s : State) (e : MoveEnv) (l1 l2 : List Nat)
    (hst : (move_chunk s e).status = move_status.MOVE_FROM_SLAB)
    (hl : is_dlist s.heap 0 (s.slabclass s.slab_rebal.s_clsid.toNat).slots
      (l1 ++ s.slab_rebal.slab_pos :: l2))
    (hcount : (s.slabclass s.slab_rebal.s_clsid.toNat).sl_curr =
      (l1 ++ s.slab_rebal.slab_pos :: l2).length) :
    is_dlist (move_chunk s e).state.heap 0
      ((move_chunk s e).state.slabclass s.slab_rebal.s_clsid.toNat).slots (l1 ++ l2) ∧
    (l1 = [] → ((move_chunk s e).state.slabclass s.slab_rebal.s_clsid.toNat).slots =
      (s.heap s.slab_rebal.slab_pos).next) ∧
    (l1 ≠ [] → ((move_chunk s e).state.slabclass s.slab_rebal.s_clsid.toNat).slots =
      (s.slabclass s.slab_rebal.s_clsid.toNat).slots) ∧
    ((move_chunk s e).state.slabclass s.slab_rebal.s_clsid.toNat).sl_curr + 1 =
      (s.slabclass s.slab_rebal.s_clsid.toNat).sl_curr ∧
    ((move_chunk s e).state.slabclass s.slab_rebal.s_clsid.toNat).sl_curr =
      (l1 ++ l2).length ∧
    (∀ a ∈ l1 ++ l2,
      ((move_chunk s e).state.heap a).it_flags = (s.heap a).it_flags ∧
      ((move_chunk s e).state.heap a).refcount = (s.heap a).refcount ∧
      ((move_chunk s e).state.heap a).slabs_clsid = (s.heap a).slabs_clsid) ∧
    (∀ j, j ≠ s.slab_rebal.s_clsid.toNat →
      (move_chunk s e).state.slabclass j = s.slabclass j) := by
  obtain ⟨eh, ec, _, _⟩ := move_chunk_from_slab_eq s e hst
  have hfl := is_dlist_freelist s.heap _ _ _ hl
  have hnd := is_freelist_nodup s.heap _ _ hfl
  have hc : ∀ a ∈ l1 ++ l2, a ≠ s.slab_rebal.slab_pos := by
    intro a ha hac
    rw [hac] at ha
    have h1 := List.nodup_middle.mp hnd
    exact (List.nodup_cons.mp h1).1 ha
  have hlen : (l1 ++ s.slab_rebal.slab_pos :: l2).length = (l1 ++ l2).length + 1 := by
    simp only [List.length_append, List.length_cons]; omega
  have hmark : ∀ a, a ≠ s.slab_rebal.slab_pos → (move_chunk s e).state.heap a =
      (freelist_unlink s s.slab_rebal.s_clsid.toNat s.slab_rebal.slab_pos).heap a := by
    intro a ha
    rw [eh]
    unfold move_mark_cleared
    rw [setHeap_heap, upd_other _ _ _ _ ha]
  rw [ec]
  refine ⟨?_, ?_, ?_, ?_, ?_, ?_, ?_⟩
  · refine is_dlist_congr_on _ _ _ (fun a ha => ?_)
      (freelist_unlink_dlist s _ _ l1 l2 hl)
    rw [hmark a (hc a ha)]
    exact ⟨rfl, rfl⟩
  · intro e1
    subst e1
    rw [freelist_unlink_class, upd_same]
    exact if_pos hl.1
  · intro e1
    rw [freelist_unlink_class, upd_same]
    cases l1 with
    | nil => exact absurd rfl e1
    | cons b l1 =>
      have hb : b ≠ s.slab_rebal.slab_pos :=
        hc b (List.mem_cons_self b _)
      have e2 : (s.slabclass s.slab_rebal.s_clsid.toNat).slots = b := hl.1
      exact if_neg (by rw [e2]; exact hb)
  · rw [freelist_unlink_class, upd_same]
    dsimp only
    rw [if_neg (by rw [hcount, hlen]; omega)]
    rw [hcount, hlen]; omega
  · rw [freelist_unlink_class, upd_same]
    dsimp only
    rw [if_neg (by rw [hcount, hlen]; omega)]
    rw [hcount, hlen]; omega
  · intro a ha
    rw [hmark a (hc a ha), freelist_unlink_heap]
    exact ⟨rfl, rfl, rfl⟩
  · intro j hj
    rw [freelist_unlink_class, upd_other _ _ _ _ hj]

set_option maxRecDepth 100000 in
/-- In `state_rebalancing` the cursor is on the chunk 4096, the tail of the freelist of
class 1, which holds the twenty chunks of the pages 8192 and 4096: the FROM_SLAB iteration
leaves the other nineteen chunks as a well-formed doubly-linked list, with the same head. -/
theorem move_chunk_from_slab_unlinks_witness :
    is_dlist (move_chunk state_rebalancing env_idle).state.heap 0
      ((move_chunk state_rebalancing env_idle).state.slabclass 1).slots
      (page_chunks 8192 96 10 ++ [4960, 4864, 4768, 4672, 4576, 4480, 4384, 4288, 4192]) ∧
    ((move_chunk state_rebalancing env_idle).state.slabclass 1).slots = 9056 ∧
    ((move_chunk state_rebalancing env_idle).state.slabclass 1).sl_curr = 19 :=
  have h := move_chunk_from_slab_unlinks state_rebalancing env_idle
    (page_chunks 8192 96 10 ++ [4960, 4864, 4768, 4672, 4576, 4480, 4384, 4288, 4192]) []
    (by decide) (by decide) (by decide)
  ⟨by rw [← List.append_nil (page_chunks 8192 96 10 ++ _)]; exact h.1,
   (h.2.2.1 (by decide)).trans (by decide), h.2.2.2.2.1.trans (by decide)⟩

/-! ## C28: slab_rebalance_alloc -/

/-- What `freelist_pop` leaves in the item headers: the `prev` of the second chunk is
cleared, and the head gets `refcount = 1` and loses the SLABBED flag. -/
theorem freelist_pop_heap (s : State) (size id : Nat) :
    (freelist_pop s size id).2.heap =
      (fun a => { s.heap a with
        prev := if a = (s.heap (s.slabclass id).slots).next ∧
            (s.heap (s.slabclass id).slots).next ≠ 0 then 0 else (s.heap a).prev
        it_flags := if a = (s.slabclass id).slots then
            (s.heap a).it_flags &&& (255 - ITEM_SLABBED) else (s.heap a).it_flags
        refcount := if a = (s.slabclass id).slots then 1 else (s.heap a).refcount }) := by
  unfold freelist_pop
  simp only [setClass_heap, setHeap_heap]
  rw [unlink_write_prev]
  funext a
  by_cases ha : a = (s.slabclass id).slots
  · rw [ha, upd_same, if_pos rfl, if_pos rfl]
  · rw [upd_other _ _ _ _ ha, if_neg ha, if_neg ha]

theorem freelist_pop_dlist (s : State) (size id x : Nat) (l : List Nat)
    (hl : is_dlist s.heap 0 (s.slabclass id).slots (x :: l)) :
    (freelist_pop s size id).1 = x ∧
    is_dlist (freelist_pop s size id).2.heap 0 ((freelist_pop s size id).2.slabclass id).slots l ∧
    ((freelist_pop s size id).2.slabclass id).sl_curr = (s.slabclass id).sl_curr - 1 ∧
    ((freelist_pop s size id).2.slabclass id).requested =
      ((s.slabclass id).requested + size) % SIZE_MAX1 := by
  have hx : (s.slabclass id).slots = x := hl.1
  have hfl := is_dlist_freelist s.heap _ _ _ hl
  have hnd := is_freelist_nodup s.heap _ _ hfl
  have h0 : (0 : Nat) ∉ [] ++ x :: l := fun h => is_freelist_nonzero s.heap _ _ hfl 0 h rfl
  have h := is_dlist_unlink s.heap (freelist_pop s size id).2.heap x (s.heap x).next 0
    (fun a => by rw [freelist_pop_heap, if_neg (fun h => h.2 rfl)])
    (fun a => by rw [freelist_pop_heap, hx])
    rfl hl.2.2.1.symm l [] 0 _ hl hnd h0
  rw [if_pos hx] at h
  rw [freelist_pop_class]
  dsimp only
  rw [hx, if_pos hl.2.1]
  exact ⟨hx, h, rfl, rfl⟩

theorem rebalance_alloc_skip_heap (s : State) (size x : Nat) :
    (rebalance_alloc_skip s size x).heap =
      upd s.heap x { s.heap x with refcount := 0, it_flags := ITEM_SLABBED ||| ITEM_FETCHED } :=
  rfl

theorem rebalance_alloc_skip_reclaim (s : State) (size x : Nat) :
    (rebalance_alloc_skip s size x).slab_rebal.inline_reclaim =
      s.slab_rebal.inline_reclaim + 1 := rfl

theorem rebalance_alloc_skip_class (s : State) (size x j : Nat) :
    ((rebalance_alloc_skip s size x).slabclass j).slots = (s.slabclass j).slots ∧
    ((rebalance_alloc_skip s size x).slabclass j).sl_curr = (s.slabclass j).sl_curr ∧
    ((rebalance_alloc_skip s size x).slabclass j).requested =
      (if j = s.slab_rebal.s_clsid.toNat then
        ((s.slabclass j).requested + (SIZE_MAX1 - size % SIZE_MAX1)) % SIZE_MAX1
      else (s.slabclass j).requested) := by
  have e : (rebalance_alloc_skip s size x).slabclass =
      (requested_sub s s.slab_rebal.s_clsid.toNat size).slabclass := rfl
  rw [e]
  unfold requested_sub
  rw [setClass_slabclass]
  by_cases hj : j = s.slab_rebal.s_clsid.toNat
  · rw [hj, upd_same, if_pos rfl]
    exact ⟨rfl, rfl, rfl⟩
  · rw [upd_other _ _ _ _ hj, if_neg hj]
    exact ⟨rfl, rfl, rfl⟩

theorem slab_rebalance_alloc_loop_empty (size id n : Nat) (s : State)
    (h : id < POWER_SMALLEST ∨ id > s.power_largest ∨ (s.slabclass id).sl_curr = 0) :
    slab_rebalance_alloc_loop size id (n + 1) s = (0, s) := by
  have e : do_slabs_alloc s size id SLABS_ALLOC_NO_NEWPAGE host_unused = (0, s) := by
    rw [do_slabs_alloc_no_newpage_eq]
    by_cases hv : id < POWER_SMALLEST ∨ id > s.power_largest
    · rw [if_pos hv]
    · rw [if_neg hv, if_neg]
      rcases h with h | h | h
      · exact absurd (Or.inl h) hv
      · exact absurd (Or.inr h) hv
      · exact not_not.mpr h
  unfold slab_rebalance_alloc_loop
  dsimp only
  rw [e, if_pos rfl]

theorem slab_rebalance_alloc_loop_pop (size id n : Nat) (s : State)
    (h1 : ¬ (id < POWER_SMALLEST ∨ id > s.power_largest))
    (h2 : (s.slabclass id).sl_curr ≠ 0) (h3 : (s.slabclass id).slots ≠ 0) :
    slab_rebalance_alloc_loop size id (n + 1) s =
      if (s.slabclass id).slots ≥ s.slab_rebal.slab_start ∧
          (s.slabclass id).slots < s.slab_rebal.slab_end then
        slab_rebalance_alloc_loop size id n
          (rebalance_alloc_skip (freelist_pop s size id).2 size (s.slabclass id).slots)
      else ((s.slabclass id).slots, (freelist_pop s size id).2) := by
  have e : do_slabs_alloc s size id SLABS_ALLOC_NO_NEWPAGE host_unused =
      freelist_pop s size id := by
    rw [do_slabs_alloc_no_newpage_eq, if_neg h1, if_pos h2]
  have e1 : (freelist_pop s size id).1 = (s.slabclass id).slots := rfl
  have hf := freelist_pop_scanFrame s size id
  conv => lhs; unfold slab_rebalance_alloc_loop
  dsimp only
  rw [e, e1, if_neg h3, hf.slab_start, hf.slab_end]

/-- The item headers after a chunk `x`, the head of the freelist of class `id`, was pulled
and skipped by `slab_rebalance_alloc`. -/
theorem pop_skip_heap (s : State) (size id x : Nat) (hx : (s.slabclass id).slots = x) :
    (rebalance_alloc_skip (freelist_pop s size id).2 size x).heap =
      (fun a => { s.heap a with
        prev := if a = (s.heap x).next ∧ (s.heap x).next ≠ 0 then 0 else (s.heap a).prev
        it_flags := if a = x then ITEM_SLABBED ||| ITEM_FETCHED else (s.heap a).it_flags
        refcount := if a = x then 0 else (s.heap a).refcount }) := by
  rw [rebalance_alloc_skip_heap, freelist_pop_heap, hx]
  funext a
  by_cases ha : a = x
  · rw [ha, upd_same, if_pos rfl, if_pos rfl]
  · rw [upd_other _ _ _ _ ha, if_neg ha, if_neg ha]
    dsimp only
    rw [if_neg ha, if_neg ha]

theorem allocSkips_step (s t : State) (size id x r : Nat) (L V Lf : List Nat)
    (hl : is_dlist s.heap 0 (s.slabclass id).slots (x :: L))
    (hin : s.slab_rebal.slab_start ≤ x ∧ x < s.slab_rebal.slab_end)
    (h : AllocSkips (rebalance_alloc_skip (freelist_pop s size id).2 size x) t id r L V Lf) :
    AllocSkips s t id r (x :: L) (x :: V) Lf := by
  have hx : (s.slabclass id).slots = x := hl.1
  have hheap := pop_skip_heap s size id x hx
  have hfr := (freelist_pop_scanFrame s size id).next
    (rebalance_alloc_skip_scanFrame (freelist_pop s size id).2 size x)
  have hnd := is_freelist_nodup s.heap _ _ (is_dlist_freelist s.heap _ _ _ hl)
  have hxL : x ∉ L := (List.nodup_cons.mp hnd).1
  have hVL : ∀ a, a ∈ V → a ∈ L := by
    intro a ha; rw [h.split]; exact List.mem_append_left _ ha
  have hxV : x ∉ V := fun hc => hxL (hVL x hc)
  have hrL : r ≠ 0 → r ∈ L := by
    intro hr; rw [h.split, if_pos hr]
    exact List.mem_append_right _ (List.mem_cons_self r Lf)
  have hxr : x ≠ r := by
    intro hc
    have hr0 : r ≠ 0 := by rw [← hc]; exact hl.2.1
    exact hxL (by rw [hc]; exact hrL hr0)
  have hn := is_dlist_next_mem s.heap x L [] 0 _ hl
  refine ⟨?_, ?_, ?_, h.list, h.count, ?_, ?_, ?_, ?_, ?_, ?_, ?_⟩
  · rw [List.cons_append, ← h.split]
  · intro v hv
    rcases List.mem_cons.mp hv with e | hm
    · rw [e]; exact hin
    · have := h.inpage v hm
      rw [hfr.slab_start, hfr.slab_end] at this
      exact this
  · intro hr
    have := h.outside hr
    rw [hfr.slab_start, hfr.slab_end] at this
    exact this
  · intro v hv
    rcases List.mem_cons.mp hv with e | hm
    · rw [e]
      have := h.kept x hxV hxr
      rw [this.1, this.2, hheap]
      dsimp only
      rw [if_pos rfl, if_pos rfl]
      exact ⟨rfl, rfl⟩
    · exact h.cleared v hm
  · intro hr
    have := h.returned hr
    rw [this.1, this.2, hheap]
    dsimp only
    rw [if_neg (Ne.symm hxr)]
    exact ⟨rfl, rfl⟩
  · intro a haV har
    have hax : a ≠ x := fun hc => haV (by rw [hc]; exact List.mem_cons_self x V)
    have := h.kept a (fun hc => haV (List.mem_cons_of_mem x hc)) har
    rw [this.1, this.2, hheap]
    dsimp only
    rw [if_neg hax, if_neg hax]
    exact ⟨rfl, rfl⟩
  · intro a
    rw [h.clsid a, hheap]
  · intro a haL
    have hax : a ≠ x := fun hc => haL (by rw [hc]; exact List.mem_cons_self x L)
    have haL2 : a ∉ L := fun hc => haL (List.mem_cons_of_mem x hc)
    rw [h.untouched a haL2, hheap]
    dsimp only
    rw [if_neg hax, if_neg hax, if_neg]
    intro hc
    rcases hn with h0 | hm
    · exact hc.2 h0
    · exact haL2 (by rw [hc.1]; exact hm)
  · intro j hj
    have h1 := h.others j hj
    have h2 := rebalance_alloc_skip_class (freelist_pop s size id).2 size x j
    rw [h1.1, h1.2, h2.1, h2.2.1, freelist_pop_class_other s size id j hj]
    exact ⟨rfl, rfl⟩
  · rw [h.reclaim, rebalance_alloc_skip_reclaim,
      show (freelist_pop s size id).2.slab_rebal.inline_reclaim = s.slab_rebal.inline_reclaim
        from rfl, List.length_cons]
    omega

theorem allocSkips_none (s : State) (id : Nat) (L : List Nat)
    (hl : is_dlist s.heap 0 (s.slabclass id).slots L)
    (hc : (s.slabclass id).sl_curr = L.length) : AllocSkips s s id 0 L [] L :=
  ⟨by rw [if_neg (fun h => h rfl)]; rfl, fun v hv => absurd hv (List.not_mem_nil v),
   fun h => absurd rfl h, hl, hc, fun v hv => absurd hv (List.not_mem_nil v),
   fun h => absurd rfl h, fun _ _ _ => ⟨rfl, rfl⟩, fun _ => rfl, fun _ _ => rfl,
   fun _ _ => ⟨rfl, rfl⟩, rfl⟩

theorem allocSkips_pop (s : State) (size id x : Nat) (L : List Nat)
    (hl : is_dlist s.heap 0 (s.slabclass id).slots (x :: L))
    (hc : (s.slabclass id).sl_curr = (x :: L).length)
    (hout : ¬ (s.slab_rebal.slab_start ≤ x ∧ x < s.slab_rebal.slab_end)) :
    AllocSkips s (freelist_pop s size id).2 id x (x :: L) [] L := by
  have hx : (s.slabclass id).slots = x := hl.1
  have hx0 : x ≠ 0 := hl.2.1
  have hp := freelist_pop_dlist s size id x L hl
  have hn := is_dlist_next_mem s.heap x L [] 0 _ hl
  refine ⟨by rw [if_pos hx0]; rfl, fun v hv => absurd hv (List.not_mem_nil v), fun _ => hout,
    hp.2.1, ?_, fun v hv => absurd hv (List.not_mem_nil v), ?_, ?_, ?_, ?_, ?_, rfl⟩
  · rw [hp.2.2.1, hc, List.length_cons]; omega
  · intro _
    rw [freelist_pop_heap, hx]
    dsimp only
    rw [if_pos rfl, if_pos rfl]
    exact ⟨rfl, rfl⟩
  · intro a _ hax
    rw [freelist_pop_heap, hx]
    dsimp only
    rw [if_neg hax, if_neg hax]
    exact ⟨rfl, rfl⟩
  · intro a
    rw [freelist_pop_heap]
  · intro a haL
    have hax : a ≠ x := fun hc => haL (by rw [hc]; exact List.mem_cons_self x L)
    have haL2 : a ∉ L := fun hc => haL (List.mem_cons_of_mem x hc)
    rw [freelist_pop_heap, hx]
    dsimp only
    rw [if_neg hax, if_neg hax, if_neg]
    intro hc
    rcases hn with h0 | hm
    · exact hc.2 h0
    · exact haL2 (by rw [hc.1]; exact hm)
  · intro j hj
    rw [freelist_pop_class_other s size id j hj]
    exact ⟨rfl, rfl⟩

/-- The loop of `slab_rebalance_alloc` on a valid class with a well-formed freelist `L`:
it pulls and skips a prefix `V` of `L` that lies inside the page being cleared, and either
returns the next chunk, which lies outside the page, or returns `NULL` because the freelist
is exhausted or the iterations are used up. -/
theorem slab_rebalance_alloc_loop_skips (size id : Nat) :
    ∀ n s L, 1 ≤ id → id ≤ s.power_largest →
      is_dlist s.heap 0 (s.slabclass id).slots L → (s.slabclass id).sl_curr = L.length →
      ∃ V Lf,
        AllocSkips s (slab_rebalance_alloc_loop size id n s).2 id
          (slab_rebalance_alloc_loop size id n s).1 L V Lf ∧
        V.length ≤ n ∧
        ((slab_rebalance_alloc_loop size id n s).1 = 0 → Lf = [] ∨ V.length = n) := by
  intro n
  induction n with
  | zero =>
    intro s L _ _ hl hc
    exact ⟨[], L, allocSkips_none s id L hl hc, le_refl _, fun _ => Or.inr rfl⟩
  | succ n ih =>
    intro s L h1 h2 hl hc
    cases L with
    | nil =>
      rw [slab_rebalance_alloc_loop_empty size id n s (Or.inr (Or.inr hc))]
      exact ⟨[], [], allocSkips_none s id [] hl hc, Nat.zero_le _, fun _ => Or.inl rfl⟩
    | cons x L =>
      have hx : (s.slabclass id).slots = x := hl.1
      have hv : ¬ (id < POWER_SMALLEST ∨ id > s.power_largest) := by
        simp only [POWER_SMALLEST]; omega
      rw [slab_rebalance_alloc_loop_pop size id n s hv
        (by rw [hc, List.length_cons]; omega) (by rw [hx]; exact hl.2.1), hx]
      by_cases hin : x ≥ s.slab_rebal.slab_start ∧ x < s.slab_rebal.slab_end
      · rw [if_pos hin]
        have hp := freelist_pop_dlist s size id x L hl
        have hfr := (freelist_pop_scanFrame s size id).next
          (rebalance_alloc_skip_scanFrame (freelist_pop s size id).2 size x)
        have hk := rebalance_alloc_skip_class (freelist_pop s size id).2 size x id
        have hl2 : is_dlist (rebalance_alloc_skip (freelist_pop s size id).2 size x).heap 0
            ((rebalance_alloc_skip (freelist_pop s size id).2 size x).slabclass id).slots L := by
          rw [hk.1]
          refine is_dlist_congr_on L _ _ (fun a ha => ?_) hp.2.1
          have hnd := is_freelist_nodup s.heap _ _ (is_dlist_freelist s.heap _ _ _ hl)
          have hax : a ≠ x := fun hc => (List.nodup_cons.mp hnd).1 (by rw [← hc]; exact ha)
          rw [rebalance_alloc_skip_heap, upd_other _ _ _ _ hax]
          exact ⟨rfl, rfl⟩
        have hc2 : ((rebalance_alloc_skip (freelist_pop s size id).2 size x).slabclass id).sl_curr
            = L.length := by
          rw [hk.2.1, hp.2.2.1, hc, List.length_cons]; omega
        obtain ⟨V, Lf, hs, hle, hz⟩ := ih _ L h1 (by rw [hfr.power_largest]; exact h2) hl2 hc2
        refine ⟨x :: V, Lf, allocSkips_step s _ size id x _ L V Lf hl hin hs, ?_, ?_⟩
        · rw [List.length_cons]; omega
        · intro h0
          rcases hz h0 with e | e
          · exact Or.inl e
          · exact Or.inr (by rw [List.length_cons, e])
      · rw [if_neg hin]
        exact ⟨[], L, allocSkips_pop s size id x L hl hc hin, Nat.zero_le _,
          fun h0 => absurd h0 hl.2.1⟩

theorem slab_rebalance_alloc_loop_requested (size id : Nat) :
    ∀ n s L, 1 ≤ id → id ≤ s.power_largest →
      is_dlist s.heap 0 (s.slabclass id).slots L → (s.slabclass id).sl_curr = L.length →
      id = s.slab_rebal.s_clsid.toNat → (s.slabclass id).requested < SIZE_MAX1 →
      ((slab_rebalance_alloc_loop size id n s).2.slabclass id).requested =
        if (slab_rebalance_alloc_loop size id n s).1 ≠ 0 then
          ((s.slabclass id).requested + size) % SIZE_MAX1
        else (s.slabclass id).requested := by
  intro n
  induction n with
  | zero =>
    intro s L _ _ _ _ _ _
    exact (if_neg (fun h => h rfl)).symm
  | succ n ih =>
    intro s L h1 h2 hl hc hid hr
    cases L with
    | nil =>
      rw [slab_rebalance_alloc_loop_empty size id n s (Or.inr (Or.inr hc))]
      exact (if_neg (fun h => h rfl)).symm
    | cons x L =>
      have hx : (s.slabclass id).slots = x := hl.1
      have hv : ¬ (id < POWER_SMALLEST ∨ id > s.power_largest) := by
        simp only [POWER_SMALLEST]; omega
      have hp := freelist_pop_dlist s size id x L hl
      rw [slab_rebalance_alloc_loop_pop size id n s hv
        (by rw [hc, List.length_cons]; omega) (by rw [hx]; exact hl.2.1), hx]
      by_cases hin : x ≥ s.slab_rebal.slab_start ∧ x < s.slab_rebal.slab_end
      · rw [if_pos hin]
        have hfr := (freelist_pop_scanFrame s size id).next
          (rebalance_alloc_skip_scanFrame (freelist_pop s size id).2 size x)
        have hk := rebalance_alloc_skip_class (freelist_pop s size id).2 size x id
        have hl2 : is_dlist (rebalance_alloc_skip (freelist_pop s size id).2 size x).heap 0
            ((rebalance_alloc_skip (freelist_pop s size id).2 size x).slabclass id).slots L := by
          rw [hk.1]
          refine is_dlist_congr_on L _ _ (fun a ha => ?_) hp.2.1
          have hnd := is_freelist_nodup s.heap _ _ (is_dlist_freelist s.heap _ _ _ hl)
          have hax : a ≠ x := fun hc => (List.nodup_cons.mp hnd).1 (by rw [← hc]; exact ha)
          rw [rebalance_alloc_skip_heap, upd_other _ _ _ _ hax]
          exact ⟨rfl, rfl⟩
        have hc2 : ((rebalance_alloc_skip (freelist_pop s size id).2 size x).slabclass id).sl_curr
            = L.length := by
          rw [hk.2.1, hp.2.2.1, hc, List.length_cons]; omega
        have hreq : ((rebalance_alloc_skip (freelist_pop s size id).2 size x).slabclass
            id).requested = (s.slabclass id).requested := by
          rw [hk.2.2, if_pos (by rw [(freelist_pop_scanFrame s size id).s_clsid]; exact hid),
            hp.2.2.2, requested_add_sub _ _ hr]
        have := ih _ L h1 (by rw [hfr.power_largest]; exact h2) hl2 hc2
          (by rw [hfr.s_clsid]; exact hid) (by rw [hreq]; exact hr)
        rw [this, hreq]
      · rw [if_neg hin]
        dsimp only
        rw [if_pos hl.2.1, hp.2.2.2]

theorem slab_rebalance_alloc_loop_outside (size id : Nat) :
    ∀ n s, (slab_rebalance_alloc_loop size id n s).1 ≠ 0 →
      ¬ (s.slab_rebal.slab_start ≤ (slab_rebalance_alloc_loop size id n s).1 ∧
        (slab_rebalance_alloc_loop size id n s).1 < s.slab_rebal.slab_end) := by
  intro n
  induction n with
  | zero => intro s h; exact absurd rfl h
  | succ n ih =>
    intro s
    have ha := do_slabs_alloc_no_newpage_scanFrame s size id host_unused
    unfold slab_rebalance_alloc_loop
    dsimp only
    split
    · intro h; exact absurd rfl h
    · split
      · intro h
        have := ih _ h
        rw [(rebalance_alloc_skip_scanFrame _ _ _).slab_start,
          (rebalance_alloc_skip_scanFrame _ _ _).slab_end, ha.slab_start, ha.slab_end] at this
        exact this
      · rename_i hout
        intro _
        rw [ha.slab_start, ha.slab_end] at hout
        exact hout

theorem allocSkips_takeWhile (s t : State) (id r : Nat) (L V Lf : List Nat)
    (h : AllocSkips s t id r L V Lf) (hz : r = 0 → Lf = []) :
    L.takeWhile (in_page s) = V ∧
    L.dropWhile (in_page s) = (if r ≠ 0 then r :: Lf else Lf) := by
  have hV : ∀ a ∈ V, in_page s a = true := by
    intro a ha
    unfold in_page
    exact decide_eq_true (h.inpage a ha)
  rw [h.split, List.takeWhile_append_of_pos hV, List.dropWhile_append_of_pos hV]
  by_cases hr : r ≠ 0
  · have hn : ¬ in_page s r = true := by
      unfold in_page
      intro hc
      exact h.outside hr (of_decide_eq_true hc)
    rw [if_pos hr, List.takeWhile_cons_of_neg hn, List.dropWhile_cons_of_neg hn,
      List.append_nil]
    exact ⟨rfl, rfl⟩
  · rw [if_neg hr, hz (not_not.mp hr), List.takeWhile_nil, List.dropWhile_nil, List.append_nil]
    exact ⟨rfl, rfl⟩

theorem allocSkips_count (s t : State) (id r : Nat) (L V Lf : List Nat)
    (h : AllocSkips s t id r L V Lf) : V.length ≤ (L.filter (in_page s)).length := by
  have hV : ∀ a ∈ V, in_page s a = true := by
    intro a ha
    unfold in_page
    exact decide_eq_true (h.inpage a ha)
  rw [h.split, List.filter_append, List.length_append, List.filter_eq_self.mpr hV]
  omega

set_option maxRecDepth 8000 in
/-- C28 (as stated): `requested` is a `size_t`, and the `p->requested += size` of the
`do_slabs_alloc` inside `slab_rebalance_alloc` wraps.  In `state_skip` the source class 1
has `requested = 960`; `slab_rebalance_alloc(2^64 - 1, 1)` skips the chunk 4960, returns
the chunk 8192 and leaves `requested = 959`, which is not `960 + (2^64 - 1)`. -/
theorem slab_rebalance_alloc_requested_counterexample :
    state_skip.slab_rebal.s_clsid = 1 ∧
    (state_skip.slabclass 1).requested = 960 ∧
    (slab_rebalance_alloc state_skip 18446744073709551615 1).1 = 8192 ∧
    ((slab_rebalance_alloc state_skip 18446744073709551615 1).2.slabclass 1).requested
      = 959 ∧
    ((slab_rebalance_alloc state_skip 18446744073709551615 1).2.slabclass 1).requested ≠
      (state_skip.slabclass 1).requested + 18446744073709551615 := by
  decide

/-- C28 (amended): `slab_rebalance_alloc` never returns a chunk inside the page being cleared,
`[slab_start, slab_end)`, and leaves the page list of every class as it is.  When it is
called for the source class, a valid class whose freelist `L` is a well-formed doubly-linked
list of `sl_curr` chunks of which fewer than `perslab` lie in that page, it skips the
chunks of `L` up to the first one outside the page and returns that chunk, and it returns
`NULL` exactly when every chunk of `L` lies in the page; the freelist left is what follows
the returned chunk; every skipped chunk ends with flags exactly `SLABBED|FETCHED`,
`refcount = 0` and off the freelist; `inline_reclaim` grows by the number of skipped
chunks; `requested` of the source becomes `(requested + size) mod 2^64`, the sum in `size_t`
arithmetic, when a chunk is returned and is unchanged otherwise.  Without the bound on the
number of page chunks the call still skips a prefix `V` of `L` that lies in the page: every
chunk of `V` ends cleared and off the freelist `Lf` that is left, `inline_reclaim` grows by
the length of `V`, and `requested` is as before.  When `requested + size < 2^64` the counter
ends increased by exactly `size` if a chunk is returned. -/
theorem slab_rebalance_alloc_skips_page (s : State) (size : Nat) (L : List Nat) :
    (∀ id,
      ((slab_rebalance_alloc s size id).1 ≠ 0 →
        ¬ (s.slab_rebal.slab_start ≤ (slab_rebalance_alloc s size id).1 ∧
          (slab_rebalance_alloc s size id).1 < s.slab_rebal.slab_end)) ∧
      (∀ j, ((slab_rebalance_alloc s size id).2.slabclass j).slabs = (s.slabclass j).slabs ∧
        ((slab_rebalance_alloc s size id).2.slabclass j).slab_list =
          (s.slabclass j).slab_list)) ∧
    (1 ≤ s.slab_rebal.s_clsid.toNat → s.slab_rebal.s_clsid.toNat ≤ s.power_largest →
      is_dlist s.heap 0 (s.slabclass s.slab_rebal.s_clsid.toNat).slots L →
      (s.slabclass s.slab_rebal.s_clsid.toNat).sl_curr = L.length →
      (s.slabclass s.slab_rebal.s_clsid.toNat).requested < SIZE_MAX1 →
      (L.filter (in_page s)).length < (s.slabclass s.slab_rebal.s_clsid.toNat).perslab →
      (slab_rebalance_alloc s size s.slab_rebal.s_clsid.toNat).1 =
        (L.dropWhile (in_page s)).headD 0 ∧
      ((slab_rebalance_alloc s size s.slab_rebal.s_clsid.toNat).1 = 0 ↔
        ∀ a ∈ L, in_page s a = true) ∧
      is_dlist (slab_rebalance_alloc s size s.slab_rebal.s_clsid.toNat).2.heap 0
        ((slab_rebalance_alloc s size s.slab_rebal.s_clsid.toNat).2.slabclass
          s.slab_rebal.s_clsid.toNat).slots (L.dropWhile (in_page s)).tail ∧
      ((slab_rebalance_alloc s size s.slab_rebal.s_clsid.toNat).2.slabclass
          s.slab_rebal.s_clsid.toNat).sl_curr = (L.dropWhile (in_page s)).tail.length ∧
      (∀ v ∈ L.takeWhile (in_page s),
        ((slab_rebalance_alloc s size s.slab_rebal.s_clsid.toNat).2.heap v).it_flags =
          ITEM_SLABBED ||| ITEM_FETCHED ∧
        ((slab_rebalance_alloc s size s.slab_rebal.s_clsid.toNat).2.heap v).refcount = 0 ∧
        v ∉ (L.dropWhile (in_page s)).tail) ∧
      (slab_rebalance_alloc s size s.slab_rebal.s_clsid.toNat).2.slab_rebal.inline_reclaim =
        s.slab_rebal.inline_reclaim + (L.takeWhile (in_page s)).length ∧
      ((slab_rebalance_alloc s size s.slab_rebal.s_clsid.toNat).2.slabclass
          s.slab_rebal.s_clsid.toNat).requested =
        if (slab_rebalance_alloc s size s.slab_rebal.s_clsid.toNat).1 ≠ 0 then
          ((s.slabclass s.slab_rebal.s_clsid.toNat).requested + size) % SIZE_MAX1
        else (s.slabclass s.slab_rebal.s_clsid.toNat).requested) ∧
    (1 ≤ s.slab_rebal.s_clsid.toNat → s.slab_rebal.s_clsid.toNat ≤ s.power_largest →
      is_dlist s.heap 0 (s.slabclass s.slab_rebal.s_clsid.toNat).slots L →
      (s.slabclass s.slab_rebal.s_clsid.toNat).sl_curr = L.length →
      (s.slabclass s.slab_rebal.s_clsid.toNat).requested < SIZE_MAX1 →
      ∃ V Lf,
        L = V ++ (if (slab_rebalance_alloc s size s.slab_rebal.s_clsid.toNat).1 ≠ 0 then
          (slab_rebalance_alloc s size s.slab_rebal.s_clsid.toNat).1 :: Lf else Lf) ∧
        (∀ v ∈ V, in_page s v = true ∧
          ((slab_rebalance_alloc s size s.slab_rebal.s_clsid.toNat).2.heap v).it_flags =
            ITEM_SLABBED ||| ITEM_FETCHED ∧
          ((slab_rebalance_alloc s size s.slab_rebal.s_clsid.toNat).2.heap v).refcount = 0 ∧
          v ∉ Lf) ∧
        is_dlist (slab_rebalance_alloc s size s.slab_rebal.s_clsid.toNat).2.heap 0
          ((slab_rebalance_alloc s size s.slab_rebal.s_clsid.toNat).2.slabclass
            s.slab_rebal.s_clsid.toNat).slots Lf ∧
        ((slab_rebalance_alloc s size s.slab_rebal.s_clsid.toNat).2.slabclass
            s.slab_rebal.s_clsid.toNat).sl_curr = Lf.length ∧
        (slab_rebalance_alloc s size s.slab_rebal.s_clsid.toNat).2.slab_rebal.inline_reclaim =
          s.slab_rebal.inline_reclaim + V.length ∧
        ((slab_rebalance_alloc s size s.slab_rebal.s_clsid.toNat).2.slabclass
            s.slab_rebal.s_clsid.toNat).requested =
          if (slab_rebalance_alloc s size s.slab_rebal.s_clsid.toNat).1 ≠ 0 then
            ((s.slabclass s.slab_rebal.s_clsid.toNat).requested + size) % SIZE_MAX1
          else (s.slabclass s.slab_rebal.s_clsid.toNat).requested) ∧
    (1 ≤ s.slab_rebal.s_clsid.toNat → s.slab_rebal.s_clsid.toNat ≤ s.power_largest →
      is_dlist s.heap 0 (s.slabclass s.slab_rebal.s_clsid.toNat).slots L →
      (s.slabclass s.slab_rebal.s_clsid.toNat).sl_curr = L.length →
      (s.slabclass s.slab_rebal.s_clsid.toNat).requested + size < SIZE_MAX1 →
      ((slab_rebalance_alloc s size s.slab_rebal.s_clsid.toNat).2.slabclass
          s.slab_rebal.s_clsid.toNat).requested =
        if (slab_rebalance_alloc s size s.slab_rebal.s_clsid.toNat).1 ≠ 0 then
          (s.slabclass s.slab_rebal.s_clsid.toNat).requested + size
        else (s.slabclass s.slab_rebal.s_clsid.toNat).requested) := by
  refine ⟨fun id => ⟨slab_rebalance_alloc_loop_outside size id _ s, fun j => ?_⟩, ?_, ?_, ?_⟩
  · have hf := slab_rebalance_alloc_scanFrame s size id
    exact ⟨hf.slabs j, hf.slab_list j⟩
  · intro h1 h2 hl hc hr hfew
    have hreq := slab_rebalance_alloc_loop_requested size s.slab_rebal.s_clsid.toNat
      (s.slabclass s.slab_rebal.s_clsid.toNat).perslab s L h1 h2 hl hc rfl hr
    obtain ⟨V, Lf, hs, hle, hz⟩ := slab_rebalance_alloc_loop_skips size
      s.slab_rebal.s_clsid.toNat (s.slabclass s.slab_rebal.s_clsid.toNat).perslab s L h1 h2 hl hc
    have hcnt := allocSkips_count s _ _ _ L V Lf hs
    have hz2 : (slab_rebalance_alloc_loop size s.slab_rebal.s_clsid.toNat
        (s.slabclass s.slab_rebal.s_clsid.toNat).perslab s).1 = 0 → Lf = [] := by
      intro h0
      rcases hz h0 with e | e
      · exact e
      · omega
    obtain ⟨et, ed⟩ := allocSkips_takeWhile s _ _ _ L V Lf hs hz2
    have hnd : (L.takeWhile (in_page s) ++ L.dropWhile (in_page s)).Nodup := by
      rw [List.takeWhile_append_dropWhile]
      exact is_freelist_nodup s.heap _ _ (is_dlist_freelist s.heap _ _ _ hl)
    have htail : (L.dropWhile (in_page s)).tail = Lf := by
      rw [ed]
      split
      · rfl
      · rename_i h0
        rw [hz2 (not_not.mp h0)]
        rfl
    unfold slab_rebalance_alloc
    rw [htail, et]
    refine ⟨?_, ?_, hs.list, hs.count, ?_, hs.reclaim, hreq⟩
    · rw [ed]
      split
      · rfl
      · rename_i h0
        rw [hz2 (not_not.mp h0)]
        exact not_not.mp h0
    · constructor
      · intro h0 a ha
        have e1 : L = V := by
          have := hs.split
          rw [if_neg (not_not.mpr h0), hz2 h0, List.append_nil] at this
          exact this
        unfold in_page
        exact decide_eq_true (hs.inpage a (by rw [← e1]; exact ha))
      · intro hall
        by_contra hr0
        have hrL : (slab_rebalance_alloc_loop size s.slab_rebal.s_clsid.toNat
            (s.slabclass s.slab_rebal.s_clsid.toNat).perslab s).1 ∈ L := by
          have e1 := hs.split
          rw [if_pos hr0] at e1
          rw [e1]
          exact List.mem_append_right _ (List.mem_cons_self _ _)
        have := hall _ hrL
        unfold in_page at this
        exact hs.outside hr0 (of_decide_eq_true this)
    · intro v hv
      refine ⟨(hs.cleared v hv).1, (hs.cleared v hv).2, fun hm => ?_⟩
      have hd := (List.nodup_append.mp hnd).2.2
      rw [et] at hd
      exact hd hv (List.mem_of_mem_tail (by rw [htail]; exact hm))
  · intro h1 h2 hl hc hr
    have hreq := slab_rebalance_alloc_loop_requested size s.slab_rebal.s_clsid.toNat
      (s.slabclass s.slab_rebal.s_clsid.toNat).perslab s L h1 h2 hl hc rfl hr
    obtain ⟨V, Lf, hs, _, _⟩ := slab_rebalance_alloc_loop_skips size
      s.slab_rebal.s_clsid.toNat (s.slabclass s.slab_rebal.s_clsid.toNat).perslab s L h1 h2 hl hc
    have hnd : L.Nodup := is_freelist_nodup s.heap _ _ (is_dlist_freelist s.heap _ _ _ hl)
    unfold slab_rebalance_alloc
    refine ⟨V, Lf, hs.split, fun v hv => ⟨?_, (hs.cleared v hv).1, (hs.cleared v hv).2, ?_⟩,
      hs.list, hs.count, hs.reclaim, hreq⟩
    · unfold in_page
      exact decide_eq_true (hs.inpage v hv)
    · intro hm
      rw [hs.split] at hnd
      have hd := (List.nodup_append.mp hnd).2.2
      refine hd hv ?_
      split
      · exact List.mem_cons_of_mem _ hm
      · exact hm
  · intro h1 h2 hl hc hlt
    have hreq := slab_rebalance_alloc_loop_requested size s.slab_rebal.s_clsid.toNat
      (s.slabclass s.slab_rebal.s_clsid.toNat).perslab s L h1 h2 hl hc rfl
      (lt_of_le_of_lt (Nat.le_add_right _ _) hlt)
    unfold slab_rebalance_alloc
    rw [hreq, Nat.mod_eq_of_lt hlt]

set_option maxRecDepth 8000 in
/-- In `state_skip` the freelist of the source class 1 is
`[4960, 8192, 4768, ..., 4096]` and the page 4096 is being cleared:
`slab_rebalance_alloc` skips the chunk 4960, returns the chunk 8192 of the other page and
counts one inline reclaim. -/
theorem slab_rebalance_alloc_skips_page_witness :
    (slab_rebalance_alloc state_skip 96 1).1 = 8192 ∧
    ((slab_rebalance_alloc state_skip 96 1).2.heap 4960).it_flags =
      ITEM_SLABBED ||| ITEM_FETCHED ∧
    (slab_rebalance_alloc state_skip 96 1).2.slab_rebal.inline_reclaim = 1 ∧
    ((slab_rebalance_alloc state_skip 96 1).2.slabclass 1).requested = 1056 :=
  have h := (slab_rebalance_alloc_skips_page state_skip 96
    [4960, 8192, 4768, 4672, 4576, 4480, 4384, 4288, 4192, 4096]).2.1
    (by decide) (by decide) (by decide) (by decide) (by decide) (by decide)
  ⟨h.1.trans rfl, (h.2.2.2.2.1 4960 (by decide)).1,
   h.2.2.2.2.2.1.trans rfl, h.2.2.2.2.2.2.trans rfl⟩

/-! ## The scan of the page: one iteration on a free or cleared chunk -/

theorem chunk_addr_frame (s t : State) (h : ScanFrame s t) (j : Nat) :
    chunk_addr t j = chunk_addr s j := by
  unfold chunk_addr
  rw [h.slab_start, h.s_clsid, h.size]

theorem chunk_addr_lt (s : State) (hsz : 0 < (s.slabclass s.slab_rebal.s_clsid.toNat).size)
    (i j : Nat) (h : i < j) : chunk_addr s i < chunk_addr s j := by
  unfold chunk_addr
  have := Nat.mul_lt_mul_of_pos_right h hsz
  omega

theorem chunk_addr_succ (s : State) (j : Nat) :
    chunk_addr s (j + 1) = chunk_addr s j + (s.slabclass s.slab_rebal.s_clsid.toNat).size := by
  unfold chunk_addr
  rw [Nat.add_mul, Nat.one_mul, Nat.add_assoc]

/-- A PASS iteration: the chunk at the cursor is already cleared, only the cursor moves. -/
theorem move_chunk_pass_effect (s : State) (e : MoveEnv)
    (h12 : (s.heap s.slab_rebal.slab_pos).it_flags = ITEM_SLABBED ||| ITEM_FETCHED) :
    (move_chunk s e).status = move_status.MOVE_PASS ∧
    (move_chunk s e).state =
      { s with
        slab_rebal :=
          { s.slab_rebal with
            slab_pos := s.slab_rebal.slab_pos
              + (s.slabclass s.slab_rebal.s_clsid.toNat).size } } := by
  have c : move_classify s e =
      { status := move_status.MOVE_PASS, hold_lock := false, state := s } := by
    unfold move_classify
    dsimp only
    rw [if_neg (not_not.mpr h12)]
  refine ⟨by rw [(move_chunk_eq s e).1, c], ?_⟩
  unfold move_chunk
  dsimp only
  rw [c]
  rfl

theorem erase_middle (c : Nat) (l1 l2 : List Nat) (h : (l1 ++ c :: l2).Nodup) :
    (l1 ++ c :: l2).erase c = l1 ++ l2 := by
  have hc : c ∉ l1 := by
    intro hm
    have := (List.nodup_append.mp h).2.2 hm (List.mem_cons_self c l2)
    exact this
  rw [List.erase_append_right _ hc, List.erase_cons_head]

/-- A FROM_SLAB iteration on a chunk of the source freelist `L`: the chunk leaves the list,
which stays well formed, and is marked cleared; no other flags or `refcount` change. -/
theorem move_chunk_from_slab_effect (s : State) (e : MoveEnv) (L : List Nat)
    (hL : SrcList s L) (hc : s.slab_rebal.slab_pos ∈ L) :
    (move_chunk s e).status = move_status.MOVE_FROM_SLAB ∧
    SrcList (move_chunk s e).state (L.erase s.slab_rebal.slab_pos) ∧
    (∀ a, ((move_chunk s e).state.heap a).it_flags =
      if a = s.slab_rebal.slab_pos then ITEM_SLABBED ||| ITEM_FETCHED
      else (s.heap a).it_flags) ∧
    (∀ a, ((move_chunk s e).state.heap a).refcount =
      if a = s.slab_rebal.slab_pos then 0 else (s.heap a).refcount) ∧
    (move_chunk s e).state.slab_rebal =
      { s.slab_rebal with
        slab_pos := s.slab_rebal.slab_pos
          + (s.slabclass s.slab_rebal.s_clsid.toNat).size } := by
  have hfl : (s.heap s.slab_rebal.slab_pos).it_flags = ITEM_SLABBED := hL.free _ hc
  have c : move_classify s e =
      { status := move_status.MOVE_FROM_SLAB, hold_lock := false,
        state := freelist_unlink s s.slab_rebal.s_clsid.toNat s.slab_rebal.slab_pos } := by
    unfold move_classify
    dsimp only
    rw [if_pos (by rw [hfl]; decide), if_pos (by rw [hfl]; decide)]
  obtain ⟨e1, _, e3, e4, e5⟩ := move_chunk_eq s e
  rw [c] at e1 e3 e4 e5
  have hheap : ∀ a, (move_chunk s e).state.heap a =
      if a = s.slab_rebal.slab_pos then
        { (freelist_unlink s s.slab_rebal.s_clsid.toNat s.slab_rebal.slab_pos).heap a with
          refcount := 0, it_flags := ITEM_SLABBED ||| ITEM_FETCHED }
      else (freelist_unlink s s.slab_rebal.s_clsid.toNat s.slab_rebal.slab_pos).heap a := by
    intro a
    rw [e3]
    show (move_mark_cleared _ _).heap a = _
    unfold move_mark_cleared
    rw [setHeap_heap]
    by_cases ha : a = s.slab_rebal.slab_pos
    · rw [ha, upd_same, if_pos rfl]
    · rw [upd_other _ _ _ _ ha, if_neg ha]
  have hclass : (move_chunk s e).state.slabclass =
      (freelist_unlink s s.slab_rebal.s_clsid.toNat s.slab_rebal.slab_pos).slabclass := e4
  have hreb : (move_chunk s e).state.slab_rebal =
      { s.slab_rebal with
        slab_pos := s.slab_rebal.slab_pos
          + (s.slabclass s.slab_rebal.s_clsid.toNat).size } := by
    rw [e5]
    show ({ s.slab_rebal with
      slab_pos := s.slab_rebal.slab_pos +
        ((freelist_unlink s s.slab_rebal.s_clsid.toNat s.slab_rebal.slab_pos).slabclass
          s.slab_rebal.s_clsid.toNat).size } : slab_rebalance) = _
    rw [freelist_unlink_class, upd_same]
  obtain ⟨l1, l2, hsplit⟩ := List.append_of_mem hc
  have hnd := is_freelist_nodup s.heap _ _ (is_dlist_freelist s.heap _ _ _ hL.list)
  have hcount := hL.count
  have hlist := hL.list
  rw [hsplit] at hnd hcount hlist
  have hne : ∀ a ∈ l1 ++ l2, a ≠ s.slab_rebal.slab_pos := by
    intro a ha hac
    rw [hac] at ha
    exact (List.nodup_cons.mp (List.nodup_middle.mp hnd)).1 ha
  have herase : L.erase s.slab_rebal.slab_pos = l1 ++ l2 := by
    rw [hsplit]; exact erase_middle _ l1 l2 hnd
  have hsrc : (move_chunk s e).state.slab_rebal.s_clsid = s.slab_rebal.s_clsid := by
    rw [hreb]
  refine ⟨e1, ⟨?_, ?_, ?_⟩, ?_, ?_, hreb⟩
  · rw [hsrc, hclass, herase]
    refine is_dlist_congr_on _ _ _ (fun a ha => ?_)
      (freelist_unlink_dlist s _ _ l1 l2 hlist)
    rw [hheap a, if_neg (hne a ha)]
    exact ⟨rfl, rfl⟩
  · rw [hsrc, hclass, herase, freelist_unlink_class, upd_same]
    dsimp only
    rw [hcount, if_neg (by simp only [List.length_append, List.length_cons]; omega)]
    simp only [List.length_append, List.length_cons]
    omega
  · intro a ha
    rw [herase] at ha
    rw [hheap a, if_neg (hne a ha), freelist_unlink_heap]
    exact hL.free a (by rw [hsplit]
                        rcases List.mem_append.mp ha with h | h
                        · exact List.mem_append_left _ h
                        · exact List.mem_append_right _ (List.mem_cons_of_mem _ h))
  · intro a
    rw [hheap a]
    by_cases ha : a = s.slab_rebal.slab_pos
    · rw [if_pos ha, if_pos ha]
    · rw [if_neg ha, if_neg ha, freelist_unlink_heap]
  · intro a
    rw [hheap a]
    by_cases ha : a = s.slab_rebal.slab_pos
    · rw [if_pos ha, if_pos ha]
    · rw [if_neg ha, if_neg ha, freelist_unlink_heap]

theorem PageGeom.step (s t : State) (k : Nat) (h : PageGeom s k) (hf : ScanFrame s t)
    (hpos : t.slab_rebal.slab_pos =
      s.slab_rebal.slab_pos + (s.slabclass s.slab_rebal.s_clsid.toNat).size) :
    PageGeom t (k + 1) := by
  refine ⟨?_, ?_, ?_⟩
  · rw [hf.s_clsid, hf.size]; exact h.size_pos
  · rw [hpos, chunk_addr_frame s t hf, chunk_addr_succ, h.pos]
  · rw [hf.slab_end, hf.s_clsid, hf.perslab, chunk_addr_frame s t hf]; exact h.stop

/-- A BUSY or LOCKED iteration: `busy_items` is incremented and the cursor moves, nothing
else changes. -/
theorem move_chunk_busy_effect (s : State) (e : MoveEnv) (st : move_status)
    (hst : st = move_status.MOVE_BUSY ∨ st = move_status.MOVE_LOCKED)
    (c : move_classify s e = { status := st, hold_lock := false, state := s }) :
    (move_chunk s e).status = st ∧
    (move_chunk s e).state =
      { s with
        slab_rebal :=
          { s.slab_rebal with
            busy_items := s.slab_rebal.busy_items + 1
            slab_pos := s.slab_rebal.slab_pos
              + (s.slabclass s.slab_rebal.s_clsid.toNat).size } } := by
  refine ⟨by rw [(move_chunk_eq s e).1, c], ?_⟩
  unfold move_chunk
  dsimp only
  rw [c]
  rcases hst with h | h <;> subst h <;> rfl

theorem PassInv.busy (s : State) (L : List Nat) (k : Nat) (h : PassInv s L k) :
    PassInv
      { s with
        slab_rebal :=
          { s.slab_rebal with
            busy_items := s.slab_rebal.busy_items + 1
            slab_pos := s.slab_rebal.slab_pos
              + (s.slabclass s.slab_rebal.s_clsid.toNat).size } } L (k + 1) := by
  refine ⟨⟨h.geom.size_pos, ?_, h.geom.stop⟩, ⟨h.src.list, h.src.count, h.src.free⟩,
    h.onlist, h.clear, fun hb => absurd hb (Nat.succ_ne_zero _)⟩
  show s.slab_rebal.slab_pos + (s.slabclass s.slab_rebal.s_clsid.toNat).size =
    chunk_addr s (k + 1)
  rw [chunk_addr_succ, h.geom.pos]

theorem PassInv.pass (s : State) (L : List Nat) (k : Nat) (h : PassInv s L k)
    (h12 : (s.heap s.slab_rebal.slab_pos).it_flags = ITEM_SLABBED ||| ITEM_FETCHED) :
    PassInv
      { s with
        slab_rebal :=
          { s.slab_rebal with
            slab_pos := s.slab_rebal.slab_pos
              + (s.slabclass s.slab_rebal.s_clsid.toNat).size } } L (k + 1) := by
  refine ⟨⟨h.geom.size_pos, ?_, h.geom.stop⟩, ⟨h.src.list, h.src.count, h.src.free⟩,
    h.onlist, h.clear, fun hb j hj => ?_⟩
  · show s.slab_rebal.slab_pos + (s.slabclass s.slab_rebal.s_clsid.toNat).size =
      chunk_addr s (k + 1)
    rw [chunk_addr_succ, h.geom.pos]
  · show (s.heap (chunk_addr s j)).it_flags = _
    by_cases hjk : j = k
    · rw [hjk, ← h.geom.pos]; exact h12
    · exact h.seen hb j (by omega)

theorem passInv_from_slab (s : State) (e : MoveEnv) (L : List Nat) (k : Nat)
    (h : PassInv s L k) (hk : k < (s.slabclass s.slab_rebal.s_clsid.toNat).perslab)
    (h1 : (s.heap s.slab_rebal.slab_pos).it_flags ≠ ITEM_SLABBED ||| ITEM_FETCHED)
    (h2 : (s.heap s.slab_rebal.slab_pos).it_flags &&& ITEM_SLABBED ≠ 0) :
    (move_chunk s e).status = move_status.MOVE_FROM_SLAB ∧
    PassInv (move_chunk s e).state (L.erase s.slab_rebal.slab_pos) (k + 1) ∧
    (move_chunk s e).state.slab_rebal.busy_items = s.slab_rebal.busy_items := by
  have hf := move_chunk_scanFrame s e
  have hpos := h.geom.pos
  have hc : s.slab_rebal.slab_pos ∈ L := by
    rw [hpos] at h1 h2 ⊢
    exact h.onlist k hk h2 h1
  obtain ⟨e1, hsrc, hflags, hrefs, hreb⟩ := move_chunk_from_slab_effect s e L h.src hc
  refine ⟨e1, ⟨PageGeom.step s _ k h.geom hf (by rw [hreb]), hsrc, ?_, ?_, ?_⟩, by rw [hreb]⟩
  · intro j hj
    rw [hf.s_clsid, hf.perslab] at hj
    rw [chunk_addr_frame s _ hf, hflags]
    by_cases hne : chunk_addr s j = s.slab_rebal.slab_pos
    · rw [if_pos hne]
      intro _ hc2
      exact absurd rfl hc2
    · rw [if_neg hne]
      intro h3 h4
      exact (List.mem_erase_of_ne hne).mpr (h.onlist j hj h3 h4)
  · intro j hj
    rw [hf.s_clsid, hf.perslab] at hj
    rw [chunk_addr_frame s _ hf, hflags, hrefs]
    by_cases hne : chunk_addr s j = s.slab_rebal.slab_pos
    · rw [if_pos hne, if_pos hne]
      intro _; rfl
    · rw [if_neg hne, if_neg hne]
      exact h.clear j hj
  · intro hb j hj
    rw [hreb] at hb
    rw [chunk_addr_frame s _ hf, hflags]
    by_cases hne : chunk_addr s j = s.slab_rebal.slab_pos
    · rw [if_pos hne]
    · rw [if_neg hne]
      have hjk : j ≠ k := fun hc2 => hne (by rw [hc2, hpos])
      exact h.seen hb j (by omega)

theorem slab_rebalance_alloc_loop_busy (size id : Nat) :
    ∀ n s, (slab_rebalance_alloc_loop size id n s).2.slab_rebal.busy_items =
      s.slab_rebal.busy_items := by
  intro n
  induction n with
  | zero => intro s; rfl
  | succ n ih =>
    intro s
    have ha : (do_slabs_alloc s size id SLABS_ALLOC_NO_NEWPAGE host_unused).2.slab_rebal =
        s.slab_rebal := by
      rw [do_slabs_alloc_no_newpage_eq]
      split
      · rfl
      · split <;> rfl
    unfold slab_rebalance_alloc_loop
    dsimp only
    split
    · rw [ha]
    · split
      · rw [ih]
        show (do_slabs_alloc s size id SLABS_ALLOC_NO_NEWPAGE host_unused).2.slab_rebal.busy_items
          = _
        rw [ha]
      · rw [ha]

theorem slab_rebalance_alloc_loop_invalid (size id : Nat) (s : State)
    (h : id < POWER_SMALLEST ∨ id > s.power_largest) :
    ∀ n, slab_rebalance_alloc_loop size id n s = (0, s) := by
  intro n
  cases n with
  | zero => rfl
  | succ n =>
    exact slab_rebalance_alloc_loop_empty size id n s
      (h.elim Or.inl (fun h2 => Or.inr (Or.inl h2)))

/-- The chunk that `case MOVE_FROM_LRU` obtains for the copy of the item: nothing when the
item is expired, otherwise what `slab_rebalance_alloc` finds on the source freelist `L`. -/
theorem lru_alloc_skips (s : State) (e : MoveEnv) (L : List Nat) (hL : SrcList s L) :
    (∃ V Lf, AllocSkips s (lru_alloc s e).2 s.slab_rebal.s_clsid.toNat (lru_alloc s e).1 L V Lf) ∧
    (lru_alloc s e).2.slab_rebal.busy_items = s.slab_rebal.busy_items := by
  unfold lru_alloc
  by_cases hx : e.expired = true
  · rw [if_pos hx]
    exact ⟨⟨[], L, allocSkips_none s _ L hL.list hL.count⟩, rfl⟩
  · rw [if_neg hx]
    unfold slab_rebalance_alloc
    refine ⟨?_, slab_rebalance_alloc_loop_busy _ _ _ s⟩
    by_cases hv : s.slab_rebal.s_clsid.toNat < POWER_SMALLEST ∨
        s.slab_rebal.s_clsid.toNat > s.power_largest
    · rw [slab_rebalance_alloc_loop_invalid _ _ s hv]
      exact ⟨[], L, allocSkips_none s _ L hL.list hL.count⟩
    · have hps : POWER_SMALLEST = 1 := rfl
      obtain ⟨V, Lf, hs, _, _⟩ := slab_rebalance_alloc_loop_skips e.ntotal
        s.slab_rebal.s_clsid.toNat (s.slabclass s.slab_rebal.s_clsid.toNat).perslab s L
        (by omega) (by omega) hL.list hL.count
      exact ⟨V, Lf, hs⟩

theorem land_clear_linked (x : Nat) :
    (x &&& (255 - ITEM_LINKED)) &&& ITEM_SLABBED = x &&& ITEM_SLABBED := by
  rw [Nat.land_assoc]
  have : (255 - ITEM_LINKED) &&& ITEM_SLABBED = ITEM_SLABBED := by decide
  rw [this]

theorem move_from_lru_heap (s : State) (e : MoveEnv) :
    (move_from_lru s e).heap =
      if (lru_alloc s e).1 ≠ 0 then
        e.do_item_replace s.slab_rebal.slab_pos (lru_alloc s e).1
          (upd (lru_alloc s e).2.heap (lru_alloc s e).1
            { (lru_alloc s e).2.heap s.slab_rebal.slab_pos with
              prev := 0, next := 0,
              it_flags := ((lru_alloc s e).2.heap s.slab_rebal.slab_pos).it_flags
                &&& (255 - ITEM_LINKED),
              refcount := 0 })
      else e.do_item_unlink s.slab_rebal.slab_pos (lru_alloc s e).2.heap := by
  unfold move_from_lru lru_rescue lru_drop count_eviction_nomem requested_sub
  dsimp only
  split_ifs <;> rfl

theorem move_from_lru_class (s : State) (e : MoveEnv) (j : Nat) :
    ((move_from_lru s e).slabclass j).slots = ((lru_alloc s e).2.slabclass j).slots ∧
    ((move_from_lru s e).slabclass j).sl_curr = ((lru_alloc s e).2.slabclass j).sl_curr := by
  unfold move_from_lru lru_rescue lru_drop count_eviction_nomem requested_sub
  dsimp only
  by_cases hj : j = s.slab_rebal.s_clsid.toNat
  · subst hj
    split_ifs <;> simp [State.setClass, State.setHeap, upd]
  · split_ifs <;> simp [State.setClass, State.setHeap, upd, hj]

theorem move_from_lru_busy (s : State) (e : MoveEnv) :
    (move_from_lru s e).slab_rebal.busy_items = (lru_alloc s e).2.slab_rebal.busy_items := by
  unfold move_from_lru lru_rescue lru_drop count_eviction_nomem requested_sub
  dsimp only
  split_ifs <;> rfl

/-- The item headers after `case MOVE_FROM_LRU`, where they carry SLABBED, are those that
`slab_rebalance_alloc` left: the copy of the item and what the item subsystem writes never
carry the flag. -/
theorem move_from_lru_slabbed (s : State) (e : MoveEnv) (he : EnvOK e)
    (hAc : ((lru_alloc s e).2.heap s.slab_rebal.slab_pos).it_flags &&& ITEM_SLABBED = 0) :
    (∀ a, ((move_from_lru s e).heap a).it_flags &&& ITEM_SLABBED ≠ 0 →
      (move_from_lru s e).heap a = (lru_alloc s e).2.heap a ∧
      ((lru_alloc s e).1 ≠ 0 → a ≠ (lru_alloc s e).1)) ∧
    (∀ a, ((lru_alloc s e).2.heap a).it_flags &&& ITEM_SLABBED ≠ 0 →
      ((lru_alloc s e).1 ≠ 0 → a ≠ (lru_alloc s e).1) →
      (move_from_lru s e).heap a = (lru_alloc s e).2.heap a) := by
  rw [move_from_lru_heap]
  by_cases hr : (lru_alloc s e).1 ≠ 0
  · rw [if_pos hr]
    constructor
    · intro a ha
      have h1 := he.replace _ _ _ a (Or.inr ha)
      rw [h1] at ha ⊢
      by_cases har : a = (lru_alloc s e).1
      · rw [har, upd_same] at ha
        dsimp only at ha
        rw [land_clear_linked] at ha
        exact absurd hAc ha
      · rw [upd_other _ _ _ _ har]
        exact ⟨rfl, fun _ => har⟩
    · intro a ha har
      have h2 : upd (lru_alloc s e).2.heap (lru_alloc s e).1
          { (lru_alloc s e).2.heap s.slab_rebal.slab_pos with
            prev := 0, next := 0,
            it_flags := ((lru_alloc s e).2.heap s.slab_rebal.slab_pos).it_flags
              &&& (255 - ITEM_LINKED),
            refcount := 0 } a = (lru_alloc s e).2.heap a := upd_other _ _ _ _ (har hr)
      rw [← h2]
      exact he.replace _ _ _ a (Or.inl (by rw [h2]; exact ha))
  · rw [if_neg hr]
    constructor
    · intro a ha
      exact ⟨he.unlink _ _ a (Or.inr ha), fun h => absurd h hr⟩
    · intro a ha _
      exact he.unlink _ _ a (Or.inl ha)

/-- The effect of `case MOVE_FROM_LRU` on the source freelist `L` and on the headers that
carry SLABBED: a well-formed part `Lf` of `L` is left as freelist; a header that carries
SLABBED afterwards is not the item's, and either is a skipped chunk, now cleared, or has
its flags and `refcount` unchanged and stays on the freelist if it was on it; cleared
chunks are untouched; `busy_items` is unchanged. -/
theorem move_from_lru_effect (s : State) (e : MoveEnv) (L : List Nat) (hL : SrcList s L)
    (he : EnvOK e)
    (hc : (s.heap s.slab_rebal.slab_pos).it_flags &&& ITEM_SLABBED = 0) :
    ∃ Lf,
      is_dlist (move_from_lru s e).heap 0
        ((move_from_lru s e).slabclass s.slab_rebal.s_clsid.toNat).slots Lf ∧
      ((move_from_lru s e).slabclass s.slab_rebal.s_clsid.toNat).sl_curr = Lf.length ∧
      (∀ a ∈ Lf, ((move_from_lru s e).heap a).it_flags = ITEM_SLABBED) ∧
      (∀ a, ((move_from_lru s e).heap a).it_flags &&& ITEM_SLABBED ≠ 0 →
        a ≠ s.slab_rebal.slab_pos ∧
        ((((move_from_lru s e).heap a).it_flags = ITEM_SLABBED ||| ITEM_FETCHED ∧
            ((move_from_lru s e).heap a).refcount = 0) ∨
          (((move_from_lru s e).heap a).it_flags = (s.heap a).it_flags ∧
            ((move_from_lru s e).heap a).refcount = (s.heap a).refcount ∧
            (a ∈ L → a ∈ Lf)))) ∧
      (∀ a, (s.heap a).it_flags = ITEM_SLABBED ||| ITEM_FETCHED →
        (move_from_lru s e).heap a = s.heap a) ∧
      (move_from_lru s e).slab_rebal.busy_items = s.slab_rebal.busy_items := by
  obtain ⟨⟨V, Lf, hs⟩, hb⟩ := lru_alloc_skips s e L hL
  have hnd : L.Nodup := is_freelist_nodup s.heap _ _ (is_dlist_freelist s.heap _ _ _ hL.list)
  have hnz := is_freelist_nonzero s.heap _ _ (is_dlist_freelist s.heap _ _ _ hL.list)
  have hcL : s.slab_rebal.slab_pos ∉ L := by
    intro hm
    have := hL.free _ hm
    rw [this] at hc
    exact absurd hc (by decide)
  have hAc : (lru_alloc s e).2.heap s.slab_rebal.slab_pos = s.heap s.slab_rebal.slab_pos :=
    hs.untouched _ hcL
  obtain ⟨K, K2⟩ := move_from_lru_slabbed s e he (by rw [hAc]; exact hc)
  have hsplit := hs.split
  have hrL : (lru_alloc s e).1 ≠ 0 → (lru_alloc s e).1 ∈ L := by
    intro hr
    rw [hsplit, if_pos hr]
    exact List.mem_append_right _ (List.mem_cons_self _ _)
  have hLf : ∀ a ∈ Lf, a ∈ L ∧ a ∉ V ∧ a ≠ (lru_alloc s e).1 := by
    intro a ha
    rw [hsplit] at hnd
    by_cases hr : (lru_alloc s e).1 ≠ 0
    · rw [if_pos hr] at hnd hsplit
      have hdis := (List.nodup_append.mp hnd).2.2
      have hnd2 := (List.nodup_append.mp hnd).2.1
      refine ⟨by rw [hsplit]; exact List.mem_append_right _ (List.mem_cons_of_mem _ ha),
        fun hv => hdis hv (List.mem_cons_of_mem _ ha), fun har => ?_⟩
      exact (List.nodup_cons.mp hnd2).1 (by rw [← har]; exact ha)
    · rw [if_neg hr] at hnd hsplit
      have hdis := (List.nodup_append.mp hnd).2.2
      have haL : a ∈ L := by rw [hsplit]; exact List.mem_append_right _ ha
      refine ⟨haL, fun hv => hdis hv ha, fun har => ?_⟩
      exact hnz a haL (by rw [har]; exact not_not.mp hr)
  have hfl : ∀ a ∈ Lf, ((lru_alloc s e).2.heap a).it_flags = ITEM_SLABBED := by
    intro a ha
    obtain ⟨h1, h2, h3⟩ := hLf a ha
    rw [(hs.kept a h2 h3).1]
    exact hL.free a h1
  have hu : ∀ a ∈ Lf, (move_from_lru s e).heap a = (lru_alloc s e).2.heap a := by
    intro a ha
    exact K2 a (by rw [hfl a ha]; decide) (fun _ => (hLf a ha).2.2)
  refine ⟨Lf, ?_, ?_, ?_, ?_, ?_, ?_⟩
  · rw [(move_from_lru_class s e _).1]
    exact is_dlist_congr_on Lf _ _ (fun a ha => by rw [hu a ha]; exact ⟨rfl, rfl⟩) hs.list
  · rw [(move_from_lru_class s e _).2]
    exact hs.count
  · intro a ha
    rw [hu a ha]
    exact hfl a ha
  · intro a ha
    obtain ⟨k1, k2⟩ := K a ha
    rw [k1] at ha ⊢
    have hac : a ≠ s.slab_rebal.slab_pos := by
      intro h
      rw [h, hAc] at ha
      exact ha hc
    refine ⟨hac, ?_⟩
    by_cases haV : a ∈ V
    · exact Or.inl (hs.cleared a haV)
    · right
      by_cases haL : a ∈ L
      · have har : a ≠ (lru_alloc s e).1 := by
          by_cases hr : (lru_alloc s e).1 ≠ 0
          · exact k2 hr
          · intro h
            exact hnz a haL (by rw [h]; exact not_not.mp hr)
        refine ⟨(hs.kept a haV har).1, (hs.kept a haV har).2, fun _ => ?_⟩
        rw [hsplit] at haL
        rcases List.mem_append.mp haL with h | h
        · exact absurd h haV
        · by_cases hr : (lru_alloc s e).1 ≠ 0
          · rw [if_pos hr] at h
            rcases List.mem_cons.mp h with h2 | h2
            · exact absurd h2 har
            · exact h2
          · rw [if_neg hr] at h
            exact h
      · rw [hs.untouched a haL]
        exact ⟨rfl, rfl, fun h => absurd h haL⟩
  · intro a ha
    have haL : a ∉ L := by
      intro hm
      have := hL.free a hm
      rw [this] at ha
      exact absurd ha (by decide)
    have e1 := hs.untouched a haL
    rw [K2 a (by rw [e1, ha]; decide) (fun hr h => haL (by rw [h]; exact hrL hr)), e1]
  · rw [move_from_lru_busy, hb]

theorem slab_rebalance_alloc_loop_pos (size id : Nat) :
    ∀ n s, (slab_rebalance_alloc_loop size id n s).2.slab_rebal.slab_pos =
      s.slab_rebal.slab_pos := by
  intro n
  induction n with
  | zero => intro s; rfl
  | succ n ih =>
    intro s
    have ha : (do_slabs_alloc s size id SLABS_ALLOC_NO_NEWPAGE host_unused).2.slab_rebal =
        s.slab_rebal := by
      rw [do_slabs_alloc_no_newpage_eq]
      split
      · rfl
      · split <;> rfl
    unfold slab_rebalance_alloc_loop
    dsimp only
    split
    · rw [ha]
    · split
      · rw [ih]
        show (do_slabs_alloc s size id SLABS_ALLOC_NO_NEWPAGE host_unused).2.slab_rebal.slab_pos
          = _
        rw [ha]
      · rw [ha]

theorem move_from_lru_pos (s : State) (e : MoveEnv) :
    (move_from_lru s e).slab_rebal.slab_pos = s.slab_rebal.slab_pos := by
  have h1 : (lru_alloc s e).2.slab_rebal.slab_pos = s.slab_rebal.slab_pos := by
    unfold lru_alloc
    split
    · rfl
    · exact slab_rebalance_alloc_loop_pos _ _ _ s
  have h2 : (move_from_lru s e).slab_rebal.slab_pos = (lru_alloc s e).2.slab_rebal.slab_pos := by
    unfold move_from_lru lru_rescue lru_drop count_eviction_nomem requested_sub
    dsimp only
    split_ifs <;> rfl
  rw [h2, h1]

theorem refcount_incr_srcList (s : State) (it : Nat) (L : List Nat) (h : SrcList s L) :
    SrcList (refcount_incr s it) L := by
  have hh : ∀ a, ((refcount_incr s it).heap a).next = (s.heap a).next ∧
      ((refcount_incr s it).heap a).prev = (s.heap a).prev ∧
      ((refcount_incr s it).heap a).it_flags = (s.heap a).it_flags := by
    intro a
    unfold refcount_incr
    rw [setHeap_heap]
    by_cases ha : a = it
    · rw [ha, upd_same]; exact ⟨rfl, rfl, rfl⟩
    · rw [upd_other _ _ _ _ ha]; exact ⟨rfl, rfl, rfl⟩
  refine ⟨?_, h.count, fun a ha => by rw [(hh a).2.2]; exact h.free a ha⟩
  exact is_dlist_congr_on L _ _ (fun a _ => ⟨(hh a).1, (hh a).2.1⟩) h.list

theorem refcount_incr_other (s : State) (it a : Nat) (ha : a ≠ it) :
    (refcount_incr s it).heap a = s.heap a := by
  unfold refcount_incr
  rw [setHeap_heap, upd_other _ _ _ _ ha]

theorem refcount_incr_flags (s : State) (it a : Nat) :
    ((refcount_incr s it).heap a).it_flags = (s.heap a).it_flags := by
  unfold refcount_incr
  rw [setHeap_heap]
  by_cases ha : a = it
  · rw [ha, upd_same]
  · rw [upd_other _ _ _ _ ha]

theorem passInv_from_lru (s : State) (e : MoveEnv) (L : List Nat) (k : Nat)
    (h : PassInv s L k) (he : EnvOK e)
    (h2 : (s.heap s.slab_rebal.slab_pos).it_flags &&& ITEM_SLABBED = 0)
    (c : move_classify s e =
      { status := move_status.MOVE_FROM_LRU, hold_lock := true,
        state := refcount_incr s s.slab_rebal.slab_pos }) :
    ∃ L', PassInv (move_chunk s e).state L' (k + 1) ∧
      (move_chunk s e).state.slab_rebal.busy_items = s.slab_rebal.busy_items := by
  have hf := move_chunk_scanFrame s e
  have hpos := h.geom.pos
  have hs1 : (refcount_incr s s.slab_rebal.slab_pos).slab_rebal = s.slab_rebal := rfl
  have hc1 : (refcount_incr s s.slab_rebal.slab_pos).slabclass = s.slabclass := rfl
  obtain ⟨Lf, f1, f2, f3, f4, f5, f6⟩ := move_from_lru_effect
    (refcount_incr s s.slab_rebal.slab_pos) e L (refcount_incr_srcList s _ L h.src) he
    (by rw [hs1, refcount_incr_flags]; exact h2)
  rw [hs1] at f1 f2 f4 f6
  have hfu := move_from_lru_scanFrame (refcount_incr s s.slab_rebal.slab_pos) e
  have hid : (move_from_lru (refcount_incr s s.slab_rebal.slab_pos) e).slab_rebal.s_clsid =
      s.slab_rebal.s_clsid := hfu.s_clsid
  have hsize : ((move_from_lru (refcount_incr s s.slab_rebal.slab_pos) e).slabclass
      s.slab_rebal.s_clsid.toNat).size = (s.slabclass s.slab_rebal.s_clsid.toNat).size :=
    hfu.size _
  have hupos : (move_from_lru (refcount_incr s s.slab_rebal.slab_pos) e).slab_rebal.slab_pos =
      s.slab_rebal.slab_pos := move_from_lru_pos _ e
  obtain ⟨_, _, e3, e4, e5⟩ := move_chunk_eq s e
  rw [c] at e3 e4 e5
  have hheap : ∀ a, (move_chunk s e).state.heap a =
      if a = s.slab_rebal.slab_pos then
        { (move_from_lru (refcount_incr s s.slab_rebal.slab_pos) e).heap a with
          refcount := 0, it_flags := ITEM_SLABBED ||| ITEM_FETCHED }
      else (move_from_lru (refcount_incr s s.slab_rebal.slab_pos) e).heap a := by
    intro a
    rw [e3]
    show (move_mark_cleared _ _).heap a = _
    unfold move_mark_cleared
    rw [setHeap_heap]
    by_cases ha : a = s.slab_rebal.slab_pos
    · rw [ha, upd_same, if_pos rfl]
    · rw [upd_other _ _ _ _ ha, if_neg ha]
  have hclass : (move_chunk s e).state.slabclass =
      (move_from_lru (refcount_incr s s.slab_rebal.slab_pos) e).slabclass := e4
  have hreb : (move_chunk s e).state.slab_rebal =
      { (move_from_lru (refcount_incr s s.slab_rebal.slab_pos) e).slab_rebal with
        slab_pos := s.slab_rebal.slab_pos + (s.slabclass s.slab_rebal.s_clsid.toNat).size } := by
    rw [e5]
    show ({ (move_from_lru (refcount_incr s s.slab_rebal.slab_pos) e).slab_rebal with
      slab_pos := (move_from_lru (refcount_incr s s.slab_rebal.slab_pos) e).slab_rebal.slab_pos +
        ((move_from_lru (refcount_incr s s.slab_rebal.slab_pos) e).slabclass
          (move_from_lru (refcount_incr s s.slab_rebal.slab_pos)
            e).slab_rebal.s_clsid.toNat).size } : slab_rebalance) = _
    rw [hupos, hid, hsize]
  have hbusy : (move_chunk s e).state.slab_rebal.busy_items = s.slab_rebal.busy_items := by
    rw [hreb]; exact f6
  generalize move_from_lru (refcount_incr s s.slab_rebal.slab_pos) e = u at *
  have hslab : ∀ a, a ≠ s.slab_rebal.slab_pos →
      ((move_chunk s e).state.heap a).it_flags &&& ITEM_SLABBED ≠ 0 →
      (move_chunk s e).state.heap a = u.heap a ∧
      (((u.heap a).it_flags = ITEM_SLABBED ||| ITEM_FETCHED ∧ (u.heap a).refcount = 0) ∨
        ((u.heap a).it_flags = (s.heap a).it_flags ∧ (u.heap a).refcount = (s.heap a).refcount ∧
          (a ∈ L → a ∈ Lf))) := by
    intro a ha hfl
    rw [hheap a, if_neg ha] at hfl ⊢
    refine ⟨rfl, ?_⟩
    rcases (f4 a hfl).2 with g | g
    · exact Or.inl g
    · rw [refcount_incr_flags, refcount_incr_other s _ a ha] at g
      exact Or.inr g
  refine ⟨Lf, ⟨PageGeom.step s _ k h.geom hf (by rw [hreb]), ⟨?_, ?_, ?_⟩, ?_, ?_, ?_⟩, hbusy⟩
  · rw [hf.s_clsid, hclass]
    refine is_dlist_congr_on Lf _ _ (fun a _ => ?_) f1
    rw [hheap a]
    split
    · exact ⟨rfl, rfl⟩
    · exact ⟨rfl, rfl⟩
  · rw [hf.s_clsid, hclass]; exact f2
  · intro a ha
    have hac := (f4 a (by rw [f3 a ha]; decide)).1
    rw [hheap a, if_neg hac]
    exact f3 a ha
  · intro j hj
    rw [hf.s_clsid, hf.perslab] at hj
    rw [chunk_addr_frame s _ hf]
    intro h3 h4
    have hne : chunk_addr s j ≠ s.slab_rebal.slab_pos := by
      intro hc2
      rw [hheap, if_pos hc2] at h4
      exact h4 rfl
    obtain ⟨g1, g2⟩ := hslab _ hne h3
    rw [g1] at h3 h4
    rcases g2 with g | g
    · exact absurd g.1 h4
    · rw [g.1] at h3 h4
      exact g.2.2 (h.onlist j hj h3 h4)
  · intro j hj
    rw [hf.s_clsid, hf.perslab] at hj
    rw [chunk_addr_frame s _ hf]
    intro h3
    by_cases hne : chunk_addr s j = s.slab_rebal.slab_pos
    · rw [hheap, if_pos hne]
    · obtain ⟨g1, g2⟩ := hslab _ hne (by rw [h3]; decide)
      rw [g1] at h3 ⊢
      rcases g2 with g | g
      · exact g.2
      · rw [g.2.1]
        exact h.clear j hj (by rw [← g.1]; exact h3)
  · intro hb j hj
    rw [hbusy] at hb
    rw [chunk_addr_frame s _ hf]
    by_cases hne : chunk_addr s j = s.slab_rebal.slab_pos
    · rw [hheap, if_pos hne]
    · have hjk : j ≠ k := fun hc2 => hne (by rw [hc2, hpos])
      have h12 := h.seen hb j (by omega)
      rw [hheap, if_neg hne, f5 _ (by rw [refcount_incr_flags]; exact h12),
        refcount_incr_other s _ _ hne]
      exact h12

/-- One iteration of `slab_rebalance_move` keeps the invariant of the pass and counts the
chunk in `busy_items` exactly when it is BUSY or LOCKED. -/
theorem passInv_step (s : State) (e : MoveEnv) (L : List Nat) (k : Nat)
    (h : PassInv s L k) (hk : k < (s.slabclass s.slab_rebal.s_clsid.toNat).perslab)
    (he : EnvOK e) :
    ∃ L', PassInv (move_chunk s e).state L' (k + 1) ∧
      (move_chunk s e).state.slab_rebal.busy_items =
        s.slab_rebal.busy_items + (if (move_chunk s e).status.busy = true then 1 else 0) := by
  rcases move_classify_cases s e with ⟨h1, _⟩ | ⟨h1, h2, _⟩ | ⟨_, _, c⟩ | ⟨_, _, _, c⟩ |
    ⟨h2, _, _, _, c⟩ | ⟨_, _, _, _, c⟩
  · obtain ⟨e1, e2⟩ := move_chunk_pass_effect s e h1
    rw [e1, e2]
    exact ⟨L, PassInv.pass s L k h h1, rfl⟩
  · obtain ⟨e1, e2, e3⟩ := passInv_from_slab s e L k h hk h1 h2
    rw [e1]
    exact ⟨_, e2, e3⟩
  · obtain ⟨e1, e2⟩ := move_chunk_busy_effect s e _ (Or.inl rfl) c
    rw [e1, e2]
    exact ⟨L, PassInv.busy s L k h, rfl⟩
  · obtain ⟨e1, e2⟩ := move_chunk_busy_effect s e _ (Or.inr rfl) c
    rw [e1, e2]
    exact ⟨L, PassInv.busy s L k h, rfl⟩
  · obtain ⟨L', e2, e3⟩ := passInv_from_lru s e L k h he h2 c
    have e1 : (move_chunk s e).status = move_status.MOVE_FROM_LRU := by
      rw [(move_chunk_eq s e).1, c]
    rw [e1]
    exact ⟨L', e2, e3⟩
  · obtain ⟨e1, e2⟩ := move_chunk_busy_effect s e _ (Or.inl rfl) c
    rw [e1, e2]
    exact ⟨L, PassInv.busy s L k h, rfl⟩

/-- The loop of `slab_rebalance_move` keeps the invariant of the pass: from chunk `k` it
handles the next `min n (perslab - k)` chunks, and `was_busy` grows by as much as
`busy_items`. -/
theorem move_loop_pass (envs : Nat → MoveEnv) (he : ∀ x, EnvOK (envs x)) :
    ∀ n x wb s L k, PassInv s L k →
      k < (s.slabclass s.slab_rebal.s_clsid.toNat).perslab →
      ∃ L',
        PassInv (move_loop envs n x wb s).2 L'
          (k + min n ((s.slabclass s.slab_rebal.s_clsid.toNat).perslab - k)) ∧
        (move_loop envs n x wb s).1 + s.slab_rebal.busy_items =
          wb + (move_loop envs n x wb s).2.slab_rebal.busy_items := by
  intro n
  induction n with
  | zero =>
    intro x wb s L k h _
    refine ⟨L, ?_, rfl⟩
    rw [Nat.zero_min, Nat.add_zero]; exact h
  | succ n ih =>
    intro x wb s L k h hk
    obtain ⟨L1, hs, hb⟩ := passInv_step s (envs x) L k h hk (he x)
    have hf := move_chunk_scanFrame s (envs x)
    have hwb : (if (move_chunk s (envs x)).status.busy = true then wb + 1 else wb) +
        s.slab_rebal.busy_items = wb + (move_chunk s (envs x)).state.slab_rebal.busy_items := by
      rw [hb]
      split <;> omega
    have eloop : move_loop envs (n + 1) x wb s =
        if (move_chunk s (envs x)).state.slab_rebal.slab_pos ≥
            (move_chunk s (envs x)).state.slab_rebal.slab_end then
          (if (move_chunk s (envs x)).status.busy = true then wb + 1 else wb,
            (move_chunk s (envs x)).state)
        else move_loop envs n (x + 1)
          (if (move_chunk s (envs x)).status.busy = true then wb + 1 else wb)
          (move_chunk s (envs x)).state := rfl
    have hpos := hs.geom.pos
    have hstop := hs.geom.stop
    rw [chunk_addr_frame s _ hf] at hpos hstop
    rw [hf.s_clsid, hf.perslab] at hstop
    rw [eloop, hpos, hstop]
    by_cases hend : k + 1 < (s.slabclass s.slab_rebal.s_clsid.toNat).perslab
    · have hlt := chunk_addr_lt s h.geom.size_pos _ _ hend
      rw [if_neg (by omega)]
      obtain ⟨L', h2, h3⟩ := ih (x + 1)
        (if (move_chunk s (envs x)).status.busy = true then wb + 1 else wb) _ L1 (k + 1) hs
        (by rw [hf.s_clsid, hf.perslab]; exact hend)
      rw [hf.s_clsid, hf.perslab] at h2
      have hm : k + min (n + 1) ((s.slabclass s.slab_rebal.s_clsid.toNat).perslab - k) =
          k + 1 + min n ((s.slabclass s.slab_rebal.s_clsid.toNat).perslab - (k + 1)) := by omega
      rw [hm]
      refine ⟨L', h2, ?_⟩
      generalize (if (move_chunk s (envs x)).status.busy = true then wb + 1 else wb) = wb1
        at hwb h3 ⊢
      omega
    · have hm : k + min (n + 1) ((s.slabclass s.slab_rebal.s_clsid.toNat).perslab - k) =
          k + 1 := by omega
      have hk1 : k + 1 = (s.slabclass s.slab_rebal.s_clsid.toNat).perslab := by omega
      rw [hm, hk1, if_pos (le_refl _)]
      rw [hk1] at hs
      exact ⟨L1, hs, hwb⟩

/-- The rewinding of the cursor at the end of a pass keeps the invariant of the pass, for
a new pass that starts at chunk 0. -/
theorem PassInv.rewind (s : State) (L : List Nat) (k : Nat) (st : stats_t)
    (h : PassInv s L k) :
    PassInv
      { s with
        slab_rebal := { s.slab_rebal with slab_pos := s.slab_rebal.slab_start, busy_items := 0 }
        stats := st } L 0 := by
  refine ⟨⟨h.geom.size_pos, ?_, h.geom.stop⟩, ⟨h.src.list, h.src.count, h.src.free⟩,
    h.onlist, h.clear, fun _ j hj => absurd hj (Nat.not_lt_zero j)⟩
  show s.slab_rebal.slab_start = chunk_addr s 0
  unfold chunk_addr
  rw [Nat.zero_mul, Nat.add_zero]

/-- One call of `slab_rebalance_move` in a pass, the cursor on chunk `k`: the loop stops on
chunk `k + min bulk (perslab - k)`; `was_busy` is the growth of `busy_items` in the loop;
when the cursor has not reached the end of the page nothing else happens; when it has, the
pass starts again if `busy_items` is not 0, and otherwise `done` is set and the page is
clear. -/
theorem slab_rebalance_move_pass (envs : Nat → MoveEnv) (he : ∀ x, EnvOK (envs x))
    (bulk : Int) (s : State) (L : List Nat) (k : Nat) (h : PassInv s L k)
    (hk : k < (s.slabclass s.slab_rebal.s_clsid.toNat).perslab)
    (hd : s.slab_rebal.done = 0) :
    (slab_rebalance_move s bulk envs).1 + s.slab_rebal.busy_items =
      (move_loop envs bulk.toNat 0 0 s).2.slab_rebal.busy_items ∧
    (¬ (move_loop envs bulk.toNat 0 0 s).2.slab_rebal.slab_pos ≥
        (move_loop envs bulk.toNat 0 0 s).2.slab_rebal.slab_end →
      (slab_rebalance_move s bulk envs).2 = (move_loop envs bulk.toNat 0 0 s).2 ∧
      (slab_rebalance_move s bulk envs).2.slab_rebal.done = 0 ∧
      ∃ L' k', PassInv (slab_rebalance_move s bulk envs).2 L' k' ∧
        k' < (s.slabclass s.slab_rebal.s_clsid.toNat).perslab) ∧
    ((move_loop envs bulk.toNat 0 0 s).2.slab_rebal.slab_pos ≥
        (move_loop envs bulk.toNat 0 0 s).2.slab_rebal.slab_end →
      (move_loop envs bulk.toNat 0 0 s).2.slab_rebal.busy_items ≠ 0 →
      (slab_rebalance_move s bulk envs).2.slab_rebal.slab_pos = s.slab_rebal.slab_start ∧
      (slab_rebalance_move s bulk envs).2.slab_rebal.busy_items = 0 ∧
      (slab_rebalance_move s bulk envs).2.slab_rebal.done = 0 ∧
      (slab_rebalance_move s bulk envs).2.stats.slab_reassign_busy_items =
        s.stats.slab_reassign_busy_items +
          (move_loop envs bulk.toNat 0 0 s).2.slab_rebal.busy_items ∧
      ∃ L', PassInv (slab_rebalance_move s bulk envs).2 L' 0) ∧
    ((move_loop envs bulk.toNat 0 0 s).2.slab_rebal.slab_pos ≥
        (move_loop envs bulk.toNat 0 0 s).2.slab_rebal.slab_end →
      (move_loop envs bulk.toNat 0 0 s).2.slab_rebal.busy_items = 0 →
      (slab_rebalance_move s bulk envs).2.slab_rebal.done = 1 ∧
      ∃ L', SrcList (slab_rebalance_move s bulk envs).2 L' ∧
        ∀ j, j < (s.slabclass s.slab_rebal.s_clsid.toNat).perslab →
          ((slab_rebalance_move s bulk envs).2.heap (chunk_addr s j)).it_flags =
            ITEM_SLABBED ||| ITEM_FETCHED ∧
          ((slab_rebalance_move s bulk envs).2.heap (chunk_addr s j)).refcount = 0 ∧
          chunk_addr s j ∉ L') := by
  obtain ⟨L', h1, h2⟩ := move_loop_pass envs he bulk.toNat 0 0 s L k h hk
  have hf := move_loop_scanFrame envs bulk.toNat 0 0 s
  have hpos := h1.geom.pos
  have hstop := h1.geom.stop
  rw [chunk_addr_frame s _ hf] at hpos hstop
  rw [hf.s_clsid, hf.perslab] at hstop
  have hsrm : slab_rebalance_move s bulk envs =
      ((move_loop envs bulk.toNat 0 0 s).1, move_tail (move_loop envs bulk.toNat 0 0 s).2) := rfl
  rw [hsrm]
  dsimp only
  refine ⟨by omega, ?_, ?_, ?_⟩
  · intro hnot
    have htail : move_tail (move_loop envs bulk.toNat 0 0 s).2 =
        (move_loop envs bulk.toNat 0 0 s).2 := by
      unfold move_tail
      rw [if_neg hnot]
    rw [htail]
    refine ⟨rfl, by rw [hf.done]; exact hd, L', _, h1, ?_⟩
    rw [hpos, hstop] at hnot
    by_contra hc
    have hc2 : k + min bulk.toNat ((s.slabclass s.slab_rebal.s_clsid.toNat).perslab - k) =
        (s.slabclass s.slab_rebal.s_clsid.toNat).perslab := by omega
    rw [hc2] at hnot
    exact hnot (le_refl _)
  · intro hreach hbusy
    have htail : move_tail (move_loop envs bulk.toNat 0 0 s).2 =
        { (move_loop envs bulk.toNat 0 0 s).2 with
          slab_rebal :=
            { (move_loop envs bulk.toNat 0 0 s).2.slab_rebal with
              slab_pos := (move_loop envs bulk.toNat 0 0 s).2.slab_rebal.slab_start,
              busy_items := 0 }
          stats :=
            { (move_loop envs bulk.toNat 0 0 s).2.stats with
              slab_reassign_busy_items :=
                (move_loop envs bulk.toNat 0 0 s).2.stats.slab_reassign_busy_items +
                  (move_loop envs bulk.toNat 0 0 s).2.slab_rebal.busy_items } } := by
      unfold move_tail
      rw [if_pos hreach, if_pos hbusy]
    rw [htail]
    refine ⟨hf.slab_start, rfl, by show (move_loop envs bulk.toNat 0 0 s).2.slab_rebal.done = 0
                                   rw [hf.done]; exact hd, ?_, L', PassInv.rewind _ L' _ _ h1⟩
    show (move_loop envs bulk.toNat 0 0 s).2.stats.slab_reassign_busy_items + _ = _
    rw [hf.stats]
  · intro hreach hbusy
    have htail : move_tail (move_loop envs bulk.toNat 0 0 s).2 =
        { (move_loop envs bulk.toNat 0 0 s).2 with
          slab_rebal := { (move_loop envs bulk.toNat 0 0 s).2.slab_rebal with done := 1 } } := by
      unfold move_tail
      rw [if_pos hreach, if_neg (not_not.mpr hbusy), hf.done, hd]
    rw [htail]
    have hkm : k + min bulk.toNat ((s.slabclass s.slab_rebal.s_clsid.toNat).perslab - k) =
        (s.slabclass s.slab_rebal.s_clsid.toNat).perslab := by
      rw [hpos, hstop] at hreach
      by_contra hc
      have hlt : k + min bulk.toNat ((s.slabclass s.slab_rebal.s_clsid.toNat).perslab - k) <
          (s.slabclass s.slab_rebal.s_clsid.toNat).perslab := by omega
      have := chunk_addr_lt s h.geom.size_pos _ _ hlt
      omega
    rw [hkm] at h1
    refine ⟨rfl, L', ⟨h1.src.list, h1.src.count, h1.src.free⟩, fun j hj => ?_⟩
    have hj2 : j < ((move_loop envs bulk.toNat 0 0 s).2.slabclass
        (move_loop envs bulk.toNat 0 0 s).2.slab_rebal.s_clsid.toNat).perslab := by
      rw [hf.s_clsid, hf.perslab]; exact hj
    have h12 := h1.seen hbusy j hj
    have hcl := h1.clear j hj2 h12
    rw [chunk_addr_frame s _ hf] at h12 hcl
    refine ⟨h12, hcl, fun hm => ?_⟩
    have := h1.src.free _ hm
    rw [this] at h12
    exact absurd h12 (by decide)

/-! ## The idle item subsystem -/

theorem env_idle_ok : EnvOK env_idle :=
  ⟨fun _ _ _ _ _ => rfl, fun _ _ _ _ => rfl⟩

/-! ## The invariant of the freelists -/

theorem AllWF.inv (s : State) (Ls : Nat → List Nat) (h : AllWF s Ls) : FreelistInv s := by
  intro id
  refine ⟨Ls id, is_dlist_freelist s.heap _ _ _ (h.list id), h.count id, fun a ha => ?_⟩
  obtain ⟨h1, h2⟩ := h.free id a ha
  exact ⟨by rw [h1]; decide, h2⟩

theorem AllWF.assert (s : State) (Ls : Nat → List Nat) (h : AllWF s Ls) (id : Nat) :
    do_slabs_alloc_assert s id := by
  unfold do_slabs_alloc_assert
  have hl := h.list id
  have hc := h.count id
  cases hL : Ls id with
  | nil => left; rw [hc, hL]; rfl
  | cons x L =>
    right
    rw [hL] at hl
    rw [hl.1]
    exact (h.free id x (by rw [hL]; exact List.mem_cons_self x L)).2

/-- The invariant only depends on the heads and counts of the freelists and on the
headers of the chunks on them. -/
theorem AllWF.congr_on (s t : State) (Ls : Nat → List Nat) (h : AllWF s Ls)
    (hc : ∀ j, (t.slabclass j).slots = (s.slabclass j).slots ∧
      (t.slabclass j).sl_curr = (s.slabclass j).sl_curr)
    (hh : ∀ j, ∀ a ∈ Ls j, t.heap a = s.heap a) : AllWF t Ls := by
  refine ⟨fun id => ?_, fun id => ?_, fun id a ha => ?_, h.disjoint⟩
  · rw [(hc id).1]
    exact is_dlist_congr_on _ _ _ (fun a ha => by rw [hh id a ha]; exact ⟨rfl, rfl⟩) (h.list id)
  · rw [(hc id).2]; exact h.count id
  · rw [hh id a ha]; exact h.free id a ha

/-- The freelist of one class changes to `L'`, the others are left alone. -/
theorem AllWF.update (s t : State) (Ls : Nat → List Nat) (id : Nat) (L' : List Nat)
    (h : AllWF s Ls)
    (hlist : is_dlist t.heap 0 (t.slabclass id).slots L')
    (hcount : (t.slabclass id).sl_curr = L'.length)
    (hfree : ∀ a ∈ L', (t.heap a).it_flags = ITEM_SLABBED ∧ (t.heap a).slabs_clsid = 0)
    (hnew : ∀ a ∈ L', ∀ j, j ≠ id → a ∉ Ls j)
    (hc : ∀ j, j ≠ id → (t.slabclass j).slots = (s.slabclass j).slots ∧
      (t.slabclass j).sl_curr = (s.slabclass j).sl_curr)
    (hh : ∀ j, j ≠ id → ∀ a ∈ Ls j, t.heap a = s.heap a) :
    AllWF t (upd Ls id L') := by
  refine ⟨fun i => ?_, fun i => ?_, fun i a ha => ?_, fun i j hij a ha => ?_⟩
  · by_cases hi : i = id
    · rw [hi, upd_same]; exact hlist
    · rw [upd_other _ _ _ _ hi, (hc i hi).1]
      exact is_dlist_congr_on _ _ _ (fun a ha => by rw [hh i hi a ha]; exact ⟨rfl, rfl⟩)
        (h.list i)
  · by_cases hi : i = id
    · rw [hi, upd_same]; exact hcount
    · rw [upd_other _ _ _ _ hi, (hc i hi).2]; exact h.count i
  · by_cases hi : i = id
    · rw [hi, upd_same] at ha; exact hfree a ha
    · rw [upd_other _ _ _ _ hi] at ha
      rw [hh i hi a ha]; exact h.free i a ha
  · by_cases hi : i = id
    · rw [hi, upd_same] at ha
      have hj : j ≠ id := fun hc2 => hij (hi.trans hc2.symm)
      rw [upd_other _ _ _ _ hj]
      exact hnew a ha j hj
    · rw [upd_other _ _ _ _ hi] at ha
      by_cases hj : j = id
      · rw [hj, upd_same]
        intro hm
        exact hnew a hm i hi ha
      · rw [upd_other _ _ _ _ hj]
        exact h.disjoint i j hij a ha

theorem is_dlist_set_prev (h1 h2 : Nat → item) (L : List Nat) (p q head : Nat)
    (hl : is_dlist h1 p head L) (hnd : L.Nodup)
    (hnext : ∀ a ∈ L, (h2 a).next = (h1 a).next)
    (hprev : ∀ a ∈ L, a ≠ head → (h2 a).prev = (h1 a).prev)
    (hhead : head ≠ 0 → (h2 head).prev = q) : is_dlist h2 q head L := by
  cases L with
  | nil => exact hl
  | cons b L =>
    obtain ⟨e, hb, _, hl2⟩ := hl
    have hbL : b ∉ L := (List.nodup_cons.mp hnd).1
    refine ⟨e, hb, by rw [← e]; exact hhead (by rw [e]; exact hb), ?_⟩
    rw [hnext b (List.mem_cons_self b L)]
    refine is_dlist_congr_on L _ _ (fun a ha => ⟨hnext a (List.mem_cons_of_mem b ha), ?_⟩) hl2
    exact hprev a (List.mem_cons_of_mem b ha) (by rw [e]; intro hc; exact hbL (by rw [← hc]; exact ha))

/-- The item headers after `do_slabs_free` of a chunk that is not the head of the
freelist. -/
theorem do_slabs_free_heap_at (s : State) (ptr size id : Nat)
    (hid1 : 1 ≤ id) (hid2 : id ≤ s.power_largest) (hne : ptr ≠ (s.slabclass id).slots)
    (a : Nat) :
    (do_slabs_free s ptr size id).heap a =
      if a = ptr then
        { s.heap ptr with
          it_flags := ITEM_SLABBED, slabs_clsid := 0, prev := 0,
          next := (s.slabclass id).slots }
      else if a = (s.slabclass id).slots ∧ (s.slabclass id).slots ≠ 0 then
        { s.heap a with prev := ptr }
      else s.heap a := by
  rw [do_slabs_free_heap s ptr size id hid1 hid2]
  by_cases h0 : (s.slabclass id).slots ≠ 0
  · rw [if_pos h0]
    by_cases ha : a = ptr
    · rw [if_pos ha, ha, upd_other _ _ _ _ hne, upd_same]
    · rw [if_neg ha]
      by_cases hb : a = (s.slabclass id).slots
      · rw [if_pos ⟨hb, h0⟩, hb, upd_same, upd_other _ _ _ _ (Ne.symm hne)]
      · rw [if_neg (fun h => hb h.1), upd_other _ _ _ _ hb, upd_other _ _ _ _ ha]
  · rw [if_neg h0]
    by_cases ha : a = ptr
    · rw [if_pos ha, ha, upd_same]
    · rw [if_neg ha, if_neg (fun h => h0 h.2), upd_other _ _ _ _ ha]

/-- `do_slabs_free` of a chunk that is on no freelist keeps the invariant: the chunk
becomes the head of the freelist of its class. -/
theorem AllWF.push (s : State) (Ls : Nat → List Nat) (ptr size id : Nat) (h : AllWF s Ls)
    (hid1 : 1 ≤ id) (hid2 : id ≤ s.power_largest) (h0 : ptr ≠ 0) (hoff : ∀ j, ptr ∉ Ls j) :
    AllWF (do_slabs_free s ptr size id) (upd Ls id (ptr :: Ls id)) := by
  have hl := h.list id
  have hnd := is_freelist_nodup s.heap _ _ (is_dlist_freelist s.heap _ _ _ hl)
  have hslots : (s.slabclass id).slots ≠ 0 → (s.slabclass id).slots ∈ Ls id := by
    intro hz
    cases hL : Ls id with
    | nil => rw [hL] at hl; exact absurd hl hz
    | cons b L => rw [hL] at hl; rw [hl.1]; exact List.mem_cons_self b L
  have hne : ptr ≠ (s.slabclass id).slots := by
    intro hc
    exact hoff id (by rw [hc]; exact hslots (by rw [← hc]; exact h0))
  have hheap := do_slabs_free_heap_at s ptr size id hid1 hid2 hne
  have hcls := do_slabs_free_class s ptr size id hid1 hid2
  have hmem : ∀ a ∈ Ls id, a ≠ ptr := fun a ha hc => hoff id (by rw [← hc]; exact ha)
  refine AllWF.update s _ Ls id (ptr :: Ls id) h ?_ ?_ ?_ ?_ ?_ ?_
  · rw [hcls]
    refine ⟨rfl, h0, by rw [hheap, if_pos rfl], ?_⟩
    have e1 : ((do_slabs_free s ptr size id).heap ptr).next = (s.slabclass id).slots := by
      rw [hheap, if_pos rfl]
    rw [e1]
    refine is_dlist_set_prev s.heap _ (Ls id) 0 ptr _ hl hnd (fun a ha => ?_) (fun a ha hah => ?_)
      (fun hz => ?_)
    · rw [hheap]
      rw [if_neg (hmem a ha)]
      split <;> rfl
    · rw [hheap]
      rw [if_neg (hmem a ha), if_neg (fun hc => hah hc.1)]
    · rw [hheap]
      rw [if_neg (Ne.symm hne), if_pos ⟨rfl, hz⟩]
  · rw [hcls, List.length_cons, h.count id]
  · intro a ha
    rcases List.mem_cons.mp ha with e | hm
    · rw [e, hheap, if_pos rfl]; exact ⟨rfl, rfl⟩
    · rw [hheap]
      rw [if_neg (hmem a hm)]
      split
      · exact h.free id a hm
      · exact h.free id a hm
  · intro a ha j hj
    rcases List.mem_cons.mp ha with e | hm
    · rw [e]; exact hoff j
    · exact h.disjoint id j (Ne.symm hj) a hm
  · intro j hj
    rw [do_slabs_free_class_other s ptr size id j hj]
    exact ⟨rfl, rfl⟩
  · intro j hj a ha
    rw [hheap]
    rw [if_neg (fun hc => hoff j (by rw [← hc]; exact ha)), if_neg]
    intro hc
    exact h.disjoint j id hj a ha (by rw [hc.1]; exact hslots hc.2)

/-- `freelist_pop` keeps the invariant: the head leaves the freelist of its class. -/
theorem AllWF.pop (s : State) (Ls : Nat → List Nat) (size id x : Nat) (L : List Nat)
    (h : AllWF s Ls) (hL : Ls id = x :: L) :
    (freelist_pop s size id).1 = x ∧ AllWF (freelist_pop s size id).2 (upd Ls id L) := by
  have hl := h.list id
  rw [hL] at hl
  have hnd := is_freelist_nodup s.heap _ _ (is_dlist_freelist s.heap _ _ _ hl)
  have hxL : x ∉ L := (List.nodup_cons.mp hnd).1
  have hx : (s.slabclass id).slots = x := hl.1
  obtain ⟨p1, p2, p3, _⟩ := freelist_pop_dlist s size id x L hl
  have hn := is_dlist_next_mem s.heap x L [] 0 _ hl
  have hsub : ∀ a ∈ L, a ∈ Ls id := fun a ha => by rw [hL]; exact List.mem_cons_of_mem x ha
  refine ⟨p1, AllWF.update s _ Ls id L h p2 ?_ ?_ ?_ ?_ ?_⟩
  · rw [p3, h.count id, hL, List.length_cons]; omega
  · intro a ha
    have hax : a ≠ x := fun hc => hxL (by rw [← hc]; exact ha)
    rw [freelist_pop_heap, hx]
    dsimp only
    rw [if_neg hax]
    exact h.free id a (hsub a ha)
  · intro a ha j hj
    exact h.disjoint id j (Ne.symm hj) a (hsub a ha)
  · intro j hj
    rw [freelist_pop_class_other s size id j hj]
    exact ⟨rfl, rfl⟩
  · intro j hj a ha
    have hax : a ≠ x := by
      intro hc
      exact h.disjoint j id hj a ha (by rw [hL, hc]; exact List.mem_cons_self x L)
    rw [freelist_pop_heap, hx]
    dsimp only
    rw [if_neg hax, if_neg hax, if_neg]
    intro hc
    rcases hn with hz | hm
    · exact hc.2 hz
    · exact h.disjoint j id hj a ha (by rw [hc.1]; exact hsub _ hm)

/-- `freelist_unlink` of a chunk of the freelist of class `sc` keeps the invariant: the
chunk leaves that freelist. -/
theorem AllWF.unlink (s : State) (Ls : Nat → List Nat) (sc c : Nat) (h : AllWF s Ls)
    (hc : c ∈ Ls sc) :
    AllWF (freelist_unlink s sc c) (upd Ls sc ((Ls sc).erase c)) := by
  obtain ⟨l1, l2, hsplit⟩ := List.append_of_mem hc
  have hl := h.list sc
  have hcount := h.count sc
  rw [hsplit] at hl hcount
  have hnd := is_freelist_nodup s.heap _ _ (is_dlist_freelist s.heap _ _ _ hl)
  have herase : (Ls sc).erase c = l1 ++ l2 := by rw [hsplit]; exact erase_middle c l1 l2 hnd
  have hsub : ∀ a ∈ l1 ++ l2, a ∈ Ls sc := by
    intro a ha
    rw [hsplit]
    rcases List.mem_append.mp ha with h1 | h1
    · exact List.mem_append_left _ h1
    · exact List.mem_append_right _ (List.mem_cons_of_mem _ h1)
  have hn := is_dlist_next_mem s.heap c l2 l1 0 _ hl
  have hq := is_dlist_prev_of s.heap c l2 l1 0 _ hl
  rw [herase]
  refine AllWF.update s _ Ls sc (l1 ++ l2) h (freelist_unlink_dlist s sc c l1 l2 hl) ?_ ?_ ?_ ?_ ?_
  · rw [freelist_unlink_class, upd_same]
    dsimp only
    rw [hcount, if_neg (by simp only [List.length_append, List.length_cons]; omega)]
    simp only [List.length_append, List.length_cons]
    omega
  · intro a ha
    rw [freelist_unlink_heap]
    exact h.free sc a (hsub a ha)
  · intro a ha j hj
    exact h.disjoint sc j (Ne.symm hj) a (hsub a ha)
  · intro j hj
    rw [freelist_unlink_class, upd_other _ _ _ _ hj]
    exact ⟨rfl, rfl⟩
  · intro j hj a ha
    have hnot : a ∉ Ls sc := h.disjoint j sc hj a ha
    rw [freelist_unlink_heap]
    dsimp only
    rw [if_neg, if_neg]
    · intro hc2
      rcases hn with hz | hm
      · exact hc2.2 hz
      · exact hnot (by rw [hc2.1, hsplit];
                       exact List.mem_append_right _ (List.mem_cons_of_mem _ hm))
    · intro hc2
      rcases hq with ⟨_, hz⟩ | hm
      · exact hc2.2 hz
      · exact hnot (by rw [hc2.1, hsplit]; exact List.mem_append_left _ hm)

theorem split_loop_invalid (id : Nat) :
    ∀ n ptr s, ¬ (1 ≤ id ∧ id ≤ s.power_largest) → split_loop id n ptr s = s := by
  intro n
  induction n with
  | zero => intro ptr s _; rfl
  | succ n ih =>
    intro ptr s hid
    have e : do_slabs_free s ptr 0 id = s := do_slabs_free_invalid s ptr 0 id hid
    conv => lhs; unfold split_loop
    dsimp only
    rw [e]
    exact ih _ s hid

/-- The loop of `split_slab_page_into_freelist` keeps the invariant when the chunks it
frees are distinct, not `NULL`, and on no freelist. -/
theorem AllWF.split (id : Nat) :
    ∀ n ptr s Ls, AllWF s Ls → ptr ≠ 0 → (0 < (s.slabclass id).size ∨ n ≤ 1) →
      (∀ j a, a ∈ Ls j → ∀ k, k < n → a ≠ ptr + k * (s.slabclass id).size) →
      ∃ Ls', AllWF (split_loop id n ptr s) Ls' ∧
        ∀ j a, a ∈ Ls' j → a ∈ Ls j ∨ ∃ k, k < n ∧ a = ptr + k * (s.slabclass id).size := by
  intro n
  induction n with
  | zero =>
    intro ptr s Ls h _ _ _
    exact ⟨Ls, h, fun j a ha => Or.inl ha⟩
  | succ n ih =>
    intro ptr s Ls h h0 hsz hfresh
    by_cases hid : 1 ≤ id ∧ id ≤ s.power_largest
    · have hoff : ∀ j, ptr ∉ Ls j := by
        intro j hm
        have := hfresh j ptr hm 0 (Nat.succ_pos n)
        rw [Nat.zero_mul, Nat.add_zero] at this
        exact this rfl
      have h1 := AllWF.push s Ls ptr 0 id h hid.1 hid.2 h0 hoff
      have hsize : ((do_slabs_free s ptr 0 id).slabclass id).size = (s.slabclass id).size :=
        (do_slabs_free_frame s ptr 0 id).size id
      have eloop : split_loop id (n + 1) ptr s =
          split_loop id n (ptr + (s.slabclass id).size) (do_slabs_free s ptr 0 id) := by
        conv => lhs; unfold split_loop
        dsimp only
        rw [hsize]
      rw [eloop]
      obtain ⟨Ls', h2, h3⟩ := ih (ptr + (s.slabclass id).size) (do_slabs_free s ptr 0 id)
        (upd Ls id (ptr :: Ls id)) h1 (by omega)
        (by rw [hsize]; rcases hsz with hp | hp
            · exact Or.inl hp
            · exact Or.inr (by omega))
        (by
          intro j a ha k hk
          rw [hsize]
          have hpos : 0 < (s.slabclass id).size := by
            rcases hsz with hp | hp
            · exact hp
            · omega
          have hmul : ptr + (s.slabclass id).size + k * (s.slabclass id).size =
              ptr + (k + 1) * (s.slabclass id).size := by
            rw [Nat.add_mul, Nat.one_mul]; omega
          rw [hmul]
          have hcase : a ∈ Ls j ∨ a = ptr := by
            by_cases hj : j = id
            · rw [hj, upd_same] at ha
              rcases List.mem_cons.mp ha with e | hm
              · exact Or.inr e
              · exact Or.inl (by rw [hj]; exact hm)
            · rw [upd_other _ _ _ _ hj] at ha
              exact Or.inl ha
          rcases hcase with hm | e
          · exact hfresh j a hm (k + 1) (by omega)
          · rw [e]
            have : 0 < (k + 1) * (s.slabclass id).size := Nat.mul_pos (Nat.succ_pos k) hpos
            omega)
      refine ⟨Ls', h2, fun j a ha => ?_⟩
      rw [hsize] at h3
      rcases h3 j a ha with hm | ⟨k, hk, e⟩
      · by_cases hj : j = id
        · rw [hj, upd_same] at hm
          rcases List.mem_cons.mp hm with e | hm2
          · exact Or.inr ⟨0, Nat.succ_pos n, by rw [e, Nat.zero_mul, Nat.add_zero]⟩
          · exact Or.inl (by rw [hj]; exact hm2)
        · rw [upd_other _ _ _ _ hj] at hm
          exact Or.inl hm
      · refine Or.inr ⟨k + 1, by omega, ?_⟩
        rw [e, Nat.add_mul, Nat.one_mul]; omega
    · rw [split_loop_invalid id (n + 1) ptr s hid]
      exact ⟨Ls, h, fun j a ha => Or.inl ha⟩

theorem AllWF.pop_frame (s : State) (Ls : Nat → List Nat) (size id x : Nat) (L : List Nat)
    (h : AllWF s Ls) (hL : Ls id = x :: L) :
    (∀ j, x ∉ upd Ls id L j) ∧
    (∀ j a, a ∈ upd Ls id L j → a ∈ Ls j) ∧
    (∀ a, a ∉ Ls id → (freelist_pop s size id).2.heap a = s.heap a) := by
  have hl := h.list id
  rw [hL] at hl
  have hnd := is_freelist_nodup s.heap _ _ (is_dlist_freelist s.heap _ _ _ hl)
  have hx : (s.slabclass id).slots = x := hl.1
  have hn := is_dlist_next_mem s.heap x L [] 0 _ hl
  refine ⟨fun j => ?_, fun j a ha => ?_, fun a ha => ?_⟩
  · by_cases hj : j = id
    · rw [hj, upd_same]; exact (List.nodup_cons.mp hnd).1
    · rw [upd_other _ _ _ _ hj]
      exact h.disjoint id j (Ne.symm hj) x (by rw [hL]; exact List.mem_cons_self x L)
  · by_cases hj : j = id
    · rw [hj, upd_same] at ha
      rw [hj, hL]; exact List.mem_cons_of_mem x ha
    · rw [upd_other _ _ _ _ hj] at ha; exact ha
  · have hax : a ≠ x := fun hc => ha (by rw [hL, hc]; exact List.mem_cons_self x L)
    rw [freelist_pop_heap, hx]
    dsimp only
    rw [if_neg hax, if_neg hax, if_neg]
    intro hc
    rcases hn with hz | hm
    · exact hc.2 hz
    · exact ha (by rw [hL, hc.1]; exact List.mem_cons_of_mem x hm)

/-- When `slabs_init` has built the table every freelist is empty. -/
theorem AllWF.start (b : Build) (cfg : settings_t) (heap0 : Nat → item)
    (limit fnum fden : Nat) (prealloc : Bool) (base : Nat) (seed : Option Nat) :
    AllWF (slabs_init_start b (boot cfg heap0) limit fnum fden prealloc base seed)
      (fun _ => []) := by
  have hf := (slabs_init_start_fresh b cfg heap0 limit fnum fden prealloc base seed).1
  refine ⟨fun id => (hf id).2.2.1, fun id => (hf id).2.1,
    fun _ a ha => absurd ha (List.not_mem_nil a), fun _ _ _ a ha => absurd ha (List.not_mem_nil a)⟩

theorem state_small_start :
    state_small =
      slabs_init_start build_default (boot cfg_small (fun _ => item.zero)) 4096 2 1 false 0
        none := rfl

theorem is_freelist_cycle (heap : Nat → item) (a : Nat) (l : List Nat)
    (hnext : (heap a).next = a) (ha : a ≠ 0) : ¬ is_freelist heap a l := by
  intro hl
  cases l with
  | nil => exact ha hl
  | cons x l =>
    obtain ⟨e, _, hl2⟩ := hl
    rw [← e, hnext] at hl2
    have hl1 : is_freelist heap a (x :: l) := ⟨e, by rw [← e]; exact ha, by
      rw [← e, hnext]; exact hl2⟩
    have := is_freelist_unique heap l (x :: l) a hl2 hl1
    have hlen := congrArg List.length this
    rw [List.length_cons] at hlen
    omega


/-! ## The lock operations of `slab_rebalance_move` -/

/-- The locks held after two sequences of operations, one after the other. -/
theorem lock_run_append (l : lock_state) (a b : List lock_event) :
    l.run (a ++ b) = (l.run a).run b := by
  unfold lock_state.run
  rw [List.foldl_append]

/-- The lock discipline of a sequence made of two parts. -/
theorem lock_discipline_append (a b : List lock_event) :
    ∀ l : lock_state,
      lock_discipline l (a ++ b) = (lock_discipline l a && lock_discipline (l.run a) b) := by
  induction a with
  | nil =>
    intro l
    simp [lock_discipline, lock_state.run]
  | cons ev a ih =>
    intro l
    simp [lock_discipline, lock_state.run, ih, Bool.and_assoc]

/-- The status computed under the item lock is BUSY or FROM_LRU. -/
theorem move_locked_status_lru (r f : Nat)
    (h : move_locked_status r f ≠ move_status.MOVE_BUSY) :
    move_locked_status r f = move_status.MOVE_FROM_LRU := by
  unfold move_locked_status at h ⊢
  split_ifs at h ⊢
  · rfl
  · exact absurd rfl h
  · exact absurd rfl h

/-- The classification of a chunk, entered with `slabs_lock` held and no item lock held,
follows the lock discipline; the item lock is held afterwards exactly when the model of
the classification says so, which is exactly when the status is FROM_LRU. -/
theorem move_classify_events_spec (s : State) (e : MoveEnv) :
    lock_discipline lock_state.scanning (move_classify_events s e) = true ∧
    lock_state.scanning.run (move_classify_events s e) =
      { lock_state.scanning with item_held := (move_classify s e).hold_lock } ∧
    ((move_classify s e).hold_lock = true ↔
      (move_classify s e).status = move_status.MOVE_FROM_LRU) := by
  unfold move_classify_events move_classify
  dsimp only
  split_ifs with h1 h2 h3 h4 h5
  · exact ⟨by decide, rfl, by simp⟩
  · exact ⟨by decide, rfl, by simp⟩
  · refine ⟨by decide, rfl, ?_⟩
    rw [h5]
    simp
  · refine ⟨by decide, rfl, ?_⟩
    rw [move_locked_status_lru _ _ h5]
    simp
  · exact ⟨by decide, rfl, by simp⟩
  · exact ⟨by decide, rfl, by simp⟩

/-- One iteration of the loop of `slab_rebalance_move`, entered with `slabs_lock` held and
no item lock held, follows the lock discipline and ends with the same locks held. -/
theorem move_chunk_events_spec (s : State) (e : MoveEnv) :
    lock_discipline lock_state.scanning (move_chunk_events s e) = true ∧
    lock_state.scanning.run (move_chunk_events s e) = lock_state.scanning := by
  obtain ⟨h1, h2, h3⟩ := move_classify_events_spec s e
  unfold move_chunk_events
  dsimp only
  rw [lock_discipline_append, lock_run_append, h1, h2]
  by_cases hs : (move_classify s e).status = move_status.MOVE_FROM_LRU
  · rw [hs, h3.mpr hs]
    unfold move_switch_events
    dsimp only
    by_cases ha : (lru_alloc (move_classify s e).state e).1 ≠ 0
    · rw [if_pos ha]
      exact ⟨by decide, by decide⟩
    · rw [if_neg ha]
      exact ⟨by decide, by decide⟩
  · have hh : (move_classify s e).hold_lock = false := by
      cases hb : (move_classify s e).hold_lock
      · rfl
      · exact absurd (h3.mp hb) hs
    rw [hh]
    cases hst : (move_classify s e).status
    · exact ⟨rfl, rfl⟩
    · exact ⟨rfl, rfl⟩
    · exact absurd hst hs
    · exact ⟨rfl, rfl⟩
    · exact ⟨rfl, rfl⟩

/-- The loop of `slab_rebalance_move`, entered with `slabs_lock` held and no item lock
held, follows the lock discipline and ends with the same locks held. -/
theorem move_loop_events_spec (envs : Nat → MoveEnv) (n : Nat) :
    ∀ (x : Nat) (s : State),
      lock_discipline lock_state.scanning (move_loop_events envs n x s) = true ∧
      lock_state.scanning.run (move_loop_events envs n x s) = lock_state.scanning := by
  induction n with
  | zero =>
    intro x s
    exact ⟨rfl, rfl⟩
  | succ n ih =>
    intro x s
    obtain ⟨h1, h2⟩ := move_chunk_events_spec s (envs x)
    unfold move_loop_events
    dsimp only
    split_ifs with hc
    · exact ⟨h1, h2⟩
    · obtain ⟨h3, h4⟩ := ih (x + 1) (move_chunk s (envs x)).state
      rw [lock_discipline_append, lock_run_append, h1, h2, h3, h4]
      exact ⟨rfl, rfl⟩

/-- The end of `slab_rebalance_move` takes the statistics lock under `slabs_lock` and
releases it again. -/
theorem move_tail_events_spec (s : State) :
    lock_discipline lock_state.scanning (move_tail_events s) = true ∧
    lock_state.scanning.run (move_tail_events s) = lock_state.scanning := by
  unfold move_tail_events
  split_ifs
  · exact ⟨by decide, by decide⟩
  · exact ⟨by decide, by decide⟩
  · exact ⟨by decide, by decide⟩


/-- The classification of a chunk never releases `slabs_lock`. -/
theorem move_classify_events_keep (s : State) (e : MoveEnv) :
    lock_event.slabs_unlock ∉ move_classify_events s e := by
  unfold move_classify_events
  dsimp only
  split_ifs <;> decide

/-- The `switch` releases `slabs_lock` exactly in `case MOVE_FROM_LRU:`. -/
theorem move_switch_events_unlock (st : move_status) (s : State) (e : MoveEnv) :
    lock_event.slabs_unlock ∈ move_switch_events st s e ↔ st = move_status.MOVE_FROM_LRU := by
  cases st
  · exact ⟨fun h => absurd h (List.not_mem_nil _), fun h => move_status.noConfusion h⟩
  · exact ⟨fun h => absurd h (List.not_mem_nil _), fun h => move_status.noConfusion h⟩
  · exact ⟨fun _ => rfl, fun _ => List.mem_cons_self _ _⟩
  · exact ⟨fun h => absurd h (List.not_mem_nil _), fun h => move_status.noConfusion h⟩
  · exact ⟨fun h => absurd h (List.not_mem_nil _), fun h => move_status.noConfusion h⟩

/-! ## C32: the lock order of `slab_rebalance_move` -/

set_option maxRecDepth 8000 in
/-- C32 (as stated): in the state `state_scan_linked` the cursor of the scan is on a linked
item whose lock is free.  One call of `slab_rebalance_move` (with `slab_bulk_check = 1`)
classifies it as FROM_LRU and performs the lock operations `lock slabs_lock`,
`item_trylock` (successful), `unlock slabs_lock`, `do_item_replace`,
`item_trylock_unlock`, `lock slabs_lock`, `unlock slabs_lock`: the item lock is attempted
and obtained while `slabs_lock` is held, so the lock order of the specification does not
hold for this execution. -/
theorem lock_order_counterexample :
    (move_chunk state_scan_linked env_linked).status = move_status.MOVE_FROM_LRU ∧
    slab_rebalance_move_events state_scan_linked 1 (fun _ => env_linked) =
      [lock_event.slabs_lock, lock_event.item_trylock true, lock_event.slabs_unlock,
       lock_event.do_item_replace, lock_event.item_trylock_unlock, lock_event.slabs_lock,
       lock_event.slabs_unlock] ∧
    item_lock_outside_slabs lock_state.worker
      (slab_rebalance_move_events state_scan_linked 1 (fun _ => env_linked)) = false := by
  decide

/-- C32 (amended): every execution of `slab_rebalance_move`, from any state, for any value
of `slab_bulk_check` and any behaviour of the item subsystem, follows the lock discipline
`lock_event.allowed` when it is entered as `slab_rebalance_thread` enters it, holding
`slabs_rebalance_lock` and no other lock: it makes every lock operation with
`slabs_rebalance_lock` held; it takes `slabs_lock` first; it attempts an item lock only
through the non-blocking `item_trylock`, while it holds `slabs_lock` and no other item lock;
it calls `do_item_replace` or `do_item_unlink` only with the item lock held and `slabs_lock`
released; it takes `slabs_lock` again only after the item lock was released, so `slabs_lock`
is never acquired while an item lock is held; and it returns holding `slabs_rebalance_lock`
and no other lock.  In an iteration of its loop `slabs_lock` is released exactly when the
chunk is FROM_LRU, and the item lock that the classification leaves held is the one the
model of the classification reports. -/
theorem slab_rebalance_move_lock_order (s : State) (bulk : Int) (envs : Nat → MoveEnv) :
    lock_discipline lock_state.worker (slab_rebalance_move_events s bulk envs) = true ∧
    lock_state.worker.run (slab_rebalance_move_events s bulk envs) = lock_state.worker ∧
    (∀ (t : State) (e : MoveEnv),
      (lock_event.slabs_unlock ∈ move_chunk_events t e ↔
        (move_chunk t e).status = move_status.MOVE_FROM_LRU) ∧
      (lock_state.scanning.run (move_classify_events t e)).item_held =
        (move_classify t e).hold_lock ∧
      lock_state.scanning.run (move_chunk_events t e) = lock_state.scanning) := by
  obtain ⟨h1, h2⟩ := move_loop_events_spec envs bulk.toNat 0 s
  obtain ⟨h3, h4⟩ := move_tail_events_spec (move_loop envs bulk.toNat 0 0 s).2
  have e0 : lock_state.worker.run [lock_event.slabs_lock] = lock_state.scanning := rfl
  have e1 : lock_discipline lock_state.worker [lock_event.slabs_lock] = true := rfl
  have e2 : lock_discipline lock_state.scanning [lock_event.slabs_unlock] = true := rfl
  have e3 : lock_state.scanning.run [lock_event.slabs_unlock] = lock_state.worker := rfl
  refine ⟨?_, ?_, ?_⟩
  · unfold slab_rebalance_move_events
    simp only [lock_discipline_append, lock_run_append, e0, e1, h1, h2, h3, h4, e2,
      Bool.and_self]
  · unfold slab_rebalance_move_events
    simp only [lock_run_append, e0, h2, h4, e3]
  · intro t e
    refine ⟨?_, ?_, (move_chunk_events_spec t e).2⟩
    · have hst : (move_chunk t e).status = (move_classify t e).status := rfl
      rw [hst]
      unfold move_chunk_events
      dsimp only
      rw [List.mem_append, move_switch_events_unlock]
      exact ⟨fun h => h.elim (fun h0 => absurd h0 (move_classify_events_keep t e)) id,
        fun h => Or.inr h⟩
    · rw [(move_classify_events_spec t e).2.1]


/-! ## What leaves the capacity of the page vectors alone -/

theorem SameCap.rfl_cap (s : State) : SameCap s s := ⟨fun _ => rfl⟩

theorem SameCap.andThen_cap {s t u : State} (h1 : SameCap s t) (h2 : SameCap t u) :
    SameCap s u :=
  ⟨fun j => (h2.list_size j).trans (h1.list_size j)⟩

theorem setHeap_sameCap (s : State) (h : Nat → item) : SameCap s (s.setHeap h) :=
  ⟨fun _ => rfl⟩

theorem setClass_sameCap (s : State) (id : Nat) (p : slabclass_t)
    (h : p.list_size = (s.slabclass id).list_size) : SameCap s (s.setClass id p) := by
  refine ⟨fun j => ?_⟩
  by_cases hj : j = id <;> simp [State.setClass, upd, hj, h]

theorem do_slabs_free_sameCap (s : State) (ptr size id : Nat) :
    SameCap s (do_slabs_free s ptr size id) := by
  unfold do_slabs_free
  split
  · exact SameCap.rfl_cap s
  · exact (setHeap_sameCap s _).andThen_cap (setClass_sameCap _ id _ rfl)

theorem split_loop_sameCap (id : Nat) :
    ∀ n ptr s, SameCap s (split_loop id n ptr s) := by
  intro n
  induction n with
  | zero => intro ptr s; exact SameCap.rfl_cap s
  | succ n ih =>
    intro ptr s
    unfold split_loop
    exact (do_slabs_free_sameCap s ptr 0 id).andThen_cap (ih _ _)

theorem freelist_pop_sameCap (s : State) (size id : Nat) :
    SameCap s (freelist_pop s size id).2 :=
  (setHeap_sameCap s _).andThen_cap (setClass_sameCap _ id _ rfl)

theorem do_slabs_alloc_no_newpage_sameCap (s : State) (size id : Nat) (h : Host) :
    SameCap s (do_slabs_alloc s size id SLABS_ALLOC_NO_NEWPAGE h).2 := by
  rw [do_slabs_alloc_no_newpage_eq]
  split
  · exact SameCap.rfl_cap s
  · split
    · exact freelist_pop_sameCap s size id
    · exact SameCap.rfl_cap s

theorem requested_sub_sameCap (s : State) (id size : Nat) :
    SameCap s (requested_sub s id size) :=
  setClass_sameCap s id _ rfl

theorem rebalance_alloc_skip_sameCap (s : State) (size new_it : Nat) :
    SameCap s (rebalance_alloc_skip s size new_it) := by
  have h1 := requested_sub_sameCap s s.slab_rebal.s_clsid.toNat size
  exact ⟨h1.list_size⟩

theorem slab_rebalance_alloc_loop_sameCap (size id : Nat) :
    ∀ n s, SameCap s (slab_rebalance_alloc_loop size id n s).2 := by
  intro n
  induction n with
  | zero => intro s; exact SameCap.rfl_cap s
  | succ n ih =>
    intro s
    have ha := do_slabs_alloc_no_newpage_sameCap s size id host_unused
    unfold slab_rebalance_alloc_loop
    dsimp only
    split
    · exact ha
    · split
      · exact (ha.andThen_cap (rebalance_alloc_skip_sameCap _ _ _)).andThen_cap (ih _)
      · exact ha

theorem freelist_unlink_sameCap (s : State) (sc it : Nat) :
    SameCap s (freelist_unlink s sc it) :=
  (setHeap_sameCap s _).andThen_cap (setClass_sameCap _ sc _ rfl)

theorem move_classify_sameCap (s : State) (e : MoveEnv) :
    SameCap s (move_classify s e).state := by
  unfold move_classify
  dsimp only
  split
  · split
    · exact freelist_unlink_sameCap s _ _
    · split
      · split
        · exact SameCap.rfl_cap s
        · split
          · exact ⟨fun _ => rfl⟩
          · exact ⟨fun _ => rfl⟩
      · exact SameCap.rfl_cap s
  · exact SameCap.rfl_cap s

theorem lru_alloc_sameCap (s : State) (e : MoveEnv) : SameCap s (lru_alloc s e).2 := by
  unfold lru_alloc
  split
  · exact SameCap.rfl_cap s
  · exact slab_rebalance_alloc_loop_sameCap _ _ _ s

theorem move_from_lru_sameCap (s : State) (e : MoveEnv) :
    SameCap s (move_from_lru s e) := by
  have ha := lru_alloc_sameCap s e
  unfold move_from_lru
  dsimp only
  refine SameCap.andThen_cap ?_ (requested_sub_sameCap _ _ _)
  split
  · split
    · exact ⟨ha.list_size⟩
    · exact ⟨ha.list_size⟩
  · split
    · exact ⟨ha.list_size⟩
    · exact ⟨ha.list_size⟩

theorem move_switch_sameCap (st : move_status) (s : State) (e : MoveEnv) (it : Nat) :
    SameCap s (move_switch st s e it) := by
  cases st
  · exact SameCap.rfl_cap s
  · exact ⟨fun _ => rfl⟩
  · exact ⟨(move_from_lru_sameCap s e).list_size⟩
  · exact ⟨fun _ => rfl⟩
  · exact ⟨fun _ => rfl⟩

theorem move_chunk_sameCap (s : State) (e : MoveEnv) :
    SameCap s (move_chunk s e).state := by
  have h := (move_classify_sameCap s e).andThen_cap
    (move_switch_sameCap (move_classify s e).status (move_classify s e).state e
      s.slab_rebal.slab_pos)
  exact ⟨h.list_size⟩

theorem move_loop_sameCap (envs : Nat → MoveEnv) :
    ∀ n x wb s, SameCap s (move_loop envs n x wb s).2 := by
  intro n
  induction n with
  | zero => intro x wb s; exact SameCap.rfl_cap s
  | succ n ih =>
    intro x wb s
    unfold move_loop
    dsimp only
    split
    · exact move_chunk_sameCap s _
    · exact (move_chunk_sameCap s _).andThen_cap (ih _ _ _)

/-- The end of `slab_rebalance_move` changes the cursor, `busy_items`, `done` and the
statistics only. -/
theorem move_tail_classes (s : State) :
    (move_tail s).slabclass = s.slabclass ∧ (move_tail s).power_largest = s.power_largest ∧
    (move_tail s).slab_rebalance_signal = s.slab_rebalance_signal ∧
    (move_tail s).slab_rebal.s_clsid = s.slab_rebal.s_clsid ∧
    (move_tail s).slab_rebal.d_clsid = s.slab_rebal.d_clsid := by
  unfold move_tail
  split
  · split
    · exact ⟨rfl, rfl, rfl, rfl, rfl⟩
    · exact ⟨rfl, rfl, rfl, rfl, rfl⟩
  · exact ⟨rfl, rfl, rfl, rfl, rfl⟩

/-- A call of `slab_rebalance_move` changes no page count, no capacity of a page vector,
and neither the signal nor the published class ids. -/
theorem slab_rebalance_move_vectors (s : State) (bulk : Int) (envs : Nat → MoveEnv) :
    (∀ j, ((slab_rebalance_move s bulk envs).2.slabclass j).slabs = (s.slabclass j).slabs) ∧
    (∀ j, ((slab_rebalance_move s bulk envs).2.slabclass j).list_size =
      (s.slabclass j).list_size) ∧
    (slab_rebalance_move s bulk envs).2.power_largest = s.power_largest ∧
    (slab_rebalance_move s bulk envs).2.slab_rebalance_signal = s.slab_rebalance_signal ∧
    (slab_rebalance_move s bulk envs).2.slab_rebal.s_clsid = s.slab_rebal.s_clsid ∧
    (slab_rebalance_move s bulk envs).2.slab_rebal.d_clsid = s.slab_rebal.d_clsid := by
  have h1 := move_loop_scanFrame envs bulk.toNat 0 0 s
  have h2 := move_loop_sameCap envs bulk.toNat 0 0 s
  have h3 := move_tail_classes (move_loop envs bulk.toNat 0 0 s).2
  unfold slab_rebalance_move
  dsimp only
  refine ⟨fun j => ?_, fun j => ?_, ?_, ?_, ?_, ?_⟩
  · rw [h3.1]; exact h1.slabs j
  · rw [h3.1]; exact h2.list_size j
  · rw [h3.2.1]; exact h1.power_largest
  · rw [h3.2.2.1]; exact h1.signal
  · rw [h3.2.2.2.1]; exact h1.s_clsid
  · rw [h3.2.2.2.2]; exact h1.d_clsid


/-! ## Page counts and capacities under the page operations -/

/-- The function `grow_slab_list` changes the capacity of class `id` only, never lowers it,
and when it succeeds on a class with `slabs <= list_size` a slot is spare afterwards. -/
theorem grow_slab_list_cap (s : State) (id : Nat) (ok : Bool) :
    (∀ j, j ≠ id →
      ((grow_slab_list s id ok).2.slabclass j).list_size = (s.slabclass j).list_size) ∧
    (s.slabclass id).list_size ≤ ((grow_slab_list s id ok).2.slabclass id).list_size ∧
    ((grow_slab_list s id ok).1 ≠ 0 → (s.slabclass id).slabs ≤ (s.slabclass id).list_size →
      (s.slabclass id).slabs < ((grow_slab_list s id ok).2.slabclass id).list_size) := by
  unfold grow_slab_list
  dsimp only
  by_cases h1 : (s.slabclass id).slabs = (s.slabclass id).list_size
  · rw [if_pos h1]
    by_cases h2 : ok = false
    · rw [if_pos h2]
      exact ⟨fun _ _ => rfl, le_refl _, fun h => absurd rfl h⟩
    · rw [if_neg h2]
      refine ⟨fun j hj => ?_, ?_, fun _ _ => ?_⟩
      · simp [State.setClass, upd, hj]
      · simp only [State.setClass, upd, if_pos]
        split_ifs <;> omega
      · simp only [State.setClass, upd, if_pos]
        split_ifs <;> omega
  · rw [if_neg h1]
    exact ⟨fun _ _ => rfl, le_refl _, fun _ hle => Nat.lt_of_le_of_ne hle h1⟩

/-- The function `get_page_from_global_pool` changes no capacity and the page count of the
global pool only, which it may lower. -/
theorem get_page_from_global_pool_cap (s : State) :
    SameCap s (get_page_from_global_pool s).2 ∧
    (∀ j, ((get_page_from_global_pool s).2.slabclass j).slabs ≤ (s.slabclass j).slabs) ∧
    (∀ j, 1 ≤ j →
      ((get_page_from_global_pool s).2.slabclass j).slabs = (s.slabclass j).slabs) := by
  unfold get_page_from_global_pool
  dsimp only
  split
  · exact ⟨SameCap.rfl_cap s, fun _ => le_refl _, fun _ _ => rfl⟩
  · refine ⟨setClass_sameCap s _ _ rfl, fun j => ?_, fun j hj => ?_⟩
    · by_cases h0 : j = SLAB_GLOBAL_PAGE_POOL
      · simp [State.setClass, upd, h0]
      · simp [State.setClass, upd, h0]
    · have h0 : j ≠ SLAB_GLOBAL_PAGE_POOL := by
        simp only [SLAB_GLOBAL_PAGE_POOL]
        omega
      simp [State.setClass, upd, h0]

/-- The page acquisition of `do_slabs_newslab` changes no capacity and the page count of
the global pool only, which it may lower. -/
theorem newslab_get_page_cap (s : State) (len ret : Nat) :
    SameCap s (newslab_get_page s len ret).2 ∧
    (∀ j, ((newslab_get_page s len ret).2.slabclass j).slabs ≤ (s.slabclass j).slabs) ∧
    (∀ j, 1 ≤ j → ((newslab_get_page s len ret).2.slabclass j).slabs = (s.slabclass j).slabs) := by
  obtain ⟨h1, h2, h3⟩ := get_page_from_global_pool_cap s
  have hm := (memory_allocate_effect (get_page_from_global_pool s).2 len ret).1
  unfold newslab_get_page
  dsimp only
  split
  · refine ⟨⟨fun j => ?_⟩, fun j => ?_, fun j hj => ?_⟩
    · rw [hm]
      exact h1.list_size j
    · rw [hm]
      exact h2 j
    · rw [hm]
      exact h3 j hj
  · exact ⟨h1, h2, h3⟩

/-- The installation of a page changes no capacity. -/
theorem newslab_install_sameCap (s : State) (ptr id len : Nat) :
    SameCap s (newslab_install s ptr id len) :=
  ((setHeap_sameCap s _).andThen_cap (split_loop_sameCap id _ _ _)).andThen_cap
    (setClass_sameCap _ id _ rfl)

/-- The function `do_slabs_newslab(id)` for a class `id >= 1` keeps `slabs <= list_size` in
every class; in the classes other than `id` it changes no capacity and raises no page
count, and it lowers no page count but that of the global pool. -/
theorem do_slabs_newslab_vectors (s : State) (id : Nat) (h : Host) (hid : 1 ≤ id)
    (hle : ∀ j, (s.slabclass j).slabs ≤ (s.slabclass j).list_size) :
    (∀ j, ((do_slabs_newslab s id h).2.slabclass j).slabs ≤
      ((do_slabs_newslab s id h).2.slabclass j).list_size) ∧
    (∀ j, j ≠ id →
      ((do_slabs_newslab s id h).2.slabclass j).slabs ≤ (s.slabclass j).slabs ∧
      ((do_slabs_newslab s id h).2.slabclass j).list_size = (s.slabclass j).list_size) ∧
    (∀ j, 1 ≤ j → (s.slabclass j).slabs ≤ ((do_slabs_newslab s id h).2.slabclass j).slabs) := by
  obtain ⟨g1, g2, g3⟩ := grow_slab_list_cap s id h.realloc_ok
  have gp := grow_slab_list_samePages s id h.realloc_ok
  obtain ⟨p1, p2, p3⟩ := newslab_get_page_cap (grow_slab_list s id h.realloc_ok).2
    (page_len s id) h.malloc_ret
  have hgle : ∀ j, ((grow_slab_list s id h.realloc_ok).2.slabclass j).slabs ≤
      ((grow_slab_list s id h.realloc_ok).2.slabclass j).list_size := by
    intro j
    rw [gp.slabs j]
    by_cases hj : j = id
    · rw [hj]
      exact le_trans (hle id) g2
    · rw [g1 j hj]
      exact hle j
  rcases do_slabs_newslab_cases s id h with ⟨_, _, _, _, e⟩ | ⟨_, ⟨_, e⟩ | ⟨hg, ⟨_, e⟩ | ⟨_, e⟩⟩⟩
  · rw [e]
    exact ⟨hle, fun j _ => ⟨le_refl _, rfl⟩, fun j _ => le_refl _⟩
  · rw [e]
    refine ⟨hgle, fun j hj => ⟨by rw [gp.slabs j], g1 j hj⟩, fun j _ => by rw [gp.slabs j]⟩
  · rw [e]
    refine ⟨fun j => ?_, fun j hj => ⟨?_, ?_⟩, fun j hj => ?_⟩
    · rw [p1.list_size j]
      exact le_trans (p2 j) (hgle j)
    · have := p2 j
      rw [gp.slabs j] at this
      exact this
    · rw [p1.list_size j, g1 j hj]
    · rw [p3 j hj, gp.slabs j]
  · rw [e]
    have i1 := newslab_install_slabs
      (newslab_get_page (grow_slab_list s id h.realloc_ok).2 (page_len s id) h.malloc_ret).2
      (newslab_get_page (grow_slab_list s id h.realloc_ok).2 (page_len s id) h.malloc_ret).1
      id (page_len s id)
    have i2 := newslab_install_samePages_other
      (newslab_get_page (grow_slab_list s id h.realloc_ok).2 (page_len s id) h.malloc_ret).2
      (newslab_get_page (grow_slab_list s id h.realloc_ok).2 (page_len s id) h.malloc_ret).1
      id (page_len s id)
    have i3 := newslab_install_sameCap
      (newslab_get_page (grow_slab_list s id h.realloc_ok).2 (page_len s id) h.malloc_ret).2
      (newslab_get_page (grow_slab_list s id h.realloc_ok).2 (page_len s id) h.malloc_ret).1
      id (page_len s id)
    have hspare := g3 hg (hle id)
    refine ⟨fun j => ?_, fun j hj => ⟨?_, ?_⟩, fun j hj => ?_⟩
    · rw [i3.list_size j, p1.list_size j]
      by_cases hj : j = id
      · rw [hj, i1.1, p3 id hid, gp.slabs id]
        exact hspare
      · rw [i2 j hj]
        exact le_trans (p2 j) (hgle j)
    · rw [i2 j hj]
      have := p2 j
      rw [gp.slabs j] at this
      exact this
    · rw [i3.list_size j, p1.list_size j, g1 j hj]
    · by_cases hji : j = id
      · rw [hji, i1.1, p3 id hid, gp.slabs id]
        exact Nat.le_succ _
      · rw [i2 j hji, p3 j hj, gp.slabs j]


/-- The refill of `do_slabs_alloc` for a class `id >= 1`: as `do_slabs_newslab_vectors`,
and nothing changes when the freelist is not empty or the flag is `SLABS_ALLOC_NO_NEWPAGE`. -/
theorem alloc_refill_vectors (s : State) (id flags : Nat) (h : Host) (hid : 1 ≤ id)
    (hle : ∀ j, (s.slabclass j).slabs ≤ (s.slabclass j).list_size) :
    (∀ j, ((alloc_refill s id flags h).slabclass j).slabs ≤
      ((alloc_refill s id flags h).slabclass j).list_size) ∧
    (∀ j, j ≠ id →
      ((alloc_refill s id flags h).slabclass j).slabs ≤ (s.slabclass j).slabs ∧
      ((alloc_refill s id flags h).slabclass j).list_size = (s.slabclass j).list_size) ∧
    (∀ j, 1 ≤ j → (s.slabclass j).slabs ≤ ((alloc_refill s id flags h).slabclass j).slabs) ∧
    ((s.slabclass id).sl_curr ≠ 0 ∨ flags = SLABS_ALLOC_NO_NEWPAGE →
      alloc_refill s id flags h = s) := by
  unfold alloc_refill
  by_cases hc : (s.slabclass id).sl_curr = 0 ∧ flags ≠ SLABS_ALLOC_NO_NEWPAGE
  · rw [if_pos hc]
    obtain ⟨h1, h2, h3⟩ := do_slabs_newslab_vectors s id h hid hle
    exact ⟨h1, h2, h3, fun hq => hq.elim (fun h0 => absurd hc.1 h0) (fun h0 => absurd h0 hc.2)⟩
  · rw [if_neg hc]
    exact ⟨hle, fun _ _ => ⟨le_refl _, rfl⟩, fun _ _ => le_refl _, fun _ => rfl⟩

/-- The function `do_slabs_alloc` keeps `slabs <= list_size` in every class; in the classes
other than `id` it changes no capacity and raises no page count, it lowers no page count
but that of the global pool, and it changes no page count and no capacity at all when the
freelist of the class is not empty or the flag is `SLABS_ALLOC_NO_NEWPAGE`. -/
theorem do_slabs_alloc_vectors (s : State) (size id flags : Nat) (h : Host)
    (hle : ∀ j, (s.slabclass j).slabs ≤ (s.slabclass j).list_size) :
    (∀ j, ((do_slabs_alloc s size id flags h).2.slabclass j).slabs ≤
      ((do_slabs_alloc s size id flags h).2.slabclass j).list_size) ∧
    (∀ j, j ≠ id →
      ((do_slabs_alloc s size id flags h).2.slabclass j).slabs ≤ (s.slabclass j).slabs ∧
      ((do_slabs_alloc s size id flags h).2.slabclass j).list_size =
        (s.slabclass j).list_size) ∧
    (∀ j, 1 ≤ j →
      (s.slabclass j).slabs ≤ ((do_slabs_alloc s size id flags h).2.slabclass j).slabs) ∧
    ((s.slabclass id).sl_curr ≠ 0 ∨ flags = SLABS_ALLOC_NO_NEWPAGE →
      ∀ j, ((do_slabs_alloc s size id flags h).2.slabclass j).slabs = (s.slabclass j).slabs ∧
        ((do_slabs_alloc s size id flags h).2.slabclass j).list_size =
          (s.slabclass j).list_size) := by
  rcases do_slabs_alloc_cases s size id flags h with ⟨_, e⟩ | ⟨hv, ⟨_, e⟩ | ⟨_, e⟩⟩
  · rw [e]
    exact ⟨hle, fun _ _ => ⟨le_refl _, rfl⟩, fun _ _ => le_refl _, fun _ _ => ⟨rfl, rfl⟩⟩
  · have hid : 1 ≤ id := by
      have hps : POWER_SMALLEST = 1 := rfl
      rw [hps] at hv
      omega
    obtain ⟨h1, h2, h3, h4⟩ := alloc_refill_vectors s id flags h hid hle
    have q1 := freelist_pop_samePages (alloc_refill s id flags h) size id
    have q2 := freelist_pop_sameCap (alloc_refill s id flags h) size id
    rw [e]
    refine ⟨fun j => ?_, fun j hj => ?_, fun j hj => ?_, fun hq j => ?_⟩
    · rw [q1.slabs j, q2.list_size j]
      exact h1 j
    · rw [q1.slabs j, q2.list_size j]
      exact h2 j hj
    · rw [q1.slabs j]
      exact h3 j hj
    · rw [q1.slabs j, q2.list_size j, h4 hq]
      exact ⟨rfl, rfl⟩
  · have hid : 1 ≤ id := by
      have hps : POWER_SMALLEST = 1 := rfl
      rw [hps] at hv
      omega
    obtain ⟨h1, h2, h3, h4⟩ := alloc_refill_vectors s id flags h hid hle
    rw [e]
    refine ⟨h1, h2, h3, fun hq j => ?_⟩
    rw [h4 hq]
    exact ⟨rfl, rfl⟩

/-- The page vectors after `slab_rebalance_finish`, for a source `src` that owns a page and
a destination `dst` other than it: the source has one page less, the destination one page
more, no other page count and no capacity has changed; the rebalance is idle again. -/
theorem slab_rebalance_finish_vectors (s : State) (src dst : Nat)
    (hs : s.slab_rebal.s_clsid = (src : Int)) (hd : s.slab_rebal.d_clsid = (dst : Int))
    (hne : src ≠ dst) (hslabs : 1 ≤ (s.slabclass src).slabs) :
    ((slab_rebalance_finish s).slabclass src).slabs + 1 = (s.slabclass src).slabs ∧
    ((slab_rebalance_finish s).slabclass dst).slabs = (s.slabclass dst).slabs + 1 ∧
    (∀ j, j ≠ src → j ≠ dst →
      ((slab_rebalance_finish s).slabclass j).slabs = (s.slabclass j).slabs) ∧
    (∀ j, ((slab_rebalance_finish s).slabclass j).list_size = (s.slabclass j).list_size) ∧
    (slab_rebalance_finish s).slab_rebal.done = 0 ∧
    (slab_rebalance_finish s).slab_rebalance_signal = 0 ∧
    (slab_rebalance_finish s).power_largest = s.power_largest := by
  obtain ⟨_, l2, _, l4, l5⟩ := rebalance_move_lists_pages s src dst hs hd hne hslabs
  have lk := (rebalance_move_lists_keeps s).2.2.1
  have hcap : ∀ j, ((rebalance_move_lists s).slabclass j).list_size =
      (s.slabclass j).list_size := by
    have hc : SameCap s (rebalance_move_lists s) := by
      unfold rebalance_move_lists
      dsimp only
      refine SameCap.andThen_cap ?_ (setClass_sameCap _ _ _ ?_)
      · exact setClass_sameCap s _ _ rfl
      · rfl
    exact hc.list_size
  have hpage : (∀ j, ((rebalance_move_page s).slabclass j).slabs =
        ((rebalance_move_lists s).slabclass j).slabs) ∧
      (∀ j, ((rebalance_move_page s).slabclass j).list_size =
        ((rebalance_move_lists s).slabclass j).list_size) ∧
      (rebalance_move_page s).power_largest = (rebalance_move_lists s).power_largest := by
    unfold rebalance_move_page
    dsimp only
    split
    · have a1 := split_loop_samePages s.slab_rebal.d_clsid.toNat
        (((rebalance_move_lists s).setHeap
          (memset0 (rebalance_move_lists s).heap s.slab_rebal.slab_start
            s.settings.item_size_max)).slabclass s.slab_rebal.d_clsid.toNat).perslab
        s.slab_rebal.slab_start
        ((rebalance_move_lists s).setHeap
          (memset0 (rebalance_move_lists s).heap s.slab_rebal.slab_start
            s.settings.item_size_max))
      have a2 := split_loop_sameCap s.slab_rebal.d_clsid.toNat
        (((rebalance_move_lists s).setHeap
          (memset0 (rebalance_move_lists s).heap s.slab_rebal.slab_start
            s.settings.item_size_max)).slabclass s.slab_rebal.d_clsid.toNat).perslab
        s.slab_rebal.slab_start
        ((rebalance_move_lists s).setHeap
          (memset0 (rebalance_move_lists s).heap s.slab_rebal.slab_start
            s.settings.item_size_max))
      have a3 := split_loop_frame s.slab_rebal.d_clsid.toNat
        (((rebalance_move_lists s).setHeap
          (memset0 (rebalance_move_lists s).heap s.slab_rebal.slab_start
            s.settings.item_size_max)).slabclass s.slab_rebal.d_clsid.toNat).perslab
        s.slab_rebal.slab_start
        ((rebalance_move_lists s).setHeap
          (memset0 (rebalance_move_lists s).heap s.slab_rebal.slab_start
            s.settings.item_size_max))
      exact ⟨a1.slabs, a2.list_size, a3.power_largest⟩
    · exact ⟨fun _ => rfl, fun _ => rfl, rfl⟩
  obtain ⟨f1, _, _, f4⟩ := slab_rebalance_finish_fields s
  refine ⟨?_, ?_, fun j h1 h2 => ?_, fun j => ?_, rfl, rfl, ?_⟩
  · rw [f1, hpage.1 src]
    exact l2
  · rw [f1, hpage.1 dst]
    exact l4
  · rw [f1, hpage.1 j, l5 j h1 h2]
  · rw [f1, hpage.2.1 j]
    exact hcap j
  · rw [f4, hpage.2.2]
    exact lk


/-! ## C17: slab_rebalance_finish moves the scanned page -/

/-- The function `grow_slab_list` keeps `slabs <= list_size` in every class. -/
theorem grow_slab_list_le (s : State) (id : Nat) (ok : Bool)
    (hle : ∀ j, (s.slabclass j).slabs ≤ (s.slabclass j).list_size) :
    ∀ j, ((grow_slab_list s id ok).2.slabclass j).slabs ≤
      ((grow_slab_list s id ok).2.slabclass j).list_size := by
  obtain ⟨g1, g2, _⟩ := grow_slab_list_cap s id ok
  have gp := grow_slab_list_samePages s id ok
  intro j
  rw [gp.slabs j]
  by_cases hj : j = id
  · rw [hj]
    exact le_trans (hle id) g2
  · rw [g1 j hj]
    exact hle j

/-- The invariant passes to a state with the same page counts, capacities, signal and
published ids. -/
theorem CapInv.of_unchanged {s t : State} (h : CapInv s)
    (h1 : ∀ j, (t.slabclass j).slabs = (s.slabclass j).slabs)
    (h2 : ∀ j, (t.slabclass j).list_size = (s.slabclass j).list_size)
    (h3 : t.slab_rebalance_signal = s.slab_rebalance_signal)
    (h4 : t.slab_rebal.s_clsid = s.slab_rebal.s_clsid)
    (h5 : t.slab_rebal.d_clsid = s.slab_rebal.d_clsid) : CapInv t := by
  refine ⟨fun j => ?_, ?_, fun hsig => ?_⟩
  · rw [h1 j, h2 j]
    exact h.le j
  · rw [h3]
    exact h.signal
  · rw [h3] at hsig
    obtain ⟨src, dst, e1, e2, a1, a2, a3, a4⟩ := h.spare hsig
    refine ⟨src, dst, by rw [h4]; exact e1, by rw [h5]; exact e2, a1, a2, ?_, ?_⟩
    · rw [h1 src]
      exact a3
    · rw [h1 dst, h2 dst]
      exact a4

/-- The invariant passes to a state in which `slabs <= list_size` holds, with the same
signal and published ids, where no class but `id` has a page count raised or a capacity
changed, no class from 1 on has lost a page, and `id` is not the destination of a move in
progress. -/
theorem CapInv.of_grown {s t : State} (id : Nat) (h : CapInv s)
    (h1 : ∀ j, (t.slabclass j).slabs ≤ (t.slabclass j).list_size)
    (h2 : ∀ j, j ≠ id → (t.slabclass j).slabs ≤ (s.slabclass j).slabs ∧
      (t.slabclass j).list_size = (s.slabclass j).list_size)
    (h3 : ∀ j, 1 ≤ j → (s.slabclass j).slabs ≤ (t.slabclass j).slabs)
    (h4 : t.slab_rebalance_signal = s.slab_rebalance_signal)
    (h5 : t.slab_rebal = s.slab_rebal)
    (hq : s.slab_rebalance_signal = 2 → (id : Int) ≠ s.slab_rebal.d_clsid) : CapInv t := by
  refine ⟨h1, ?_, fun hsig => ?_⟩
  · rw [h4]
    exact h.signal
  · rw [h4] at hsig
    obtain ⟨src, dst, e1, e2, a1, a2, a3, a4⟩ := h.spare hsig
    have hne : dst ≠ id := by
      intro hc
      apply hq hsig
      rw [e2, hc]
    refine ⟨src, dst, by rw [h5]; exact e1, by rw [h5]; exact e2, a1, a2, ?_, ?_⟩
    · exact le_trans a3 (h3 src a1)
    · rw [(h2 dst hne).2]
      exact lt_of_le_of_lt (h2 dst hne).1 a4

/-- The state before the preallocation has an idle rebalance record. -/
theorem slabs_init_start_idle (b : Build) (cfg : settings_t) (heap0 : Nat → item)
    (limit fnum fden : Nat) (prealloc : Bool) (base : Nat) (seed : Option Nat) :
    (slabs_init_start b (boot cfg heap0) limit fnum fden prealloc base seed).slab_rebal
      = slab_rebalance.zero ∧
    (slabs_init_start b (boot cfg heap0) limit fnum fden prealloc base
      seed).slab_rebalance_signal = 0 := by
  unfold slabs_init_start
  dsimp only
  cases seed <;> cases prealloc <;> by_cases hb : base ≠ 0 <;> simp [hb, boot]


/-- The function `do_slabs_reassign` keeps the invariant of the page vectors and
`done = 0`. -/
theorem do_slabs_reassign_capInv (s : State) (src dst : Int) (h : CapInv s)
    (h0 : s.slab_rebal.done = 0) :
    CapInv (do_slabs_reassign s src dst).2 ∧
    (do_slabs_reassign s src dst).2.slab_rebal.done = 0 := by
  obtain ⟨r1, _, r3, r4, _⟩ := reassign_resolve_state s src dst
  have hres : CapInv (reassign_resolve s src dst).2 :=
    h.of_unchanged (fun j => by rw [r1]) (fun j => by rw [r1]) r4 (by rw [r3]) (by rw [r3])
  rcases do_slabs_reassign_cases s src dst with
    ⟨_, e⟩ | ⟨_, _, e⟩ | ⟨_, _, _, e⟩ | ⟨_, _, _, _, e⟩ | ⟨_, _, _, _, e⟩
  · rw [e]
    exact ⟨h, h0⟩
  · rw [e]
    exact ⟨h, h0⟩
  · rw [e]
    exact ⟨hres, by rw [r3]; exact h0⟩
  · rw [e]
    exact ⟨hres, by rw [r3]; exact h0⟩
  · rw [e]
    refine ⟨⟨fun j => ?_, Or.inr (Or.inl rfl), fun hsig => ?_⟩, ?_⟩
    · exact hres.le j
    · have h12 : (1 : Nat) = 2 := hsig
      exact absurd h12 (by decide)
    · show (reassign_resolve s src dst).2.slab_rebal.done = 0
      rw [r3]
      exact h0

/-- The first part of a turn of the worker keeps the invariant of the page vectors; when
it leaves `done` set, a page is being moved (signal 2), so that the destination has a spare
slot. -/
theorem rebalance_thread_dispatch_capInv (s : State) (was_busy : Nat) (ok : Bool)
    (bulk : Int) (envs : Nat → MoveEnv) (h : CapInv s) (h0 : s.slab_rebal.done = 0) :
    CapInv (rebalance_thread_dispatch s was_busy ok bulk envs).2 ∧
    ((rebalance_thread_dispatch s was_busy ok bulk envs).2.slab_rebal.done ≠ 0 →
      (rebalance_thread_dispatch s was_busy ok bulk envs).2.slab_rebalance_signal = 2) := by
  have hg := grow_slab_list_le s s.slab_rebal.d_clsid.toNat ok h.le
  have hgf := grow_slab_list_frame s s.slab_rebal.d_clsid.toNat ok
  have hgp := grow_slab_list_samePages s s.slab_rebal.d_clsid.toNat ok
  unfold rebalance_thread_dispatch
  by_cases h1 : s.slab_rebalance_signal = 1
  · rw [if_pos h1]
    dsimp only
    rcases slab_rebalance_start_cases s ok with ⟨hn, e⟩ | ⟨hn, e0, erb, esig, ecls, _, _, _⟩
    · have hneg := (rebalance_no_go_spec s ok).2 hn
      rw [e]
      dsimp only
      rw [if_pos hneg]
      have h02 : ¬ ((0 : Nat) = 2) := by decide
      refine ⟨⟨hg, Or.inl rfl, fun hsig => absurd hsig h02⟩, fun hd => ?_⟩
      exact absurd (by rw [hgf.slab_rebal]; exact h0) hd
    · rw [if_neg (by rw [e0]; decide)]
      obtain ⟨n1, _, n3, _, n5, n6, n7⟩ := (rebalance_no_go_spec s ok).1.mp hn
      have es : (slab_rebalance_start s ok).2.slab_rebal.s_clsid = s.slab_rebal.s_clsid := by
        rw [erb]
        show (grow_slab_list s s.slab_rebal.d_clsid.toNat ok).2.slab_rebal.s_clsid = _
        rw [hgf.slab_rebal]
      have ed : (slab_rebalance_start s ok).2.slab_rebal.d_clsid = s.slab_rebal.d_clsid := by
        rw [erb]
        show (grow_slab_list s s.slab_rebal.d_clsid.toNat ok).2.slab_rebal.d_clsid = _
        rw [hgf.slab_rebal]
      have edone : (slab_rebalance_start s ok).2.slab_rebal.done = 0 := by
        rw [erb]
      refine ⟨⟨fun j => ?_, Or.inr (Or.inr esig), fun _ => ?_⟩, fun hd => absurd edone hd⟩
      · rw [ecls]
        exact hg j
      · refine ⟨s.slab_rebal.s_clsid.toNat, s.slab_rebal.d_clsid.toNat, ?_, ?_, ?_, ?_, ?_, ?_⟩
        · rw [es, Int.toNat_of_nonneg (by omega)]
        · rw [ed, Int.toNat_of_nonneg n3]
        · omega
        · omega
        · rw [ecls, hgp.slabs]
          omega
        · rw [ecls, hgp.slabs]
          exact (grow_slab_list_cap s s.slab_rebal.d_clsid.toNat ok).2.2 n6 (h.le _)
  · rw [if_neg h1]
    by_cases h2 : s.slab_rebalance_signal ≠ 0 ∧ s.slab_rebal.slab_start ≠ 0
    · rw [if_pos h2]
      obtain ⟨v1, v2, _, v4, v5, v6⟩ := slab_rebalance_move_vectors s bulk envs
      have hsig : s.slab_rebalance_signal = 2 := by
        rcases h.signal with c | c | c
        · exact absurd c h2.1
        · exact absurd c h1
        · exact c
      exact ⟨h.of_unchanged v1 v2 v4 v5 v6, fun _ => by rw [v4]; exact hsig⟩
    · rw [if_neg h2]
      exact ⟨h, fun hd => absurd h0 hd⟩

/-- A turn of the rebalance worker keeps the invariant of the page vectors and ends with
`done = 0`; when it runs `slab_rebalance_finish`, the destination of the move has a spare
slot in its page vector at that point. -/
theorem rebalance_thread_step_capInv (s : State) (was_busy : Nat) (ok : Bool)
    (bulk : Int) (envs : Nat → MoveEnv) (h : CapInv s) (h0 : s.slab_rebal.done = 0) :
    CapInv (rebalance_thread_step s was_busy ok bulk envs).2 ∧
    (rebalance_thread_step s was_busy ok bulk envs).2.slab_rebal.done = 0 ∧
    ((rebalance_thread_dispatch s was_busy ok bulk envs).2.slab_rebal.done ≠ 0 →
      ((rebalance_thread_dispatch s was_busy ok bulk envs).2.slabclass
        (rebalance_thread_dispatch s was_busy ok bulk envs).2.slab_rebal.d_clsid.toNat).slabs <
      ((rebalance_thread_dispatch s was_busy ok bulk envs).2.slabclass
        (rebalance_thread_dispatch s was_busy ok bulk envs).2.slab_rebal.d_clsid.toNat).list_size)
    := by
  obtain ⟨hc, hd⟩ := rebalance_thread_dispatch_capInv s was_busy ok bulk envs h h0
  have hin : (rebalance_thread_dispatch s was_busy ok bulk envs).2.slab_rebal.done ≠ 0 →
      ((rebalance_thread_dispatch s was_busy ok bulk envs).2.slabclass
        (rebalance_thread_dispatch s was_busy ok bulk envs).2.slab_rebal.d_clsid.toNat).slabs <
      ((rebalance_thread_dispatch s was_busy ok bulk envs).2.slabclass
        (rebalance_thread_dispatch s was_busy ok bulk envs).2.slab_rebal.d_clsid.toNat).list_size
      := by
    intro hdone
    obtain ⟨src, dst, _, e2, _, _, _, a4⟩ := hc.spare (hd hdone)
    rw [e2, Int.toNat_ofNat]
    exact a4
  unfold rebalance_thread_step
  dsimp only
  by_cases hdone : (rebalance_thread_dispatch s was_busy ok bulk envs).2.slab_rebal.done ≠ 0
  · rw [if_pos hdone]
    obtain ⟨src, dst, e1, e2, a1, a2, a3, a4⟩ := hc.spare (hd hdone)
    obtain ⟨f1, f2, f3, f4, f5, f6, _⟩ := slab_rebalance_finish_vectors
      (rebalance_thread_dispatch s was_busy ok bulk envs).2 src dst e1 e2 a2 a3
    refine ⟨⟨fun j => ?_, Or.inl f6, fun hsig => ?_⟩, f5, hin⟩
    · dsimp only
      rw [f4 j]
      by_cases j1 : j = src
      · have := hc.le src
        rw [j1]
        omega
      · by_cases j2 : j = dst
        · rw [j2, f2]
          exact a4
        · rw [f3 j j1 j2]
          exact hc.le j
    · rw [f6] at hsig
      exact absurd hsig (by decide)
  · rw [if_neg hdone]
    exact ⟨hc, not_not.mp hdone, hin⟩

/-- In every state reached without a page added to the destination during a move, the
invariant of the page vectors holds and `done` is 0. -/
theorem SerialReach.capInv {b : Build} {cfg : settings_t} {s : State}
    (h : SerialReach b cfg s) : CapInv s ∧ s.slab_rebal.done = 0 := by
  induction h with
  | init heap0 limit fnum fden prealloc base seed =>
    obtain ⟨hf, _⟩ := slabs_init_start_fresh b cfg heap0 limit fnum fden prealloc base seed
    obtain ⟨i1, i2⟩ := slabs_init_start_idle b cfg heap0 limit fnum fden prealloc base seed
    refine ⟨⟨fun j => ?_, Or.inl i2, fun hsig => ?_⟩, by rw [i1]; rfl⟩
    · rw [(hf j).1, (hf j).2.2.2.1]
    · rw [i2] at hsig
      exact absurd hsig (by decide)
  | newslab s id hst hs hid hq ih =>
    obtain ⟨v1, v2, v3⟩ := do_slabs_newslab_vectors s id hst hid ih.1.le
    have fr := do_slabs_newslab_frame s id hst
    exact ⟨ih.1.of_grown id v1 v2 v3 fr.signal fr.slab_rebal hq,
      by rw [fr.slab_rebal]; exact ih.2⟩
  | alloc s size id flags hst hs hq ih =>
    obtain ⟨v1, v2, v3, v4⟩ := do_slabs_alloc_vectors s size id flags hst ih.1.le
    have fr := do_slabs_alloc_frame s size id flags hst
    refine ⟨?_, by rw [fr.slab_rebal]; exact ih.2⟩
    by_cases hc : s.slab_rebalance_signal = 2 ∧ (id : Int) = s.slab_rebal.d_clsid
    · have hsame := v4 (hq hc.1 hc.2)
      exact ih.1.of_unchanged (fun j => (hsame j).1) (fun j => (hsame j).2) fr.signal
        (by rw [fr.slab_rebal]) (by rw [fr.slab_rebal])
    · exact ih.1.of_grown id v1 v2 v3 fr.signal fr.slab_rebal
        (fun hsig hid => hc ⟨hsig, hid⟩)
  | free s ptr size id hs ih =>
    have fr := do_slabs_free_frame s ptr size id
    have sp := do_slabs_free_samePages s ptr size id
    have sc := do_slabs_free_sameCap s ptr size id
    exact ⟨ih.1.of_unchanged sp.slabs sc.list_size fr.signal (by rw [fr.slab_rebal])
      (by rw [fr.slab_rebal]), by rw [fr.slab_rebal]; exact ih.2⟩
  | reassign s src dst hs ih => exact do_slabs_reassign_capInv s src dst ih.1 ih.2
  | worker s was_busy realloc_ok bulk envs hs ih =>
    obtain ⟨w1, w2, _⟩ := rebalance_thread_step_capInv s was_busy realloc_ok bulk envs ih.1 ih.2
    exact ⟨w1, w2⟩

/-- Without a page added to the destination class between `slab_rebalance_start` and
`slab_rebalance_finish`, every class has `slabs <= list_size` in every reachable state, and
whenever a turn of the worker runs `slab_rebalance_finish` the destination has
`slabs < list_size` at that point, so that the append is in bounds. -/
theorem serial_page_vectors (b : Build) (cfg : settings_t) (s : State)
    (h : SerialReach b cfg s) :
    page_vectors_ok s ∧
    ∀ (was_busy : Nat) (ok : Bool) (bulk : Int) (envs : Nat → MoveEnv),
      (rebalance_thread_dispatch s was_busy ok bulk envs).2.slab_rebal.done ≠ 0 →
      ((rebalance_thread_dispatch s was_busy ok bulk envs).2.slabclass
        (rebalance_thread_dispatch s was_busy ok bulk envs).2.slab_rebal.d_clsid.toNat).slabs <
      ((rebalance_thread_dispatch s was_busy ok bulk envs).2.slabclass
        (rebalance_thread_dispatch s was_busy ok bulk envs).2.slab_rebal.d_clsid.toNat).list_size
    := by
  obtain ⟨hc, h0⟩ := h.capInv
  exact ⟨fun j _ => hc.le j,
    fun was_busy ok bulk envs => (rebalance_thread_step_capInv s was_busy ok bulk envs hc h0).2.2⟩


/-- The state `state_reassign` is the state that `slabs_init` builds without
preallocation. -/
theorem state_reassign_start :
    state_reassign =
      slabs_init_start build_default (boot cfg_reassign (fun _ => item.zero)) 65536 2 1 false 0
        none := rfl

/-- A run of allocations while no rebalance is signalled stays among the states reached
without a page added to the destination during a move. -/
theorem alloc_run_serial (b : Build) (cfg : settings_t) (id : Nat) (size flags : Nat → Nat)
    (hosts : Nat → Host) (s : State) (hs : SerialReach b cfg s)
    (h0 : s.slab_rebalance_signal = 0) :
    ∀ n, SerialReach b cfg (alloc_run id size flags hosts s n).2 ∧
      (alloc_run id size flags hosts s n).2.slab_rebalance_signal = 0 := by
  intro n
  induction n with
  | zero => exact ⟨hs, h0⟩
  | succ n ih =>
    have fr := do_slabs_alloc_frame (alloc_run id size flags hosts s n).2 (size n) id
      (flags n) (hosts n)
    unfold alloc_run
    dsimp only
    refine ⟨SerialReach.alloc _ _ _ _ _ ih.1 (fun hsig => ?_), by rw [fr.signal]; exact ih.2⟩
    rw [ih.2] at hsig
    exact absurd hsig (by decide)

set_option maxRecDepth 100000 in
/-- The state `state_started` of the example, in which `slab_rebalance_start` has run, is
reached without a page added to the destination during a move. -/
theorem state_started_serial : SerialReach build_default cfg_reassign state_started := by
  have h1 : SerialReach build_default cfg_reassign state_reassign := by
    rw [state_reassign_start]
    exact SerialReach.init _ _ _ _ _ _ _
  have h2 := alloc_run_serial build_default cfg_reassign 4 (fun _ => 1000) (fun _ => 0)
    (fun k => host_ok (65536 + 1024 * k)) state_reassign h1 rfl 15
  have h3 := alloc_run_serial build_default cfg_reassign 3 (fun _ => 300) (fun _ => 0)
    (fun k => host_ok (4096 + 2048 * k)) state_fifteen h2.1 h2.2 3
  exact SerialReach.worker _ _ _ _ _
    (SerialReach.reassign _ _ _ (SerialReach.free _ _ _ _ (SerialReach.free _ _ _ _ h3.1)))

/-! ## C31: the capacity of the page vectors -/

set_option maxRecDepth 20000 in
/-- C31, evaluated on the code.  In `state_spare` every class has `slabs <= list_size`;
class 4 owns 15 pages in a vector of 16 slots and has no free chunk, class 3 owns two pages,
the first of them free.  `do_slabs_reassign(3, 4)` is accepted and the first turn of the
worker runs `slab_rebalance_start`, whose `grow_slab_list(4)` finds a spare slot (15 of 16)
and grows nothing.  A foreground `do_slabs_alloc` on class 4 then takes that slot for the
page 131072 (`slabs = list_size = 16`).  The worker clears the two chunks of the page 4096
in two more turns, and `slab_rebalance_finish` executes
`d_cls->slab_list[d_cls->slabs++] = slab_rebal.slab_start` with `d_cls->slabs = 16`: it
writes entry 16 of a vector of 16 slots and leaves class 4 with `slabs = 17` and
`list_size = 16`.  The state `state_started` is reached without a page added to the
destination during a move (`state_started_serial`); in all executions of that kind
`slabs <= list_size` holds and the append is in bounds (`serial_page_vectors`). -/
theorem slab_rebalance_finish_out_of_bounds :
    (page_vectors_ok state_spare ∧
      (state_spare.slabclass 4).slabs = 15 ∧ (state_spare.slabclass 4).list_size = 16 ∧
      (state_spare.slabclass 4).sl_curr = 0 ∧ (state_spare.slabclass 3).slabs = 2 ∧
      (do_slabs_reassign state_spare 3 4).1 = reassign_result_type.REASSIGN_OK ∧
      state_started.slab_rebalance_signal = 2 ∧ state_started.slab_rebal.d_clsid = 4 ∧
      state_started.slab_rebal.slab_start = 4096 ∧
      (state_started.slabclass 4).slabs = 15 ∧ (state_started.slabclass 4).list_size = 16 ∧
      (state_started.slabclass 4).sl_curr = 0 ∧
      (do_slabs_alloc state_started 1000 4 0 (host_ok 131072)).1 = 131072 ∧
      (state_filled.slabclass 4).slabs = 16 ∧ (state_filled.slabclass 4).list_size = 16 ∧
      page_vectors_ok state_filled ∧
      state_scanned.slab_rebal.done = 0 ∧ state_scanned.slab_rebalance_signal = 2 ∧
      (slab_rebalance_move state_scanned 1 (fun _ => env_idle)).2.slab_rebal.done = 1 ∧
      ((slab_rebalance_move state_scanned 1 (fun _ => env_idle)).2.slabclass 4).slabs = 16 ∧
      ((slab_rebalance_move state_scanned 1 (fun _ => env_idle)).2.slabclass 4).list_size
        = 16) ∧
    state_moved =
      slab_rebalance_finish (slab_rebalance_move state_scanned 1 (fun _ => env_idle)).2 ∧
    (state_moved.slab_rebalance_signal = 0 ∧
      (state_moved.slabclass 4).slab_list 16 = 4096 ∧
      (state_moved.slabclass 4).slabs = 17 ∧ (state_moved.slabclass 4).list_size = 16 ∧
      ¬ page_vectors_ok state_moved) := by
  refine ⟨by decide, ?_, by decide⟩
  have hd : (slab_rebalance_move state_scanned 1 (fun _ => env_idle)).2.slab_rebal.done ≠ 0 := by
    decide
  unfold state_moved rebalance_thread_step
  dsimp only
  have hm : rebalance_thread_dispatch state_scanned 0 true 1 (fun _ => env_idle) =
      slab_rebalance_move state_scanned 1 (fun _ => env_idle) := by
    unfold rebalance_thread_dispatch
    rw [if_neg (by decide), if_pos (by decide)]
  rw [hm, if_pos hd]

/-! ## The freelists and the pages in the reachable states -/

theorem regions_apart_symm {p lp q lq : Nat} (h : regions_apart p lp q lq) :
    regions_apart q lq p lp := Or.symm h

theorem is_chunk_congr {s t : State} {id a : Nat}
    (hp : (t.slabclass id).pages = (s.slabclass id).pages)
    (hs : (t.slabclass id).size = (s.slabclass id).size)
    (hk : (t.slabclass id).perslab = (s.slabclass id).perslab)
    (h : is_chunk s id a) : is_chunk t id a := by
  obtain ⟨p, hp1, k, hk1, e⟩ := h
  exact ⟨p, by rw [hp]; exact hp1, k, by rw [hk]; exact hk1, by rw [hs]; exact e⟩

theorem page_len_congr {s t : State} (h1 : t.settings = s.settings)
    (h2 : ∀ j, (t.slabclass j).size = (s.slabclass j).size)
    (h3 : ∀ j, (t.slabclass j).perslab = (s.slabclass j).perslab) (j : Nat) :
    page_len t j = page_len s j := by
  unfold page_len; rw [h1, h2, h3]

/-- A chunk of a page lies inside the page. -/
theorem HeapInv.chunk_in_page {s : State} {Ls : Nat → List Nat} (h : HeapInv s Ls)
    (id p k : Nat) (hk : k < (s.slabclass id).perslab) :
    p ≤ p + k * (s.slabclass id).size ∧
    p + k * (s.slabclass id).size < p + page_len s id := by
  have h1 := h.room id
  have h2 := h.size_pos id (by omega)
  have h3 : (k + 1) * (s.slabclass id).size ≤ (s.slabclass id).size * (s.slabclass id).perslab := by
    rw [Nat.mul_comm (s.slabclass id).size]
    exact Nat.mul_le_mul_right _ hk
  rw [Nat.add_mul, Nat.one_mul] at h3
  omega

/-- An address lies in at most one page. -/
theorem HeapInv.page_unique {s : State} {Ls : Nat → List Nat} (h : HeapInv s Ls)
    (id jd p q a : Nat) (hp : p ∈ (s.slabclass id).pages) (hq : q ∈ (s.slabclass jd).pages)
    (h1 : p ≤ a ∧ a < p + page_len s id) (h2 : q ≤ a ∧ a < q + page_len s jd) :
    id = jd ∧ p = q := by
  by_cases hid : id = jd
  · subst hid
    refine ⟨rfl, ?_⟩
    by_contra hne
    have := (h.apart_in id).forall (fun _ _ hr => regions_apart_symm hr) hp hq hne
    unfold regions_apart at this
    omega
  · have := h.apart_x id jd hid p hp q hq
    unfold regions_apart at this
    omega

/-- A chunk on a freelist that lies in a page of class `id` is on the freelist of that
class, and is a chunk of that page. -/
theorem HeapInv.owner {s : State} {Ls : Nat → List Nat} (h : HeapInv s Ls)
    (id p j a : Nat) (hp : p ∈ (s.slabclass id).pages)
    (h1 : p ≤ a ∧ a < p + page_len s id) (ha : a ∈ Ls j) :
    j = id ∧ ∃ k, k < (s.slabclass id).perslab ∧ a = p + k * (s.slabclass id).size := by
  obtain ⟨q, hq, k, hk, e⟩ := h.own j a ha
  have hin := h.chunk_in_page j q k hk
  rw [← e] at hin
  obtain ⟨e1, e2⟩ := h.page_unique id j p q a hp hq h1 hin
  subst e1; subst e2
  exact ⟨rfl, k, hk, e⟩

theorem HeapInv.congr {s t : State} {Ls : Nat → List Nat} (h : HeapInv s Ls)
    (c : SameAlloc s t) : HeapInv t Ls := by
  have hpl := page_len_congr c.settings c.size c.perslab
  refine ⟨AllWF.congr_on s t Ls h.wf (fun j => ⟨c.slots j, c.sl_curr j⟩)
      (fun _ a _ => by rw [c.heap]), ?_, ?_, ?_, ?_, ?_, ?_, ?_, ?_, ?_, ?_⟩
  · intro id; rw [c.size, c.perslab, hpl]; exact h.room id
  · intro id; rw [c.size, c.perslab]; exact h.size_pos id
  · intro id; rw [c.pages]; exact h.page_nz id
  · intro id; rw [c.pages, hpl]; exact h.apart_in id
  · intro id jd; rw [c.pages, c.pages, hpl, hpl]; exact h.apart_x id jd
  · intro id a ha
    exact is_chunk_congr (c.pages id) (c.size id) (c.perslab id) (h.own id a ha)
  · intro id; rw [c.pages, hpl, c.heap]; exact h.flag id
  · rw [c.mem_base, c.mem_current]
    intro hb
    refine ⟨(h.region hb).1, fun id => ?_⟩
    rw [c.pages, hpl]; exact (h.region hb).2 id
  · rw [c.pages, c.settings]; exact h.pool
  · rw [c.perslab]; exact h.pool_chunks

theorem land_not_slabbed (x : Nat) : (x &&& (255 - ITEM_SLABBED)) &&& ITEM_SLABBED = 0 := by
  apply Nat.eq_of_testBit_eq
  intro i
  simp only [Nat.testBit_land, Nat.zero_testBit]
  by_cases hi : i = 2
  · subst hi
    have : (255 - ITEM_SLABBED).testBit 2 = false := by decide
    simp [this]
  · have : ITEM_SLABBED.testBit i = false := by
      show (4 : Nat).testBit i = false
      rw [show (4 : Nat) = 2 ^ 2 from rfl, Nat.testBit_two_pow]
      simp; omega
    simp [this]

theorem cleared_slabbed {x : Nat} (h : x = ITEM_SLABBED ||| ITEM_FETCHED) :
    x &&& ITEM_SLABBED ≠ 0 := by
  subst h; decide

/-- A step that neither adds nor moves pages keeps `HeapInv`, when the new freelists are
well formed and hold chunks of their class only, and every header that carries SLABBED
after the step is on a freelist, is cleared, or has kept its flags and `refcount` (and its
freelist membership). -/
theorem HeapInv.of_step {s t : State} {Ls Ls' : Nat → List Nat} (h : HeapInv s Ls)
    (hwf : AllWF t Ls')
    (hpages : ∀ j, (t.slabclass j).pages = (s.slabclass j).pages)
    (hsize : ∀ j, (t.slabclass j).size = (s.slabclass j).size)
    (hper : ∀ j, (t.slabclass j).perslab = (s.slabclass j).perslab)
    (hset : t.settings = s.settings) (hbase : t.mem_base = s.mem_base)
    (hcur : t.mem_current = s.mem_current)
    (hown : ∀ id a, a ∈ Ls' id → is_chunk s id a)
    (hflag : ∀ a, (t.heap a).it_flags &&& ITEM_SLABBED ≠ 0 →
      (∃ j, a ∈ Ls' j) ∨ is_cleared t.heap a ∨
      ((t.heap a).it_flags = (s.heap a).it_flags ∧ (t.heap a).refcount = (s.heap a).refcount ∧
        ∀ j, a ∈ Ls j → ∃ j2, a ∈ Ls' j2)) : HeapInv t Ls' := by
  have hpl := page_len_congr hset hsize hper
  refine ⟨hwf, ?_, ?_, ?_, ?_, ?_, ?_, ?_, ?_, ?_, ?_⟩
  · intro id; rw [hsize, hper, hpl]; exact h.room id
  · intro id; rw [hsize, hper]; exact h.size_pos id
  · intro id; rw [hpages]; exact h.page_nz id
  · intro id; rw [hpages, hpl]; exact h.apart_in id
  · intro id jd; rw [hpages, hpages, hpl, hpl]; exact h.apart_x id jd
  · intro id a ha
    exact is_chunk_congr (hpages id) (hsize id) (hper id) (hown id a ha)
  · intro id p hp a h1 h2 h3
    rw [hpages] at hp
    rw [hpl] at h2
    rcases hflag a h3 with h4 | h4 | ⟨e1, e2, h4⟩
    · exact Or.inl h4
    · exact Or.inr h4
    · rw [e1] at h3
      rcases h.flag id p hp a h1 h2 h3 with ⟨j, hj⟩ | hc
      · exact Or.inl (h4 j hj)
      · exact Or.inr ⟨by rw [e1]; exact hc.1, by rw [e2]; exact hc.2⟩
  · rw [hbase, hcur]
    intro hb
    refine ⟨(h.region hb).1, fun id => ?_⟩
    rw [hpages, hpl]; exact (h.region hb).2 id
  · rw [hpages, hset]; exact h.pool
  · rw [hper]; exact h.pool_chunks

theorem freelist_pop_mem_current (s : State) (size id : Nat) :
    (freelist_pop s size id).2.mem_current = s.mem_current := rfl

/-- The freelist pop of `do_slabs_alloc` keeps `HeapInv`, and it leaves the cleared chunks
alone. -/
theorem HeapInv.pop_chunk {s : State} {Ls : Nat → List Nat} (size id x : Nat) (L : List Nat)
    (h : HeapInv s Ls) (hL : Ls id = x :: L) :
    HeapInv (freelist_pop s size id).2 (upd Ls id L) ∧
    (∀ a, is_cleared s.heap a → is_cleared (freelist_pop s size id).2.heap a) := by
  obtain ⟨_, hp⟩ := AllWF.pop s Ls size id x L h.wf hL
  obtain ⟨f1, f2, f3⟩ := AllWF.pop_frame s Ls size id x L h.wf hL
  have hl := h.wf.list id
  rw [hL] at hl
  have hx : (s.slabclass id).slots = x := hl.1
  have hxf := (h.wf.free id x (by rw [hL]; exact List.mem_cons_self x L)).1
  have hfr := freelist_pop_frame s size id
  have hsp := freelist_pop_samePages s size id
  have hfl : ∀ a, a ≠ x →
      ((freelist_pop s size id).2.heap a).it_flags = (s.heap a).it_flags ∧
      ((freelist_pop s size id).2.heap a).refcount = (s.heap a).refcount := by
    intro a ha
    rw [freelist_pop_heap, hx]
    dsimp only
    rw [if_neg ha, if_neg ha]
    exact ⟨rfl, rfl⟩
  refine ⟨HeapInv.of_step h hp (fun j => pages_congr (hsp.slabs j) (hsp.slab_list j)) hfr.size
    hfr.perslab hfr.settings hfr.mem_base rfl
    (fun j a ha => h.own j a (f2 j a ha)) (fun a ha => ?_), fun a ha => ?_⟩
  · by_cases hax : a = x
    · exfalso
      apply ha
      rw [freelist_pop_heap, hx, hax]
      dsimp only
      rw [if_pos rfl]
      exact land_not_slabbed _
    · refine Or.inr (Or.inr ⟨(hfl a hax).1, (hfl a hax).2, fun j hj => ⟨j, ?_⟩⟩)
      by_cases hji : j = id
      · rw [hji, upd_same]
        rw [hji, hL] at hj
        rcases List.mem_cons.mp hj with e | hm
        · exact absurd e hax
        · exact hm
      · rw [upd_other _ _ _ _ hji]; exact hj
  · have hax : a ≠ x := by
      intro hc
      rw [hc] at ha
      have := ha.1
      rw [hxf] at this
      exact absurd this (by decide)
    exact ⟨by rw [(hfl a hax).1]; exact ha.1, by rw [(hfl a hax).2]; exact ha.2⟩

/-- `do_slabs_free` of an allocated chunk of class `id` keeps `HeapInv`, and it leaves the
cleared chunks alone. -/
theorem HeapInv.free_chunk {s : State} {Ls : Nat → List Nat} (ptr size id : Nat)
    (h : HeapInv s Ls) (hid1 : 1 ≤ id) (hid2 : id ≤ s.power_largest)
    (hc : is_chunk s id ptr) (hb : (s.heap ptr).it_flags &&& ITEM_SLABBED = 0) :
    HeapInv (do_slabs_free s ptr size id) (upd Ls id (ptr :: Ls id)) ∧
    (∀ a, is_cleared s.heap a → is_cleared (do_slabs_free s ptr size id).heap a) := by
  have h0 : ptr ≠ 0 := by
    obtain ⟨p, hp, k, _, e⟩ := hc
    have := h.page_nz id p hp
    omega
  have hoff : ∀ j, ptr ∉ Ls j := by
    intro j hm
    have := (h.wf.free j ptr hm).1
    rw [this] at hb
    exact absurd hb (by decide)
  have hw := AllWF.push s Ls ptr size id h.wf hid1 hid2 h0 hoff
  have hslots : (s.slabclass id).slots ≠ 0 → (s.slabclass id).slots ∈ Ls id := by
    intro hz
    have hl := h.wf.list id
    cases hL : Ls id with
    | nil => rw [hL] at hl; exact absurd hl hz
    | cons b L => rw [hL] at hl; rw [hl.1]; exact List.mem_cons_self b L
  have hne : ptr ≠ (s.slabclass id).slots := by
    intro hc2
    exact hoff id (by rw [hc2]; exact hslots (by rw [← hc2]; exact h0))
  have hheap := do_slabs_free_heap_at s ptr size id hid1 hid2 hne
  have hfr := do_slabs_free_frame s ptr size id
  have hsp := do_slabs_free_samePages s ptr size id
  have hfl : ∀ a, a ≠ ptr →
      ((do_slabs_free s ptr size id).heap a).it_flags = (s.heap a).it_flags ∧
      ((do_slabs_free s ptr size id).heap a).refcount = (s.heap a).refcount := by
    intro a ha
    rw [hheap, if_neg ha]
    split
    · exact ⟨rfl, rfl⟩
    · exact ⟨rfl, rfl⟩
  have hcur : (do_slabs_free s ptr size id).mem_current = s.mem_current := by
    unfold do_slabs_free
    split <;> rfl
  refine ⟨HeapInv.of_step h hw (fun j => pages_congr (hsp.slabs j) (hsp.slab_list j)) hfr.size
    hfr.perslab hfr.settings hfr.mem_base hcur (fun j a ha => ?_) (fun a ha => ?_),
    fun a ha => ?_⟩
  · by_cases hji : j = id
    · rw [hji, upd_same] at ha
      rw [hji]
      rcases List.mem_cons.mp ha with e | hm
      · rw [e]; exact hc
      · exact h.own id a hm
    · rw [upd_other _ _ _ _ hji] at ha
      exact h.own j a ha
  · by_cases hax : a = ptr
    · exact Or.inl ⟨id, by rw [upd_same, hax]; exact List.mem_cons_self _ _⟩
    · refine Or.inr (Or.inr ⟨(hfl a hax).1, (hfl a hax).2, fun j hj => ⟨j, ?_⟩⟩)
      by_cases hji : j = id
      · rw [hji, upd_same]; rw [hji] at hj; exact List.mem_cons_of_mem _ hj
      · rw [upd_other _ _ _ _ hji]; exact hj
  · have hax : a ≠ ptr := by
      intro hc2
      rw [hc2] at ha
      exact cleared_slabbed ha.1 hb
    exact ⟨by rw [(hfl a hax).1]; exact ha.1, by rw [(hfl a hax).2]; exact ha.2⟩

/-- A write of the item subsystem to a header that does not carry SLABBED, which does not
set SLABBED, keeps `HeapInv` and leaves the cleared chunks alone. -/
theorem HeapInv.write {s : State} {Ls : Nat → List Nat} (a : Nat) (v : item)
    (h : HeapInv s Ls) (h1 : (s.heap a).it_flags &&& ITEM_SLABBED = 0)
    (h2 : v.it_flags &&& ITEM_SLABBED = 0) :
    HeapInv (s.setHeap (upd s.heap a v)) Ls ∧
    (∀ b, is_cleared s.heap b → is_cleared (s.setHeap (upd s.heap a v)).heap b) := by
  have hoff : ∀ j, a ∉ Ls j := by
    intro j hm
    have := (h.wf.free j a hm).1
    rw [this] at h1
    exact absurd h1 (by decide)
  have hw : AllWF (s.setHeap (upd s.heap a v)) Ls :=
    AllWF.congr_on s _ Ls h.wf (fun _ => ⟨rfl, rfl⟩)
      (fun j b hb => by
        rw [setHeap_heap, upd_other _ _ _ _ (fun hc => hoff j (by rw [← hc]; exact hb))])
  refine ⟨HeapInv.of_step h hw (fun _ => rfl) (fun _ => rfl) (fun _ => rfl) rfl rfl rfl
    (fun j b hb => h.own j b hb) (fun b hb => ?_), fun b hb => ?_⟩
  · rw [setHeap_heap] at hb ⊢
    by_cases hba : b = a
    · rw [hba, upd_same] at hb
      exact absurd h2 hb
    · rw [upd_other _ _ _ _ hba]
      exact Or.inr (Or.inr ⟨rfl, rfl, fun j hj => ⟨j, hj⟩⟩)
  · rw [setHeap_heap]
    have hba : b ≠ a := by
      intro hc
      rw [hc] at hb
      exact cleared_slabbed hb.1 h1
    unfold is_cleared
    rw [upd_other _ _ _ _ hba]
    exact hb

theorem upd_upd {α : Type} (f : Nat → α) (k : Nat) (v w : α) :
    upd (upd f k v) k w = upd f k w := by
  funext a
  unfold upd
  split <;> rfl

/-- The loop of `split_slab_page_into_freelist` on a valid class: the chunks it frees join
the freelist of the class, the other freelists stay, and the flags and `refcount` of every
other header stay. -/
theorem AllWF.split_exact (id : Nat) :
    ∀ n ptr s Ls, AllWF s Ls → 1 ≤ id → id ≤ s.power_largest → ptr ≠ 0 →
      (0 < (s.slabclass id).size ∨ n ≤ 1) →
      (∀ j a, a ∈ Ls j → ∀ k, k < n → a ≠ ptr + k * (s.slabclass id).size) →
      ∃ L', AllWF (split_loop id n ptr s) (upd Ls id L') ∧
        (∀ a, a ∈ L' ↔ a ∈ Ls id ∨ ∃ k, k < n ∧ a = ptr + k * (s.slabclass id).size) ∧
        (∀ a, (∀ k, k < n → a ≠ ptr + k * (s.slabclass id).size) →
          ((split_loop id n ptr s).heap a).it_flags = (s.heap a).it_flags ∧
          ((split_loop id n ptr s).heap a).refcount = (s.heap a).refcount) := by
  intro n
  induction n with
  | zero =>
    intro ptr s Ls h _ _ _ _ _
    refine ⟨Ls id, ?_, fun a => ⟨fun ha => Or.inl ha, fun ha => ?_⟩, fun a _ => ⟨rfl, rfl⟩⟩
    · have e : upd Ls id (Ls id) = Ls := by
        funext a; unfold upd; split
        · rename_i hh; rw [hh]
        · rfl
      rw [e]; exact h
    · rcases ha with ha | ⟨k, hk, _⟩
      · exact ha
      · omega
  | succ n ih =>
    intro ptr s Ls h hid1 hid2 h0 hsz hfresh
    have hoff : ∀ j, ptr ∉ Ls j := by
      intro j hm
      have := hfresh j ptr hm 0 (Nat.succ_pos n)
      rw [Nat.zero_mul, Nat.add_zero] at this
      exact this rfl
    have h1 := AllWF.push s Ls ptr 0 id h hid1 hid2 h0 hoff
    have hfr := do_slabs_free_frame s ptr 0 id
    have hsize : ((do_slabs_free s ptr 0 id).slabclass id).size = (s.slabclass id).size :=
      hfr.size id
    have eloop : split_loop id (n + 1) ptr s =
        split_loop id n (ptr + (s.slabclass id).size) (do_slabs_free s ptr 0 id) := by
      conv => lhs; unfold split_loop
      dsimp only
      rw [hsize]
    have hslots : (s.slabclass id).slots ≠ 0 → (s.slabclass id).slots ∈ Ls id := by
      intro hz
      have hl := h.list id
      cases hL : Ls id with
      | nil => rw [hL] at hl; exact absurd hl hz
      | cons b L => rw [hL] at hl; rw [hl.1]; exact List.mem_cons_self b L
    have hne : ptr ≠ (s.slabclass id).slots := by
      intro hc2
      exact hoff id (by rw [hc2]; exact hslots (by rw [← hc2]; exact h0))
    have hheap := do_slabs_free_heap_at s ptr 0 id hid1 hid2 hne
    have hfl : ∀ a, a ≠ ptr →
        ((do_slabs_free s ptr 0 id).heap a).it_flags = (s.heap a).it_flags ∧
        ((do_slabs_free s ptr 0 id).heap a).refcount = (s.heap a).refcount := by
      intro a ha
      rw [hheap, if_neg ha]
      split
      · exact ⟨rfl, rfl⟩
      · exact ⟨rfl, rfl⟩
    rw [eloop]
    have hmul : ∀ k, ptr + (s.slabclass id).size + k * (s.slabclass id).size =
        ptr + (k + 1) * (s.slabclass id).size := by
      intro k
      rw [Nat.add_mul, Nat.one_mul]; omega
    obtain ⟨L', h2, h3, h4⟩ := ih (ptr + (s.slabclass id).size) (do_slabs_free s ptr 0 id)
      (upd Ls id (ptr :: Ls id)) h1 hid1 (by rw [hfr.power_largest]; exact hid2) (by omega)
      (by rw [hsize]; rcases hsz with hp | hp
          · exact Or.inl hp
          · exact Or.inr (by omega))
      (by
        intro j a ha k hk
        rw [hsize]
        have hpos : 0 < (s.slabclass id).size := by
          rcases hsz with hp | hp
          · exact hp
          · omega
        rw [hmul]
        have hcase : a ∈ Ls j ∨ a = ptr := by
          by_cases hj : j = id
          · rw [hj, upd_same] at ha
            rcases List.mem_cons.mp ha with e | hm
            · exact Or.inr e
            · exact Or.inl (by rw [hj]; exact hm)
          · rw [upd_other _ _ _ _ hj] at ha
            exact Or.inl ha
        rcases hcase with hm | e
        · exact hfresh j a hm (k + 1) (by omega)
        · rw [e]
          have : 0 < (k + 1) * (s.slabclass id).size := Nat.mul_pos (Nat.succ_pos k) hpos
          omega)
    rw [upd_upd] at h2
    rw [hsize, upd_same] at h3
    rw [hsize] at h4
    refine ⟨L', h2, fun a => ⟨fun ha => ?_, fun ha => ?_⟩, fun a ha => ?_⟩
    · rcases (h3 a).mp ha with hm | ⟨k, hk, e⟩
      · rcases List.mem_cons.mp hm with e | hm2
        · exact Or.inr ⟨0, Nat.succ_pos n, by rw [e, Nat.zero_mul, Nat.add_zero]⟩
        · exact Or.inl hm2
      · exact Or.inr ⟨k + 1, by omega, by rw [e, hmul]⟩
    · apply (h3 a).mpr
      rcases ha with hm | ⟨k, hk, e⟩
      · exact Or.inl (List.mem_cons_of_mem _ hm)
      · rcases Nat.eq_zero_or_pos k with hk0 | hk0
        · refine Or.inl ?_
          rw [e, hk0, Nat.zero_mul, Nat.add_zero]
          exact List.mem_cons_self _ _
        · refine Or.inr ⟨k - 1, by omega, ?_⟩
          rw [e, hmul]
          congr 2
          omega
    · have hap : a ≠ ptr := by
        have := ha 0 (Nat.succ_pos n)
        rw [Nat.zero_mul, Nat.add_zero] at this
        exact this
      have h5 := h4 a (fun k hk => by rw [hmul]; exact ha (k + 1) (by omega))
      exact ⟨h5.1.trans (hfl a hap).1, h5.2.trans (hfl a hap).2⟩

/-- Taking pages out of the global pool, or moving `mem_current` up, keeps `HeapInv`. -/
theorem HeapInv.take {s t : State} {Ls : Nat → List Nat} (h : HeapInv s Ls)
    (hheap : t.heap = s.heap)
    (hslots : ∀ j, (t.slabclass j).slots = (s.slabclass j).slots)
    (hcurr : ∀ j, (t.slabclass j).sl_curr = (s.slabclass j).sl_curr)
    (hsize : ∀ j, (t.slabclass j).size = (s.slabclass j).size)
    (hper : ∀ j, (t.slabclass j).perslab = (s.slabclass j).perslab)
    (hset : t.settings = s.settings) (hbase : t.mem_base = s.mem_base)
    (hcur : s.mem_current ≤ t.mem_current)
    (hpages : ∀ j, j ≠ SLAB_GLOBAL_PAGE_POOL → (t.slabclass j).pages = (s.slabclass j).pages)
    (hpool : (t.slabclass SLAB_GLOBAL_PAGE_POOL).pages.Sublist
      (s.slabclass SLAB_GLOBAL_PAGE_POOL).pages) : HeapInv t Ls := by
  have hpl := page_len_congr hset hsize hper
  have hsub : ∀ j, ∀ p ∈ (t.slabclass j).pages, p ∈ (s.slabclass j).pages := by
    intro j p hp
    by_cases hj : j = SLAB_GLOBAL_PAGE_POOL
    · rw [hj] at hp ⊢; exact hpool.subset hp
    · rw [hpages j hj] at hp; exact hp
  refine ⟨AllWF.congr_on s t Ls h.wf (fun j => ⟨hslots j, hcurr j⟩)
      (fun _ a _ => by rw [hheap]), ?_, ?_, ?_, ?_, ?_, ?_, ?_, ?_, ?_, ?_⟩
  · intro id; rw [hsize, hper, hpl]; exact h.room id
  · intro id; rw [hsize, hper]; exact h.size_pos id
  · intro id p hp; exact h.page_nz id p (hsub id p hp)
  · intro id
    rw [hpl]
    by_cases hj : id = SLAB_GLOBAL_PAGE_POOL
    · rw [hj]; exact (h.apart_in _).sublist hpool
    · rw [hpages id hj]; exact h.apart_in id
  · intro id jd hne p hp q hq
    rw [hpl, hpl]
    exact h.apart_x id jd hne p (hsub id p hp) q (hsub jd q hq)
  · intro id a ha
    by_cases hj : id = SLAB_GLOBAL_PAGE_POOL
    · obtain ⟨p, _, k, hk, _⟩ := h.own id a ha
      rw [hj, h.pool_chunks] at hk
      omega
    · exact is_chunk_congr (hpages id hj) (hsize id) (hper id) (h.own id a ha)
  · intro id p hp a h1 h2 h3
    rw [hpl] at h2
    rw [hheap] at h3 ⊢
    exact h.flag id p (hsub id p hp) a h1 h2 h3
  · rw [hbase]
    intro hb
    refine ⟨by have := (h.region hb).1; omega, fun id p hp => ?_⟩
    rw [hpl]
    have := (h.region hb).2 id p (hsub id p hp)
    omega
  · rw [hset]
    intro hne
    apply h.pool
    intro hc
    rw [hc] at hpool
    exact hne (List.sublist_nil.mp hpool)
  · rw [hper]; exact h.pool_chunks

theorem do_slabs_free_mem_current (s : State) (ptr size id : Nat) :
    (do_slabs_free s ptr size id).mem_current = s.mem_current := by
  unfold do_slabs_free
  split <;> rfl

theorem split_loop_mem_current (id : Nat) :
    ∀ n ptr s, (split_loop id n ptr s).mem_current = s.mem_current := by
  intro n
  induction n with
  | zero => intro ptr s; rfl
  | succ n ih =>
    intro ptr s
    unfold split_loop
    dsimp only
    rw [ih, do_slabs_free_mem_current]

theorem newslab_install_heap (s : State) (ptr id len : Nat) :
    (newslab_install s ptr id len).heap =
      (split_loop id (s.slabclass id).perslab ptr (s.setHeap (memset0 s.heap ptr len))).heap :=
  rfl

theorem newslab_install_class (s : State) (ptr id len j : Nat) :
    ((newslab_install s ptr id len).slabclass j).slots =
      ((split_loop id (s.slabclass id).perslab ptr
        (s.setHeap (memset0 s.heap ptr len))).slabclass j).slots ∧
    ((newslab_install s ptr id len).slabclass j).sl_curr =
      ((split_loop id (s.slabclass id).perslab ptr
        (s.setHeap (memset0 s.heap ptr len))).slabclass j).sl_curr := by
  unfold newslab_install split_slab_page_into_freelist
  dsimp only [setClass_slabclass]
  by_cases hj : j = id
  · rw [hj, upd_same]; exact ⟨rfl, rfl⟩
  · rw [upd_other _ _ _ _ hj]; exact ⟨rfl, rfl⟩

theorem newslab_install_mem_current (s : State) (ptr id len : Nat) :
    (newslab_install s ptr id len).mem_current = s.mem_current := by
  show (split_loop id _ ptr (s.setHeap (memset0 s.heap ptr len))).mem_current = _
  rw [split_loop_mem_current]
  rfl

/-- The tail of `do_slabs_newslab` keeps `HeapInv` when the page it installs is not `NULL`
and overlaps no page; the headers outside the new page keep their flags and `refcount`. -/
theorem HeapInv.install_page {u : State} {Ls : Nat → List Nat} (id p : Nat) (h : HeapInv u Ls)
    (hid1 : 1 ≤ id) (hid2 : id ≤ u.power_largest) (hp0 : p ≠ 0)
    (hfresh : fresh_region u p (page_len u id))
    (hreg : u.mem_base ≠ 0 → p + page_len u id ≤ u.mem_current) :
    (∃ Ls', HeapInv (newslab_install u p id (page_len u id)) Ls') ∧
    (∀ a, ¬ (p ≤ a ∧ a < p + page_len u id) →
      ((newslab_install u p id (page_len u id)).heap a).it_flags = (u.heap a).it_flags ∧
      ((newslab_install u p id (page_len u id)).heap a).refcount = (u.heap a).refcount) := by
  have hmem_out : ∀ j a, a ∈ Ls j → ¬ (p ≤ a ∧ a < p + page_len u id) := by
    intro j a ha hc
    obtain ⟨q, hq, k, hk, e⟩ := h.own j a ha
    have hin := h.chunk_in_page j q k hk
    rw [← e] at hin
    have := hfresh j q hq
    unfold regions_apart at this
    omega
  have hnew_in : ∀ k, k < (u.slabclass id).perslab →
      p ≤ p + k * (u.slabclass id).size ∧
      p + k * (u.slabclass id).size < p + page_len u id :=
    fun k hk => h.chunk_in_page id p k hk
  have h4 : AllWF (u.setHeap (memset0 u.heap p (page_len u id))) Ls := by
    refine AllWF.congr_on u _ Ls h.wf (fun _ => ⟨rfl, rfl⟩) (fun j a ha => ?_)
    rw [setHeap_heap]
    unfold memset0
    rw [if_neg (hmem_out j a ha)]
  have hsz : 0 < (u.slabclass id).size ∨ (u.slabclass id).perslab ≤ 1 := by
    rcases Nat.lt_or_ge (u.slabclass id).perslab 1 with hlt | hge
    · exact Or.inr (by omega)
    · exact Or.inl (h.size_pos id hge)
  obtain ⟨L', h5, h6, h7⟩ := AllWF.split_exact id (u.slabclass id).perslab p
    (u.setHeap (memset0 u.heap p (page_len u id))) Ls h4 hid1 hid2 hp0 hsz
    (fun j a ha k hk hc => hmem_out j a ha (by rw [hc]; exact hnew_in k hk))
  have e1 : ((u.setHeap (memset0 u.heap p (page_len u id))).slabclass id).size =
      (u.slabclass id).size := rfl
  rw [e1] at h6 h7
  have hfr := newslab_install_frame u p id (page_len u id)
  have hpl := hfr.page_len
  have hpg := newslab_install_pages u p id (page_len u id)
  have hpo : ∀ j, j ≠ id →
      ((newslab_install u p id (page_len u id)).slabclass j).pages = (u.slabclass j).pages :=
    fun j hj => pages_congr (hpg.2 j hj).1 (hpg.2 j hj).2
  have hsub : ∀ j, ∀ q ∈ (u.slabclass j).pages,
      q ∈ ((newslab_install u p id (page_len u id)).slabclass j).pages := by
    intro j q hq
    by_cases hj : j = id
    · rw [hj, hpg.1]; rw [hj] at hq; exact List.mem_append_left _ hq
    · rw [hpo j hj]; exact hq
  have hcases : ∀ j, ∀ q ∈ ((newslab_install u p id (page_len u id)).slabclass j).pages,
      q ∈ (u.slabclass j).pages ∨ (j = id ∧ q = p) := by
    intro j q hq
    by_cases hj : j = id
    · rw [hj, hpg.1] at hq
      rcases List.mem_append.mp hq with hm | hm
      · exact Or.inl (by rw [hj]; exact hm)
      · exact Or.inr ⟨hj, List.mem_singleton.mp hm⟩
    · rw [hpo j hj] at hq; exact Or.inl hq
  have hout : ∀ a, ¬ (p ≤ a ∧ a < p + page_len u id) →
      ((newslab_install u p id (page_len u id)).heap a).it_flags = (u.heap a).it_flags ∧
      ((newslab_install u p id (page_len u id)).heap a).refcount = (u.heap a).refcount := by
    intro a ha
    rw [newslab_install_heap]
    have := h7 a (fun k hk hc => ha (by rw [hc]; exact hnew_in k hk))
    rw [this.1, this.2, setHeap_heap]
    unfold memset0
    rw [if_neg ha]
    exact ⟨rfl, rfl⟩
  refine ⟨⟨upd Ls id L', ?_, ?_, ?_, ?_, ?_, ?_, ?_, ?_, ?_, ?_, ?_⟩, hout⟩
  · exact AllWF.congr_on _ _ _ h5
      (fun j => newslab_install_class u p id (page_len u id) j) (fun _ _ _ => rfl)
  · intro j; rw [hfr.size, hfr.perslab, hpl]; exact h.room j
  · intro j; rw [hfr.size, hfr.perslab]; exact h.size_pos j
  · intro j q hq
    rcases hcases j q hq with hm | ⟨_, e⟩
    · exact h.page_nz j q hm
    · rw [e]; exact hp0
  · intro j
    rw [hpl]
    by_cases hj : j = id
    · rw [hj, hpg.1, List.pairwise_append]
      refine ⟨h.apart_in id, List.pairwise_singleton _ _, fun q hq r hr => ?_⟩
      rw [List.mem_singleton.mp hr]
      exact regions_apart_symm (hfresh id q hq)
    · rw [hpo j hj]; exact h.apart_in j
  · intro j jd hne q hq r hr
    rw [hpl, hpl]
    rcases hcases j q hq with hm | ⟨e1, e2⟩
    · rcases hcases jd r hr with hm2 | ⟨e3, e4⟩
      · exact h.apart_x j jd hne q hm r hm2
      · rw [e3, e4]; exact regions_apart_symm (hfresh j q hm)
    · rcases hcases jd r hr with hm2 | ⟨e3, e4⟩
      · rw [e1, e2]; exact hfresh jd r hm2
      · exact absurd (e1.trans e3.symm) hne
  · intro j a ha
    by_cases hj : j = id
    · rw [hj, upd_same] at ha
      rw [hj]
      rcases (h6 a).mp ha with hm | ⟨k, hk, e⟩
      · obtain ⟨q, hq, k, hk, e⟩ := h.own id a hm
        exact ⟨q, hsub id q hq, k, by rw [hfr.perslab]; exact hk, by rw [hfr.size]; exact e⟩
      · exact ⟨p, by rw [hpg.1]; exact List.mem_append_right _ (List.mem_singleton_self p), k,
          by rw [hfr.perslab]; exact hk, by rw [hfr.size]; exact e⟩
    · rw [upd_other _ _ _ _ hj] at ha
      obtain ⟨q, hq, k, hk, e⟩ := h.own j a ha
      exact ⟨q, hsub j q hq, k, by rw [hfr.perslab]; exact hk, by rw [hfr.size]; exact e⟩
  · intro j q hq a h1 h2 h3
    rw [hpl] at h2
    have hkeep : ∀ j2, a ∈ Ls j2 → ∃ j3, a ∈ upd Ls id L' j3 := by
      intro j2 hm
      by_cases hj2 : j2 = id
      · exact ⟨id, by rw [upd_same]; exact (h6 a).mpr (Or.inl (by rw [← hj2]; exact hm))⟩
      · exact ⟨j2, by rw [upd_other _ _ _ _ hj2]; exact hm⟩
    by_cases hin : p ≤ a ∧ a < p + page_len u id
    · by_cases hch : ∃ k, k < (u.slabclass id).perslab ∧ a = p + k * (u.slabclass id).size
      · exact Or.inl ⟨id, by rw [upd_same]; exact (h6 a).mpr (Or.inr hch)⟩
      · exfalso
        apply h3
        rw [newslab_install_heap]
        rw [(h7 a (fun k hk hc => hch ⟨k, hk, hc⟩)).1, setHeap_heap]
        unfold memset0
        rw [if_pos hin]
        rfl
    · have hq2 : q ∈ (u.slabclass j).pages := by
        rcases hcases j q hq with hm | ⟨e1, e2⟩
        · exact hm
        · exfalso
          apply hin
          rw [e1] at h2
          rw [e2] at h1 h2
          exact ⟨h1, h2⟩
      rw [(hout a hin).1] at h3
      rcases h.flag j q hq2 a h1 h2 h3 with ⟨j2, hm⟩ | hc
      · exact Or.inl (hkeep j2 hm)
      · exact Or.inr ⟨by rw [(hout a hin).1]; exact hc.1, by rw [(hout a hin).2]; exact hc.2⟩
  · rw [hfr.mem_base, newslab_install_mem_current]
    intro hb
    refine ⟨(h.region hb).1, fun j q hq => ?_⟩
    rw [hpl]
    rcases hcases j q hq with hm | ⟨e1, e2⟩
    · exact (h.region hb).2 j q hm
    · rw [e1, e2]; exact hreg hb
  · rw [hfr.settings, hpo SLAB_GLOBAL_PAGE_POOL (by simp only [SLAB_GLOBAL_PAGE_POOL]; omega)]
    exact h.pool
  · rw [hfr.perslab]; exact h.pool_chunks

theorem pages_length (c : slabclass_t) : c.pages.length = c.slabs := by
  simp [slabclass_t.pages]

theorem pages_nil_iff (c : slabclass_t) : c.pages = [] ↔ c.slabs = 0 := by
  rw [← List.length_eq_zero, pages_length]

theorem pages_drop_last (c : slabclass_t) (h : 1 ≤ c.slabs) :
    c.pages = ({ c with slabs := c.slabs - 1 } : slabclass_t).pages ++
      [c.slab_list (c.slabs - 1)] := by
  unfold slabclass_t.pages
  dsimp only
  have e : c.slabs = (c.slabs - 1) + 1 := by omega
  conv => lhs; rw [e, List.range_succ, List.map_append, List.map_singleton]

theorem page_len_reassign (s : State) (h : s.settings.slab_reassign = true) (j : Nat) :
    page_len s j = s.settings.item_size_max := by
  unfold page_len; rw [if_pos h]

/-- The state after `grow_slab_list` agrees with the state before on everything `HeapInv`
speaks about. -/
theorem grow_slab_list_sameAlloc (s : State) (id : Nat) (ok : Bool) :
    SameAlloc s (grow_slab_list s id ok).2 := by
  have hg := grow_slab_list_sameClasses s id ok
  have hf := grow_slab_list_frame s id ok
  refine ⟨hg.heap, hg.slots, hg.sl_curr, fun j => pages_congr (hg.slabs j) (hg.slab_list j),
    hf.size, hf.perslab, hf.settings, hf.mem_base, ?_⟩
  unfold grow_slab_list
  dsimp only
  split
  · split <;> rfl
  · rfl

/-- The page that `do_slabs_newslab` obtains, from the global pool or from the page
source: the state keeps `HeapInv`, and a page that is not `NULL` overlaps no page that is
still held; in preallocated mode it lies below `mem_current`. -/
theorem HeapInv.get_page {g : State} {Ls : Nat → List Nat} (id ret : Nat)
    (h : HeapInv g Ls)
    (hhost : g.mem_base = 0 → (g.slabclass SLAB_GLOBAL_PAGE_POOL).pages = [] → ret ≠ 0 →
      fresh_region g ret (page_len g id)) :
    HeapInv (newslab_get_page g (page_len g id) ret).2 Ls ∧
    (newslab_get_page g (page_len g id) ret).2.heap = g.heap ∧
    (∀ j, 1 ≤ j → (newslab_get_page g (page_len g id) ret).2.slabclass j = g.slabclass j) ∧
    ((newslab_get_page g (page_len g id) ret).1 ≠ 0 →
      fresh_region (newslab_get_page g (page_len g id) ret).2
        (newslab_get_page g (page_len g id) ret).1 (page_len g id) ∧
      ((newslab_get_page g (page_len g id) ret).2.mem_base ≠ 0 →
        (newslab_get_page g (page_len g id) ret).1 + page_len g id ≤
          (newslab_get_page g (page_len g id) ret).2.mem_current)) := by
  by_cases hpool : 1 ≤ (g.slabclass 0).slabs
  · -- the page comes from the global pool
    have hne : (g.slabclass 0).pages ≠ [] := by
      rw [Ne, pages_nil_iff]; omega
    have hre := h.pool hne
    have hdrop := pages_drop_last (g.slabclass 0) hpool
    have hlast : (g.slabclass 0).slab_list ((g.slabclass 0).slabs - 1) ∈ (g.slabclass 0).pages := by
      rw [hdrop]; exact List.mem_append_right _ (List.mem_singleton_self _)
    have hnz := h.page_nz 0 _ hlast
    have e : newslab_get_page g (page_len g id) ret =
        ((g.slabclass 0).slab_list ((g.slabclass 0).slabs - 1),
          g.setClass 0 { g.slabclass 0 with slabs := (g.slabclass 0).slabs - 1 }) := by
      unfold newslab_get_page
      dsimp only
      rw [get_page_pool_nonempty g hpool]
      dsimp only
      rw [if_neg hnz]
    rw [e]
    dsimp only
    have hcls0 : (g.setClass 0 { g.slabclass 0 with slabs := (g.slabclass 0).slabs - 1 }).slabclass 0
        = { g.slabclass 0 with slabs := (g.slabclass 0).slabs - 1 } := by
      rw [setClass_slabclass, upd_same]
    have hclsj : ∀ j, j ≠ 0 →
        (g.setClass 0 { g.slabclass 0 with slabs := (g.slabclass 0).slabs - 1 }).slabclass j
        = g.slabclass j := by
      intro j hj
      rw [setClass_slabclass, upd_other _ _ _ _ hj]
    have hfields : ∀ j,
        ((g.setClass 0 { g.slabclass 0 with slabs := (g.slabclass 0).slabs - 1 }).slabclass j).slots
          = (g.slabclass j).slots ∧
        ((g.setClass 0 { g.slabclass 0 with slabs := (g.slabclass 0).slabs - 1 }).slabclass j).sl_curr
          = (g.slabclass j).sl_curr ∧
        ((g.setClass 0 { g.slabclass 0 with slabs := (g.slabclass 0).slabs - 1 }).slabclass j).size
          = (g.slabclass j).size ∧
        ((g.setClass 0 { g.slabclass 0 with slabs := (g.slabclass 0).slabs - 1 }).slabclass j).perslab
          = (g.slabclass j).perslab := by
      intro j
      by_cases hj : j = 0
      · rw [hj, hcls0]; exact ⟨rfl, rfl, rfl, rfl⟩
      · rw [hclsj j hj]; exact ⟨rfl, rfl, rfl, rfl⟩
    have hu : HeapInv (g.setClass 0 { g.slabclass 0 with slabs := (g.slabclass 0).slabs - 1 })
        Ls := by
      refine HeapInv.take h rfl (fun j => (hfields j).1) (fun j => (hfields j).2.1)
        (fun j => (hfields j).2.2.1) (fun j => (hfields j).2.2.2) rfl rfl (le_refl _)
        (fun j hj => by rw [hclsj j hj]) ?_
      show ((g.setClass 0 _).slabclass 0).pages.Sublist (g.slabclass 0).pages
      rw [hcls0, hdrop]
      exact List.sublist_append_left _ _
    have hpl : ∀ j, page_len (g.setClass 0
        { g.slabclass 0 with slabs := (g.slabclass 0).slabs - 1 }) j = page_len g j :=
      page_len_congr rfl (fun j => (hfields j).2.2.1) (fun j => (hfields j).2.2.2)
    have hlen : page_len g id = page_len g 0 := by
      rw [page_len_reassign g hre, page_len_reassign g hre]
    refine ⟨hu, rfl, fun j hj => hclsj j (by omega), fun _ => ⟨fun j q hq => ?_, fun hb => ?_⟩⟩
    · rw [hpl, hlen]
      by_cases hj : j = 0
      · rw [hj, hcls0] at hq
        rw [hj]
        have hp := h.apart_in 0
        rw [hdrop, List.pairwise_append] at hp
        exact regions_apart_symm (hp.2.2 q hq _ (List.mem_singleton_self _))
      · rw [hclsj j hj] at hq
        exact h.apart_x 0 j (Ne.symm hj) _ hlast q hq
    · rw [hlen]
      exact (h.region hb).2 0 _ hlast
  · -- the pool is empty: the page source is asked
    have hnil : (g.slabclass SLAB_GLOBAL_PAGE_POOL).pages = [] := by
      rw [pages_nil_iff]; show (g.slabclass 0).slabs = 0; omega
    have e0 : get_page_from_global_pool g = (0, g) := by
      unfold get_page_from_global_pool
      dsimp only [SLAB_GLOBAL_PAGE_POOL]
      rw [if_pos (by omega)]
    have e : newslab_get_page g (page_len g id) ret = memory_allocate g (page_len g id) ret := by
      unfold newslab_get_page
      dsimp only
      rw [e0]
      dsimp only
      rw [if_pos rfl]
    rw [e]
    by_cases hb : g.mem_base = 0
    · have e2 : memory_allocate g (page_len g id) ret =
          (ret, { g with mem_malloced := g.mem_malloced + page_len g id }) := by
        unfold memory_allocate
        rw [if_pos hb]
      rw [e2]
      dsimp only
      have hsame : SameAlloc g { g with mem_malloced := g.mem_malloced + page_len g id } :=
        ⟨rfl, fun _ => rfl, fun _ => rfl, fun _ => rfl, fun _ => rfl, fun _ => rfl, rfl, rfl, rfl⟩
      refine ⟨h.congr hsame, rfl, fun _ _ => rfl, fun hr => ⟨?_, fun hc => absurd hb hc⟩⟩
      exact hhost hb hnil hr
    · by_cases hav : page_len g id > g.mem_avail
      · have e2 : memory_allocate g (page_len g id) ret = (0, g) := by
          unfold memory_allocate
          rw [if_neg hb, if_pos hav]
        rw [e2]
        exact ⟨h, rfl, fun _ _ => rfl, fun hr => absurd rfl hr⟩
      · obtain ⟨hc0, hreg⟩ := h.region hb
        unfold memory_allocate
        rw [if_neg hb, if_neg hav]
        dsimp only
        refine ⟨HeapInv.take h rfl (fun _ => rfl) (fun _ => rfl) (fun _ => rfl) (fun _ => rfl)
          rfl rfl (by dsimp only; omega) (fun _ _ => rfl) (List.Sublist.refl _), rfl,
          fun _ _ => rfl, fun _ => ⟨fun j q hq => ?_, fun _ => ?_⟩⟩
        · have := hreg j q hq
          exact Or.inr this
        · split <;> omega

/-- `do_slabs_newslab` for a valid class keeps `HeapInv` when the memory that `malloc`
returns is fresh; the headers inside the pages of the classes keep their flags and
`refcount`, and the page list of every class only grows at its end. -/
theorem HeapInv.newslab_page {s : State} {Ls : Nat → List Nat} (id : Nat) (hst : Host)
    (h : HeapInv s Ls) (hid1 : 1 ≤ id) (hid2 : id ≤ s.power_largest)
    (hhost : s.mem_base = 0 → (s.slabclass SLAB_GLOBAL_PAGE_POOL).pages = [] →
      hst.malloc_ret ≠ 0 → fresh_region s hst.malloc_ret (page_len s id)) :
    (∃ Ls', HeapInv (do_slabs_newslab s id hst).2 Ls') ∧
    (∀ j, 1 ≤ j → ∀ q ∈ (s.slabclass j).pages, ∀ a, q ≤ a → a < q + page_len s j →
      ((do_slabs_newslab s id hst).2.heap a).it_flags = (s.heap a).it_flags ∧
      ((do_slabs_newslab s id hst).2.heap a).refcount = (s.heap a).refcount) ∧
    (∀ j, 1 ≤ j → ∃ l, ((do_slabs_newslab s id hst).2.slabclass j).pages =
      (s.slabclass j).pages ++ l) := by
  have hga := grow_slab_list_sameAlloc s id hst.realloc_ok
  have hgf := grow_slab_list_frame s id hst.realloc_ok
  have hG := h.congr hga
  have hplg : page_len (grow_slab_list s id hst.realloc_ok).2 id = page_len s id := hgf.page_len id
  have hhost2 : (grow_slab_list s id hst.realloc_ok).2.mem_base = 0 →
      ((grow_slab_list s id hst.realloc_ok).2.slabclass SLAB_GLOBAL_PAGE_POOL).pages = [] →
      hst.malloc_ret ≠ 0 →
      fresh_region (grow_slab_list s id hst.realloc_ok).2 hst.malloc_ret
        (page_len (grow_slab_list s id hst.realloc_ok).2 id) := by
    intro h1 h2 h3
    rw [hga.mem_base] at h1
    rw [hga.pages] at h2
    rw [hplg]
    intro j q hq
    rw [hga.pages] at hq
    rw [hgf.page_len]
    exact hhost h1 h2 h3 j q hq
  obtain ⟨hU, hUh, hUc, hUf⟩ := HeapInv.get_page id hst.malloc_ret hG hhost2
  rw [hplg] at hU hUh hUc hUf
  have hmf := newslab_get_page_frame (grow_slab_list s id hst.realloc_ok).2 (page_len s id)
    hst.malloc_ret
  have hcases := do_slabs_newslab_cases s id hst
  generalize newslab_get_page (grow_slab_list s id hst.realloc_ok).2 (page_len s id)
    hst.malloc_ret = m at hU hUh hUc hUf hmf hcases
  have hpu : ∀ j, 1 ≤ j → (m.2.slabclass j).pages = (s.slabclass j).pages := by
    intro j hj
    rw [hUc j hj, hga.pages]
  have hplu : ∀ j, page_len m.2 j = page_len s j :=
    fun j => (hmf.page_len j).trans (hgf.page_len j)
  rcases hcases with ⟨_, _, _, _, e⟩ | ⟨_, ⟨_, e⟩ | ⟨_, ⟨_, e⟩ | ⟨hp, e⟩⟩⟩
  · rw [e]
    refine ⟨⟨Ls, h.congr ⟨rfl, fun _ => rfl, fun _ => rfl, fun _ => rfl, fun _ => rfl,
      fun _ => rfl, rfl, rfl, rfl⟩⟩, fun _ _ _ _ _ _ _ => ⟨rfl, rfl⟩, fun j _ => ⟨[], ?_⟩⟩
    rw [List.append_nil]
  · rw [e]
    refine ⟨⟨Ls, hG⟩, fun _ _ _ _ a _ _ => by rw [hga.heap]; exact ⟨rfl, rfl⟩,
      fun j _ => ⟨[], ?_⟩⟩
    rw [List.append_nil, hga.pages]
  · rw [e]
    refine ⟨⟨Ls, hU⟩, fun _ _ _ _ a _ _ => by
      dsimp only; rw [hUh, hga.heap]; exact ⟨rfl, rfl⟩, fun j hj => ⟨[], ?_⟩⟩
    rw [List.append_nil]
    exact hpu j hj
  · rw [e]
    dsimp only
    obtain ⟨hfresh, hreg⟩ := hUf hp
    have hpl := hplu id
    rw [← hpl] at hfresh hreg ⊢
    obtain ⟨hI, hout⟩ := HeapInv.install_page id _ hU hid1
      (by rw [hmf.power_largest, hgf.power_largest]; exact hid2) hp hfresh hreg
    refine ⟨hI, fun j hj q hq a h1 h2 => ?_, fun j hj => ?_⟩
    · have hq2 := hq
      rw [← hpu j hj] at hq2
      have hap := hfresh j q hq2
      rw [hplu j] at hap
      unfold regions_apart at hap
      have := hout a (by omega)
      rw [this.1, this.2, hUh, hga.heap]
      exact ⟨rfl, rfl⟩
    · have hpg := newslab_install_pages m.2 m.1 id (page_len m.2 id)
      by_cases hji : j = id
      · refine ⟨[m.1], ?_⟩
        rw [hji, hpg.1, hpu id hid1]
      · refine ⟨[], ?_⟩
        rw [List.append_nil, pages_congr (hpg.2 j hji).1 (hpg.2 j hji).2, hpu j hj]

theorem ListStep.stay {s : State} {Ls : Nat → List Nat} (h : AllWF s Ls) :
    ListStep s s Ls Ls :=
  ⟨h, fun _ _ ha => ha, fun _ _ => Or.inr ⟨rfl, rfl, fun _ hj => hj⟩, fun _ ha => ha⟩

theorem ListStep.followed {s t u : State} {Ls L1 L2 : Nat → List Nat}
    (h1 : ListStep s t Ls L1) (h2 : ListStep t u L1 L2) : ListStep s u Ls L2 := by
  refine ⟨h2.wf, fun j a ha => h1.sub j a (h2.sub j a ha), fun a ha => ?_,
    fun a ha => h2.cleared a (h1.cleared a ha)⟩
  rcases h2.slabbed a ha with hc | ⟨e1, e2, hm⟩
  · exact Or.inl hc
  · rw [e1] at ha
    rcases h1.slabbed a ha with hc | ⟨e3, e4, hm2⟩
    · exact Or.inl ⟨by rw [e1]; exact hc.1, by rw [e2]; exact hc.2⟩
    · exact Or.inr ⟨e1.trans e3, e2.trans e4, fun j hj => hm j (hm2 j hj)⟩

/-- A step that rewrites only headers that carry SLABBED neither before nor after it. -/
theorem ListStep.of_unslabbed {s t : State} {Ls : Nat → List Nat} (h : AllWF s Ls)
    (hh : ∀ a, ((s.heap a).it_flags &&& ITEM_SLABBED ≠ 0 ∨
      (t.heap a).it_flags &&& ITEM_SLABBED ≠ 0) → t.heap a = s.heap a)
    (hc : ∀ j, (t.slabclass j).slots = (s.slabclass j).slots ∧
      (t.slabclass j).sl_curr = (s.slabclass j).sl_curr) : ListStep s t Ls Ls := by
  refine ⟨AllWF.congr_on s t Ls h hc (fun j a ha => ?_), fun _ _ ha => ha, fun a ha => ?_,
    fun a ha => ?_⟩
  · exact hh a (Or.inl (by rw [(h.free j a ha).1]; decide))
  · have := hh a (Or.inr ha)
    exact Or.inr ⟨by rw [this], by rw [this], fun _ hj => hj⟩
  · have := hh a (Or.inl (cleared_slabbed ha.1))
    unfold is_cleared
    rw [this]
    exact ha

/-- The freelist pop of `do_slabs_alloc` as a step on the freelists. -/
theorem ListStep.pop_head {s : State} {Ls : Nat → List Nat} (size id x : Nat) (L : List Nat)
    (h : AllWF s Ls) (hL : Ls id = x :: L) :
    ListStep s (freelist_pop s size id).2 Ls (upd Ls id L) ∧
    ((freelist_pop s size id).2.heap x).it_flags &&& ITEM_SLABBED = 0 ∧
    (∀ a, a ∉ Ls id → (freelist_pop s size id).2.heap a = s.heap a) ∧
    (∀ j, x ∉ upd Ls id L j) := by
  obtain ⟨_, hp⟩ := AllWF.pop s Ls size id x L h hL
  obtain ⟨f1, f2, f3⟩ := AllWF.pop_frame s Ls size id x L h hL
  have hl := h.list id
  rw [hL] at hl
  have hx : (s.slabclass id).slots = x := hl.1
  have hxf := (h.free id x (by rw [hL]; exact List.mem_cons_self x L)).1
  have hfl : ∀ a, a ≠ x →
      ((freelist_pop s size id).2.heap a).it_flags = (s.heap a).it_flags ∧
      ((freelist_pop s size id).2.heap a).refcount = (s.heap a).refcount := by
    intro a ha
    rw [freelist_pop_heap, hx]
    dsimp only
    rw [if_neg ha, if_neg ha]
    exact ⟨rfl, rfl⟩
  have hxc : ((freelist_pop s size id).2.heap x).it_flags &&& ITEM_SLABBED = 0 := by
    rw [freelist_pop_heap, hx]
    dsimp only
    rw [if_pos rfl]
    exact land_not_slabbed _
  refine ⟨⟨hp, f2, fun a ha => ?_, fun a ha => ?_⟩, hxc, f3, f1⟩
  · by_cases hax : a = x
    · rw [hax] at ha; exact absurd hxc ha
    · refine Or.inr ⟨(hfl a hax).1, (hfl a hax).2, fun j hj => ?_⟩
      by_cases hji : j = id
      · rw [hji, upd_same]
        rw [hji, hL] at hj
        rcases List.mem_cons.mp hj with e | hm
        · exact absurd e hax
        · exact hm
      · rw [upd_other _ _ _ _ hji]; exact hj
  · have hax : a ≠ x := by
      intro hc
      rw [hc] at ha
      have := ha.1
      rw [hxf] at this
      exact absurd this (by decide)
    exact ⟨by rw [(hfl a hax).1]; exact ha.1, by rw [(hfl a hax).2]; exact ha.2⟩

/-- Marking as cleared a header that is on no freelist. -/
theorem ListStep.mark_at {s t : State} {Ls : Nat → List Nat} (x : Nat) (h : AllWF s Ls)
    (hoff : ∀ j, x ∉ Ls j)
    (hh : t.heap = upd s.heap x
      { s.heap x with refcount := 0, it_flags := ITEM_SLABBED ||| ITEM_FETCHED })
    (hc : ∀ j, (t.slabclass j).slots = (s.slabclass j).slots ∧
      (t.slabclass j).sl_curr = (s.slabclass j).sl_curr) :
    ListStep s t Ls Ls ∧ is_cleared t.heap x := by
  have hx : is_cleared t.heap x := by
    unfold is_cleared
    rw [hh, upd_same]
    exact ⟨rfl, rfl⟩
  refine ⟨⟨AllWF.congr_on s t Ls h hc (fun j a ha => ?_), fun _ _ ha => ha, fun a ha => ?_,
    fun a ha => ?_⟩, hx⟩
  · rw [hh, upd_other _ _ _ _ (fun hc2 => hoff j (by rw [← hc2]; exact ha))]
  · by_cases hax : a = x
    · rw [hax]; exact Or.inl hx
    · rw [hh, upd_other _ _ _ _ hax]
      exact Or.inr ⟨rfl, rfl, fun _ hj => hj⟩
  · by_cases hax : a = x
    · rw [hax]; exact hx
    · unfold is_cleared
      rw [hh, upd_other _ _ _ _ hax]
      exact ha

/-- Taking a chunk off the freelist of its class and marking it cleared, as
`slab_rebalance_move` does for a free chunk. -/
theorem ListStep.unlink_mark {s t : State} {Ls : Nat → List Nat} (sc c : Nat) (h : AllWF s Ls)
    (hc : c ∈ Ls sc)
    (hh : t.heap = upd (freelist_unlink s sc c).heap c
      { (freelist_unlink s sc c).heap c with
        refcount := 0, it_flags := ITEM_SLABBED ||| ITEM_FETCHED })
    (hcl : ∀ j, (t.slabclass j).slots = ((freelist_unlink s sc c).slabclass j).slots ∧
      (t.slabclass j).sl_curr = ((freelist_unlink s sc c).slabclass j).sl_curr) :
    ListStep s t Ls (upd Ls sc ((Ls sc).erase c)) ∧ is_cleared t.heap c := by
  have hu := AllWF.unlink s Ls sc c h hc
  have hnd := is_freelist_nodup s.heap _ _ (is_dlist_freelist s.heap _ _ _ (h.list sc))
  have hoff : ∀ j, c ∉ upd Ls sc ((Ls sc).erase c) j := by
    intro j hm
    by_cases hj : j = sc
    · rw [hj, upd_same] at hm
      exact (hnd.mem_erase_iff.mp hm).1 rfl
    · rw [upd_other _ _ _ _ hj] at hm
      exact h.disjoint j sc hj c hm hc
  have hfl : ∀ a, a ≠ c → (t.heap a).it_flags = (s.heap a).it_flags ∧
      (t.heap a).refcount = (s.heap a).refcount := by
    intro a ha
    rw [hh, upd_other _ _ _ _ ha, freelist_unlink_heap]
    exact ⟨rfl, rfl⟩
  have hx : is_cleared t.heap c := by
    unfold is_cleared
    rw [hh, upd_same]
    exact ⟨rfl, rfl⟩
  refine ⟨⟨AllWF.congr_on _ t _ hu hcl (fun j a ha => ?_), fun j a ha => ?_, fun a ha => ?_,
    fun a ha => ?_⟩, hx⟩
  · have hac : a ≠ c := fun hc2 => hoff j (hc2 ▸ ha)
    rw [hh, upd_other _ _ _ _ hac]
  · by_cases hj : j = sc
    · rw [hj, upd_same] at ha
      rw [hj]; exact List.mem_of_mem_erase ha
    · rw [upd_other _ _ _ _ hj] at ha; exact ha
  · by_cases hac : a = c
    · rw [hac]; exact Or.inl hx
    · refine Or.inr ⟨(hfl a hac).1, (hfl a hac).2, fun j hj => ?_⟩
      by_cases hjs : j = sc
      · rw [hjs, upd_same]
        rw [hjs] at hj
        exact (List.mem_erase_of_ne hac).mpr hj
      · rw [upd_other _ _ _ _ hjs]; exact hj
  · by_cases hac : a = c
    · rw [hac]; exact hx
    · exact ⟨by rw [(hfl a hac).1]; exact ha.1, by rw [(hfl a hac).2]; exact ha.2⟩

/-- The loop of `slab_rebalance_alloc` as a step on the freelists: the chunk it returns is
on no freelist and does not carry SLABBED, and the headers of the chunks that were on no
freelist are untouched. -/
theorem ListStep.alloc_loop (size id : Nat) :
    ∀ n s Ls, AllWF s Ls →
      ∃ Ls', ListStep s (slab_rebalance_alloc_loop size id n s).2 Ls Ls' ∧
        ((slab_rebalance_alloc_loop size id n s).1 ≠ 0 →
          (∀ j, (slab_rebalance_alloc_loop size id n s).1 ∉ Ls' j) ∧
          ((slab_rebalance_alloc_loop size id n s).2.heap
            (slab_rebalance_alloc_loop size id n s).1).it_flags &&& ITEM_SLABBED = 0) ∧
        (∀ a, (∀ j, a ∉ Ls j) → (slab_rebalance_alloc_loop size id n s).2.heap a = s.heap a) := by
  intro n
  induction n with
  | zero =>
    intro s Ls h
    exact ⟨Ls, ListStep.stay h, fun hr => absurd rfl hr, fun _ _ => rfl⟩
  | succ n ih =>
    intro s Ls h
    by_cases hv : id < POWER_SMALLEST ∨ id > s.power_largest ∨ (s.slabclass id).sl_curr = 0
    · rw [slab_rebalance_alloc_loop_empty size id n s hv]
      exact ⟨Ls, ListStep.stay h, fun hr => absurd rfl hr, fun _ _ => rfl⟩
    · have hv1 : ¬ (id < POWER_SMALLEST ∨ id > s.power_largest) := fun hc =>
        hv (hc.elim Or.inl (fun h2 => Or.inr (Or.inl h2)))
      have hv2 : (s.slabclass id).sl_curr ≠ 0 := fun hc => hv (Or.inr (Or.inr hc))
      cases hL : Ls id with
      | nil =>
        have := h.count id
        rw [hL] at this
        exact absurd this hv2
      | cons x L =>
        have hl := h.list id
        rw [hL] at hl
        have hx : (s.slabclass id).slots = x := hl.1
        obtain ⟨hp, hxc, f3, f1⟩ := ListStep.pop_head size id x L h hL
        rw [slab_rebalance_alloc_loop_pop size id n s hv1 hv2 (by rw [hx]; exact hl.2.1), hx]
        by_cases hin : x ≥ s.slab_rebal.slab_start ∧ x < s.slab_rebal.slab_end
        · rw [if_pos hin]
          obtain ⟨hk, _⟩ := ListStep.mark_at
            (t := rebalance_alloc_skip (freelist_pop s size id).2 size x) x hp.wf f1
            (rebalance_alloc_skip_heap _ size x)
            (fun j => ⟨(rebalance_alloc_skip_class _ size x j).1,
              (rebalance_alloc_skip_class _ size x j).2.1⟩)
          obtain ⟨Ls', g1, g3, g4⟩ := ih _ _ hk.wf
          refine ⟨Ls', (hp.followed hk).followed g1, g3, fun a ha => ?_⟩
          have hax : a ≠ x := fun hc => ha id (by rw [hL, hc]; exact List.mem_cons_self x L)
          rw [g4 a (fun j hm => ha j (hp.sub j a hm)), rebalance_alloc_skip_heap,
            upd_other _ _ _ _ hax, f3 a (ha id)]
        · rw [if_neg hin]
          exact ⟨upd Ls id L, hp, fun _ => ⟨f1, hxc⟩, fun a ha => f3 a (ha id)⟩

/-- The `case MOVE_FROM_LRU` of `slab_rebalance_move`, after the `refcount_incr` of the
classification, as a step on the freelists. -/
theorem ListStep.from_lru {s : State} {Ls : Nat → List Nat} (e : MoveEnv) (h : AllWF s Ls)
    (he : EnvOK e)
    (h2 : (s.heap s.slab_rebal.slab_pos).it_flags &&& ITEM_SLABBED = 0) :
    ∃ Ls', ListStep s (move_from_lru (refcount_incr s s.slab_rebal.slab_pos) e) Ls Ls' ∧
      ∀ j, s.slab_rebal.slab_pos ∉ Ls j := by
  have hoff : ∀ j, s.slab_rebal.slab_pos ∉ Ls j := by
    intro j hm
    have := (h.free j _ hm).1
    rw [this] at h2
    exact absurd h2 (by decide)
  have h1 : ListStep s (refcount_incr s s.slab_rebal.slab_pos) Ls Ls := by
    refine ListStep.of_unslabbed h (fun a ha => ?_) (fun _ => ⟨rfl, rfl⟩)
    by_cases hap : a = s.slab_rebal.slab_pos
    · exfalso
      rw [hap, refcount_incr_flags] at ha
      rcases ha with ha | ha <;> exact ha h2
    · exact refcount_incr_other s _ a hap
  have hs1 : (refcount_incr s s.slab_rebal.slab_pos).slab_rebal = s.slab_rebal := rfl
  have hA : ∃ LsA, ListStep (refcount_incr s s.slab_rebal.slab_pos)
        (lru_alloc (refcount_incr s s.slab_rebal.slab_pos) e).2 Ls LsA ∧
      ((lru_alloc (refcount_incr s s.slab_rebal.slab_pos) e).1 ≠ 0 →
        (∀ j, (lru_alloc (refcount_incr s s.slab_rebal.slab_pos) e).1 ∉ LsA j) ∧
        ((lru_alloc (refcount_incr s s.slab_rebal.slab_pos) e).2.heap
          (lru_alloc (refcount_incr s s.slab_rebal.slab_pos) e).1).it_flags &&& ITEM_SLABBED
          = 0) ∧
      (∀ a, (∀ j, a ∉ Ls j) →
        (lru_alloc (refcount_incr s s.slab_rebal.slab_pos) e).2.heap a =
          (refcount_incr s s.slab_rebal.slab_pos).heap a) := by
    unfold lru_alloc
    by_cases hx : e.expired = true
    · rw [if_pos hx]
      exact ⟨Ls, ListStep.stay h1.wf, fun hr => absurd rfl hr, fun _ _ => rfl⟩
    · rw [if_neg hx]
      exact ListStep.alloc_loop _ _ _ _ Ls h1.wf
  obtain ⟨LsA, a1, a3, a4⟩ := hA
  have hAc : ((lru_alloc (refcount_incr s s.slab_rebal.slab_pos) e).2.heap
      (refcount_incr s s.slab_rebal.slab_pos).slab_rebal.slab_pos).it_flags &&& ITEM_SLABBED
      = 0 := by
    rw [hs1, a4 _ hoff, refcount_incr_flags]
    exact h2
  obtain ⟨K1, K2⟩ := move_from_lru_slabbed (refcount_incr s s.slab_rebal.slab_pos) e he hAc
  have h3 : ListStep (lru_alloc (refcount_incr s s.slab_rebal.slab_pos) e).2
      (move_from_lru (refcount_incr s s.slab_rebal.slab_pos) e) LsA LsA := by
    refine ListStep.of_unslabbed a1.wf (fun a ha => ?_) (fun j => move_from_lru_class _ e j)
    rcases ha with ha | ha
    · refine K2 a ha (fun hr hc => ?_)
      rw [hc] at ha
      exact ha (a3 hr).2
    · exact (K1 a ha).1
  exact ⟨LsA, (h1.followed a1).followed h3, hoff⟩

theorem SameMem.stay_mem (s : State) : SameMem s s := ⟨rfl, rfl⟩

theorem SameMem.then_mem {s t u : State} (h1 : SameMem s t) (h2 : SameMem t u) : SameMem s u :=
  ⟨h2.mem_base.trans h1.mem_base, h2.mem_current.trans h1.mem_current⟩

theorem freelist_pop_sameMem (s : State) (size id : Nat) :
    SameMem s (freelist_pop s size id).2 :=
  ⟨rfl, freelist_pop_mem_current s size id⟩

theorem do_slabs_alloc_no_newpage_sameMem (s : State) (size id : Nat) (h : Host) :
    SameMem s (do_slabs_alloc s size id SLABS_ALLOC_NO_NEWPAGE h).2 := by
  rw [do_slabs_alloc_no_newpage_eq]
  split
  · exact SameMem.stay_mem s
  · split
    · exact freelist_pop_sameMem s size id
    · exact SameMem.stay_mem s

theorem slab_rebalance_alloc_loop_sameMem (size id : Nat) :
    ∀ n s, SameMem s (slab_rebalance_alloc_loop size id n s).2 := by
  intro n
  induction n with
  | zero => intro s; exact SameMem.stay_mem s
  | succ n ih =>
    intro s
    have ha := do_slabs_alloc_no_newpage_sameMem s size id host_unused
    unfold slab_rebalance_alloc_loop
    dsimp only
    split
    · exact ha
    · split
      · have hk : ∀ u x, SameMem u (rebalance_alloc_skip u size x) := fun _ _ => ⟨rfl, rfl⟩
        exact (ha.then_mem (hk _ _)).then_mem (ih _)
      · exact ha

theorem move_from_lru_sameMem (s : State) (e : MoveEnv) : SameMem s (move_from_lru s e) := by
  have ha : SameMem s (lru_alloc s e).2 := by
    unfold lru_alloc
    split
    · exact SameMem.stay_mem s
    · exact slab_rebalance_alloc_loop_sameMem _ _ _ s
  have h2 : SameMem (lru_alloc s e).2 (move_from_lru s e) := by
    unfold move_from_lru lru_rescue lru_drop count_eviction_nomem requested_sub
    dsimp only
    split_ifs <;> exact ⟨rfl, rfl⟩
  exact ha.then_mem h2

theorem move_classify_sameMem (s : State) (e : MoveEnv) :
    SameMem s (move_classify s e).state := by
  rcases move_classify_cases s e with ⟨_, c⟩ | ⟨_, _, c⟩ | ⟨_, _, c⟩ | ⟨_, _, _, c⟩ |
    ⟨_, _, _, _, c⟩ | ⟨_, _, _, _, c⟩ <;> rw [c] <;> exact ⟨rfl, rfl⟩

theorem move_switch_sameMem (st : move_status) (s : State) (e : MoveEnv) (it : Nat) :
    SameMem s (move_switch st s e it) := by
  cases st
  · exact SameMem.stay_mem s
  · exact ⟨rfl, rfl⟩
  · exact (move_from_lru_sameMem s e).then_mem ⟨rfl, rfl⟩
  · exact ⟨rfl, rfl⟩
  · exact ⟨rfl, rfl⟩

theorem move_chunk_sameMem (s : State) (e : MoveEnv) : SameMem s (move_chunk s e).state := by
  have h := (move_classify_sameMem s e).then_mem
    (move_switch_sameMem (move_classify s e).status (move_classify s e).state e
      s.slab_rebal.slab_pos)
  exact ⟨h.mem_base, h.mem_current⟩

theorem lru_alloc_busy (s : State) (e : MoveEnv) :
    (lru_alloc s e).2.slab_rebal.busy_items = s.slab_rebal.busy_items := by
  unfold lru_alloc
  split
  · rfl
  · exact slab_rebalance_alloc_loop_busy _ _ _ s

/-- The cursor and the count of busy chunks after one iteration of `slab_rebalance_move`:
the cursor moves on by the chunk size of the source, and the chunk is counted exactly when
it is BUSY or LOCKED. -/
theorem move_chunk_record (s : State) (e : MoveEnv) :
    (move_chunk s e).state.slab_rebal.slab_pos =
      s.slab_rebal.slab_pos + (s.slabclass s.slab_rebal.s_clsid.toNat).size ∧
    (move_chunk s e).state.slab_rebal.busy_items =
      s.slab_rebal.busy_items + (if (move_chunk s e).status.busy = true then 1 else 0) := by
  rcases move_classify_cases s e with ⟨h1, _⟩ | ⟨h1, h2, c⟩ | ⟨_, _, c⟩ | ⟨_, _, _, c⟩ |
    ⟨h2, _, _, _, c⟩ | ⟨_, _, _, _, c⟩
  · obtain ⟨e1, e2⟩ := move_chunk_pass_effect s e h1
    rw [e1, e2]
    exact ⟨rfl, rfl⟩
  · obtain ⟨e1, _, _, _, e5⟩ := move_chunk_eq s e
    have hf := freelist_unlink_scanFrame s s.slab_rebal.s_clsid.toNat s.slab_rebal.slab_pos
    rw [e1, e5, c]
    refine ⟨?_, rfl⟩
    show s.slab_rebal.slab_pos + ((freelist_unlink s s.slab_rebal.s_clsid.toNat
      s.slab_rebal.slab_pos).slabclass s.slab_rebal.s_clsid.toNat).size = _
    rw [hf.size]
  · obtain ⟨e1, e2⟩ := move_chunk_busy_effect s e _ (Or.inl rfl) c
    rw [e1, e2]
    exact ⟨rfl, rfl⟩
  · obtain ⟨e1, e2⟩ := move_chunk_busy_effect s e _ (Or.inr rfl) c
    rw [e1, e2]
    exact ⟨rfl, rfl⟩
  · obtain ⟨e1, _, _, _, e5⟩ := move_chunk_eq s e
    have hf := move_from_lru_scanFrame (refcount_incr s s.slab_rebal.slab_pos) e
    have hp := move_from_lru_pos (refcount_incr s s.slab_rebal.slab_pos) e
    have hb := move_from_lru_busy (refcount_incr s s.slab_rebal.slab_pos) e
    rw [lru_alloc_busy] at hb
    rw [e1, e5, c]
    refine ⟨?_, hb⟩
    show (move_from_lru (refcount_incr s s.slab_rebal.slab_pos) e).slab_rebal.slab_pos +
      ((move_from_lru (refcount_incr s s.slab_rebal.slab_pos) e).slabclass
        (move_from_lru (refcount_incr s s.slab_rebal.slab_pos) e).slab_rebal.s_clsid.toNat).size
      = _
    rw [hp, hf.s_clsid, hf.size]
    rfl
  · obtain ⟨e1, e2⟩ := move_chunk_busy_effect s e _ (Or.inl rfl) c
    rw [e1, e2]
    exact ⟨rfl, rfl⟩

/-- A state that differs from `t` in the rebalance record only takes over its step. -/
theorem ListStep.record {s t u : State} {Ls Ls' : Nat → List Nat} (h : ListStep s t Ls Ls')
    (hh : u.heap = t.heap) (hc : u.slabclass = t.slabclass) : ListStep s u Ls Ls' := by
  refine ⟨AllWF.congr_on t u Ls' h.wf (fun j => by rw [hc]; exact ⟨rfl, rfl⟩)
    (fun _ _ _ => by rw [hh]), h.sub, fun a ha => ?_, fun a ha => ?_⟩
  · rw [hh] at ha
    unfold is_cleared
    rw [hh]
    exact h.slabbed a ha
  · unfold is_cleared
    rw [hh]
    exact h.cleared a ha

/-- One iteration of `slab_rebalance_move` as a step on the freelists, when the item
subsystem respects the SLABBED flag, a chunk at the cursor that carries SLABBED and is not
cleared is on the freelist of the source class, and a chunk at the cursor with the flags
of a cleared chunk has `refcount = 0`: the chunk at the cursor is cleared unless it is
counted busy, and then no header changes. -/
theorem ListStep.iteration {s : State} {Ls : Nat → List Nat} (e : MoveEnv) (h : AllWF s Ls)
    (he : EnvOK e)
    (hon : (s.heap s.slab_rebal.slab_pos).it_flags &&& ITEM_SLABBED ≠ 0 →
      (s.heap s.slab_rebal.slab_pos).it_flags ≠ ITEM_SLABBED ||| ITEM_FETCHED →
      s.slab_rebal.slab_pos ∈ Ls s.slab_rebal.s_clsid.toNat)
    (hclr : (s.heap s.slab_rebal.slab_pos).it_flags = ITEM_SLABBED ||| ITEM_FETCHED →
      (s.heap s.slab_rebal.slab_pos).refcount = 0) :
    ∃ Ls', ListStep s (move_chunk s e).state Ls Ls' ∧
      ((move_chunk s e).status.busy = false →
        is_cleared (move_chunk s e).state.heap s.slab_rebal.slab_pos) := by
  rcases move_classify_cases s e with ⟨h1, _⟩ | ⟨h1, h2, c⟩ | ⟨_, _, c⟩ | ⟨_, _, _, c⟩ |
    ⟨h2, _, _, _, c⟩ | ⟨_, _, _, _, c⟩
  · obtain ⟨e1, e2⟩ := move_chunk_pass_effect s e h1
    rw [e1, e2]
    exact ⟨Ls, (ListStep.stay h).record rfl rfl, fun _ => ⟨h1, hclr h1⟩⟩
  · have hc := hon h2 h1
    obtain ⟨_, _, e3, e4, _⟩ := move_chunk_eq s e
    rw [c] at e3 e4
    obtain ⟨k1, k2⟩ := ListStep.unlink_mark (t := (move_chunk s e).state) _ _ h hc
      (by rw [e3]; rfl) (fun j => by rw [e4]; exact ⟨rfl, rfl⟩)
    exact ⟨_, k1, fun _ => k2⟩
  · obtain ⟨e1, e2⟩ := move_chunk_busy_effect s e _ (Or.inl rfl) c
    rw [e1, e2]
    exact ⟨Ls, (ListStep.stay h).record rfl rfl, fun hb => absurd hb (by decide)⟩
  · obtain ⟨e1, e2⟩ := move_chunk_busy_effect s e _ (Or.inr rfl) c
    rw [e1, e2]
    exact ⟨Ls, (ListStep.stay h).record rfl rfl, fun hb => absurd hb (by decide)⟩
  · obtain ⟨Ls', hu, hoff⟩ := ListStep.from_lru e h he h2
    obtain ⟨_, _, e3, e4, _⟩ := move_chunk_eq s e
    rw [c] at e3 e4
    obtain ⟨k1, k2⟩ := ListStep.mark_at (t := (move_chunk s e).state) s.slab_rebal.slab_pos
      hu.wf (fun j hm => hoff j (hu.sub j _ hm)) (by rw [e3]; rfl)
      (fun j => by rw [e4]; exact ⟨rfl, rfl⟩)
    exact ⟨Ls', hu.followed k1, fun _ => k2⟩
  · obtain ⟨e1, e2⟩ := move_chunk_busy_effect s e _ (Or.inl rfl) c
    rw [e1, e2]
    exact ⟨Ls, (ListStep.stay h).record rfl rfl, fun hb => absurd hb (by decide)⟩

theorem ScanFrame.same_pages {s t : State} (h : ScanFrame s t) (j : Nat) :
    (t.slabclass j).pages = (s.slabclass j).pages :=
  pages_congr (h.slabs j) (h.slab_list j)

theorem ScanPage.frame {s t : State} {src dst : Nat} (h : ScanPage s src dst)
    (hf : ScanFrame s t) : ScanPage t src dst := by
  refine ⟨by rw [hf.s_clsid]; exact h.s_clsid, by rw [hf.d_clsid]; exact h.d_clsid, h.src_ge,
    by rw [hf.power_largest]; exact h.dst_le, h.ne, by rw [hf.settings]; exact h.enabled, ?_, ?_⟩
  · rw [hf.same_pages, hf.slab_start]; exact h.rest
  · rw [hf.slab_end, hf.slab_start, hf.size, hf.perslab]; exact h.stop

/-- A step of the worker on the freelists that leaves the pages alone keeps `HeapInv`. -/
theorem HeapInv.of_listStep {s t : State} {Ls Ls' : Nat → List Nat} (h : HeapInv s Ls)
    (hl : ListStep s t Ls Ls') (hf : ScanFrame s t) (hm : SameMem s t) : HeapInv t Ls' := by
  refine h.of_step hl.wf hf.same_pages hf.size hf.perslab hf.settings hm.mem_base hm.mem_current
    (fun id a ha => h.own id a (hl.sub id a ha)) (fun a ha => ?_)
  rcases hl.slabbed a ha with hc | ⟨e1, e2, e3⟩
  · exact Or.inr (Or.inl hc)
  · exact Or.inr (Or.inr ⟨e1, e2, fun j hj => ⟨j, e3 j hj⟩⟩)

/-- The cursor of the scan lies in the page being cleared. -/
theorem ScanPage.cursor_in_page {s : State} {Ls : Nat → List Nat} {src dst : Nat}
    (h : HeapInv s Ls) (hp : ScanPage s src dst) (hpos : 0 < s.settings.item_size_max) (k : Nat)
    (hk : k < (s.slabclass src).perslab ∨ (k = 0 ∧ (s.slabclass src).perslab = 0)) :
    s.slab_rebal.slab_start ≤ s.slab_rebal.slab_start + k * (s.slabclass src).size ∧
    s.slab_rebal.slab_start + k * (s.slabclass src).size <
      s.slab_rebal.slab_start + page_len s src := by
  rcases hk with hk | ⟨hk, _⟩
  · exact h.chunk_in_page src _ k hk
  · have : page_len s src = s.settings.item_size_max := by
      unfold page_len; rw [hp.enabled]; rfl
    rw [hk, this]
    omega

/-- One iteration of `slab_rebalance_move` in a state of the invariant, the cursor on chunk
`k` of the page being cleared. -/
theorem scan_step {s : State} {Ls : Nat → List Nat} {src dst : Nat} (e : MoveEnv)
    (h : HeapInv s Ls) (hp : ScanPage s src dst) (hpos : 0 < s.settings.item_size_max)
    (he : EnvOK e) (k : Nat) (hat : ScanAt s src k)
    (hk : k < (s.slabclass src).perslab ∨ (k = 0 ∧ (s.slabclass src).perslab = 0)) :
    ∃ Ls', HeapInv (move_chunk s e).state Ls' ∧ ListStep s (move_chunk s e).state Ls Ls' ∧
      ScanAt (move_chunk s e).state src (k + 1) := by
  obtain ⟨rest, hrest⟩ := hp.rest
  have hmem : s.slab_rebal.slab_start ∈ (s.slabclass src).pages := by
    rw [hrest]; exact List.mem_cons_self _ _
  have hin := hp.cursor_in_page h hpos k hk
  rw [← hat.pos] at hin
  have hsc : s.slab_rebal.s_clsid.toNat = src := by rw [hp.s_clsid]; rfl
  have hon : (s.heap s.slab_rebal.slab_pos).it_flags &&& ITEM_SLABBED ≠ 0 →
      (s.heap s.slab_rebal.slab_pos).it_flags ≠ ITEM_SLABBED ||| ITEM_FETCHED →
      s.slab_rebal.slab_pos ∈ Ls s.slab_rebal.s_clsid.toNat := by
    intro h1 h2
    rcases h.flag src _ hmem _ hin.1 hin.2 h1 with ⟨j, hj⟩ | hc
    · obtain ⟨e1, _⟩ := h.owner src _ j _ hmem hin hj
      rw [hsc, ← e1]; exact hj
    · exact absurd hc.1 h2
  have hclr : (s.heap s.slab_rebal.slab_pos).it_flags = ITEM_SLABBED ||| ITEM_FETCHED →
      (s.heap s.slab_rebal.slab_pos).refcount = 0 := by
    intro h1
    rcases h.flag src _ hmem _ hin.1 hin.2 (cleared_slabbed h1) with ⟨j, hj⟩ | hc
    · have := (h.wf.free j _ hj).1
      rw [h1] at this
      exact absurd this (by decide)
    · exact hc.2
  obtain ⟨Ls', hl, hcl⟩ := ListStep.iteration e h.wf he hon hclr
  have hf := move_chunk_scanFrame s e
  obtain ⟨r1, r2⟩ := move_chunk_record s e
  refine ⟨Ls', h.of_listStep hl hf (move_chunk_sameMem s e), hl, ?_, ?_⟩
  · rw [r1, hf.slab_start, hf.size, hsc, hat.pos, Nat.add_mul, Nat.one_mul, Nat.add_assoc]
  · intro hb j hj hjp
    rw [r2] at hb
    rw [hf.slab_start, hf.size]
    have hb0 : s.slab_rebal.busy_items = 0 := by omega
    rcases Nat.lt_or_ge j k with hlt | hge
    · rw [hf.perslab] at hjp
      exact hl.cleared _ (hat.seen hb0 j hlt hjp)
    · have hjk : j = k := by omega
      have hnb : (move_chunk s e).status.busy = false := by
        by_contra hc
        have : (move_chunk s e).status.busy = true := by
          cases hx : (move_chunk s e).status.busy
          · exact absurd hx hc
          · rfl
        rw [if_pos this] at hb
        omega
      rw [hjk, ← hat.pos]
      exact hcl hnb

/-- The loop of `slab_rebalance_move` in a state of the invariant, from chunk `k` of the
page being cleared. -/
theorem scan_loop (envs : Nat → MoveEnv) (he : ∀ x, EnvOK (envs x)) {src dst : Nat} :
    ∀ n x wb s Ls k, HeapInv s Ls → ScanPage s src dst → 0 < s.settings.item_size_max →
      ScanAt s src k →
      (k < (s.slabclass src).perslab ∨ (k = 0 ∧ (s.slabclass src).perslab = 0)) →
      ∃ Ls' k', HeapInv (move_loop envs n x wb s).2 Ls' ∧
        ListStep s (move_loop envs n x wb s).2 Ls Ls' ∧
        ScanFrame s (move_loop envs n x wb s).2 ∧
        ScanAt (move_loop envs n x wb s).2 src k' := by
  intro n
  induction n with
  | zero =>
    intro x wb s Ls k h _ _ hat _
    exact ⟨Ls, k, h, ListStep.stay h.wf, ScanFrame.unchanged s, hat⟩
  | succ n ih =>
    intro x wb s Ls k h hp hpos hat hk
    obtain ⟨Ls1, h1, l1, a1⟩ := scan_step (envs x) h hp hpos (he x) k hat hk
    have hf := move_chunk_scanFrame s (envs x)
    unfold move_loop
    dsimp only
    split
    · exact ⟨Ls1, k + 1, h1, l1, hf, a1⟩
    · rename_i hlt
      have hp1 := hp.frame hf
      have hk1 : k + 1 < ((move_chunk s (envs x)).state.slabclass src).perslab := by
        rw [a1.pos, hp1.stop] at hlt
        by_contra hc
        apply hlt
        have := Nat.mul_le_mul_left ((move_chunk s (envs x)).state.slabclass src).size
          (Nat.le_of_not_lt hc)
        rw [Nat.mul_comm _ (k + 1)] at this
        exact Nat.add_le_add_left this _
      obtain ⟨Ls2, k2, h2, l2, f2, a2⟩ := ih (x + 1)
        (if (move_chunk s (envs x)).status.busy = true then wb + 1 else wb)
        (move_chunk s (envs x)).state Ls1 (k + 1) h1 hp1 (by rw [hf.settings]; exact hpos) a1
        (Or.inl hk1)
      exact ⟨Ls2, k2, h2, l1.followed l2, hf.next f2, a2⟩

theorem move_tail_sameAlloc (s : State) : SameAlloc s (move_tail s) := by
  unfold move_tail
  split
  · split <;> exact ⟨rfl, fun _ => rfl, fun _ => rfl, fun _ => rfl, fun _ => rfl, fun _ => rfl,
      rfl, rfl, rfl⟩
  · exact ⟨rfl, fun _ => rfl, fun _ => rfl, fun _ => rfl, fun _ => rfl, fun _ => rfl,
      rfl, rfl, rfl⟩

/-- The end of `slab_rebalance_move` keeps the record of the page move consistent. -/
theorem move_tail_scanInv {s : State} {Ls : Nat → List Nat} {src dst : Nat} (k : Nat)
    (h : HeapInv s Ls) (hp : ScanPage s src dst) (hat : ScanAt s src k)
    (hd : s.slab_rebal.done = 0) : ScanInv (move_tail s) src dst := by
  have hstop := hp.stop
  have hpos := hat.pos
  have hge : s.slab_rebal.slab_pos ≥ s.slab_rebal.slab_end →
      (s.slabclass src).perslab ≤ k := by
    intro hc
    rw [hpos, hstop] at hc
    by_contra hlt
    have hlt2 : k < (s.slabclass src).perslab := Nat.lt_of_not_le hlt
    have hsz := h.size_pos src (by omega)
    have := Nat.mul_lt_mul_of_pos_right hlt2 hsz
    rw [Nat.mul_comm (s.slabclass src).perslab] at this
    omega
  have hlt : ¬ s.slab_rebal.slab_pos ≥ s.slab_rebal.slab_end →
      k < (s.slabclass src).perslab := by
    intro hc
    rw [hpos, hstop] at hc
    by_contra hge2
    apply hc
    have := Nat.mul_le_mul_left (s.slabclass src).size (Nat.le_of_not_lt hge2)
    rw [Nat.mul_comm _ k] at this
    exact Nat.add_le_add_left this _
  unfold move_tail
  split
  · rename_i hend
    split
    · refine ⟨⟨hp.s_clsid, hp.d_clsid, hp.src_ge, hp.dst_le, hp.ne, hp.enabled, hp.rest,
        hp.stop⟩, ⟨0, ⟨by show s.slab_rebal.slab_start = _; rw [Nat.zero_mul, Nat.add_zero],
          fun _ j hj _ => absurd hj (Nat.not_lt_zero j)⟩, fun _ => ?_⟩, fun hc => absurd hd hc⟩
      rcases Nat.eq_zero_or_pos (s.slabclass src).perslab with h0 | h0
      · exact Or.inr ⟨rfl, h0⟩
      · exact Or.inl h0
    · rename_i hb
      have hb0 : s.slab_rebal.busy_items = 0 := not_not.mp hb
      refine ⟨⟨hp.s_clsid, hp.d_clsid, hp.src_ge, hp.dst_le, hp.ne, hp.enabled, hp.rest,
        hp.stop⟩, ⟨k, ⟨hat.pos, hat.seen⟩, fun hc => ?_⟩, fun _ j hj => ?_⟩
      · exfalso
        have : (s.slab_rebal.done + 1) % 256 = 0 := hc
        rw [hd] at this
        exact absurd this (by decide)
      · exact hat.seen hb0 j (Nat.lt_of_lt_of_le hj (hge hend)) hj
  · rename_i hend
    exact ⟨hp, ⟨k, hat, fun _ => Or.inl (hlt hend)⟩, fun hc => absurd hd hc⟩

/-- A call of `slab_rebalance_move` during a page move that is not done keeps the
invariant of the freelists and pages and the record of the page move. -/
theorem scan_move (envs : Nat → MoveEnv) (he : ∀ x, EnvOK (envs x)) (bulk : Int)
    {s : State} {Ls : Nat → List Nat} {src dst : Nat} (h : HeapInv s Ls)
    (hs : ScanInv s src dst) (hpos : 0 < s.settings.item_size_max)
    (hd : s.slab_rebal.done = 0) :
    ∃ Ls', HeapInv (slab_rebalance_move s bulk envs).2 Ls' ∧
      ScanInv (slab_rebalance_move s bulk envs).2 src dst ∧
      ListStep s (slab_rebalance_move s bulk envs).2 Ls Ls' := by
  obtain ⟨k, hat, hk⟩ := hs.cursor
  obtain ⟨Ls', k', h1, l1, f1, a1⟩ :=
    scan_loop envs he bulk.toNat 0 0 s Ls k h hs.page hpos hat (hk hd)
  have hsa := move_tail_sameAlloc (move_loop envs bulk.toNat 0 0 s).2
  refine ⟨Ls', h1.congr hsa, ?_, ?_⟩
  · exact move_tail_scanInv k' h1 (hs.page.frame f1) a1 (by rw [f1.done]; exact hd)
  · exact l1.record hsa.heap (funext fun j => by
      show (move_tail _).slabclass j = _
      unfold move_tail
      split
      · split <;> rfl
      · rfl)

/-- Zeroing a page of class `id` that holds no freelist chunk and splitting it again into
the freelist of the class keeps `HeapInv`. -/
theorem HeapInv.resplit {u : State} {Ls : Nat → List Nat} (id p : Nat) (h : HeapInv u Ls)
    (hid1 : 1 ≤ id) (hid2 : id ≤ u.power_largest) (hp : p ∈ (u.slabclass id).pages)
    (hoff : ∀ j a, a ∈ Ls j → ¬ (p ≤ a ∧ a < p + page_len u id)) :
    ∃ Ls', HeapInv (split_slab_page_into_freelist
      (u.setHeap (memset0 u.heap p (page_len u id))) p id) Ls' := by
  have hnew_in : ∀ k, k < (u.slabclass id).perslab →
      p ≤ p + k * (u.slabclass id).size ∧
      p + k * (u.slabclass id).size < p + page_len u id :=
    fun k hk => h.chunk_in_page id p k hk
  have h4 : AllWF (u.setHeap (memset0 u.heap p (page_len u id))) Ls := by
    refine AllWF.congr_on u _ Ls h.wf (fun _ => ⟨rfl, rfl⟩) (fun j a ha => ?_)
    rw [setHeap_heap]
    unfold memset0
    rw [if_neg (hoff j a ha)]
  have hsz : 0 < (u.slabclass id).size ∨ (u.slabclass id).perslab ≤ 1 := by
    rcases Nat.lt_or_ge (u.slabclass id).perslab 1 with hlt | hge
    · exact Or.inr (by omega)
    · exact Or.inl (h.size_pos id hge)
  obtain ⟨L', h5, h6, h7⟩ := AllWF.split_exact id (u.slabclass id).perslab p
    (u.setHeap (memset0 u.heap p (page_len u id))) Ls h4 hid1 hid2 (h.page_nz id p hp) hsz
    (fun j a ha k hk hc => hoff j a ha (by rw [hc]; exact hnew_in k hk))
  have e1 : ((u.setHeap (memset0 u.heap p (page_len u id))).slabclass id).size =
      (u.slabclass id).size := rfl
  rw [e1] at h6 h7
  have hfr : Frame u (split_loop id (u.slabclass id).perslab p
      (u.setHeap (memset0 u.heap p (page_len u id)))) :=
    (setHeap_frame u _).trans (split_loop_frame id _ _ _)
  have hsp : SamePages u (split_loop id (u.slabclass id).perslab p
      (u.setHeap (memset0 u.heap p (page_len u id)))) :=
    (setHeap_samePages u _).andThen (split_loop_samePages id _ _ _)
  refine ⟨upd Ls id L', ?_⟩
  show HeapInv (split_loop id (u.slabclass id).perslab p
    (u.setHeap (memset0 u.heap p (page_len u id)))) _
  refine h.of_step h5 (fun j => pages_congr (hsp.slabs j) (hsp.slab_list j)) hfr.size hfr.perslab
    hfr.settings hfr.mem_base (by rw [split_loop_mem_current]; rfl) (fun j a ha => ?_)
    (fun a ha => ?_)
  · by_cases hj : j = id
    · rw [hj, upd_same] at ha
      rw [hj]
      rcases (h6 a).mp ha with hm | ⟨k, hk, e⟩
      · exact h.own id a hm
      · exact ⟨p, hp, k, hk, e⟩
    · rw [upd_other _ _ _ _ hj] at ha
      exact h.own j a ha
  · have hkeep : ∀ j2, a ∈ Ls j2 → ∃ j3, a ∈ upd Ls id L' j3 := by
      intro j2 hm
      by_cases hj2 : j2 = id
      · exact ⟨id, by rw [upd_same]; exact (h6 a).mpr (Or.inl (by rw [← hj2]; exact hm))⟩
      · exact ⟨j2, by rw [upd_other _ _ _ _ hj2]; exact hm⟩
    by_cases hch : ∃ k, k < (u.slabclass id).perslab ∧ a = p + k * (u.slabclass id).size
    · exact Or.inl ⟨id, by rw [upd_same]; exact (h6 a).mpr (Or.inr hch)⟩
    · have h8 := h7 a (fun k hk hc => hch ⟨k, hk, hc⟩)
      by_cases hin : p ≤ a ∧ a < p + page_len u id
      · exfalso
        apply ha
        rw [h8.1, setHeap_heap]
        unfold memset0
        rw [if_pos hin]
        rfl
      · have h9 : (u.setHeap (memset0 u.heap p (page_len u id))).heap a = u.heap a := by
          rw [setHeap_heap]
          unfold memset0
          rw [if_neg hin]
        rw [h9] at h8
        exact Or.inr (Or.inr ⟨h8.1, h8.2, hkeep⟩)

theorem rebalance_move_lists_sameMem (s : State) :
    (rebalance_move_lists s).settings = s.settings ∧
    (rebalance_move_lists s).mem_base = s.mem_base ∧
    (rebalance_move_lists s).mem_current = s.mem_current ∧
    (rebalance_move_lists s).slab_rebal = s.slab_rebal ∧
    (rebalance_move_lists s).slab_rebalance_signal = s.slab_rebalance_signal :=
  ⟨rfl, rfl, rfl, rfl, rfl⟩

/-- The page vectors after `slab_rebalance_finish` moved the first page of the source to
the destination, once the page is clear: `HeapInv` still holds, for the same freelists. -/
theorem HeapInv.move_lists {s : State} {Ls : Nat → List Nat} {src dst : Nat}
    (h : HeapInv s Ls) (hs : ScanInv s src dst) (hd : s.slab_rebal.done ≠ 0) :
    HeapInv (rebalance_move_lists s) Ls ∧
    s.slab_rebal.slab_start ∈ ((rebalance_move_lists s).slabclass dst).pages ∧
    (∀ j a, a ∈ Ls j → ¬ (s.slab_rebal.slab_start ≤ a ∧
      a < s.slab_rebal.slab_start + s.settings.item_size_max)) := by
  obtain ⟨rest, hrest⟩ := hs.page.rest
  have hmem : s.slab_rebal.slab_start ∈ (s.slabclass src).pages := by
    rw [hrest]; exact List.mem_cons_self _ _
  have hslabs : 1 ≤ (s.slabclass src).slabs := by
    rw [← pages_length, hrest]
    simp
  obtain ⟨p1, _, p3, _, p5⟩ := rebalance_move_lists_pages s src dst hs.page.s_clsid
    hs.page.d_clsid hs.page.ne hslabs
  rw [hrest, List.tail_cons] at p1
  obtain ⟨k1, _, _, k4, k5, _, k7, k8⟩ := rebalance_move_lists_keeps s
  have hpl : ∀ j, page_len s j = s.settings.item_size_max := by
    intro j; unfold page_len; rw [hs.page.enabled]; rfl
  have hplu : ∀ j, page_len (rebalance_move_lists s) j = s.settings.item_size_max := by
    intro j
    rw [page_len_congr (s := s) (t := rebalance_move_lists s) rfl k7 k8 j]
    exact hpl j
  have hother : ∀ j, j ≠ src → j ≠ dst →
      ((rebalance_move_lists s).slabclass j).pages = (s.slabclass j).pages :=
    fun j h1 h2 => by rw [p5 j h1 h2]
  -- every page afterwards was a page before, of the same class unless it is the moved page
  have horigin : ∀ j, ∀ p ∈ ((rebalance_move_lists s).slabclass j).pages,
      (p ∈ (s.slabclass j).pages ∧ (j = src → p ∈ rest)) ∨
      (j = dst ∧ p = s.slab_rebal.slab_start) := by
    intro j p hp
    by_cases hj : j = src
    · rw [hj, p1] at hp
      exact Or.inl ⟨by rw [hj, hrest]; exact List.mem_cons_of_mem _ hp, fun _ => hp⟩
    · by_cases hj2 : j = dst
      · rw [hj2, p3] at hp
        rcases List.mem_append.mp hp with hm | hm
        · exact Or.inl ⟨by rw [hj2]; exact hm, fun hc => absurd hc hj⟩
        · exact Or.inr ⟨hj2, List.mem_singleton.mp hm⟩
      · rw [hother j hj hj2] at hp
        exact Or.inl ⟨hp, fun hc => absurd hc hj⟩
  have hin_s : ∀ j, ∀ p ∈ ((rebalance_move_lists s).slabclass j).pages,
      ∃ c, p ∈ (s.slabclass c).pages := by
    intro j p hp
    rcases horigin j p hp with ⟨hm, _⟩ | ⟨_, e⟩
    · exact ⟨j, hm⟩
    · exact ⟨src, by rw [e]; exact hmem⟩
  have hpair := h.apart_in src
  rw [hrest, List.pairwise_cons] at hpair
  -- no freelist chunk lies in the page
  have hoff : ∀ j a, a ∈ Ls j → ¬ (s.slab_rebal.slab_start ≤ a ∧
      a < s.slab_rebal.slab_start + s.settings.item_size_max) := by
    intro j a ha hc
    rw [← hpl src] at hc
    obtain ⟨_, k, hk, e⟩ := h.owner src _ j a hmem hc ha
    have hcl := hs.cleared hd k hk
    rw [← e] at hcl
    have := (h.wf.free j a ha).1
    rw [hcl.1] at this
    exact absurd this (by decide)
  have hwf : AllWF (rebalance_move_lists s) Ls :=
    AllWF.congr_on s _ Ls h.wf (fun j => ⟨k4 j, k5 j⟩) (fun _ a _ => by rw [k1])
  have hstart_dst : s.slab_rebal.slab_start ∈ ((rebalance_move_lists s).slabclass dst).pages := by
    rw [p3]; exact List.mem_append_right _ (List.mem_singleton_self _)
  refine ⟨⟨hwf, ?_, ?_, ?_, ?_, ?_, ?_, ?_, ?_, ?_, ?_⟩, hstart_dst, hoff⟩
  · intro j; rw [k7, k8, hplu, ← hpl j]; exact h.room j
  · intro j; rw [k7, k8]; exact h.size_pos j
  · intro j p hp
    obtain ⟨c, hc⟩ := hin_s j p hp
    exact h.page_nz c p hc
  · intro j
    rw [hplu]
    by_cases hj : j = src
    · rw [hj, p1]
      have := hpair.2
      rw [hpl] at this
      exact this
    · by_cases hj2 : j = dst
      · rw [hj2, p3, List.pairwise_append]
        have h1 := h.apart_in dst
        rw [hpl] at h1
        refine ⟨h1, List.pairwise_singleton _ _, fun q hq r hr => ?_⟩
        rw [List.mem_singleton.mp hr]
        have := h.apart_x dst src (Ne.symm hs.page.ne) q hq _ hmem
        rw [hpl, hpl] at this
        exact this
      · rw [hother j hj hj2]
        have h1 := h.apart_in j
        rw [hpl] at h1
        exact h1
  · intro j jd hne p hp q hq
    rw [hplu, hplu]
    rcases horigin j p hp with ⟨hm, hr⟩ | ⟨e1, e2⟩
    · rcases horigin jd q hq with ⟨hm2, hr2⟩ | ⟨e3, e4⟩
      · have := h.apart_x j jd hne p hm q hm2
        rw [hpl, hpl] at this
        exact this
      · rw [e4]
        by_cases hjs : j = src
        · have := hpair.1 p (hr hjs)
          rw [hpl] at this
          exact regions_apart_symm this
        · have := h.apart_x j src hjs p hm _ hmem
          rw [hpl, hpl] at this
          exact this
    · rcases horigin jd q hq with ⟨hm2, hr2⟩ | ⟨e3, e4⟩
      · rw [e2]
        by_cases hjs : jd = src
        · have := hpair.1 q (hr2 hjs)
          rw [hpl] at this
          exact this
        · have := h.apart_x src jd (Ne.symm hjs) _ hmem q hm2
          rw [hpl, hpl] at this
          exact this
      · exact absurd (e1.trans e3.symm) hne
  · intro j a ha
    obtain ⟨p, hp, k, hk, e⟩ := h.own j a ha
    have hpin : p ∈ ((rebalance_move_lists s).slabclass j).pages := by
      by_cases hj : j = src
      · rw [hj, p1]
        rw [hj, hrest] at hp
        rcases List.mem_cons.mp hp with e0 | hm
        · exfalso
          rw [hj] at hk e
          have hin := h.chunk_in_page src p k hk
          rw [← e, e0, hpl] at hin
          exact hoff j a ha hin
        · exact hm
      · by_cases hj2 : j = dst
        · rw [hj2, p3]; rw [hj2] at hp; exact List.mem_append_left _ hp
        · rw [hother j hj hj2]; exact hp
    exact ⟨p, hpin, k, by rw [k8]; exact hk, by rw [k7]; exact e⟩
  · intro j p hp a h1 h2 h3
    rw [hplu] at h2
    rw [k1] at h3
    obtain ⟨c, hc⟩ := hin_s j p hp
    rcases h.flag c p hc a h1 (by rw [hpl]; exact h2) h3 with hh | hh
    · exact Or.inl hh
    · exact Or.inr (by unfold is_cleared; rw [k1]; exact hh)
  · intro hb
    refine ⟨(h.region hb).1, fun j p hp => ?_⟩
    rw [hplu]
    obtain ⟨c, hc⟩ := hin_s j p hp
    have := (h.region hb).2 c p hc
    rw [hpl] at this
    exact this
  · intro _
    exact hs.page.enabled
  · rw [k8]; exact h.pool_chunks

theorem SameAlloc.stay_alloc (s : State) : SameAlloc s s :=
  ⟨rfl, fun _ => rfl, fun _ => rfl, fun _ => rfl, fun _ => rfl, fun _ => rfl, rfl, rfl, rfl⟩

theorem SameAlloc.then_alloc {s t u : State} (h1 : SameAlloc s t) (h2 : SameAlloc t u) :
    SameAlloc s u :=
  ⟨h2.heap.trans h1.heap, fun j => (h2.slots j).trans (h1.slots j),
    fun j => (h2.sl_curr j).trans (h1.sl_curr j), fun j => (h2.pages j).trans (h1.pages j),
    fun j => (h2.size j).trans (h1.size j), fun j => (h2.perslab j).trans (h1.perslab j),
    h2.settings.trans h1.settings, h2.mem_base.trans h1.mem_base,
    h2.mem_current.trans h1.mem_current⟩

theorem slab_rebalance_start_sameAlloc (s : State) (ok : Bool) :
    SameAlloc s (slab_rebalance_start s ok).2 := by
  have hg := grow_slab_list_sameAlloc s s.slab_rebal.d_clsid.toNat ok
  unfold slab_rebalance_start
  dsimp only
  split
  · exact hg
  · exact hg.then_alloc ⟨rfl, fun _ => rfl, fun _ => rfl, fun _ => rfl, fun _ => rfl, fun _ => rfl,
      rfl, rfl, rfl⟩

theorem reassign_resolve_sameAlloc (s : State) (src dst : Int) :
    SameAlloc s (reassign_resolve s src dst).2 := by
  unfold reassign_resolve
  split
  · exact ⟨rfl, fun _ => rfl, fun _ => rfl, fun _ => rfl, fun _ => rfl, fun _ => rfl,
      rfl, rfl, rfl⟩
  · exact SameAlloc.stay_alloc s

/-- What the worker invariant needs of `slab_rebalance_start`: when it returns 0 the ids
are in range and differ, the source owns two pages, its first page is recorded with the
cursor on it, `done` is clear and the signal is 2; otherwise the result is negative and the
rebalance record is unchanged. -/
theorem slab_rebalance_start_effect (s : State) (ok : Bool) :
    ((slab_rebalance_start s ok).1 = 0 →
      (1 ≤ s.slab_rebal.s_clsid ∧ 0 ≤ s.slab_rebal.d_clsid ∧
        s.slab_rebal.d_clsid ≤ s.power_largest ∧
        s.slab_rebal.s_clsid ≠ s.slab_rebal.d_clsid) ∧
      (s.slabclass s.slab_rebal.s_clsid.toNat).pages.head? =
        some (slab_rebalance_start s ok).2.slab_rebal.slab_start ∧
      (slab_rebalance_start s ok).2.slab_rebal.slab_end =
        (slab_rebalance_start s ok).2.slab_rebal.slab_start +
          (s.slabclass s.slab_rebal.s_clsid.toNat).size *
            (s.slabclass s.slab_rebal.s_clsid.toNat).perslab ∧
      (slab_rebalance_start s ok).2.slab_rebal.slab_pos =
        (slab_rebalance_start s ok).2.slab_rebal.slab_start ∧
      (slab_rebalance_start s ok).2.slab_rebal.done = 0 ∧
      (slab_rebalance_start s ok).2.slab_rebalance_signal = 2 ∧
      (slab_rebalance_start s ok).2.slab_rebal.s_clsid = s.slab_rebal.s_clsid ∧
      (slab_rebalance_start s ok).2.slab_rebal.d_clsid = s.slab_rebal.d_clsid ∧
      (slab_rebalance_start s ok).2.power_largest = s.power_largest) ∧
    ((slab_rebalance_start s ok).1 ≠ 0 →
      (slab_rebalance_start s ok).1 < 0 ∧
      (slab_rebalance_start s ok).2.slab_rebal = s.slab_rebal) := by
  have hspec := rebalance_no_go_spec s ok
  have hgf := grow_slab_list_frame s s.slab_rebal.d_clsid.toNat ok
  have hgc := grow_slab_list_sameClasses s s.slab_rebal.d_clsid.toNat ok
  rcases slab_rebalance_start_cases s ok with ⟨hn, e⟩ | ⟨hz, e0, e, esig, _, _, hp, _⟩
  · refine ⟨fun h0 => ?_, fun _ => ⟨by rw [e]; exact hspec.2 hn, by rw [e]; exact hgf.slab_rebal⟩⟩
    rw [e] at h0
    exact absurd h0 hn
  · refine ⟨fun _ => ?_, fun hne => absurd e0 hne⟩
    obtain ⟨n1, _, n3, n4, n5, _, n7⟩ := hspec.1.mp hz
    rw [e]
    dsimp only
    rw [hgc.slab_list, hgf.size, hgf.perslab, hgf.slab_rebal]
    refine ⟨⟨n1, n3, n4, n5⟩, ?_, rfl, rfl, rfl, esig, rfl, rfl,
      hp.trans hgf.power_largest⟩
    unfold slabclass_t.pages
    obtain ⟨k, hk⟩ : ∃ k, (s.slabclass s.slab_rebal.s_clsid.toNat).slabs = k + 1 :=
      ⟨(s.slabclass s.slab_rebal.s_clsid.toNat).slabs - 1, by omega⟩
    rw [hk, List.range_succ_eq_map]
    rfl

/-- A successful `slab_rebalance_start` leaves a consistent record of the page move, with
the cursor on the first chunk of the first page of the source. -/
theorem slab_rebalance_start_scanInv {s : State} (ok : Bool)
    (hen : s.settings.slab_reassign = true)
    (h0 : (slab_rebalance_start s ok).1 = 0) :
    ∃ src dst, ScanInv (slab_rebalance_start s ok).2 src dst := by
  obtain ⟨⟨n1, n3, n4, n5⟩, e2, e3, e4, e5, _, e7, e8, hpl⟩ :=
    (slab_rebalance_start_effect s ok).1 h0
  have hsa := slab_rebalance_start_sameAlloc s ok
  have hsrc : s.slab_rebal.s_clsid = (s.slab_rebal.s_clsid.toNat : Int) :=
    (Int.toNat_of_nonneg (by omega)).symm
  have hdst : s.slab_rebal.d_clsid = (s.slab_rebal.d_clsid.toNat : Int) :=
    (Int.toNat_of_nonneg n3).symm
  refine ⟨s.slab_rebal.s_clsid.toNat, s.slab_rebal.d_clsid.toNat,
    ⟨by rw [e7]; exact hsrc, by rw [e8]; exact hdst, by omega, by rw [hpl]; omega, ?_,
      by rw [hsa.settings]; exact hen, ?_, ?_⟩,
    ⟨0, ⟨by rw [e4, Nat.zero_mul, Nat.add_zero], fun _ j hj _ => absurd hj (Nat.not_lt_zero j)⟩,
      fun _ => ?_⟩, fun hc => absurd e5 hc⟩
  · intro hc
    apply n5
    rw [hsrc, hdst, hc]
  · rw [hsa.pages]
    cases hpg : (s.slabclass s.slab_rebal.s_clsid.toNat).pages with
    | nil => rw [hpg] at e2; exact absurd e2 (by simp)
    | cons p rest =>
      rw [hpg] at e2
      simp only [List.head?_cons, Option.some.injEq] at e2
      exact ⟨rest, by rw [e2]⟩
  · rw [e3, hsa.size, hsa.perslab]
  · rcases Nat.eq_zero_or_pos
      ((slab_rebalance_start s ok).2.slabclass s.slab_rebal.s_clsid.toNat).perslab with h1 | h1
    · exact Or.inr ⟨rfl, h1⟩
    · exact Or.inl h1

/-- The first part of a turn of the rebalance worker, started with `done` clear and
`slab_reassign` on, keeps the invariant. -/
theorem rebalance_thread_dispatch_slabInv {s : State} (was_busy : Nat) (ok : Bool)
    (bulk : Int) (envs : Nat → MoveEnv) (he : ∀ x, EnvOK (envs x)) (h : SlabInv s)
    (hen : s.settings.slab_reassign = true) (hd : s.slab_rebal.done = 0) :
    SlabInv (rebalance_thread_dispatch s was_busy ok bulk envs).2 := by
  obtain ⟨Ls, hh⟩ := h.heap
  unfold rebalance_thread_dispatch
  by_cases h1 : s.slab_rebalance_signal = 1
  · rw [if_pos h1]
    dsimp only
    have hsa := slab_rebalance_start_sameAlloc s ok
    obtain ⟨q2, q3⟩ := slab_rebalance_start_effect s ok
    by_cases hneg : (slab_rebalance_start s ok).1 < 0
    · rw [if_pos hneg]
      obtain ⟨_, e2⟩ := q3 (by omega)
      have h02 : ¬ ((0 : Nat) = 2) := by decide
      refine ⟨⟨Ls, (hh.congr hsa).congr ⟨rfl, fun _ => rfl, fun _ => rfl, fun _ => rfl,
        fun _ => rfl, fun _ => rfl, rfl, rfl, rfl⟩⟩, Or.inl rfl, fun hc => absurd hc h02,
        fun _ => ?_, ?_⟩
      · show (slab_rebalance_start s ok).2.slab_rebal.done = 0
        rw [e2]; exact hd
      · show 0 < (slab_rebalance_start s ok).2.settings.item_size_max
        rw [hsa.settings]; exact h.page_pos
    · rw [if_neg hneg]
      have h0 : (slab_rebalance_start s ok).1 = 0 := by
        by_contra hc
        exact hneg (q3 hc).1
      obtain ⟨_, _, _, _, e5, e6, _, _, _⟩ := q2 h0
      refine ⟨⟨Ls, hh.congr hsa⟩, Or.inr (Or.inr e6),
        fun _ => slab_rebalance_start_scanInv ok hen h0, fun hc => absurd e6 hc, ?_⟩
      rw [hsa.settings]; exact h.page_pos
  · rw [if_neg h1]
    by_cases h2 : s.slab_rebalance_signal ≠ 0 ∧ s.slab_rebal.slab_start ≠ 0
    · rw [if_pos h2]
      have hsig : s.slab_rebalance_signal = 2 := by
        rcases h.signal with e | e | e
        · exact absurd e h2.1
        · exact absurd e h1
        · exact e
      obtain ⟨src, dst, hs⟩ := h.scan hsig
      obtain ⟨Ls', k1, k2, _⟩ := scan_move envs he bulk hh hs h.page_pos hd
      have hf : (slab_rebalance_move s bulk envs).2.slab_rebalance_signal = 2 ∧
          (slab_rebalance_move s bulk envs).2.settings = s.settings := by
        have hfl := move_loop_scanFrame envs bulk.toNat 0 0 s
        have ht : ∀ u : State, (move_tail u).slab_rebalance_signal = u.slab_rebalance_signal ∧
            (move_tail u).settings = u.settings := by
          intro u
          unfold move_tail
          split
          · split <;> exact ⟨rfl, rfl⟩
          · exact ⟨rfl, rfl⟩
        show (move_tail _).slab_rebalance_signal = 2 ∧ (move_tail _).settings = _
        rw [(ht _).1, (ht _).2, hfl.signal, hfl.settings]
        exact ⟨hsig, rfl⟩
      refine ⟨⟨Ls', k1⟩, Or.inr (Or.inr hf.1), fun _ => ⟨src, dst, k2⟩,
        fun hc => absurd hf.1 hc, ?_⟩
      rw [hf.2]; exact h.page_pos
    · rw [if_neg h2]
      exact h

/-- `slab_rebalance_finish`, called with `done` set, keeps the invariant and ends the
page move. -/
theorem slab_rebalance_finish_slabInv {s : State} (h : SlabInv s)
    (hd : s.slab_rebal.done ≠ 0) :
    SlabInv (slab_rebalance_finish s) ∧ (slab_rebalance_finish s).slab_rebal.done = 0 := by
  obtain ⟨Ls, hh⟩ := h.heap
  have hsig : s.slab_rebalance_signal = 2 := by
    by_contra hc
    exact hd (h.idle hc)
  obtain ⟨src, dst, hs⟩ := h.scan hsig
  obtain ⟨m1, m2, m3⟩ := hh.move_lists hs hd
  obtain ⟨t1, t2, t3, t4, t5⟩ := rebalance_move_lists_sameMem s
  obtain ⟨_, _, k3, _⟩ := rebalance_move_lists_keeps s
  have hpage : ∃ Ls', HeapInv (rebalance_move_page s) Ls' ∧
      (rebalance_move_page s).settings = s.settings := by
    unfold rebalance_move_page
    dsimp only
    by_cases hdp : s.slab_rebal.d_clsid > SLAB_GLOBAL_PAGE_POOL
    · rw [if_pos hdp]
      have hd1 : 1 ≤ dst := by
        have := hs.page.d_clsid
        rw [this] at hdp
        simp only [SLAB_GLOBAL_PAGE_POOL] at hdp
        omega
      have hdt : s.slab_rebal.d_clsid.toNat = dst := by rw [hs.page.d_clsid]; rfl
      have hplu : page_len (rebalance_move_lists s) dst = s.settings.item_size_max := by
        unfold page_len; rw [t1, hs.page.enabled]; rfl
      have hr := HeapInv.resplit dst s.slab_rebal.slab_start m1 hd1
        (by rw [k3]; exact hs.page.dst_le) m2 (fun j a ha => by rw [hplu]; exact m3 j a ha)
      rw [hplu] at hr
      obtain ⟨Ls', hr⟩ := hr
      rw [hdt]
      refine ⟨Ls', hr, ?_⟩
      exact (((setHeap_frame (rebalance_move_lists s) _).trans
        (split_loop_frame dst _ _ _)).settings).trans t1
    · rw [if_neg hdp]
      exact ⟨Ls, m1, t1⟩
  obtain ⟨Ls', hp, hset⟩ := hpage
  have h02 : ¬ ((0 : Nat) = 2) := by decide
  refine ⟨⟨⟨Ls', hp.congr ⟨rfl, fun _ => rfl, fun _ => rfl, fun _ => rfl, fun _ => rfl,
    fun _ => rfl, rfl, rfl, rfl⟩⟩, Or.inl rfl, fun hc => absurd hc h02, fun _ => rfl, ?_⟩, rfl⟩
  show 0 < (rebalance_move_page s).settings.item_size_max
  rw [hset]; exact h.page_pos

/-- `do_slabs_reassign` keeps the invariant and does not touch `done`. -/
theorem do_slabs_reassign_slabInv {s : State} (src dst : Int) (h : SlabInv s) :
    SlabInv (do_slabs_reassign s src dst).2 ∧
    (do_slabs_reassign s src dst).2.slab_rebal.done = s.slab_rebal.done := by
  obtain ⟨Ls, hh⟩ := h.heap
  obtain ⟨_, _, r3, r4, _⟩ := reassign_resolve_state s src dst
  have hsa := reassign_resolve_sameAlloc s src dst
  have h02 : ¬ ((0 : Nat) = 2) := by decide
  have h12 : ¬ ((1 : Nat) = 2) := by decide
  have hres : s.slab_rebalance_signal = 0 → SlabInv (reassign_resolve s src dst).2 := by
    intro h0
    refine ⟨⟨Ls, hh.congr hsa⟩, by rw [r4]; exact h.signal,
      fun hc => absurd (by rw [← h0, ← r4]; exact hc) h02,
      fun _ => by rw [r3]; exact h.idle (by rw [h0]; exact h02), by
        rw [hsa.settings]; exact h.page_pos⟩
  rcases do_slabs_reassign_cases s src dst with
    ⟨_, e⟩ | ⟨_, _, e⟩ | ⟨h0, _, _, e⟩ | ⟨h0, _, _, _, e⟩ | ⟨h0, _, _, _, e⟩
  · rw [e]; exact ⟨h, rfl⟩
  · rw [e]; exact ⟨h, rfl⟩
  · rw [e]; exact ⟨hres h0, by rw [r3]⟩
  · rw [e]; exact ⟨hres h0, by rw [r3]⟩
  · rw [e]
    refine ⟨⟨⟨Ls, (hh.congr hsa).congr ⟨rfl, fun _ => rfl, fun _ => rfl, fun _ => rfl,
      fun _ => rfl, fun _ => rfl, rfl, rfl, rfl⟩⟩, Or.inr (Or.inl rfl),
      fun hc => absurd hc h12, fun _ => ?_, ?_⟩, ?_⟩
    · show (reassign_resolve s src dst).2.slab_rebal.done = 0
      rw [r3]; exact h.idle (by rw [h0]; exact h02)
    · show 0 < (reassign_resolve s src dst).2.settings.item_size_max
      rw [hsa.settings]; exact h.page_pos
    · show (reassign_resolve s src dst).2.slab_rebal.done = _
      rw [r3]

theorem Foreground.stay_fg (s : State) : Foreground s s :=
  ⟨Frame.refl s, fun _ _ => ⟨[], (List.append_nil _).symm⟩, fun _ _ _ _ _ _ _ h => h⟩

theorem Foreground.then_fg {s t u : State} (h1 : Foreground s t) (h2 : Foreground t u) :
    Foreground s u := by
  refine ⟨h1.frame.trans h2.frame, fun j hj => ?_, fun j hj q hq a ha1 ha2 hc => ?_⟩
  · obtain ⟨l1, e1⟩ := h1.pages j hj
    obtain ⟨l2, e2⟩ := h2.pages j hj
    exact ⟨l1 ++ l2, by rw [e2, e1, List.append_assoc]⟩
  · obtain ⟨l1, e1⟩ := h1.pages j hj
    have hq2 : q ∈ (t.slabclass j).pages := by rw [e1]; exact List.mem_append_left _ hq
    exact h2.cleared j hj q hq2 a ha1 (by rw [h1.frame.page_len]; exact ha2)
      (h1.cleared j hj q hq a ha1 ha2 hc)

/-- A step that adds no page and keeps every cleared header. -/
theorem Foreground.of_cleared {s t : State} (hf : Frame s t) (hp : SamePages s t)
    (hc : ∀ a, is_cleared s.heap a → is_cleared t.heap a) : Foreground s t :=
  ⟨hf, fun j _ => ⟨[], by rw [List.append_nil]; exact pages_congr (hp.slabs j) (hp.slab_list j)⟩,
    fun _ _ _ _ a _ _ h => hc a h⟩

/-- A page move in progress is not disturbed by the foreground. -/
theorem ScanInv.keep_foreground {s t : State} {Ls : Nat → List Nat} {src dst : Nat}
    (h : HeapInv s Ls) (hs : ScanInv s src dst) (hf : Foreground s t) : ScanInv t src dst := by
  obtain ⟨rest, hrest⟩ := hs.page.rest
  have hmem : s.slab_rebal.slab_start ∈ (s.slabclass src).pages := by
    rw [hrest]; exact List.mem_cons_self _ _
  have hrb := hf.frame.slab_rebal
  have hkeep : ∀ j, j < (s.slabclass src).perslab →
      is_cleared s.heap (s.slab_rebal.slab_start + j * (s.slabclass src).size) →
      is_cleared t.heap (s.slab_rebal.slab_start + j * (s.slabclass src).size) := by
    intro j hj hc
    have hin := h.chunk_in_page src s.slab_rebal.slab_start j hj
    exact hf.cleared src hs.page.src_ge _ hmem _ hin.1 hin.2 hc
  obtain ⟨k, hat, hk⟩ := hs.cursor
  refine ⟨⟨by rw [hrb]; exact hs.page.s_clsid, by rw [hrb]; exact hs.page.d_clsid,
    hs.page.src_ge, by rw [hf.frame.power_largest]; exact hs.page.dst_le, hs.page.ne,
    by rw [hf.frame.settings]; exact hs.page.enabled, ?_, ?_⟩, ⟨k, ⟨?_, ?_⟩, ?_⟩, ?_⟩
  · obtain ⟨l, e⟩ := hf.pages src hs.page.src_ge
    rw [e, hrest, hrb]
    exact ⟨rest ++ l, rfl⟩
  · rw [hrb, hf.frame.size, hf.frame.perslab]; exact hs.page.stop
  · rw [hrb, hf.frame.size]; exact hat.pos
  · rw [hrb, hf.frame.size, hf.frame.perslab]
    intro hb j hj hjp
    exact hkeep j hjp (hat.seen hb j hj hjp)
  · rw [hrb, hf.frame.perslab]; exact hk
  · rw [hrb, hf.frame.size, hf.frame.perslab]
    intro hd j hj
    exact hkeep j hj (hs.cleared hd j hj)

/-- The foreground keeps the invariant, once it keeps the freelists and pages together. -/
theorem SlabInv.of_foreground {s t : State} (h : SlabInv s) (ht : ∃ Ls', HeapInv t Ls')
    (hf : Foreground s t) : SlabInv t ∧ t.slab_rebal.done = s.slab_rebal.done := by
  obtain ⟨Ls, hh⟩ := h.heap
  refine ⟨⟨ht, by rw [hf.frame.signal]; exact h.signal, fun hsig => ?_, fun hsig => ?_,
    by rw [hf.frame.settings]; exact h.page_pos⟩, by rw [hf.frame.slab_rebal]⟩
  · rw [hf.frame.signal] at hsig
    obtain ⟨src, dst, hs⟩ := h.scan hsig
    exact ⟨src, dst, hs.keep_foreground hh hf⟩
  · rw [hf.frame.signal] at hsig
    rw [hf.frame.slab_rebal]
    exact h.idle hsig

/-- `do_slabs_newslab` for a valid class, as a step of the foreground. -/
theorem do_slabs_newslab_foreground {s : State} {Ls : Nat → List Nat} (id : Nat) (hst : Host)
    (h : HeapInv s Ls) (hid1 : 1 ≤ id) (hid2 : id ≤ s.power_largest)
    (hhost : s.mem_base = 0 → (s.slabclass SLAB_GLOBAL_PAGE_POOL).pages = [] →
      hst.malloc_ret ≠ 0 → fresh_region s hst.malloc_ret (page_len s id)) :
    (∃ Ls', HeapInv (do_slabs_newslab s id hst).2 Ls') ∧
    Foreground s (do_slabs_newslab s id hst).2 := by
  obtain ⟨k1, k2, k3⟩ := h.newslab_page id hst hid1 hid2 hhost
  refine ⟨k1, do_slabs_newslab_frame s id hst, k3, fun j hj q hq a h1 h2 hc => ?_⟩
  obtain ⟨e1, e2⟩ := k2 j hj q hq a h1 h2
  exact ⟨by rw [e1]; exact hc.1, by rw [e2]; exact hc.2⟩

/-- `do_slabs_alloc`, as a step of the foreground. -/
theorem do_slabs_alloc_foreground {s : State} {Ls : Nat → List Nat} (size id flags : Nat)
    (hst : Host) (h : HeapInv s Ls)
    (hhost : s.mem_base = 0 → (s.slabclass SLAB_GLOBAL_PAGE_POOL).pages = [] →
      hst.malloc_ret ≠ 0 → fresh_region s hst.malloc_ret (page_len s id)) :
    (∃ Ls', HeapInv (do_slabs_alloc s size id flags hst).2 Ls') ∧
    Foreground s (do_slabs_alloc s size id flags hst).2 := by
  rcases do_slabs_alloc_cases s size id flags hst with ⟨_, e⟩ | ⟨hid, hrest⟩
  · rw [e]; exact ⟨⟨Ls, h⟩, Foreground.stay_fg s⟩
  · have hid1 : 1 ≤ id := by
      by_contra hc; exact hid (Or.inl (by simp only [POWER_SMALLEST]; omega))
    have hid2 : id ≤ s.power_largest := by
      by_contra hc; exact hid (Or.inr (by omega))
    have hrefill : (∃ Ls1, HeapInv (alloc_refill s id flags hst) Ls1) ∧
        Foreground s (alloc_refill s id flags hst) := by
      unfold alloc_refill
      split
      · exact do_slabs_newslab_foreground id hst h hid1 hid2 hhost
      · exact ⟨⟨Ls, h⟩, Foreground.stay_fg s⟩
    obtain ⟨⟨Ls1, h1⟩, f1⟩ := hrefill
    rcases hrest with ⟨hne, e⟩ | ⟨_, e⟩
    · rw [e]
      cases hL : Ls1 id with
      | nil =>
        have := h1.wf.count id
        rw [hL] at this
        exact absurd this hne
      | cons x L =>
        obtain ⟨p1, p2⟩ := h1.pop_chunk size id x L hL
        exact ⟨⟨_, p1⟩, f1.then_fg (Foreground.of_cleared (freelist_pop_frame _ size id)
          (freelist_pop_samePages _ size id) p2)⟩
    · rw [e]; exact ⟨⟨Ls1, h1⟩, f1⟩

/-- `do_slabs_free` of a chunk in use of a page of the class, as a step of the foreground. -/
theorem do_slabs_free_foreground {s : State} {Ls : Nat → List Nat} (ptr size id : Nat)
    (h : HeapInv s Ls) (hc : is_chunk s id ptr)
    (hb : (s.heap ptr).it_flags &&& ITEM_SLABBED = 0) :
    (∃ Ls', HeapInv (do_slabs_free s ptr size id) Ls') ∧
    Foreground s (do_slabs_free s ptr size id) := by
  by_cases hid : id < POWER_SMALLEST ∨ id > s.power_largest
  · have e : do_slabs_free s ptr size id = s := by
      unfold do_slabs_free; rw [if_pos hid]
    rw [e]; exact ⟨⟨Ls, h⟩, Foreground.stay_fg s⟩
  · have hid1 : 1 ≤ id := by
      by_contra hc; exact hid (Or.inl (by simp only [POWER_SMALLEST]; omega))
    have hid2 : id ≤ s.power_largest := by
      by_contra hc; exact hid (Or.inr (by omega))
    obtain ⟨p1, p2⟩ := h.free_chunk ptr size id hid1 hid2 hc hb
    exact ⟨⟨_, p1⟩, Foreground.of_cleared (do_slabs_free_frame s ptr size id)
      (do_slabs_free_samePages s ptr size id) p2⟩

/-- A write of the item subsystem to the header of an item in use, which neither carries
SLABBED before nor after it, as a step of the foreground. -/
theorem item_write_foreground {s : State} {Ls : Nat → List Nat} (a : Nat) (v : item)
    (h : HeapInv s Ls) (h1 : (s.heap a).it_flags &&& ITEM_SLABBED = 0)
    (h2 : v.it_flags &&& ITEM_SLABBED = 0) :
    (∃ Ls', HeapInv (s.setHeap (upd s.heap a v)) Ls') ∧
    Foreground s (s.setHeap (upd s.heap a v)) := by
  obtain ⟨p1, p2⟩ := h.write a v h1 h2
  exact ⟨⟨Ls, p1⟩, Foreground.of_cleared (setHeap_frame s _) (setHeap_samePages s _) p2⟩

theorem slabs_init_loop_fits (cfg : settings_t) (MAX fnum fden : Nat) :
    ∀ fuel i size tab, (∀ j, class_fits cfg.item_size_max (tab j)) →
      ∀ j, class_fits cfg.item_size_max
        ((slabs_init_loop cfg MAX fnum fden fuel i size tab).2 j) := by
  intro fuel
  induction fuel with
  | zero => intro i size tab h j; exact h j
  | succ n ih =>
    intro i size tab h j
    unfold slabs_init_loop
    dsimp only
    split
    · apply ih
      intro k
      by_cases hk : k = i + 1
      · rw [hk, upd_same]
        refine ⟨Nat.mul_div_le _ _, fun h1 => ?_⟩
        have h2 : 1 ≤ cfg.item_size_max / align_chunk size := h1
        show 0 < align_chunk size
        by_contra hc
        have hz : align_chunk size = 0 := by omega
        rw [hz, Nat.div_zero] at h2
        omega
      · rw [upd_other _ _ _ _ hk]; exact h k
    · exact h j

theorem slabs_init_loop_low (cfg : settings_t) (MAX fnum fden : Nat) :
    ∀ fuel i size tab,
      i + 1 ≤ (slabs_init_loop cfg MAX fnum fden fuel i size tab).1 ∧
      ∀ j, j ≤ i → (slabs_init_loop cfg MAX fnum fden fuel i size tab).2 j = tab j := by
  intro fuel
  induction fuel with
  | zero => intro i size tab; exact ⟨Nat.le_refl _, fun _ _ => rfl⟩
  | succ n ih =>
    intro i size tab
    unfold slabs_init_loop
    dsimp only
    split
    · obtain ⟨h1, h2⟩ := ih (i + 1) (grow_size (round_double fnum fden) (align_chunk size))
        (upd tab (i + 1) (slabclass_t.mk (align_chunk size)
          (cfg.item_size_max / align_chunk size) (tab (i + 1)).slots (tab (i + 1)).sl_curr
          (tab (i + 1)).slabs (tab (i + 1)).slab_list (tab (i + 1)).list_size
          (tab (i + 1)).requested))
      refine ⟨by omega, fun j hj => ?_⟩
      rw [h2 j (by omega), upd_other _ _ _ _ (by omega)]
    · exact ⟨Nat.le_refl _, fun _ _ => rfl⟩

theorem class_fits_top (P : Nat) (r : Nat × (Nat → slabclass_t))
    (hl : ∀ j, class_fits P (r.2 j)) (hlow1 : 1 ≤ r.1) (hlow2 : r.2 0 = slabclass_t.zero)
    (hpos : 0 < P) :
    (∀ j, class_fits P (upd r.2 r.1 { r.2 r.1 with size := P, perslab := 1 } j)) ∧
    (upd r.2 r.1 { r.2 r.1 with size := P, perslab := 1 } 0).perslab = 0 := by
  constructor
  · intro j
    by_cases hj : j = r.1
    · rw [hj, upd_same]
      exact ⟨by show P * 1 ≤ _; omega, fun _ => hpos⟩
    · rw [upd_other _ _ _ _ hj]; exact hl j
  · have hr : (0 : Nat) ≠ r.1 := by omega
    rw [upd_other _ _ _ _ hr, hlow2]
    rfl

/-- What `HeapInv` needs of the state in which `slabs_init` has built the class table. -/
theorem slabs_init_start_table (b : Build) (cfg : settings_t) (heap0 : Nat → item)
    (limit fnum fden : Nat) (prealloc : Bool) (base : Nat) (seed : Option Nat)
    (hpos : 0 < cfg.item_size_max) :
    (∀ j, class_fits cfg.item_size_max
      ((slabs_init_start b (boot cfg heap0) limit fnum fden prealloc base seed).slabclass j)) ∧
    ((slabs_init_start b (boot cfg heap0) limit fnum fden prealloc base seed).slabclass
      0).perslab = 0 ∧
    (slabs_init_start b (boot cfg heap0) limit fnum fden prealloc base seed).settings = cfg ∧
    ((slabs_init_start b (boot cfg heap0) limit fnum fden prealloc base seed).mem_base ≠ 0 →
      (slabs_init_start b (boot cfg heap0) limit fnum fden prealloc base seed).mem_current
        ≠ 0) := by
  have hl := slabs_init_loop_fits cfg b.MAX_NUMBER_OF_SLAB_CLASSES fnum fden
    b.MAX_NUMBER_OF_SLAB_CLASSES (POWER_SMALLEST - 1) (b.sizeof_item + cfg.chunk_size)
    (fun _ => slabclass_t.zero)
    (fun _ => ⟨Nat.zero_le _, fun h => absurd h (Nat.not_succ_le_zero 0)⟩)
  obtain ⟨hlow1, hlow2⟩ := slabs_init_loop_low cfg b.MAX_NUMBER_OF_SLAB_CLASSES fnum fden
    b.MAX_NUMBER_OF_SLAB_CLASSES (POWER_SMALLEST - 1) (b.sizeof_item + cfg.chunk_size)
    (fun _ => slabclass_t.zero)
  obtain ⟨k1, k2⟩ := class_fits_top cfg.item_size_max _ hl
    (Nat.le_trans (by decide) hlow1) (hlow2 0 (Nat.zero_le _)) hpos
  refine ⟨?_, ?_, ?_, ?_⟩
  · unfold slabs_init_start
    dsimp only
    cases seed <;> cases prealloc <;> by_cases hb : base = 0 <;>
      simp only [hb, ne_eq, not_true_eq_false, not_false_eq_true, if_true, if_false,
        Bool.false_eq_true] <;> exact k1
  · unfold slabs_init_start
    dsimp only
    cases seed <;> cases prealloc <;> by_cases hb : base = 0 <;>
      simp only [hb, ne_eq, not_true_eq_false, not_false_eq_true, if_true, if_false,
        Bool.false_eq_true] <;> exact k2
  · unfold slabs_init_start
    dsimp only
    cases seed <;> cases prealloc <;> by_cases hb : base = 0 <;>
      simp only [hb, ne_eq, not_true_eq_false, not_false_eq_true, if_true, if_false,
        Bool.false_eq_true] <;> rfl
  · unfold slabs_init_start
    dsimp only
    cases seed <;> cases prealloc <;> by_cases hb : base ≠ 0 <;> simp [hb, boot]

/-- In the state in which `slabs_init` has built the class table, with pages of at least
one byte, the freelists and pages fit together: there is no page and no free chunk. -/
theorem slabs_init_start_heapInv (b : Build) (cfg : settings_t) (heap0 : Nat → item)
    (limit fnum fden : Nat) (prealloc : Bool) (base : Nat) (seed : Option Nat)
    (hpos : 0 < cfg.item_size_max) :
    HeapInv (slabs_init_start b (boot cfg heap0) limit fnum fden prealloc base seed)
      (fun _ => []) := by
  obtain ⟨t1, t2, t3, t4⟩ := slabs_init_start_table b cfg heap0 limit fnum fden prealloc base
    seed hpos
  have hf := (slabs_init_start_fresh b cfg heap0 limit fnum fden prealloc base seed).1
  have hwf := AllWF.start b cfg heap0 limit fnum fden prealloc base seed
  have hpg : ∀ j, ((slabs_init_start b (boot cfg heap0) limit fnum fden prealloc base
      seed).slabclass j).pages = [] := fun j => (pages_nil_iff _).mpr (hf j).1
  generalize slabs_init_start b (boot cfg heap0) limit fnum fden prealloc base seed = s
    at t1 t2 t3 t4 hwf hpg
  refine ⟨hwf, fun j => ?_, fun j => (t1 j).2, ?_, ?_, ?_, ?_, ?_, ?_, ?_, t2⟩
  · unfold page_len
    split
    · rw [t3]; exact (t1 j).1
    · exact Nat.le_refl _
  · intro j p hp; rw [hpg] at hp; exact absurd hp (List.not_mem_nil p)
  · intro j; rw [hpg]; exact List.Pairwise.nil
  · intro j _ _ p hp; rw [hpg] at hp; exact absurd hp (List.not_mem_nil p)
  · intro j a ha; exact absurd ha (List.not_mem_nil a)
  · intro j p hp; rw [hpg] at hp; exact absurd hp (List.not_mem_nil p)
  · intro hb
    exact ⟨t4 hb, fun j p hp => by rw [hpg] at hp; exact absurd hp (List.not_mem_nil p)⟩
  · intro hc; exact absurd (hpg _) hc

/-- The state in which `slabs_init` has built the class table satisfies the invariant. -/
theorem slabs_init_start_slabInv (b : Build) (cfg : settings_t) (heap0 : Nat → item)
    (limit fnum fden : Nat) (prealloc : Bool) (base : Nat) (seed : Option Nat)
    (hpos : 0 < cfg.item_size_max) :
    SlabInv (slabs_init_start b (boot cfg heap0) limit fnum fden prealloc base seed) ∧
    (slabs_init_start b (boot cfg heap0) limit fnum fden prealloc base seed).slab_rebal.done
      = 0 := by
  obtain ⟨_, _, t3, _⟩ := slabs_init_start_table b cfg heap0 limit fnum fden prealloc base
    seed hpos
  obtain ⟨i1, i2⟩ := slabs_init_start_idle b cfg heap0 limit fnum fden prealloc base seed
  have h02 : ¬ ((0 : Nat) = 2) := by decide
  refine ⟨⟨⟨_, slabs_init_start_heapInv b cfg heap0 limit fnum fden prealloc base seed hpos⟩,
    Or.inl i2, fun hc => absurd (i2.symm.trans hc) h02, fun _ => by rw [i1]; rfl,
    by rw [t3]; exact hpos⟩, by rw [i1]; rfl⟩

/-- Every reachable state satisfies the invariant, and `done` is clear when the worker
starts a turn. -/
theorem ListReach.slabInv {b : Build} {cfg : settings_t} {w : Bool} {s : State}
    (h : ListReach b cfg w s) : SlabInv s ∧ (w = false → s.slab_rebal.done = 0) := by
  induction h with
  | init heap0 limit fnum fden prealloc base seed hpos =>
    obtain ⟨k1, k2⟩ := slabs_init_start_slabInv b cfg heap0 limit fnum fden prealloc base
      seed hpos
    exact ⟨k1, fun _ => k2⟩
  | newslab w s id hst _ hid1 hid2 hhost ih =>
    obtain ⟨Ls, hh⟩ := ih.1.heap
    obtain ⟨k1, k2⟩ := do_slabs_newslab_foreground id hst hh hid1 hid2 hhost
    obtain ⟨f1, f2⟩ := ih.1.of_foreground k1 k2
    exact ⟨f1, fun hw => by rw [f2]; exact ih.2 hw⟩
  | alloc w s size id flags hst _ hhost ih =>
    obtain ⟨Ls, hh⟩ := ih.1.heap
    obtain ⟨k1, k2⟩ := do_slabs_alloc_foreground size id flags hst hh hhost
    obtain ⟨f1, f2⟩ := ih.1.of_foreground k1 k2
    exact ⟨f1, fun hw => by rw [f2]; exact ih.2 hw⟩
  | free w s ptr size id _ hc hb ih =>
    obtain ⟨Ls, hh⟩ := ih.1.heap
    obtain ⟨k1, k2⟩ := do_slabs_free_foreground ptr size id hh hc hb
    obtain ⟨f1, f2⟩ := ih.1.of_foreground k1 k2
    exact ⟨f1, fun hw => by rw [f2]; exact ih.2 hw⟩
  | write w s a v _ h1 h2 ih =>
    obtain ⟨Ls, hh⟩ := ih.1.heap
    obtain ⟨k1, k2⟩ := item_write_foreground a v hh h1 h2
    obtain ⟨f1, f2⟩ := ih.1.of_foreground k1 k2
    exact ⟨f1, fun hw => by rw [f2]; exact ih.2 hw⟩
  | reassign w s src dst _ ih =>
    obtain ⟨f1, f2⟩ := do_slabs_reassign_slabInv src dst ih.1
    exact ⟨f1, fun hw => by rw [f2]; exact ih.2 hw⟩
  | dispatch s was_busy realloc_ok bulk envs _ hen he ih =>
    exact ⟨rebalance_thread_dispatch_slabInv was_busy realloc_ok bulk envs he ih.1 hen
      (ih.2 rfl), fun hw => absurd hw (by decide)⟩
  | finish s _ ih =>
    by_cases hd : s.slab_rebal.done ≠ 0
    · rw [if_pos hd]
      obtain ⟨f1, f2⟩ := slab_rebalance_finish_slabInv ih.1 hd
      exact ⟨f1, fun _ => f2⟩
    · rw [if_neg hd]
      exact ⟨ih.1, fun _ => not_not.mp hd⟩

/-- In a state of the invariant with a page move in progress for a source class that has
chunks, the invariant of the pass of the scan holds. -/
theorem SlabInv.passInv {s : State} (h : SlabInv s) (hsig : s.slab_rebalance_signal = 2)
    (hd : s.slab_rebal.done = 0)
    (hper : 1 ≤ (s.slabclass s.slab_rebal.s_clsid.toNat).perslab) :
    ∃ L k, PassInv s L k ∧ k < (s.slabclass s.slab_rebal.s_clsid.toNat).perslab := by
  obtain ⟨Ls, hh⟩ := h.heap
  obtain ⟨src, dst, hs⟩ := h.scan hsig
  have hsc : s.slab_rebal.s_clsid.toNat = src := by rw [hs.page.s_clsid]; rfl
  rw [hsc] at hper ⊢
  obtain ⟨rest, hrest⟩ := hs.page.rest
  have hmem : s.slab_rebal.slab_start ∈ (s.slabclass src).pages := by
    rw [hrest]; exact List.mem_cons_self _ _
  obtain ⟨k, hat, hk⟩ := hs.cursor
  have hk2 : k < (s.slabclass src).perslab := by
    rcases hk hd with hk | ⟨_, h0⟩
    · exact hk
    · omega
  have hca : ∀ j, chunk_addr s j = s.slab_rebal.slab_start + j * (s.slabclass src).size := by
    intro j; unfold chunk_addr; rw [hsc]
  refine ⟨Ls src, k, ⟨⟨?_, ?_, ?_⟩, ⟨?_, ?_, ?_⟩, ?_, ?_, ?_⟩, hk2⟩
  · rw [hsc]; exact hh.size_pos src hper
  · rw [hca]; exact hat.pos
  · rw [hca, hsc, Nat.mul_comm]; exact hs.page.stop
  · rw [hsc]; exact hh.wf.list src
  · rw [hsc]; exact hh.wf.count src
  · intro a ha; exact (hh.wf.free src a ha).1
  · rw [hsc]
    intro j hj h1 h2
    rw [hca] at h1 h2 ⊢
    have hin := hh.chunk_in_page src s.slab_rebal.slab_start j hj
    rcases hh.flag src _ hmem _ hin.1 hin.2 h1 with ⟨i, hi⟩ | hc
    · obtain ⟨e1, _⟩ := hh.owner src _ i _ hmem hin hi
      rw [e1] at hi; exact hi
    · exact absurd hc.1 h2
  · rw [hsc]
    intro j hj h1
    rw [hca] at h1 ⊢
    have hin := hh.chunk_in_page src s.slab_rebal.slab_start j hj
    rcases hh.flag src _ hmem _ hin.1 hin.2 (cleared_slabbed h1) with ⟨i, hi⟩ | hc
    · have := (hh.wf.free i _ hi).1
      rw [h1] at this
      exact absurd this (by decide)
    · exact hc.2
  · intro hb j hj
    rw [hca]
    exact (hat.seen hb j hj (by omega)).1

/-- The loop of `slab_rebalance_alloc` keeps the freelists well formed. -/
theorem slab_rebalance_alloc_wf {s : State} {Ls : Nat → List Nat} (size id : Nat)
    (h : AllWF s Ls) : ∃ Ls', AllWF (slab_rebalance_alloc s size id).2 Ls' := by
  obtain ⟨Ls', hl, _⟩ := ListStep.alloc_loop size id
    (s.slabclass s.slab_rebal.s_clsid.toNat).perslab s Ls h
  exact ⟨Ls', hl.wf⟩

/-- C21 (amended): in every state that the allocator reaches from the start of
`slabs_init` under the protocol of `ListReach` (pages of at least one byte; the memory that
`malloc` returns overlaps no page; a chunk is freed to the class of its page, and only when
it is in use; the item subsystem respects the SLABBED flag; the worker runs only with
`slab_reassign` on), every chunk on a class freelist has the SLABBED flag set and
`slabs_clsid = 0` and `sl_curr` is the length of the freelist; the assertion at the entry
of `do_slabs_alloc` holds for every class; the freelists are well-formed doubly-linked
lists of chunks with flags exactly SLABBED, disjoint from each other.  The invariant also
holds after `slab_rebalance_alloc` called in such a state, and after every iteration of the
loop of `slab_rebalance_move` when the worker starts a call during a page move. -/
theorem freelist_invariant_reachable (b : Build) (cfg : settings_t) (w : Bool) (s : State)
    (h : ListReach b cfg w s) :
    FreelistInv s ∧ (∀ id, do_slabs_alloc_assert s id) ∧ (∃ Ls, AllWF s Ls) ∧
    (∀ size id, FreelistInv (slab_rebalance_alloc s size id).2) ∧
    (w = false → s.slab_rebalance_signal = 2 → ∀ envs : Nat → MoveEnv,
      (∀ x, EnvOK (envs x)) → ∀ n x wb, FreelistInv (move_loop envs n x wb s).2) := by
  obtain ⟨hI, hd⟩ := h.slabInv
  obtain ⟨Ls, hh⟩ := hI.heap
  refine ⟨AllWF.inv s Ls hh.wf, fun id => AllWF.assert s Ls hh.wf id, ⟨Ls, hh.wf⟩,
    fun size id => ?_, fun hw hsig envs he n x wb => ?_⟩
  · obtain ⟨Ls', hl⟩ := slab_rebalance_alloc_wf size id hh.wf
    exact AllWF.inv _ Ls' hl
  · obtain ⟨src, dst, hs⟩ := hI.scan hsig
    obtain ⟨k, hat, hk⟩ := hs.cursor
    obtain ⟨Ls', _, h1, _⟩ := scan_loop envs he n x wb s Ls k hh hs.page hI.page_pos hat
      (hk (hd hw))
    exact AllWF.inv _ Ls' h1.wf

/-- C26 (amended): in every state reached under the protocol of `ListReach`:
(1) while a page move is in progress (signal 2) and not done, for a source class with at
least one chunk per page, the cursor is `slab_start + k * size` for some `k < perslab`, so
`slab_start ≤ slab_pos < slab_end`;
(2) in such a state, for a call of `slab_rebalance_move` during which the item subsystem
respects the SLABBED flag: `was_busy` is the growth of `busy_items` in the loop; when the
loop leaves the cursor before `slab_end` the call ends there and `done` stays 0; when the
cursor has reached `slab_end` and `busy_items ≠ 0` the cursor is back at `slab_start`,
`busy_items` is 0 and `done` stays 0; when the cursor has reached `slab_end` and
`busy_items = 0`, `done` becomes 1;
(3) whenever `done` is set, every chunk of the page has flags exactly `SLABBED|FETCHED` and
`refcount = 0`, and none is on the (well-formed) source freelist. -/
theorem scan_pass_invariant (b : Build) (cfg : settings_t) (w : Bool) (s : State)
    (h : ListReach b cfg w s) :
    (s.slab_rebalance_signal = 2 → s.slab_rebal.done = 0 →
      1 ≤ (s.slabclass s.slab_rebal.s_clsid.toNat).perslab →
      (∃ k, k < (s.slabclass s.slab_rebal.s_clsid.toNat).perslab ∧
        s.slab_rebal.slab_pos =
          s.slab_rebal.slab_start + k * (s.slabclass s.slab_rebal.s_clsid.toNat).size) ∧
      s.slab_rebal.slab_start ≤ s.slab_rebal.slab_pos ∧
      s.slab_rebal.slab_pos < s.slab_rebal.slab_end ∧
      ∀ (bulk : Int) (envs : Nat → MoveEnv), (∀ x, EnvOK (envs x)) →
        (slab_rebalance_move s bulk envs).1 + s.slab_rebal.busy_items =
          (move_loop envs bulk.toNat 0 0 s).2.slab_rebal.busy_items ∧
        (¬ (move_loop envs bulk.toNat 0 0 s).2.slab_rebal.slab_pos ≥ s.slab_rebal.slab_end →
          (slab_rebalance_move s bulk envs).2 = (move_loop envs bulk.toNat 0 0 s).2 ∧
          (slab_rebalance_move s bulk envs).2.slab_rebal.done = 0) ∧
        ((move_loop envs bulk.toNat 0 0 s).2.slab_rebal.slab_pos ≥ s.slab_rebal.slab_end →
          (move_loop envs bulk.toNat 0 0 s).2.slab_rebal.busy_items ≠ 0 →
          (slab_rebalance_move s bulk envs).2.slab_rebal.slab_pos = s.slab_rebal.slab_start ∧
          (slab_rebalance_move s bulk envs).2.slab_rebal.busy_items = 0 ∧
          (slab_rebalance_move s bulk envs).2.slab_rebal.done = 0) ∧
        ((move_loop envs bulk.toNat 0 0 s).2.slab_rebal.slab_pos ≥ s.slab_rebal.slab_end →
          (move_loop envs bulk.toNat 0 0 s).2.slab_rebal.busy_items = 0 →
          (slab_rebalance_move s bulk envs).2.slab_rebal.done = 1)) ∧
    (s.slab_rebal.done ≠ 0 →
      ∃ L', SrcList s L' ∧
        ∀ j, j < (s.slabclass s.slab_rebal.s_clsid.toNat).perslab →
          (s.heap (chunk_addr s j)).it_flags = ITEM_SLABBED ||| ITEM_FETCHED ∧
          (s.heap (chunk_addr s j)).refcount = 0 ∧ chunk_addr s j ∉ L') := by
  obtain ⟨hI, _⟩ := h.slabInv
  refine ⟨fun hsig hd hper => ?_, fun hd => ?_⟩
  · obtain ⟨L, k, hP, hk⟩ := hI.passInv hsig hd hper
    have hpos := hP.geom.pos
    have hstop := hP.geom.stop
    have hlt := chunk_addr_lt s hP.geom.size_pos _ _ hk
    refine ⟨⟨k, hk, hpos⟩, ?_, ?_, fun bulk envs he => ?_⟩
    · rw [hpos]; unfold chunk_addr; omega
    · rw [hpos, hstop]; exact hlt
    · obtain ⟨c0, c1, c2, c3⟩ := slab_rebalance_move_pass envs he bulk s L k hP hk hd
      have hf := move_loop_scanFrame envs bulk.toNat 0 0 s
      rw [hf.slab_end] at c1 c2 c3
      refine ⟨c0, fun hr => ⟨(c1 hr).1, (c1 hr).2.1⟩, fun hr hb => ?_,
        fun hr hb => (c3 hr hb).1⟩
      obtain ⟨d1, d2, d3, _⟩ := c2 hr hb
      exact ⟨d1, d2, d3⟩
  · obtain ⟨Ls, hh⟩ := hI.heap
    have hsig : s.slab_rebalance_signal = 2 := by
      by_contra hc
      exact hd (hI.idle hc)
    obtain ⟨src, dst, hs⟩ := hI.scan hsig
    have hsc : s.slab_rebal.s_clsid.toNat = src := by rw [hs.page.s_clsid]; rfl
    have hca : ∀ j, chunk_addr s j = s.slab_rebal.slab_start + j * (s.slabclass src).size := by
      intro j; unfold chunk_addr; rw [hsc]
    refine ⟨Ls src, ⟨by rw [hsc]; exact hh.wf.list src, by rw [hsc]; exact hh.wf.count src,
      fun a ha => (hh.wf.free src a ha).1⟩, fun j hj => ?_⟩
    rw [hsc] at hj
    rw [hca]
    have hc := hs.cleared hd j hj
    refine ⟨hc.1, hc.2, fun hm => ?_⟩
    have := (hh.wf.free src _ hm).1
    rw [hc.1] at this
    exact absurd this (by decide)

set_option maxRecDepth 100000 in
/-- The state `state_in_use` is reached under the protocol (the pages come from the
preallocated region). -/
theorem state_in_use_reach : ListReach build_default cfg_reassign false state_in_use := by
  refine ListReach.newslab false _ 3 (host_ok 0)
    (ListReach.alloc false _ 300 3 0 (host_ok 0)
      (ListReach.init _ 65536 2 1 true 4096 none (by decide))
      (fun h => absurd h (by decide)))
    (by decide) (by decide) (fun h => absurd h (by decide))

set_option maxRecDepth 100000 in
/-- What the evaluation of `state_in_use` and `state_wrong_free` gives. -/
theorem state_wrong_free_facts :
    (state_in_use.heap 4480).it_flags &&& ITEM_SLABBED = 0 ∧
    (state_in_use.slabclass 3).pages = [4096, 5120] ∧
    (state_in_use.slabclass 1).pages = [] ∧
    (state_in_use.slabclass 3).perslab = 2 ∧ (state_in_use.slabclass 3).size = 384 ∧
    (state_wrong_free.slabclass 3).slots = 5504 ∧
    (state_wrong_free.slabclass 3).sl_curr = 1 ∧
    is_freelist state_wrong_free.heap 5504 [5504, 5120] := by
  refine ⟨by decide, by decide, by decide, by decide, by decide, by decide, by decide, ?_⟩
  show 5504 = 5504 ∧ 5504 ≠ 0 ∧ (state_wrong_free.heap 5504).next = 5120 ∧ 5120 ≠ 0 ∧
    (state_wrong_free.heap 5120).next = 0
  decide

set_option maxRecDepth 100000 in
/-- The state `state_off_request` is reached under the protocol (the pages come from the
preallocated region). -/
theorem state_off_request_reach : ListReach build_default cfg_small false state_off_request := by
  refine ListReach.reassign false _ 3 2
    (ListReach.newslab false _ 3 (host_ok 0)
      (ListReach.newslab false _ 3 (host_ok 0)
        (ListReach.init _ 65536 2 1 true 4096 none (by decide))
        (by decide) (by decide) (fun h => absurd h (by decide)))
      (by decide) (by decide) (fun h => absurd h (by decide)))

set_option maxRecDepth 100000 in
/-- What the evaluation of `state_off_request` and `state_off_overrun` gives: after the
worker ran, the chunk 4864 of class 3 is also the last chunk of the page handed to class 2,
so the freelist of class 3 runs on into the freelist of class 2. -/
theorem state_off_overrun_facts :
    state_off_request.settings.slab_reassign = false ∧
    state_off_request.slab_rebalance_signal = 1 ∧
    (state_off_request.slabclass 3).pages = [4096, 4864] ∧
    (state_off_overrun.slabclass 3).slots = 5248 ∧
    (state_off_overrun.slabclass 3).sl_curr = 2 ∧
    is_freelist state_off_overrun.heap 5248 [5248, 4864, 4672, 4480, 4288, 4096] := by
  refine ⟨by decide, by decide, by decide, by decide, by decide, ?_⟩
  show 5248 = 5248 ∧ 5248 ≠ 0 ∧ (state_off_overrun.heap 5248).next = 4864 ∧ 4864 ≠ 0 ∧
    (state_off_overrun.heap 4864).next = 4672 ∧ 4672 ≠ 0 ∧
    (state_off_overrun.heap 4672).next = 4480 ∧ 4480 ≠ 0 ∧
    (state_off_overrun.heap 4480).next = 4288 ∧ 4288 ≠ 0 ∧
    (state_off_overrun.heap 4288).next = 4096 ∧ 4096 ≠ 0 ∧
    (state_off_overrun.heap 4096).next = 0
  decide

/-- In the state in which `slabs_init` has built the class table no class owns a page, so
every region of memory is fresh. -/
theorem fresh_region_start (b : Build) (cfg : settings_t) (heap0 : Nat → item)
    (limit fnum fden : Nat) (prealloc : Bool) (base : Nat) (seed : Option Nat) (p len : Nat) :
    fresh_region (slabs_init_start b (boot cfg heap0) limit fnum fden prealloc base seed)
      p len := by
  intro id q hq
  have hf := (slabs_init_start_fresh b cfg heap0 limit fnum fden prealloc base seed).1 id
  rw [(pages_nil_iff _).mpr hf.1] at hq
  exact absurd hq (List.not_mem_nil q)

set_option maxRecDepth 100000 in
/-- The state `state_small_page` is reached under the protocol: the page at 4096 is
obtained when no class owns a page. -/
theorem state_small_page_reach : ListReach build_default cfg_small false state_small_page := by
  unfold state_small_page
  rw [state_small_start]
  exact ListReach.newslab false _ 1 (host_ok 4096)
    (ListReach.init _ 4096 2 1 false 0 none (by decide)) (by decide)
    (by rw [← state_small_start]; decide) (fun _ _ _ => fresh_region_start _ _ _ _ _ _ _ _ _ _ _)

/-- C21, as stated, fails in three ways.  (1) A double free: in the reachable state
`state_small_page` the invariant holds, but after `do_slabs_free` of the chunk 4960, which
is already the head of the freelist of class 1, the `next` pointer of 4960 points to
itself, so no list is the freelist of class 1 and `sl_curr` is the length of none.  (2) A
free to the wrong class: in the reachable state `state_in_use` the chunk 4480 of the page
4096 of class 3 is in use; it is freed to class 1, which owns no page; then a page move
from class 3 to class 2 is requested and started, and one call of `slab_rebalance_move`
scans the page 4096: it takes 4480 for a free chunk of class 3 and decrements `sl_curr` of
class 3 once more, so that `sl_curr = 1` while the freelist of class 3 holds the two chunks
5504 and 5120.  (3) The worker with `slab_reassign` off: in the reachable state
`state_off_request` the pages of class 3 have 768 bytes; when the worker moves the page
4096 to class 2, `slab_rebalance_finish` zeroes and splits `item_size_max = 1024` bytes,
and the free chunk 4864 of class 3 becomes a chunk of class 2 as well: the freelist of
class 3 then has six chunks while `sl_curr = 2`. -/
theorem freelist_invariant_counterexample :
    (FreelistInv state_small_page ∧
      do_slabs_free_assert state_small_page 1 ∧
      ¬ FreelistInv (do_slabs_free state_small_page 4960 96 1)) ∧
    (ListReach build_default cfg_reassign false state_in_use ∧
      (state_in_use.heap 4480).it_flags &&& ITEM_SLABBED = 0 ∧
      is_chunk state_in_use 3 4480 ∧ ¬ is_chunk state_in_use 1 4480 ∧
      ¬ FreelistInv state_wrong_free) ∧
    (ListReach build_default cfg_small false state_off_request ∧
      state_off_request.settings.slab_reassign = false ∧
      ¬ FreelistInv state_off_overrun) := by
  obtain ⟨f1, f2, f3, f4, f5, f6, f7, f8⟩ := state_wrong_free_facts
  obtain ⟨g1, _, _, g4, g5, g6⟩ := state_off_overrun_facts
  refine ⟨⟨?_, by unfold do_slabs_free_assert; decide, fun hinv => ?_⟩,
    ⟨state_in_use_reach, f1, ⟨4096, by rw [f2]; decide, 1, by rw [f4]; decide,
      by rw [f5]⟩, fun hc => ?_, fun hinv => ?_⟩,
    state_off_request_reach, g1, fun hinv => ?_⟩
  · obtain ⟨Ls, hh⟩ := state_small_page_reach.slabInv.1.heap
    exact AllWF.inv _ Ls hh.wf
  · obtain ⟨l, hl, _⟩ := hinv 1
    have e1 : ((do_slabs_free state_small_page 4960 96 1).slabclass 1).slots = 4960 := by decide
    have e2 : ((do_slabs_free state_small_page 4960 96 1).heap 4960).next = 4960 := by decide
    rw [e1] at hl
    exact is_freelist_cycle _ 4960 l e2 (by decide) hl
  · obtain ⟨p, hp, _⟩ := hc
    rw [f3] at hp
    exact absurd hp (List.not_mem_nil p)
  · obtain ⟨l, hl, hlen, _⟩ := hinv 3
    rw [f6] at hl
    have := is_freelist_unique _ _ _ _ hl f8
    rw [this, f7] at hlen
    exact absurd hlen (by decide)
  · obtain ⟨l, hl, hlen, _⟩ := hinv 3
    rw [g4] at hl
    have := is_freelist_unique _ _ _ _ hl g6
    rw [this, g5] at hlen
    exact absurd hlen (by decide)

set_option maxRecDepth 100000 in
/-- The state `state_scan` is reached under the protocol, and the worker is about to
start a turn in it. -/
theorem state_scan_reach : ListReach build_default cfg_reassign false state_scan := by
  have h := ListReach.finish state_scan
    (ListReach.dispatch _ 0 true 1 (fun _ => env_idle)
      (ListReach.reassign false _ 3 2
        (ListReach.newslab false _ 3 (host_ok 0)
          (ListReach.newslab false _ 3 (host_ok 0)
            (ListReach.init _ 65536 2 1 true 4096 none (by decide))
            (by decide) (by decide) (fun h => absurd h (by decide)))
          (by decide) (by decide) (fun h => absurd h (by decide))))
      (by decide) (fun _ => env_idle_ok))
  rw [if_neg (by decide)] at h
  exact h

set_option maxRecDepth 100000 in
/-- In the reachable state `state_scan`, in which the worker is about to scan the page 4096
of class 3, the invariant of the freelists and the assertion of `do_slabs_alloc` hold, and
the invariant holds again after the first iteration of the loop of `slab_rebalance_move`. -/
theorem freelist_invariant_reachable_witness :
    state_scan.slab_rebalance_signal = 2 ∧ FreelistInv state_scan ∧
    (∀ id, do_slabs_alloc_assert state_scan id) ∧
    FreelistInv (move_loop (fun _ => env_idle) 1 0 0 state_scan).2 :=
  have h := freelist_invariant_reachable build_default cfg_reassign false state_scan
    state_scan_reach
  ⟨by decide, h.1, h.2.1,
    h.2.2.2.2 rfl (by decide) (fun _ => env_idle) (fun _ => env_idle_ok) 1 0 0⟩

set_option maxRecDepth 100000 in
/-- The state `state_no_chunk` is reached under the protocol, and the worker is about to
start a turn in it. -/
theorem state_no_chunk_reach : ListReach build_default cfg_tiny false state_no_chunk := by
  have h := ListReach.finish state_no_chunk
    (ListReach.dispatch _ 0 true 1 (fun _ => env_idle)
      (ListReach.reassign false _ 1 2
        (ListReach.newslab false _ 1 (host_ok 0)
          (ListReach.newslab false _ 1 (host_ok 0)
            (ListReach.init _ 65536 101 100 true 4096 none (by decide))
            (by decide) (by decide) (fun h => absurd h (by decide)))
          (by decide) (by decide) (fun h => absurd h (by decide))))
      (by decide) (fun _ => env_idle_ok))
  rw [if_neg (by decide)] at h
  exact h

set_option maxRecDepth 100000 in
/-- C26, as stated, fails for a source class without chunks: with pages of 100 bytes, a
chunk base of 97 bytes and the growth factor 1.01, class 1 has chunks of 104 bytes and
`perslab = 0`.  In the reachable state `state_no_chunk`, in which `slab_rebalance_start`
has just run for this source, a rebalance is in progress and not done, and the cursor is at
`slab_end = slab_start = 4096`, not before `slab_end`. -/
theorem scan_pass_counterexample :
    ListReach build_default cfg_tiny false state_no_chunk ∧
    state_no_chunk.slab_rebalance_signal = 2 ∧ state_no_chunk.slab_rebal.done = 0 ∧
    (state_no_chunk.slabclass state_no_chunk.slab_rebal.s_clsid.toNat).perslab = 0 ∧
    state_no_chunk.slab_rebal.slab_start = 4096 ∧
    state_no_chunk.slab_rebal.slab_pos = 4096 ∧
    state_no_chunk.slab_rebal.slab_end = 4096 ∧
    ¬ state_no_chunk.slab_rebal.slab_pos < state_no_chunk.slab_rebal.slab_end :=
  ⟨state_no_chunk_reach, by decide, by decide, by decide, by decide, by decide, by decide,
    by decide⟩

set_option maxRecDepth 100000 in
/-- In the reachable state `state_scan` a page move from class 3 (two chunks a page) is in
progress and not done: the cursor is inside the page 4096, and a call of
`slab_rebalance_move` with `slab_bulk_check = 2` clears the two free chunks of the page,
reaches `slab_end` without a busy chunk and sets `done`. -/
theorem scan_pass_invariant_witness :
    state_scan.slab_rebalance_signal = 2 ∧ state_scan.slab_rebal.done = 0 ∧
    1 ≤ (state_scan.slabclass state_scan.slab_rebal.s_clsid.toNat).perslab ∧
    state_scan.slab_rebal.slab_start ≤ state_scan.slab_rebal.slab_pos ∧
    state_scan.slab_rebal.slab_pos < state_scan.slab_rebal.slab_end ∧
    (slab_rebalance_move state_scan 2 (fun _ => env_idle)).2.slab_rebal.done = 1 :=
  have h := (scan_pass_invariant build_default cfg_reassign false state_scan
    state_scan_reach).1 (by decide) (by decide) (by decide)
  ⟨by decide, by decide, by decide, h.2.1, h.2.2.1,
    (h.2.2.2 2 (fun _ => env_idle) (fun _ => env_idle_ok)).2.2.2 (by decide) (by decide)⟩

end Slabs
